import Mathlib

/-!
# SIM800_Control: a shallow embedding of the driver and its environment

The driver of `SIM800_Control.cpp` is embedded as pure functions over one record
that holds the members of the class, the function-local statics, and the parts of
the outside world the driver talks to (serial port, millisecond clock, modem).

Conventions of the embedding
* a `char`/`byte` is a natural number (its character code); a `char[]` is a list of
  them, and the C string it holds is the part before the first NUL (`cstr`);
* `byte` arithmetic is taken modulo 256, `unsigned long` arithmetic modulo 2^32;
* the clock only moves at `delay (n)` (by `n` ms) and at the idle hook
  `if (call_when_idle) call_when_idle ()` (by `idle_ms`, the time the host spends
  there); `millis ()` reads it modulo 2^32;
* the modem is a script: the reply to the k-th transmitted command is the k-th
  entry of `modem_script`, queued on the serial line when the command is written;
* loops whose exit depends on the clock take a fuel argument and return `none`
  when it runs out.
-/

namespace SIM800

/-! ## Characters and C strings -/

/-- Character codes of a string literal. -/
def lit (s : String) : List Nat := s.toList.map Char.toNat

/-- The C string held by a char array: the bytes before the first NUL. -/
def cstr (buf : List Nat) : List Nat := buf.takeWhile (fun c => c != 0)

/-- Source: `strlen`. -/
def strlen (buf : List Nat) : Nat := (cstr buf).length

/-- Does `pat` occur at the very start of `s`? -/
def starts_with : List Nat → List Nat → Bool
  | [], _ => true
  | _ :: _, [] => false
  | p :: ps, c :: cs => p == c && starts_with ps cs

/-- Substring search over two NUL-free character lists. -/
def find_in : List Nat → List Nat → Bool
  | [], pat => starts_with pat []
  | c :: cs, pat => starts_with pat (c :: cs) || find_in cs pat

/-- Source: `strstr (buf, pat) != NULL` on the C strings held by `buf` and `pat`. -/
def strstr (buf pat : List Nat) : Bool := find_in (cstr buf) (cstr pat)

/-- The array read `buf[i]`; a read past the modelled bytes gives 0. -/
def char_at (buf : List Nat) (i : Nat) : Nat := buf.getD i 0

/-- The C string starting at `&buf[i]`. -/
def cstr_from (buf : List Nat) (i : Nat) : List Nat := cstr (buf.drop i)

/-- Source: `strcpy (dst, src)`: the characters of `src` and the terminating NUL are written
from the start of `dst`; bytes of `dst` beyond them keep their value.  When `src` is
longer than `dst` the result is longer than `dst` was: the write ran past the array. -/
def strcpy (dst src : List Nat) : List Nat :=
  let w := cstr src ++ [0]
  w ++ dst.drop w.length

/-- Source: `strncpy (dst, src, n)`: exactly `n` bytes are written, the characters of `src`
padded with NULs, or its first `n` characters without any NUL. -/
def strncpy (dst src : List Nat) (n : Nat) : List Nat :=
  let w := (cstr src ++ List.replicate n 0).take n
  w ++ dst.drop n

/-! ## Constants of SIM800_Control.h -/

def MAX_CALLER_ID_SIZE : Nat := 20
def TX_BUFFER_SIZE : Nat := 162
def RX_BUFFER_SIZE : Nat := 162

/-- Modulus of `unsigned long` arithmetic. -/
def ULONG : Nat := 4294967296

/-- Unsigned 32-bit subtraction. -/
def usub (a b : Nat) : Nat := (a % ULONG + ULONG - b % ULONG) % ULONG

/-- Unsigned 32-bit addition. -/
def uadd (a b : Nat) : Nat := (a + b) % ULONG

/-- Largest value of `int`: 16 bits on the AVR boards of the Arduino core the driver is
written for (where `unsigned long` has the 32 bits of `ULONG`). -/
def INT_MAX : Int := 32767

/-- Smallest value of `int`. -/
def INT_MIN : Int := -32768

/-- The statement `x++` on an `int`, in 16-bit two's complement: below `INT_MAX` the
value goes up by one.  The increment of `INT_MAX` overflows, which C leaves undefined;
the wrap to `INT_MIN` is what the AVR compiler makes of it. -/
def int_incr (x : Int) : Int := (x + 1 + 32768) % 65536 - 32768

inductive Sim800_Buffer_State
  | BS_OK
  | BS_ERROR
  | BS_DATA
  | BS_WAITING
  | BS_TIMEOUT
  | BS_UNKNOWN
  deriving DecidableEq, Repr

open Sim800_Buffer_State

/-! ## The driver record -/

/-- Members of `class SIM800_Control`, the statics of its member functions, and the
environment. -/
structure SIM800_Control where
  initialised : Bool
  sim_card_inserted : Bool
  net_registration_denied : Bool
  protocol_error_count : Nat
  signal_strength : Nat
  /-- Source: `int gsm_resets`; the code changes it by `gsm_resets++` only, `int_incr`. -/
  gsm_resets : Int
  stored_caller_id : List Nat
  incoming_call_received : Bool
  sms_buffer : List Nat
  incoming_call_ring_time : Nat
  tx_buffer : List Nat
  rx_buffer : List Nat
  rx_buff_pos : Nat
  rx_buff_state : Sim800_Buffer_State
  fatal_error_detected : Bool
  website_connected : Bool
  /-- Source: `connected_to_network`: `static unsigned long last_called`. -/
  net_last_called : Nat
  /-- Source: `connected_to_network`: `static bool net_connected`. -/
  net_connected : Bool
  /-- Source: `get_rssi`: `static unsigned long last_called`. -/
  rssi_last_called : Nat
  /-- Source: `get_rssi`: `static byte recvd_rssi`. -/
  recvd_rssi : Nat
  /-- Source: `sms_available`: `static unsigned long last_called`. -/
  sms_last_called : Nat
  /-- Source: `sms_available`: `static byte consecutive_errors`. -/
  consecutive_errors : Nat
  /-- Source: `prep_for_web_submission`: `static bool hadValidGprsContext`. -/
  hadValidGprsContext : Bool
  /-- Source: `connected_to_gprs`: `static unsigned long last_called`. -/
  gprs_last_called : Nat
  /-- Source: `connected_to_gprs`: `static bool gprs_connected`. -/
  gprs_connected : Bool
  /-- Environment: milliseconds since power-up (not wrapped). -/
  clock : Nat
  /-- Environment: time spent in one call of the idle hook. -/
  idle_ms : Nat
  /-- Environment: bytes waiting in the serial receive queue. -/
  serial_rx : List Nat
  /-- Environment: every byte written to the serial port, oldest first. -/
  serial_tx : List Nat
  /-- Environment: replies of the modem to the commands still to come. -/
  modem_script : List (List Nat)
  /-- Environment: `pinMode (GSM_RST_PIN, ...)` calls, oldest first (`true` = OUTPUT). -/
  rst_pin_log : List Bool
  /-- Ghost: a store into `rx_buffer` fell outside the array. -/
  rx_overrun : Bool
  deriving Repr

/-! ## Environment primitives -/

/-- The value of `millis ()`. -/
def millis (s : SIM800_Control) : Nat := s.clock % ULONG

/-- The statement `delay (n)`. -/
def delay (n : Nat) (s : SIM800_Control) : SIM800_Control :=
  { s with clock := s.clock + n }

/-- The statement `if (call_when_idle) call_when_idle ()`. -/
def idle (s : SIM800_Control) : SIM800_Control :=
  { s with clock := s.clock + s.idle_ms }

/-- The loop `for (byte wait = 0; wait < n; wait++) { idle; delay (10); }`. -/
def idle_wait : Nat → SIM800_Control → SIM800_Control
  | 0, s => s
  | n + 1, s => idle_wait n (delay 10 (idle s))

/-- Source: `Sim800_Serial.print (bytes)`. -/
def serial_print (bytes : List Nat) (s : SIM800_Control) : SIM800_Control :=
  { s with serial_tx := s.serial_tx ++ bytes }

/-- The modem takes a transmitted command: its scripted reply (nothing when the
script is used up) joins the receive queue. -/
def modem_reply (s : SIM800_Control) : SIM800_Control :=
  { s with
    serial_rx := s.serial_rx ++ s.modem_script.headD []
    modem_script := s.modem_script.tail }

/-! ## check_for_response -/

/-- Source: `memset (&rx_buffer, 0, sizeof(char) * RX_BUFFER_SIZE)`. -/
def rx_clear (s : SIM800_Control) : SIM800_Control :=
  { s with rx_buffer := List.replicate RX_BUFFER_SIZE 0 }

/-- The store `rx_buffer[i] = v`.  A store at an index outside the array leaves
the array as it is and is recorded in `rx_overrun`.  In the object the byte behind the
array is the cursor: SIM800_Control.h declares `byte rx_buff_pos` right after
`char rx_buffer[RX_BUFFER_SIZE]`, so the store at index `RX_BUFFER_SIZE` overwrites
`rx_buff_pos` with `v`.  The record does not follow the code behind such a store: the
other fields of a state with `rx_overrun` set, the cursor first of all, are not those
of the object. -/
def rx_store (i v : Nat) (s : SIM800_Control) : SIM800_Control :=
  { s with
    rx_buffer := if i < RX_BUFFER_SIZE then s.rx_buffer.set i v else s.rx_buffer
    rx_overrun := s.rx_overrun || decide (RX_BUFFER_SIZE ≤ i) }

/-- Body of the receive loop of `check_for_response` for the byte `c` just read. -/
def rx_byte (c : Nat) (s : SIM800_Control) : SIM800_Control :=
  let s := rx_store s.rx_buff_pos c s
  if c = 10 then s
  else if c = 13 then
    let s := rx_store s.rx_buff_pos 0 s
    if s.rx_buff_pos > 0 then { s with rx_buff_state := BS_DATA } else s
  else if s.rx_buff_pos < RX_BUFFER_SIZE then { s with rx_buff_pos := s.rx_buff_pos + 1 }
  else { rx_clear s with rx_buff_pos := 0 }

/-- The call `Sim800_Serial.read ()` took the first byte of the queue; `rest` is what is left. -/
def serial_pop (rest : List Nat) (s : SIM800_Control) : SIM800_Control :=
  { s with serial_rx := rest }

/-- The receive loop `while (Sim800_Serial.available () && rx_buff_state == BS_WAITING)`,
by recursion on the bytes waiting in the receive queue. -/
def rx_loop : List Nat → SIM800_Control → SIM800_Control
  | [], s => s
  | c :: rest, s =>
    if s.rx_buff_state = BS_WAITING then
      rx_loop rest (rx_byte c (idle (serial_pop rest s)))
    else s

/-- Entry of `check_for_response`: the buffer is cleared when the previous call left
a line in it (or on `BS_UNKNOWN`), and the state becomes `BS_WAITING`. -/
def rx_prepare (s : SIM800_Control) : SIM800_Control :=
  let s := if s.rx_buff_state = BS_UNKNOWN ∨ s.rx_buff_state = BS_DATA
    then { rx_clear s with rx_buff_pos := 0 } else s
  { s with rx_buff_state := BS_WAITING }

/-- Source: `SIM800_Control::check_for_response`; the value returned is `rx_buff_state` of
the result. -/
def check_for_response (s : SIM800_Control) : SIM800_Control :=
  let s := rx_prepare s
  rx_loop s.serial_rx s

/-! ## process_urc -/

/-- The loop `for (byte idx = from; idx < strlen (buf); idx++) if (buf[idx] == ',')
buf[idx] = 0`: `strlen` is evaluated again at every turn, so the loop ends at the
first comma it replaces.  The fuel is the number of turns still allowed. -/
def nul_commas : Nat → Nat → List Nat → List Nat
  | 0, _, buf => buf
  | fuel + 1, idx, buf =>
    if idx < strlen buf then
      nul_commas fuel (idx + 1) (if char_at buf idx = 44 then buf.set idx 0 else buf)
    else buf

/-- The string literal `"\"UNKNOWN\""`. -/
def UNKNOWN_ID : List Nat := [34] ++ lit "UNKNOWN" ++ [34]

/-- The string literal `"+CMTI: \"SM\""`. -/
def CMTI_SM : List Nat := lit "+CMTI: " ++ [34] ++ lit "SM" ++ [34]

/-- The member `incoming_call_received` after `strcpy (stored_caller_id, src)`.  The
header declares `char stored_caller_id[MAX_CALLER_ID_SIZE]`, `bool
incoming_call_received` and `char sms_buffer[TX_BUFFER_SIZE]` one after the other, so
byte `MAX_CALLER_ID_SIZE` of the copy, when the copy is that long, lands on
`incoming_call_received`. -/
def strcpy_past_flag (src : List Nat) (incoming_call_received : Bool) : Bool :=
  match (cstr src ++ [0])[MAX_CALLER_ID_SIZE]? with
  | some b => b != 0
  | none => incoming_call_received

/-- The member `sms_buffer` after `strcpy (stored_caller_id, src)`: the bytes of the copy
from index `MAX_CALLER_ID_SIZE + 1` on land at the start of `sms_buffer`. -/
def strcpy_past_bytes (src sms_buffer : List Nat) : List Nat :=
  (cstr src ++ [0]).drop (MAX_CALLER_ID_SIZE + 1) ++
    sms_buffer.drop ((cstr src ++ [0]).length - (MAX_CALLER_ID_SIZE + 1))

/-- Source: `SIM800_Control::process_urc`.  The copy of the caller id is an unbounded
`strcpy`.  The list `stored_caller_id` holds every byte written from
`&stored_caller_id[0]`: with a field of `MAX_CALLER_ID_SIZE` characters or more it gets
longer than the array.  The bytes past the array are written to the members declared
next as well, `incoming_call_received` and `sms_buffer`, where they land in the
object. -/
def process_urc (s : SIM800_Control) : SIM800_Control :=
  if strstr s.rx_buffer (lit "+CLIP: ") then
    if s.incoming_call_ring_time = 0 then
      let s := { s with incoming_call_ring_time := millis s }
      let s := { s with rx_buffer := nul_commas s.rx_buffer.length 7 s.rx_buffer }
      let s := { s with
        stored_caller_id := strcpy s.stored_caller_id (s.rx_buffer.drop 7)
        incoming_call_received := strcpy_past_flag (s.rx_buffer.drop 7) s.incoming_call_received
        sms_buffer := strcpy_past_bytes (s.rx_buffer.drop 7) s.sms_buffer }
      if strlen s.stored_caller_id = 2 then
        { s with stored_caller_id := strcpy s.stored_caller_id UNKNOWN_ID }
      else s
    else s
  else if strstr s.rx_buffer CMTI_SM then s
  else if s.initialised = true ∧
      (strstr s.rx_buffer (lit "SMS Ready") ∨ strstr s.rx_buffer (lit "Call Ready")) then
    { s with gsm_resets := int_incr s.gsm_resets, initialised := false }
  else if strstr s.rx_buffer (lit "CLOSED") then { s with website_connected := false }
  else s

/-! ## let_terminal_settle, send_command -/

/-- The loop `while (check_for_response () == BS_DATA) process_urc ();`.  Every turn
that goes on has taken at least one byte from the receive queue, so a fuel above the
length of the queue is never used up. -/
def drain_loop : Nat → SIM800_Control → SIM800_Control
  | 0, s => s
  | fuel + 1, s =>
    let s := check_for_response s
    if s.rx_buff_state = BS_DATA then drain_loop fuel (process_urc s) else s

/-- Source: `SIM800_Control::let_terminal_settle`. -/
def let_terminal_settle (s : SIM800_Control) : SIM800_Control :=
  let s := idle_wait 15 s
  drain_loop (s.serial_rx.length + 1) s

/-- The accepting branch of `send_command`: copy to `tx_buffer`, print it, print CR LF. -/
def transmit (cmd : List Nat) (s : SIM800_Control) : SIM800_Control :=
  let s := { s with tx_buffer := strcpy s.tx_buffer cmd }
  let s := serial_print (cstr s.tx_buffer) s
  let s := serial_print [13, 10] s
  modem_reply s

/-- Source: `SIM800_Control::send_command` (both overloads): `cmd` is the command string. -/
def send_command (cmd : List Nat) (s : SIM800_Control) : SIM800_Control :=
  let s := let_terminal_settle s
  let s := if strlen cmd ≤ TX_BUFFER_SIZE then transmit cmd s else s
  delay 50 s

/-! ## wait_for_status, wait_for_data -/

/-- One turn of the loop of `wait_for_status`; the first component is `return_val`
at the end of the turn. -/
def wait_for_status_turn (loop_start timeout_secs : Nat) (s : SIM800_Control) :
    Sim800_Buffer_State × SIM800_Control :=
  let s := idle s
  let return_val :=
    if millis s > uadd loop_start (timeout_secs % 256 * 1000) then BS_TIMEOUT else BS_UNKNOWN
  let s := check_for_response s
  if s.rx_buff_state = BS_DATA then
    if strstr s.rx_buffer (lit "OK") then (BS_OK, s)
    else if strstr s.rx_buffer (lit "ERROR") then (BS_ERROR, s)
    else if char_at s.rx_buffer 0 = 43 ∧
        (char_at s.rx_buffer 4 = 58 ∨ char_at s.rx_buffer 5 = 58) then
      (return_val, process_urc s)
    else (return_val, s)
  else (return_val, s)

/-- The loop `while (return_val == BS_UNKNOWN)` of `wait_for_status`. -/
def wait_for_status_loop : Nat → Nat → Nat → SIM800_Control →
    Option (Sim800_Buffer_State × SIM800_Control)
  | 0, _, _, _ => none
  | fuel + 1, loop_start, timeout_secs, s =>
    let r := wait_for_status_turn loop_start timeout_secs s
    if r.1 = BS_UNKNOWN then wait_for_status_loop fuel loop_start timeout_secs r.2
    else some r

/-- Source: `SIM800_Control::wait_for_status`. -/
def wait_for_status (fuel timeout_secs : Nat) (s : SIM800_Control) :
    Option (Sim800_Buffer_State × SIM800_Control) :=
  wait_for_status_loop fuel (millis s) timeout_secs s

/-- One turn of the loop of `wait_for_data`; `pattern` is `none` for a NULL pointer. -/
def wait_for_data_turn (pattern : Option (List Nat)) (loop_start timeoutSecs : Nat)
    (s : SIM800_Control) : Sim800_Buffer_State × SIM800_Control :=
  let s := idle s
  let return_val :=
    if millis s > uadd loop_start (timeoutSecs % 256 * 1000) then BS_TIMEOUT else BS_UNKNOWN
  let s := check_for_response s
  if s.rx_buff_state = BS_DATA then
    if strlen s.rx_buffer < 4 ∧ strstr s.rx_buffer (lit "OK") then (BS_OK, s)
    else if strlen s.rx_buffer < 7 ∧ strstr s.rx_buffer (lit "ERROR") then (BS_ERROR, s)
    else
      match pattern with
      | some pat => if strstr s.rx_buffer pat then (BS_DATA, s) else (return_val, process_urc s)
      | none => (BS_DATA, s)
  else (return_val, s)

/-- The loop `while (return_val == BS_UNKNOWN)` of `wait_for_data`. -/
def wait_for_data_loop (pattern : Option (List Nat)) : Nat → Nat → Nat → SIM800_Control →
    Option (Sim800_Buffer_State × SIM800_Control)
  | 0, _, _, _ => none
  | fuel + 1, loop_start, timeoutSecs, s =>
    let r := wait_for_data_turn pattern loop_start timeoutSecs s
    if r.1 = BS_UNKNOWN then wait_for_data_loop pattern fuel loop_start timeoutSecs r.2
    else some r

/-- Source: `SIM800_Control::wait_for_data`. -/
def wait_for_data (pattern : Option (List Nat)) (fuel timeoutSecs : Nat)
    (s : SIM800_Control) : Option (Sim800_Buffer_State × SIM800_Control) :=
  wait_for_data_loop pattern fuel (millis s) timeoutSecs s

/-! ## get_pending_sms -/

/-- The header loop of `get_pending_sms`: `for (byte idx = 7; idx < strlen (rx_buffer);
idx++)` over the commas of the `+CMGL:` line.  The result is `token_start`, `*sms_id`
and `rx_buffer`.  The fuel is the number of turns still allowed. -/
def cmgl_header_loop : Nat → Nat → Nat → Nat → List Nat → List Nat →
    Nat × List Nat × List Nat
  | 0, _, _, token_start, sms_id, buf => (token_start, sms_id, buf)
  | fuel + 1, idx, csv_token, token_start, sms_id, buf =>
    if idx < strlen buf then
      if char_at buf idx = 44 then
        let csv_token := (csv_token + 1) % 256
        if csv_token = 1 then
          cmgl_header_loop fuel (idx + 1) csv_token token_start
            (strncpy sms_id (buf.drop 7) (idx - 7)) buf
        else if csv_token = 2 then
          cmgl_header_loop fuel (idx + 1) csv_token ((idx + 1) % 256) sms_id buf
        else if csv_token = 3 then
          cmgl_header_loop fuel (idx + 1) csv_token token_start sms_id (buf.set idx 0)
        else cmgl_header_loop fuel (idx + 1) csv_token token_start sms_id buf
      else cmgl_header_loop fuel (idx + 1) csv_token token_start sms_id buf
    else (token_start, sms_id, buf)

/-- The test of the scan loop at `idx`: `00X.00Z` with X and Z not `0`. -/
def ucs2_pattern_at (sms_buffer : List Nat) (idx : Nat) : Bool :=
  char_at sms_buffer idx == 48 && char_at sms_buffer (idx + 1) == 48 &&
    char_at sms_buffer (idx + 2) != 48 &&
    char_at sms_buffer (idx + 4) == 48 && char_at sms_buffer (idx + 5) == 48 &&
    char_at sms_buffer (idx + 6) != 48

/-- The scan `for (byte idx = 0; (idx < 8) && (start_offset == 255); idx++)`: `n` is
the number of indices still to try; 255 means nothing was found. -/
def ucs2_scan : Nat → Nat → List Nat → Nat
  | 0, _, _ => 255
  | n + 1, idx, sms_buffer =>
    if ucs2_pattern_at sms_buffer idx then idx else ucs2_scan n (idx + 1) sms_buffer

/-- The value of `start_offset` after the scan. -/
def ucs2_start_offset (stored_caller_id sms_buffer : List Nat) : Nat :=
  if (char_at stored_caller_id 1 = 112 ∨
      (char_at stored_caller_id 1 ≠ 43 ∧ char_at stored_caller_id 1 ≠ 48)) ∧
      strlen sms_buffer ≥ 14 then
    ucs2_scan 8 0 sms_buffer
  else 255

/-- The range test of the decode loop on one character: `0`-`9` or `A`-`F`. -/
def ucs2_hex_ok (c : Nat) : Bool := (0x30 ≤ c && c ≤ 0x39) || (0x41 ≤ c && c ≤ 0x46)

/-- The byte `ascii_val` computed from the third and fourth character of a quad. -/
def ucs2_ascii_val (c2 c3 : Nat) : Nat :=
  let ascii_val := if c2 ≥ 0x41 then (c2 - 55) * 16 % 256 else (c2 - 48) * 16 % 256
  if c3 ≥ 0x41 then (ascii_val + (c3 - 55)) % 256 else (ascii_val + (c3 - 48)) % 256

/-- The byte stored for the quad that starts at `start_idx`. -/
def ucs2_quad (sms_buffer : List Nat) (start_idx : Nat) : Nat :=
  if char_at sms_buffer start_idx = 48 ∧ char_at sms_buffer (start_idx + 1) = 48 ∧
      ucs2_hex_ok (char_at sms_buffer (start_idx + 2)) = true ∧
      ucs2_hex_ok (char_at sms_buffer (start_idx + 3)) = true then
    ucs2_ascii_val (char_at sms_buffer (start_idx + 2)) (char_at sms_buffer (start_idx + 3))
  else 42

/-- The decode loop `for (byte idx = 0; idx < decoded_length; idx++)`, in place: `n` is
the number of turns left, `idx` the current index. -/
def ucs2_decode_loop : Nat → Nat → Nat → List Nat → List Nat
  | 0, _, _, sms_buffer => sms_buffer
  | n + 1, idx, start_offset, sms_buffer =>
    let start_idx := (idx * 4 + start_offset) % 256
    ucs2_decode_loop n (idx + 1) start_offset (sms_buffer.set idx (ucs2_quad sms_buffer start_idx))

/-- The value of `decoded_length`. -/
def ucs2_decoded_length (sms_buffer : List Nat) (start_offset : Nat) : Nat :=
  let decoded_length := (strlen sms_buffer + 256 - start_offset) % 256
  (decoded_length - decoded_length % 4) / 4

/-- The block of `get_pending_sms` that spots and decodes a UCS2 message
(from `byte start_offset = 255` to the end of `if (start_offset != 255)`). -/
def ucs2_fixup (s : SIM800_Control) : SIM800_Control :=
  let start_offset := ucs2_start_offset s.stored_caller_id s.sms_buffer
  if start_offset ≠ 255 then
    let decoded_length := ucs2_decoded_length s.sms_buffer start_offset
    let buf := ucs2_decode_loop decoded_length 0 start_offset s.sms_buffer
    { s with sms_buffer := buf.set decoded_length 0 }
  else s

/-- The command `AT+CMGL="ALL"`. -/
def AT_CMGL_ALL : List Nat := lit "AT+CMGL=" ++ [34] ++ lit "ALL" ++ [34]

/-- Increment of the `byte` counter `protocol_error_count`. -/
def count_protocol_error (s : SIM800_Control) : SIM800_Control :=
  { s with protocol_error_count := (s.protocol_error_count + 1) % 256 }

/-- Source: `SIM800_Control::get_pending_sms`; the result is the value returned, `*sms_id`
and the driver. -/
def get_pending_sms (fuel : Nat) (s : SIM800_Control) :
    Option (Bool × List Nat × SIM800_Control) :=
  let sms_id := List.replicate 4 0
  if s.initialised = false then some (false, sms_id, s)
  else
    let s := send_command [13, 10] s
    let s := let_terminal_settle s
    let s := send_command AT_CMGL_ALL s
    match wait_for_data (some (lit "+CMGL:")) fuel 20 s with
    | none => none
    | some (BS_DATA, s) =>
      let r := cmgl_header_loop s.rx_buffer.length 7 0 0 sms_id s.rx_buffer
      let token_start := r.1
      let sms_id := r.2.1
      let s := { s with rx_buffer := r.2.2 }
      let caller := s.rx_buffer.drop token_start
      let s := { s with stored_caller_id := strncpy s.stored_caller_id caller MAX_CALLER_ID_SIZE }
      match wait_for_data (some []) fuel 20 s with
      | none => none
      | some (return_val, s) =>
        let s := if return_val = BS_DATA
          then { s with sms_buffer := strncpy s.sms_buffer s.rx_buffer TX_BUFFER_SIZE } else s
        let s := ucs2_fixup s
        match wait_for_status fuel 20 s with
        | none => none
        | some (return_val, s) =>
          let s := if return_val ≠ BS_OK then count_protocol_error s else s
          some (char_at sms_id 0 != 0, sms_id, s)
    | some (BS_OK, s) => some (char_at sms_id 0 != 0, sms_id, s)
    | some (_, s) => some (char_at sms_id 0 != 0, sms_id, count_protocol_error s)

/-! ## call_number -/

/-- Source: `char temp_cmd[30]` after `memset`, `strcpy_P (temp_cmd, pre)` and
`strcpy (&temp_cmd[n], arg)` with `n` the length of `pre`.  The copy of `arg` is not
bounded: the list holds every byte written from `&temp_cmd[0]`, and it is longer than
30 bytes when `arg` and its NUL do not fit behind `pre`.  The bytes past the array
are then written over the stack of the caller, and what the code does after that is
not what the record does: the theorems on `send_sms_from_buffer`, `call_number` and
`delete_sms` take an argument that fits (`Operation.fits`). -/
def temp_cmd_with (pre arg : List Nat) : List Nat :=
  let t := strcpy (List.replicate 30 0) pre
  t.take pre.length ++ strcpy (t.drop pre.length) arg

/-- The loop of `call_number` over the commas of the `+CLCC:` line, `for (byte idx = 6;
idx < strlen (rx_buffer); idx++)`.  The result is `token_start` and `rx_buffer`.  The
fuel is the number of turns still allowed. -/
def clcc_loop : Nat → Nat → Nat → Nat → List Nat → Nat × List Nat
  | 0, _, _, token_start, buf => (token_start, buf)
  | fuel + 1, idx, csv_token, token_start, buf =>
    if idx < strlen buf then
      if char_at buf idx = 44 then
        let csv_token := (csv_token + 1) % 256
        let token_start := if csv_token = 2 then (idx + 1) % 256 else token_start
        let buf := if csv_token = 3 then buf.set idx 0 else buf
        clcc_loop fuel (idx + 1) csv_token token_start buf
      else clcc_loop fuel (idx + 1) csv_token token_start buf
    else (token_start, buf)

/-- The `switch (rx_buffer[token_start])` of `call_number`: the new values of
`call_complete` and `call_successful`. -/
def clcc_switch (code : Nat) (call_complete call_successful : Bool) : Bool × Bool :=
  if code = 48 ∨ code = 49 ∨ code = 54 then (true, true)
  else if code = 50 ∨ code = 51 then (call_complete, call_successful)
  else if code = 52 ∨ code = 53 then (true, false)
  else (call_complete, call_successful)

/-- The branch `if (return_val == BS_DATA)` of the poll loop of `call_number`: the new
`call_complete`, `call_successful` and `rx_buffer`. -/
def clcc_data (rx_buffer : List Nat) (call_complete call_successful : Bool) :
    Bool × Bool × List Nat :=
  let r := clcc_loop rx_buffer.length 6 0 0 rx_buffer
  let token_start := r.1
  let rx_buffer := r.2
  let f := clcc_switch (char_at rx_buffer token_start) call_complete call_successful
  (f.1, f.2, rx_buffer)

/-- One turn of the poll loop of `call_number`. -/
def call_poll_turn (fuel : Nat) (call_complete call_successful : Bool) (s : SIM800_Control) :
    Option (Bool × Bool × SIM800_Control) :=
  let s := send_command (lit "AT+CLCC") s
  match wait_for_data (some (lit "+CLCC:")) fuel 5 s with
  | none => none
  | some (return_val, s) =>
    let r :=
      if return_val = BS_DATA then
        let d := clcc_data s.rx_buffer call_complete call_successful
        (d.1, d.2.1, { s with rx_buffer := d.2.2 })
      else if return_val = BS_OK then (true, true, s)
      else if return_val = BS_ERROR then (true, false, count_protocol_error s)
      else (call_complete, call_successful, s)
    some (r.1, r.2.1, idle_wait 50 r.2.2)

/-- The loop `while (((millis () - start_time) < 45000UL) && (call_complete == false))`
of `call_number`; `turns` bounds the number of turns. -/
def call_poll_loop (fuel start_time : Nat) : Nat → Bool → Bool → SIM800_Control →
    Option (Bool × SIM800_Control)
  | 0, _, _, _ => none
  | turns + 1, call_complete, call_successful, s =>
    if usub (millis s) start_time < 45000 ∧ call_complete = false then
      match call_poll_turn fuel call_complete call_successful s with
      | none => none
      | some (cc, cs, s) => call_poll_loop fuel start_time turns cc cs s
    else some (call_successful, s)

/-- Source: `SIM800_Control::call_number`; `fuel` bounds every loop. -/
def call_number (fuel : Nat) (dest_number : List Nat) (s : SIM800_Control) :
    Option (Bool × SIM800_Control) :=
  if s.initialised = false then some (false, s)
  else
    let s := send_command [13, 10] s
    let s := let_terminal_settle s
    let temp_cmd := temp_cmd_with (lit "ATD ") dest_number
    let temp_cmd := temp_cmd.set (4 + strlen dest_number) 59
    let s := send_command temp_cmd s
    match wait_for_status fuel 20 s with
    | none => none
    | some (return_val, s) =>
      if return_val ≠ BS_OK then some (false, send_command (lit "ATH") s)
      else
        match wait_for_status fuel 1 s with
        | none => none
        | some (_, s) =>
          match call_poll_loop fuel (millis s) fuel false false s with
          | none => none
          | some (call_successful, s) =>
            let s := send_command (lit "ATH") s
            match wait_for_status fuel 20 s with
            | none => none
            | some (return_val, s) =>
              if return_val ≠ BS_OK then some (false, count_protocol_error s)
              else some (call_successful, s)

/-! ## get_rssi, get_signal_bars, get_signal_percent -/

/-- Source: `isspace`. -/
def isspace (c : Nat) : Bool := c == 32 || (9 ≤ c && c ≤ 13)

/-- The digits loop of `atoi`: it stops at the first character that is no digit. -/
def atoi_digits : Nat → List Nat → Nat
  | acc, [] => acc
  | acc, c :: cs => if 48 ≤ c ∧ c ≤ 57 then atoi_digits (acc * 10 + (c - 48)) cs else acc

/-- Source: `atoi` on the characters found at a `char *`: white space, an optional
sign, digits. -/
def atoi (str : List Nat) : Int :=
  match str.dropWhile isspace with
  | 45 :: cs => - (atoi_digits 0 cs : Int)
  | 43 :: cs => (atoi_digits 0 cs : Int)
  | cs => (atoi_digits 0 cs : Int)

/-- Conversion of an `int` to `byte`. -/
def to_byte (v : Int) : Nat := (v % 256).toNat

/-- The body of `if (wait_for_data (F("+CSQ: "), ...) == BS_DATA)` in `get_rssi`: the
comma loop from index 6, then `recvd_rssi = atoi ((char *)&rx_buffer[6])`. -/
def rssi_parse (s : SIM800_Control) : SIM800_Control :=
  let s := { s with rx_buffer := nul_commas s.rx_buffer.length 6 s.rx_buffer }
  { s with recvd_rssi := to_byte (atoi (s.rx_buffer.drop 6)) }

/-- The statement `last_called = millis ()` of `get_rssi`. -/
def rssi_mark (s : SIM800_Control) : SIM800_Control :=
  { s with rssi_last_called := millis s }

/-- Source: `SIM800_Control::get_rssi`; the result is the value returned and the driver. -/
def get_rssi (fuel : Nat) (s : SIM800_Control) : Option (Nat × SIM800_Control) :=
  if s.initialised = false then some (0, s)
  else if usub (millis s) s.rssi_last_called > 10000 then
    let s := rssi_mark s
    let s := send_command [13, 10] s
    let s := let_terminal_settle s
    let s := send_command (lit "AT+CSQ") s
    match wait_for_data (some (lit "+CSQ: ")) fuel 5 s with
    | none => none
    | some (return_val, s) =>
      let s := if return_val = BS_DATA then rssi_parse s else s
      match wait_for_status fuel 5 s with
      | none => none
      | some (return_val, s) =>
        if return_val ≠ BS_OK then some (0, count_protocol_error s)
        else some (s.recvd_rssi, s)
  else some (s.recvd_rssi, s)

/-- Source: `SIM800_Control::get_signal_percent`. -/
def get_signal_percent (fuel : Nat) (s : SIM800_Control) : Option (Nat × SIM800_Control) :=
  match get_rssi fuel s with
  | none => none
  | some (recvd_rssi, s) =>
    if s.initialised = false then some (0, s)
    else if recvd_rssi = 0 ∨ recvd_rssi = 99 then some (0, s)
    else some ((recvd_rssi * 100) / 31 % 256, s)

/-- Source: `SIM800_Control::get_signal_bars`. -/
def get_signal_bars (fuel : Nat) (s : SIM800_Control) : Option (Nat × SIM800_Control) :=
  match get_rssi fuel s with
  | none => none
  | some (recvd_rssi, s) =>
    if s.initialised = false then some (0, s)
    else if recvd_rssi = 0 ∨ recvd_rssi = 99 then some (0, s)
    else if recvd_rssi < 10 then some (1, s)
    else if recvd_rssi < 15 then some (2, s)
    else if recvd_rssi < 20 then some (3, s)
    else some (4, s)

/-! ## initialise -/

/-- The statement `pinMode (GSM_RST_PIN, mode)`; `true` stands for OUTPUT. -/
def pin_mode (output : Bool) (s : SIM800_Control) : SIM800_Control :=
  { s with rst_pin_log := s.rst_pin_log ++ [output] }

/-- The probe loop of `initialise`, `while (((millis () - start_time) < 30000) &&
(return_val != BS_OK))`, sending `AT` and waiting 2 s for its status; `turns` bounds
the number of turns. -/
def probe_loop (fuel start_time : Nat) : Nat → Sim800_Buffer_State → SIM800_Control →
    Option (Sim800_Buffer_State × SIM800_Control)
  | 0, _, _ => none
  | turns + 1, return_val, s =>
    if usub (millis s) start_time < 30000 ∧ return_val ≠ BS_OK then
      let s := send_command (lit "AT") s
      match wait_for_status fuel 2 s with
      | none => none
      | some (return_val, s) => probe_loop fuel start_time turns return_val s
    else some (return_val, s)

/-- The step that `initialise` repeats for its configuration commands:
`send_command (cmd); return_val = wait_for_status (timeout_secs); if (return_val !=
BS_OK) { ...; return; }`, with `protocol_error_count++` before the return when `count`
is set; `next` is the rest of the function. -/
def command_ok (fuel : Nat) (cmd : List Nat) (timeout_secs : Nat) (count : Bool)
    (s : SIM800_Control) (next : SIM800_Control → Option SIM800_Control) :
    Option SIM800_Control :=
  let s := send_command cmd s
  match wait_for_status fuel timeout_secs s with
  | none => none
  | some (return_val, s) =>
    if return_val ≠ BS_OK then some (if count then count_protocol_error s else s)
    else next s

/-- A call of `wait_for_status` whose result is not looked at. -/
def wait_ignored (fuel timeout_secs : Nat) (s : SIM800_Control)
    (next : SIM800_Control → Option SIM800_Control) : Option SIM800_Control :=
  match wait_for_status fuel timeout_secs s with
  | none => none
  | some (_, s) => next s

/-- A call of `wait_for_data` whose result is not looked at (or only logged). -/
def data_ignored (pattern : Option (List Nat)) (fuel timeoutSecs : Nat) (s : SIM800_Control)
    (next : SIM800_Control → Option SIM800_Control) : Option SIM800_Control :=
  match wait_for_data pattern fuel timeoutSecs s with
  | none => none
  | some (_, s) => next s

/-- The function-mode cycle `send_command (F("AT+CFUN=4")); wait_for_status (15);
wait_for_status (5); send_command (F("AT+CFUN=1")); wait_for_status (15);`. -/
def cfun_cycle (fuel : Nat) (s : SIM800_Control)
    (next : SIM800_Control → Option SIM800_Control) : Option SIM800_Control :=
  wait_ignored fuel 15 (send_command (lit "AT+CFUN=4") s) fun s =>
  wait_ignored fuel 5 s fun s =>
  wait_ignored fuel 15 (send_command (lit "AT+CFUN=1") s) next

/-- The configuration sequence of `initialise`, from `AT&F` to `initialised = true`. -/
def initialise_config (fuel : Nat) (s : SIM800_Control) : Option SIM800_Control :=
  command_ok fuel (lit "AT&F") 2 true (idle_wait 100 s) fun s =>
  command_ok fuel (lit "ATE 0") 2 true s fun s =>
  data_ignored none fuel 2 (send_command (lit "AT+CCID") s) fun s =>
  match wait_for_status fuel 2 s with
  | none => none
  | some (return_val, s) =>
    if return_val ≠ BS_OK then some s
    else
      command_ok fuel (lit "AT+CMGF=1") 2 false s fun s =>
      command_ok fuel (lit "AT+CLIP=1") 15 true s fun s =>
      command_ok fuel (lit "AT+CUSD=1") 2 true s fun s =>
      wait_ignored fuel 5 s fun s =>
      cfun_cycle fuel s fun s =>
      some { s with initialised := true }

/-- The branch of `initialise` taken after a forced reset when no `SMS Ready` came:
only the SIM is checked. -/
def initialise_sim_check (fuel : Nat) (s : SIM800_Control) : Option SIM800_Control :=
  data_ignored none fuel 2 (send_command (lit "AT+CCID") s) fun s =>
  match wait_for_status fuel 2 s with
  | none => none
  | some (return_val, s) =>
    if return_val ≠ BS_OK then some { s with sim_card_inserted := false } else some s

/-- The start of `initialise`: the 1 s wait and, on `force_warmstart`, the cycle of the
reset pin. -/
def initialise_reset (force_warmstart : Bool) (s : SIM800_Control) : SIM800_Control :=
  let s := { s with initialised := false }
  let s := idle_wait 100 s
  if force_warmstart = true then
    idle_wait 50 (pin_mode false (idle_wait 50 (pin_mode true s)))
  else s

/-- Source: `SIM800_Control::initialise`; `fuel` bounds every loop. -/
def initialise (fuel : Nat) (force_warmstart : Bool) (s : SIM800_Control) :
    Option SIM800_Control :=
  let s := initialise_reset force_warmstart s
  let s := send_command [13, 10] s
  let s := let_terminal_settle s
  match probe_loop fuel (millis s) fuel BS_UNKNOWN s with
  | none => none
  | some (return_val, s) =>
    if return_val ≠ BS_OK then some s
    else
      match wait_for_data (some (lit "SMS Ready")) fuel 30 s with
      | none => none
      | some (return_val, s) =>
        if return_val ≠ BS_DATA ∧ force_warmstart = true then initialise_sim_check fuel s
        else initialise_config fuel s

/-- The driver as left by the constructor `SIM800_Control::SIM800_Control`, in an
environment with clock 0 and nothing on the line.  `gsm_resets` and the statics the
constructor does not touch start at 0. -/
def constructed (idle_ms : Nat) (script : List (List Nat)) : SIM800_Control :=
  { initialised := false, sim_card_inserted := true, net_registration_denied := false,
    protocol_error_count := 0, signal_strength := 0, gsm_resets := 0,
    stored_caller_id := List.replicate MAX_CALLER_ID_SIZE 0,
    incoming_call_received := false,
    sms_buffer := List.replicate TX_BUFFER_SIZE 0,
    incoming_call_ring_time := 0,
    tx_buffer := List.replicate TX_BUFFER_SIZE 0,
    rx_buffer := List.replicate RX_BUFFER_SIZE 0,
    rx_buff_pos := 0, rx_buff_state := BS_WAITING,
    fatal_error_detected := false, website_connected := false,
    net_last_called := 0, net_connected := false, rssi_last_called := 0, recvd_rssi := 0,
    sms_last_called := 0, consecutive_errors := 0, hadValidGprsContext := false,
    gprs_last_called := 0, gprs_connected := false,
    clock := 0, idle_ms := idle_ms, serial_rx := [], serial_tx := [],
    modem_script := script, rst_pin_log := [], rx_overrun := false }

/-! ## The line reader seen from outside -/

/-- Poll `check_for_response` until the receive queue is empty; the lines are the
C strings found in `rx_buffer` after the calls that returned `BS_DATA`, in order. -/
def poll_lines : Nat → SIM800_Control → List (List Nat)
  | 0, _ => []
  | n + 1, s =>
    if s.serial_rx = [] then []
    else
      let s1 := check_for_response s
      if s1.rx_buff_state = BS_DATA then cstr s1.rx_buffer :: poll_lines n s1
      else poll_lines n s1

/-- The CR-terminated segments of a byte sequence, `acc` being the bytes already
seen of the first one.  Bytes after the last CR belong to no segment. -/
def cr_segments_from (acc : List Nat) : List Nat → List (List Nat)
  | [] => []
  | c :: rest =>
    if c = 13 then acc :: cr_segments_from [] rest
    else cr_segments_from (acc ++ [c]) rest

/-- The CR-terminated segments of a byte sequence. -/
def cr_segments (bytes : List Nat) : List (List Nat) := cr_segments_from [] bytes

/-- A segment with its LF bytes removed. -/
def strip_lf (seg : List Nat) : List Nat := seg.filter (fun c => c != 10)

/-- The lines a byte sequence should surface: its CR-terminated segments without
their LF bytes, the empty ones dropped. -/
def expected_lines (bytes : List Nat) : List (List Nat) :=
  ((cr_segments bytes).map strip_lf).filter (fun l => l != [])

/-- The lines the reader surfaces for given segments: LF bytes removed, segments left
empty by that dropped, and each line read as a C string (cut at its first NUL). -/
def lines_of (segs : List (List Nat)) : List (List Nat) :=
  ((segs.map strip_lf).filter (fun l => l != [])).map cstr

/-- A freshly constructed driver with the given bytes waiting on the serial line. -/
def with_input (bytes : List Nat) : SIM800_Control :=
  { constructed 1 [] with serial_rx := bytes }

/-! ## Wire format of the modem's lines, used to state the results -/

/-- Bytes between two lines: any run of CR and LF. -/
def is_junk (j : List Nat) : Prop := ∀ c ∈ j, c = 10 ∨ c = 13

/-- A line of text: not empty, shorter than the receive buffer, free of NUL, LF and CR. -/
def is_line (l : List Nat) : Prop :=
  l ≠ [] ∧ l.length < RX_BUFFER_SIZE ∧ ∀ c ∈ l, c ≠ 0 ∧ c ≠ 10 ∧ c ≠ 13

instance (j : List Nat) : Decidable (is_junk j) := by
  unfold is_junk; infer_instance

instance (l : List Nat) : Decidable (is_line l) := by
  unfold is_line; infer_instance

/-- The bytes of a sequence of lines on the wire: each line comes after some junk
(first component) and is ended by a CR. -/
def frame_lines : List (List Nat × List Nat) → List Nat
  | [] => []
  | f :: fs => f.1 ++ f.2 ++ 13 :: frame_lines fs

/-- The receive buffer is about to start a fresh line: the next `check_for_response`
clears it, or it is empty already. -/
def Fresh (s : SIM800_Control) : Prop :=
  s.rx_buff_state = BS_DATA ∨ s.rx_buff_state = BS_UNKNOWN ∨
    (s.rx_buff_pos = 0 ∧ s.rx_buffer.length = RX_BUFFER_SIZE)

/-- An observation of the driver that does not look at what `check_for_response`
writes: the receive buffer, its cursor and state, the clock and the receive queue. -/
def RxBlind {α : Type} (f : SIM800_Control → α) : Prop :=
  ∀ (s : SIM800_Control) buf pos st ov clk q,
    f { s with rx_buffer := buf, rx_buff_pos := pos, rx_buff_state := st, rx_overrun := ov,
               clock := clk, serial_rx := q } = f s

/-- An observation that does not look at what `process_urc` writes: the receive buffer,
the ring time, the caller id and the two members behind it, the reset counter and two
flags. -/
def UrcBlind {α : Type} (f : SIM800_Control → α) : Prop :=
  ∀ (s : SIM800_Control) buf ring cid flag sms resets ini web,
    f { s with rx_buffer := buf, incoming_call_ring_time := ring, stored_caller_id := cid,
               incoming_call_received := flag, sms_buffer := sms,
               gsm_resets := resets, initialised := ini, website_connected := web } = f s

/-- The data line `+CMGL: 1,"OK",...`. -/
def CMGL_OK_LINE : List Nat := lit "+CMGL: 1," ++ [34] ++ lit "OK" ++ [34] ++ lit ",..."

/-! ## Hex digits as the specification words them -/

/-- A hex digit `0`-`9` or `A`-`F`. -/
def is_hex_upper (c : Nat) : Prop := (48 ≤ c ∧ c ≤ 57) ∨ (65 ≤ c ∧ c ≤ 70)

instance (c : Nat) : Decidable (is_hex_upper c) := by
  unfold is_hex_upper; infer_instance

/-- The value of a hex digit `0`-`9`, `A`-`F`. -/
def hex_value (c : Nat) : Nat := if c ≤ 57 then c - 48 else c - 55

/-- The body made of the quads `00XY`, one for each pair `(X, Y)`. -/
def quad_body : List (Nat × Nat) → List Nat
  | [] => []
  | q :: qs => 48 :: 48 :: q.1 :: q.2 :: quad_body qs

/-- A driver holding the given caller id and body as `get_pending_sms` has fetched them. -/
def with_sms (caller_id body : List Nat) : SIM800_Control :=
  { constructed 1 [] with
    stored_caller_id := strncpy (List.replicate MAX_CALLER_ID_SIZE 0) caller_id MAX_CALLER_ID_SIZE
    sms_buffer := strncpy (List.replicate TX_BUFFER_SIZE 0) body TX_BUFFER_SIZE }

/-- An observation that does not look at the clock. -/
def ClockBlind {α : Type} (f : SIM800_Control → α) : Prop :=
  ∀ (s : SIM800_Control) clk, f { s with clock := clk } = f s

/-- An observation that does not look at what `send_command` writes besides the
receive side: the transmit buffer, the transmitted bytes and the modem script. -/
def TxBlind {α : Type} (f : SIM800_Control → α) : Prop :=
  ∀ (s : SIM800_Control) tb tx ms,
    f { s with tx_buffer := tb, serial_tx := tx, modem_script := ms } = f s

/-- The serial line is quiet: the buffer is about to start a fresh line and only CR
and LF bytes are waiting. -/
def Quiet (s : SIM800_Control) : Prop := Fresh s ∧ is_junk s.serial_rx

/-! ## The signal indicators as the specification words them -/

/-- The decimal digits of a number, as character codes. -/
def decimal (n : Nat) : List Nat := (Nat.toDigits 10 n).map Char.toNat

/-- Signal bars of an RSSI value: the thresholds 10, 15 and 20. -/
def bars_of (n : Nat) : Nat :=
  if n = 0 ∨ n = 99 then 0 else if n < 10 then 1 else if n < 15 then 2
  else if n < 20 then 3 else 4

/-- Signal percent of an RSSI value: floor (n * 100 / 31). -/
def percent_of (n : Nat) : Nat := if n = 0 ∨ n = 99 then 0 else n * 100 / 31

/-- The modem's reply to `AT+CSQ`: the line `+CSQ: n,b`, then the line `OK`; `j1`,
`j2` are the CR and LF bytes before the two lines, `j3` what follows. -/
def csq_reply (j1 j2 j3 : List Nat) (n : Nat) (b : List Nat) : List Nat :=
  j1 ++ (lit "+CSQ: " ++ decimal n ++ 44 :: b) ++ 13 :: (j2 ++ lit "OK" ++ 13 :: j3)

/-- An initialised driver, 20 s after power-up, whose modem answers the empty command
with nothing and `AT+CSQ` with `+CSQ: 18,0` and `OK`, each line between CR LF. -/
def csq_18_driver : SIM800_Control :=
  { constructed 3 [[], csq_reply [13, 10] [10, 13, 10] [10] 18 (lit "0")] with
    initialised := true
    clock := 20000 }

/-! ## The scripted modem of the bring-up scenario -/

/-- The line `OK` between CR LF. -/
def OK_REPLY : List Nat := [13, 10] ++ lit "OK" ++ [13, 10]

/-- The banner line `SMS Ready` between CR LF. -/
def SMS_READY_BANNER : List Nat := [13, 10] ++ lit "SMS Ready" ++ [13, 10]

/-- The bring-up script: nothing for the empty command and for the first two `AT`
probes, `OK` for the third, followed by the banner `SMS Ready`; then `OK` for every
configuration command, the one for `AT+CCID` after the line `ccid`. -/
def bringup_script (ccid : List Nat) : List (List Nat) :=
  [ [], [], [],
    OK_REPLY ++ SMS_READY_BANNER,
    OK_REPLY, OK_REPLY,
    [13, 10] ++ ccid ++ [13, 10] ++ OK_REPLY,
    OK_REPLY, OK_REPLY, OK_REPLY, OK_REPLY, OK_REPLY ]

/-- The state of the driver between two steps of a scripted bring-up: a quiet line
with at most 3 bytes waiting, idle time `i`, error counter `pe`, and `script` still
to be played by the modem. -/
structure Calm (s : SIM800_Control) (i pe : Nat) (script : List (List Nat)) : Prop where
  quiet : Quiet s
  few : s.serial_rx.length ≤ 3
  idle_ms : s.idle_ms = i
  errors : s.protocol_error_count = pe
  script : s.modem_script = script

/-- The bring-up script with a bare `OK` for every command after the probe, the SIM
query included. -/
def all_ok_script : List (List Nat) :=
  [[], [], [], OK_REPLY ++ SMS_READY_BANNER] ++ List.replicate 8 OK_REPLY

/-- A 20-digit card identifier as `AT+CCID` reports it. -/
def SAMPLE_CCID : List Nat := lit "89441000301234567890"

/-- A reply to `AT+CMGL="ALL"`: one stored message from the sender `Lebara` whose body
is the text `ABCD` in UCS2 hex, then the final `OK`. -/
def SMS_LISTING : List Nat :=
  [13, 10] ++ lit "+CMGL: 1," ++ [34] ++ lit "REC UNREAD" ++ [34, 44, 34] ++ lit "Lebara" ++
    [34, 44, 34, 34, 44, 34] ++ lit "24/01/01,10:00:00+00" ++ [34, 13, 10] ++
    lit "0041004200430044" ++ [13, 10, 13, 10] ++ lit "OK" ++ [13, 10]

/-- An initialised driver whose modem is silent to the bare CR LF and then lists
`SMS_LISTING`. -/
def sms_driver : SIM800_Control :=
  { constructed 1 [[], SMS_LISTING] with initialised := true }

/-- A reply to `AT+CLCC` with the given byte in the state field, then the final `OK`. -/
def CLCC_LINE (code : Nat) : List Nat :=
  [13, 10] ++ lit "+CLCC: 1,0," ++ [code] ++ lit ",0,0," ++ [34] ++ lit "0123" ++ [34] ++
    lit ",129," ++ [34, 34, 13, 10, 13, 10] ++ lit "OK" ++ [13, 10]

/-- The replies of a modem during a call: silence to the bare CR LF, `OK` to the dial
command, one `+CLCC:` listing for each poll, `OK` to the hang-up. -/
def CALL_SCRIPT (codes : List Nat) : List (List Nat) :=
  [[], OK_REPLY] ++ codes.map CLCC_LINE ++ [OK_REPLY]

/-- An initialised driver in front of the modem of `CALL_SCRIPT`. -/
def call_driver (codes : List Nat) : SIM800_Control :=
  { constructed 100 (CALL_SCRIPT codes) with initialised := true }

/-- State of the line reader in the middle of a segment whose bytes so far are `acc`. -/
structure Framing (s : SIM800_Control) (acc : List Nat) : Prop where
  waiting : s.rx_buff_state = BS_WAITING
  size : s.rx_buffer.length = RX_BUFFER_SIZE
  pos : s.rx_buff_pos = (strip_lf acc).length
  held : s.rx_buffer.take s.rx_buff_pos = strip_lf acc

/-! ## URC lines as the specification words them -/

/-- The caller-id field of a `+CLIP: ` line: the text from character 7 of the line up
to, not including, the first following comma (the rest of the line when no comma
follows). -/
def clip_field (buf : List Nat) : List Nat :=
  ((cstr buf).drop 7).takeWhile (fun c => c != 44)

/-- A receive buffer holding the given line, as `check_for_response` leaves it. -/
def rx_holding (line : List Nat) : List Nat :=
  strncpy (List.replicate RX_BUFFER_SIZE 0) line RX_BUFFER_SIZE

/-- A freshly constructed driver whose receive buffer holds the given ready line. -/
def with_line (line : List Nat) : SIM800_Control :=
  { constructed 1 [] with rx_buffer := rx_holding line, rx_buff_state := BS_DATA }

/-- A `+CLIP: ` line as the modem sends it, with the given text between the quotes. -/
def CLIP_LINE (number : List Nat) : List Nat :=
  lit "+CLIP: " ++ [34] ++ number ++ [34] ++ lit ",129," ++ [34, 34] ++ lit ",0," ++ [34, 34] ++
    lit ",0"

/-! ## refresh -/

/-- The hang-up of `refresh`, taken 10 s after the first ring: `send_command (F("ATH"))`
and, on `BS_OK`, the ring is cleared and the call flagged as received. -/
def refresh_hangup (fuel : Nat) (s : SIM800_Control) : Option SIM800_Control :=
  let s := send_command (lit "ATH") s
  match wait_for_status fuel 20 s with
  | none => none
  | some (return_val, s) =>
    if return_val = BS_OK then
      some { s with incoming_call_ring_time := 0, incoming_call_received := true }
    else some s

/-- Source: `SIM800_Control::refresh`; `fuel` bounds every loop. -/
def refresh (fuel : Nat) (s : SIM800_Control) : Option SIM800_Control :=
  match (if s.initialised = false then initialise fuel false s else some s) with
  | none => none
  | some s =>
    let s := check_for_response s
    let s := if s.rx_buff_state = BS_DATA then process_urc s else s
    if s.incoming_call_ring_time > 0 ∧ usub (millis s) s.incoming_call_ring_time > 10000 then
      refresh_hangup fuel s
    else some s

/-- An initialised driver, nothing on the line, no ring pending, a line still in the
receive buffer from an earlier call. -/
def idle_driver : SIM800_Control :=
  { with_line (lit "OK") with initialised := true }

/-! ## Time and the bytes still to come -/

/-- The bytes the driver has still to read: those waiting in the receive queue and
the replies the modem has still to send. -/
def pending (s : SIM800_Control) : Nat :=
  s.serial_rx.length + (s.modem_script.map List.length).sum

/-- The clock reading once every pending byte has been read: each byte read costs
one call of the idle hook. -/
def horizon (s : SIM800_Control) : Nat := s.clock + s.idle_ms * pending s

/-- Time spent from `s` to `s1`: the clock has moved on by at least `lo`, the horizon
by at most `hi`, and the idle hook takes the same time as before. -/
structure Spent (s s1 : SIM800_Control) (lo hi : Nat) : Prop where
  idle_ms : s1.idle_ms = s.idle_ms
  clock : s.clock + lo ≤ s1.clock
  horizon : horizon s1 ≤ horizon s + hi

/-! ## send_sms_from_buffer -/

/-- Source: `SIM800_Control::clear_sms_buffer`. -/
def clear_sms_buffer (s : SIM800_Control) : SIM800_Control :=
  { s with sms_buffer := List.replicate TX_BUFFER_SIZE 0 }

/-- The array `temp_cmd` of `send_sms_from_buffer` once the command is built:
`AT+CMGS="`, the destination number, and the closing quote written at index
`9 + strlen (sms_dest_number)`. -/
def cmgs_command (sms_dest_number : List Nat) : List Nat :=
  (temp_cmd_with (lit "AT+CMGS=" ++ [34]) sms_dest_number).set (9 + strlen sms_dest_number) 34

/-- The array `temp_cmd` after `temp_cmd[0] = char(26); temp_cmd[1] = 0`. -/
def ctrl_z (temp_cmd : List Nat) : List Nat := (temp_cmd.set 0 26).set 1 0

/-- One attempt of `send_sms_from_buffer`, the body of its loop up to the call
`wait_for_status (60 * SECONDS)` whose result it returns. -/
def sms_attempt (fuel : Nat) (sms_dest_number : List Nat) (s : SIM800_Control) :
    Option (Sim800_Buffer_State × SIM800_Control) :=
  let s := idle s
  let s := send_command [13, 10] s
  let s := let_terminal_settle s
  let temp_cmd := cmgs_command sms_dest_number
  let s := send_command temp_cmd s
  let s := send_command s.sms_buffer s
  let s := send_command (ctrl_z temp_cmd) s
  wait_for_status fuel 60 s

/-- The loop `for (byte retries = 0; (retries < 3) && (message_sent == false);
retries++)` of `send_sms_from_buffer`; the first argument is `3 - retries`. -/
def sms_send_loop (fuel : Nat) (sms_dest_number : List Nat) :
    Nat → Bool → SIM800_Control → Option (Bool × SIM800_Control)
  | 0, message_sent, s => some (message_sent, s)
  | left + 1, message_sent, s =>
    if message_sent = false then
      match sms_attempt fuel sms_dest_number s with
      | none => none
      | some (return_val, s) =>
        if return_val = BS_OK then
          sms_send_loop fuel sms_dest_number left true (clear_sms_buffer s)
        else sms_send_loop fuel sms_dest_number left false s
    else some (message_sent, s)

/-- Source: `SIM800_Control::send_sms_from_buffer`. -/
def send_sms_from_buffer (fuel : Nat) (sms_dest_number : List Nat) (s : SIM800_Control) :
    Option (Bool × SIM800_Control) :=
  if s.initialised = false then some (false, s)
  else sms_send_loop fuel sms_dest_number 3 false s

/-- Attempts in a row: `n` attempts of `send_sms_from_buffer` lead from `s` to `s1`
and none of them received `BS_OK`. -/
def failed_attempts (fuel : Nat) (sms_dest_number : List Nat) :
    Nat → SIM800_Control → SIM800_Control → Prop
  | 0, s, s1 => s1 = s
  | n + 1, s, s1 => ∃ r p, sms_attempt fuel sms_dest_number s = some (r, p) ∧ r ≠ BS_OK ∧
      failed_attempts fuel sms_dest_number n p s1

/-- An initialised driver with the text `Hello` in the SMS buffer and a modem that
does not answer. -/
def sms_sender : SIM800_Control :=
  { constructed 10 [] with
    initialised := true
    sms_buffer := strncpy (List.replicate TX_BUFFER_SIZE 0) (lit "Hello") TX_BUFFER_SIZE }

/-! ## call_number seen from outside -/

/-- The driver once `call_number` has sent its dial command `ATD <number>;`, before it
waits for the answer. -/
def dial_sent (dest_number : List Nat) (s : SIM800_Control) : SIM800_Control :=
  send_command ((temp_cmd_with (lit "ATD ") dest_number).set (4 + strlen dest_number) 59)
    (let_terminal_settle (send_command [13, 10] s))

/-! ## sms_available -/

/-- The `else` branch of `sms_available`, taken when the list query ended in neither
`BS_DATA` nor `BS_OK`: a protocol error is counted, the failure streak goes up, and
when it is above 5 the driver is marked for a new bring-up. -/
def sms_poll_failed (s : SIM800_Control) : SIM800_Control :=
  let s := count_protocol_error s
  let s := { s with consecutive_errors := (s.consecutive_errors + 1) % 256 }
  if s.consecutive_errors > 5 then
    { s with consecutive_errors := 0, gsm_resets := int_incr s.gsm_resets,
             initialised := false }
  else s

/-- The start of a due poll of `sms_available`: `last_called = millis ()`, the empty
command, the settle and the list query `AT+CMGL="ALL"`. -/
def sms_query (s : SIM800_Control) : SIM800_Control :=
  let s := { s with sms_last_called := millis s }
  let s := send_command [13, 10] s
  let s := let_terminal_settle s
  send_command AT_CMGL_ALL s

/-- Source: `SIM800_Control::sms_available`. -/
def sms_available (fuel : Nat) (s : SIM800_Control) : Option (Bool × SIM800_Control) :=
  if s.initialised = false then some (false, s)
  else if usub (millis s) s.sms_last_called > 1000 then
    match wait_for_data (some (lit "+CMGL:")) fuel 20 (sms_query s) with
    | none => none
    | some (return_val, s) =>
      if return_val = BS_DATA then
        let s := { s with consecutive_errors := 0 }
        match wait_for_status fuel 20 s with
        | none => none
        | some (return_val, s) =>
          some (true, if return_val ≠ BS_OK then count_protocol_error s else s)
      else if return_val = BS_OK then some (false, { s with consecutive_errors := 0 })
      else some (false, sms_poll_failed s)
  else some (false, s)

/-- A due poll of `sms_available` on an initialised driver whose list query ended in
neither `BS_DATA` nor `BS_OK`, no reboot banner being handled on the way; `s1` is the
driver after the poll. -/
def failed_poll (fuel : Nat) (s s1 : SIM800_Control) : Prop :=
  s.initialised = true ∧ usub (millis s) s.sms_last_called > 1000 ∧
    ∃ r p, wait_for_data (some (lit "+CMGL:")) fuel 20 (sms_query s) = some (r, p) ∧
      r ≠ BS_DATA ∧ r ≠ BS_OK ∧ p.initialised = true ∧ p.gsm_resets = s.gsm_resets ∧
      sms_available fuel s = some (false, s1)

/-- An initialised driver whose reset counter stands at `INT_MAX`, with the banner
`SMS Ready` as ready line. -/
def resets_full_driver : SIM800_Control :=
  { with_line (lit "SMS Ready") with initialised := true, gsm_resets := INT_MAX }

/-- Polls in a row: `n` failed polls lead from `s` to `s1`. -/
def failed_polls (fuel : Nat) : Nat → SIM800_Control → SIM800_Control → Prop
  | 0, s, s1 => s1 = s
  | n + 1, s, s1 => ∃ mid, failed_poll fuel s mid ∧ failed_polls fuel n mid s1

/-- An initialised driver, 2 s after power-up, in front of a modem that does not
answer. -/
def unanswered_driver : SIM800_Control :=
  { constructed 10 [] with initialised := true, clock := 2000 }

/-! ## Relations that every step of the driver respects -/

/-- A relation between the driver before and after a step that holds across each of
the primitive steps: reading the line, handling a URC, idling, waiting, transmitting. -/
structure Stable (R : SIM800_Control → SIM800_Control → Prop) : Prop where
  refl : ∀ s, R s s
  trans : ∀ a b c, R a b → R b c → R a c
  rx : ∀ s, R s (check_for_response s)
  urc : ∀ s, R s (process_urc s)
  idle : ∀ s, R s (idle s)
  delay : ∀ n s, R s (delay n s)
  tx : ∀ cmd s, R s (transmit cmd s)

/-! ## The bring-up seen from outside -/

/-- The driver when the probe loop of `initialise` starts: after the reset, the empty
command and the settle. -/
def bringup_start (force_warmstart : Bool) (s : SIM800_Control) : SIM800_Control :=
  let_terminal_settle (send_command [13, 10] (initialise_reset force_warmstart s))

/-- The bring-up reaches its configuration sequence in the state `a`: the `AT` probe was
answered `BS_OK`, and the banner `SMS Ready` was seen or no warm start was forced. -/
def config_reached (fuel : Nat) (force_warmstart : Bool) (s a : SIM800_Control) : Prop :=
  ∃ p rv,
    probe_loop fuel (millis (bringup_start force_warmstart s)) fuel BS_UNKNOWN
        (bringup_start force_warmstart s) = some (BS_OK, p) ∧
      wait_for_data (some (lit "SMS Ready")) fuel 30 p = some (rv, a) ∧
      ¬ (rv ≠ BS_DATA ∧ force_warmstart = true)

/-- The six checked steps of the configuration sequence, from the state `a` in which
the sequence starts to the state `s6` after the last of them: factory reset, echo off,
SIM query, SMS text mode, caller-id enable, USSD enable each received `BS_OK` from its
`wait_for_status`. -/
def config_steps_ok (fuel : Nat) (a s6 : SIM800_Control) : Prop :=
  ∃ s1 s2 r c s3 s4 s5,
    wait_for_status fuel 2 (send_command (lit "AT&F") (idle_wait 100 a)) = some (BS_OK, s1) ∧
    wait_for_status fuel 2 (send_command (lit "ATE 0") s1) = some (BS_OK, s2) ∧
    wait_for_data none fuel 2 (send_command (lit "AT+CCID") s2) = some (r, c) ∧
    wait_for_status fuel 2 c = some (BS_OK, s3) ∧
    wait_for_status fuel 2 (send_command (lit "AT+CMGF=1") s3) = some (BS_OK, s4) ∧
    wait_for_status fuel 15 (send_command (lit "AT+CLIP=1") s4) = some (BS_OK, s5) ∧
    wait_for_status fuel 2 (send_command (lit "AT+CUSD=1") s5) = some (BS_OK, s6)

/-- The bring-up script with the two commands of the function-mode cycle left
unanswered: as `bringup_script` up to the answer to `AT+CUSD=1`, then nothing for
`AT+CFUN=4` and nothing for `AT+CFUN=1`. -/
def cfun_silent_script (ccid : List Nat) : List (List Nat) :=
  [ [], [], [],
    OK_REPLY ++ SMS_READY_BANNER,
    OK_REPLY, OK_REPLY,
    [13, 10] ++ ccid ++ [13, 10] ++ OK_REPLY,
    OK_REPLY, OK_REPLY, OK_REPLY,
    [], [] ]

/-- The function-mode cycle of `initialise` run from `s6` to `s10` with every one of
its four status waits ending in `BS_TIMEOUT`: neither `AT+CFUN=4` nor `AT+CFUN=1`
received `OK`. -/
def cfun_unanswered (fuel : Nat) (s6 s10 : SIM800_Control) : Prop :=
  ∃ s7 s8 s9,
    wait_for_status fuel 5 s6 = some (BS_TIMEOUT, s7) ∧
    wait_for_status fuel 15 (send_command (lit "AT+CFUN=4") s7) = some (BS_TIMEOUT, s8) ∧
    wait_for_status fuel 5 s8 = some (BS_TIMEOUT, s9) ∧
    wait_for_status fuel 15 (send_command (lit "AT+CFUN=1") s9) = some (BS_TIMEOUT, s10)

/-! ## The remaining public operations -/

/-- Source: `SIM800_Control::reset_gprs`. -/
def reset_gprs (fuel : Nat) (s : SIM800_Control) : Option SIM800_Control :=
  data_ignored (some (lit "SHUT OK")) fuel 65 (send_command (lit "AT+CIPSHUT") s) fun s =>
  wait_ignored fuel 5 s fun s =>
  cfun_cycle fuel s some

/-- The branch of `connected_to_network` taken when the line `+CREG: ` came: the
registration state read from `rx_buffer`, with the function-mode cycle and a counted
protocol error when registration was denied (`+CREG: 0,3`). -/
def creg_line (fuel : Nat) (s : SIM800_Control) : Option SIM800_Control :=
  if strstr s.rx_buffer (lit "+CREG: 0,1") ∨ strstr s.rx_buffer (lit "+CREG: 0,5") then
    some { s with net_connected := true, net_registration_denied := false }
  else if strstr s.rx_buffer (lit "+CREG: 0,3") then
    cfun_cycle fuel s fun s =>
      some { count_protocol_error s with net_registration_denied := true, net_connected := false }
  else some { s with net_connected := false }

/-- Source: `SIM800_Control::connected_to_network`; the statics `last_called` and
`net_connected` are the fields `net_last_called` and `net_connected`. -/
def connected_to_network (fuel : Nat) (s : SIM800_Control) : Option (Bool × SIM800_Control) :=
  if s.initialised = false then some (false, s)
  else if usub (millis s) s.net_last_called > 5000 then
    let s := { s with net_last_called := millis s }
    let s := send_command [13, 10] s
    let s := let_terminal_settle s
    let s := send_command (lit "AT+CREG?") s
    match wait_for_data (some (lit "+CREG: ")) fuel 5 s with
    | none => none
    | some (return_val, s) =>
      match (if return_val = BS_DATA then creg_line fuel s else some s) with
      | none => none
      | some s =>
        match wait_for_status fuel 5 s with
        | none => none
        | some (return_val, s) =>
          if return_val ≠ BS_OK then some (false, count_protocol_error s)
          else some (s.net_connected, s)
  else some (s.net_connected, s)

/-- The branch of `connected_to_gprs` taken when registration was denied
(`+CGREG: 0,3`): a 5 s wait, the function-mode cycle, a counted protocol error. -/
def cgreg_denied (fuel : Nat) (s : SIM800_Control) : Option (Bool × SIM800_Control) :=
  wait_ignored fuel 5 s (fun s => cfun_cycle fuel s fun s => some (count_protocol_error s))
    |>.map fun s => (false, s)

/-- The second half of `connected_to_gprs`, from `AT+CGATT?` on. -/
def cgatt_query (fuel : Nat) (s : SIM800_Control) : Option (Bool × SIM800_Control) :=
  let s := send_command (lit "AT+CGATT?") s
  match wait_for_data (some (lit "+CGATT: ")) fuel 5 s with
  | none => none
  | some (return_val, s) =>
    if return_val = BS_DATA ∧ ¬ strstr s.rx_buffer (lit "+CGATT: 1") then
      match wait_for_status fuel 5 { s with gprs_connected := false } with
      | none => none
      | some (_, s) => some (false, s)
    else
      let s := if return_val = BS_DATA then { s with gprs_connected := true } else s
      match wait_for_status fuel 5 s with
      | none => none
      | some (return_val, s) =>
        if return_val ≠ BS_OK then some (false, count_protocol_error s)
        else some (s.gprs_connected, s)

/-- Source: `SIM800_Control::connected_to_gprs`; the statics `last_called` and
`gprs_connected` are the fields `gprs_last_called` and `gprs_connected`. -/
def connected_to_gprs (fuel : Nat) (s : SIM800_Control) : Option (Bool × SIM800_Control) :=
  if s.initialised = false then some (false, s)
  else if usub (millis s) s.gprs_last_called > 5000 then
    let s := { s with gprs_last_called := millis s }
    let s := send_command [13, 10] s
    let s := let_terminal_settle s
    let s := send_command (lit "AT+CGREG?") s
    match wait_for_data (some (lit "+CGREG: ")) fuel 5 s with
    | none => none
    | some (return_val, s) =>
      if return_val = BS_DATA ∧ strstr s.rx_buffer (lit "+CGREG: 0,3") then cgreg_denied fuel s
      else if return_val = BS_DATA ∧ ¬ strstr s.rx_buffer (lit "+CGREG: 0,1") ∧
          ¬ strstr s.rx_buffer (lit "+CGREG: 0,5") then
        match wait_for_status fuel 5 { s with gprs_connected := false } with
        | none => none
        | some (_, s) => some (false, s)
      else
        match wait_for_status fuel 5 s with
        | none => none
        | some (return_val, s) =>
          if return_val ≠ BS_OK then some (false, count_protocol_error s)
          else cgatt_query fuel s
  else some (s.gprs_connected, s)

/-- Source: `SIM800_Control::delete_sms`. -/
def delete_sms (fuel : Nat) (sms_id : List Nat) (s : SIM800_Control) : Option SIM800_Control :=
  if s.initialised = false then some s
  else
    let s := send_command [13, 10] s
    let s := let_terminal_settle s
    let s := send_command (temp_cmd_with (lit "AT+CMGD=") sms_id) s
    match wait_for_status fuel 10 s with
    | none => none
    | some (return_val, s) =>
      if return_val ≠ BS_OK then some (count_protocol_error s) else some s

/-- The loop of `put_balance_in_sms_buffer` over the quotes of the `+CUSD:` line,
`for (byte idx = 7; idx < strlen (rx_buffer); idx++)`.  The result is `quote_start`
and `rx_buffer`.  The fuel is the number of turns still allowed. -/
def cusd_loop : Nat → Nat → Nat → List Nat → Nat × List Nat
  | 0, _, quote_start, buf => (quote_start, buf)
  | fuel + 1, idx, quote_start, buf =>
    if idx < strlen buf then
      if char_at buf idx = 34 then
        if quote_start = 0 then cusd_loop fuel (idx + 1) ((idx + 1) % 256) buf
        else cusd_loop fuel (idx + 1) quote_start (buf.set idx 0)
      else cusd_loop fuel (idx + 1) quote_start buf
    else (quote_start, buf)

/-- The branch `if (return_val == BS_DATA)` of `put_balance_in_sms_buffer`: the text
between the quotes of the line goes to `sms_buffer`. -/
def cusd_store (s : SIM800_Control) : SIM800_Control :=
  let r := cusd_loop s.rx_buffer.length 7 0 s.rx_buffer
  let s := { s with rx_buffer := r.2 }
  { s with sms_buffer := strcpy s.sms_buffer (s.rx_buffer.drop r.1) }

/-- Source: `SIM800_Control::put_balance_in_sms_buffer`. -/
def put_balance_in_sms_buffer (fuel : Nat) (s : SIM800_Control) :
    Option (Bool × SIM800_Control) :=
  if s.initialised = false then some (false, s)
  else
    let s := clear_sms_buffer s
    let s := send_command [13, 10] s
    let s := let_terminal_settle s
    let s := send_command (lit "ATD *#1345#;") s
    match wait_for_status fuel 20 s with
    | none => none
    | some (return_val, s) =>
      if return_val ≠ BS_OK then some (false, count_protocol_error s)
      else
        match wait_for_status fuel 20 s with
        | none => none
        | some (return_val, s) =>
          if return_val ≠ BS_OK then some (false, count_protocol_error s)
          else
            match wait_for_data (some (lit "+CUSD:")) fuel 60 s with
            | none => none
            | some (return_val, s) =>
              if return_val = BS_DATA then some (true, cusd_store s) else some (false, s)

/-- The command `AT+CSTT="pp.vodafone.co.uk","wap","wap"`. -/
def AT_CSTT : List Nat :=
  lit "AT+CSTT=" ++ [34] ++ lit "pp.vodafone.co.uk" ++ [34, 44, 34] ++ lit "wap" ++
    [34, 44, 34] ++ lit "wap" ++ [34]

/-- The command `AT+CIPSTART="TCP","lythamrnli.jamesamor.co.uk",80`. -/
def AT_CIPSTART : List Nat :=
  lit "AT+CIPSTART=" ++ [34] ++ lit "TCP" ++ [34, 44, 34] ++ lit "lythamrnli.jamesamor.co.uk" ++
    [34] ++ lit ",80"

/-- The exit `reset_gprs (); return false;` of the web-session operations. -/
def gprs_failed (fuel : Nat) (s : SIM800_Control) : Option (Bool × SIM800_Control) :=
  (reset_gprs fuel s).map fun s => (false, s)

/-- The connection part of `prep_for_web_submission`, from `AT+CSTT` on. -/
def web_connect (fuel : Nat) (s : SIM800_Control) : Option (Bool × SIM800_Control) :=
  let s := send_command AT_CSTT s
  match wait_for_status fuel 10 s with
  | none => none
  | some (return_val, s) =>
    if return_val ≠ BS_OK then gprs_failed fuel (count_protocol_error s)
    else
      let s := send_command (lit "AT+CIICR") s
      match wait_for_status fuel 85 s with
      | none => none
      | some (return_val, s) =>
        if return_val ≠ BS_OK then gprs_failed fuel s
        else
          let s := send_command (lit "AT+CIFSR") s
          match wait_for_data none fuel 2 s with
          | none => none
          | some (return_val, s) =>
            if return_val ≠ BS_DATA then gprs_failed fuel s
            else
              let s := send_command AT_CIPSTART s
              match wait_for_status fuel 75 s with
              | none => none
              | some (return_val, s) =>
                if return_val ≠ BS_OK then gprs_failed fuel (count_protocol_error s)
                else
                  match wait_for_data (some (lit "CONNECT OK")) fuel 75 s with
                  | none => none
                  | some (return_val, s) =>
                    if return_val ≠ BS_DATA then gprs_failed fuel s
                    else
                      let s := send_command (lit "AT+CIPSEND") s
                      let s := delay 500 s
                      some (true, { s with hadValidGprsContext := true,
                                           website_connected := true })

/-- Source: `SIM800_Control::prep_for_web_submission`; the static
`hadValidGprsContext` is the field of that name. -/
def prep_for_web_submission (fuel : Nat) (s : SIM800_Control) :
    Option (Bool × SIM800_Control) :=
  if s.initialised = false then some (false, s)
  else
    let s := { s with website_connected := false }
    let s := send_command [13, 10] s
    let s := let_terminal_settle s
    let s := send_command (lit "AT+CGREG?") s
    match wait_for_data (some (lit "+CGREG: ")) fuel 5 s with
    | none => none
    | some (return_val, s) =>
      if return_val = BS_DATA ∧ ¬ strstr s.rx_buffer (lit "+CGREG: 0,1") ∧
          ¬ strstr s.rx_buffer (lit "+CGREG: 0,5") then
        match wait_for_status fuel 5 s with
        | none => none
        | some (_, s) => some (false, s)
      else
        let s := send_command (lit "AT+CGATT?") s
        match wait_for_data (some (lit "+CGATT: ")) fuel 5 s with
        | none => none
        | some (return_val, s) =>
          if return_val = BS_DATA ∧ strstr s.rx_buffer (lit "+CGATT: 0") then gprs_failed fuel s
          else web_connect fuel s

/-- The end of `complete_web_submission`: `AT+CIPCLOSE`, `AT+CIPSHUT` and the wait for
`SHUT OK`. -/
def web_close (fuel : Nat) (sendSuccess : Bool) (s : SIM800_Control) :
    Option (Bool × SIM800_Control) :=
  let s := send_command (lit "AT+CIPCLOSE") s
  match wait_for_status fuel 10 s with
  | none => none
  | some (_, s) =>
    let s := send_command (lit "AT+CIPSHUT") s
    match wait_for_data (some (lit "SHUT OK")) fuel 65 s with
    | none => none
    | some (return_val, s) =>
      if return_val ≠ BS_DATA then gprs_failed fuel (count_protocol_error s)
      else some (sendSuccess, s)

/-- Source: `SIM800_Control::complete_web_submission`. -/
def complete_web_submission (fuel : Nat) (s : SIM800_Control) :
    Option (Bool × SIM800_Control) :=
  let s := { s with website_connected := false }
  let s := send_command [13, 10] s
  let s := send_command [13, 10] s
  let s := send_command [26, 0] s
  match wait_for_data (some (lit "SEND OK")) fuel 75 s with
  | none => none
  | some (return_val, s) =>
    if return_val ≠ BS_DATA then gprs_failed fuel s
    else
      match wait_for_data (some (lit "+BOB: ")) fuel 75 s with
      | none => none
      | some (return_val, s) =>
        let sendSuccess : Bool := return_val = BS_DATA ∧ strstr s.rx_buffer (lit "+BOB: 1")
        if return_val ≠ BS_TIMEOUT then
          match wait_for_data (some (lit "CLOSED")) fuel 10 s with
          | none => none
          | some (return_val, s) =>
            if return_val ≠ BS_DATA then gprs_failed fuel (count_protocol_error s)
            else web_close fuel sendSuccess s
        else web_close fuel sendSuccess s

/-- Source: `SIM800_Control::clear_stored_caller_id`. -/
def clear_stored_caller_id (s : SIM800_Control) : SIM800_Control :=
  { s with incoming_call_received := false,
           stored_caller_id := List.replicate MAX_CALLER_ID_SIZE 0 }

/-- Source: the pass-through `SIM800_Control::write`: the byte goes to the transport;
the scripted modem answers commands, not single bytes. -/
def write (to_write : Nat) (s : SIM800_Control) : SIM800_Control :=
  { s with serial_tx := s.serial_tx ++ [to_write] }

/-- Source: the pass-through `SIM800_Control::read`, `Sim800_Serial.read ()`: the next
byte of the transport is taken, when there is one. -/
def read (s : SIM800_Control) : SIM800_Control := serial_pop s.serial_rx.tail s

/-- The public operations of the driver, as SIM800_Control.h declares them. -/
inductive Operation where
  | begin
  | initialise (force_warmstart : Bool)
  | refresh
  | available
  | read
  | write (to_write : Nat)
  | connected_to_network
  | connected_to_gprs
  | get_signal_bars
  | get_signal_percent
  | send_sms_from_buffer (sms_dest_number : List Nat)
  | call_number (dest_number : List Nat)
  | sms_available
  | get_pending_sms
  | delete_sms (sms_id : List Nat)
  | put_balance_in_sms_buffer
  | clear_stored_caller_id
  | clear_sms_buffer
  | prep_for_web_submission
  | complete_web_submission

/-- The driver after a public operation, the value the operation returns left aside;
`none` when `fuel` does not cover the loops of the operation. -/
def Operation.run (fuel : Nat) (s : SIM800_Control) : Operation → Option SIM800_Control
  | .begin => some s
  | .initialise force_warmstart => SIM800.initialise fuel force_warmstart s
  | .refresh => SIM800.refresh fuel s
  | .available => some s
  | .read => some (SIM800.read s)
  | .write to_write => some (SIM800.write to_write s)
  | .connected_to_network => (SIM800.connected_to_network fuel s).map Prod.snd
  | .connected_to_gprs => (SIM800.connected_to_gprs fuel s).map Prod.snd
  | .get_signal_bars => (SIM800.get_signal_bars fuel s).map Prod.snd
  | .get_signal_percent => (SIM800.get_signal_percent fuel s).map Prod.snd
  | .send_sms_from_buffer sms_dest_number =>
    (SIM800.send_sms_from_buffer fuel sms_dest_number s).map Prod.snd
  | .call_number dest_number => (SIM800.call_number fuel dest_number s).map Prod.snd
  | .sms_available => (SIM800.sms_available fuel s).map Prod.snd
  | .get_pending_sms => (SIM800.get_pending_sms fuel s).map fun r => r.2.2
  | .delete_sms sms_id => SIM800.delete_sms fuel sms_id s
  | .put_balance_in_sms_buffer => (SIM800.put_balance_in_sms_buffer fuel s).map Prod.snd
  | .clear_stored_caller_id => some (SIM800.clear_stored_caller_id s)
  | .clear_sms_buffer => some (SIM800.clear_sms_buffer s)
  | .prep_for_web_submission => (SIM800.prep_for_web_submission fuel s).map Prod.snd
  | .complete_web_submission => (SIM800.complete_web_submission fuel s).map Prod.snd

/-- The array `temp_cmd` as the operation builds it from its argument before sending
it; `none` for the operations that copy no argument. -/
def Operation.temp_cmd : Operation → Option (List Nat)
  | .send_sms_from_buffer sms_dest_number => some (cmgs_command sms_dest_number)
  | .call_number dest_number =>
    some ((temp_cmd_with (lit "ATD ") dest_number).set (4 + strlen dest_number) 59)
  | .delete_sms sms_id => some (temp_cmd_with (lit "AT+CMGD=") sms_id)
  | _ => none

/-- The driver got from `s` to `p` in bounded time: the idle hook still takes `i` ms,
the clock did not go back, and the horizon moved on by at most `c` ms. -/
structure Within (i c : Nat) (s p : SIM800_Control) : Prop where
  idle_ms : p.idle_ms = i
  clock : s.clock ≤ p.clock
  horizon : horizon p ≤ horizon s + c

/-! ## Polling the line reader -/

/-- Poll `check_for_response` until the receive queue is empty; the result is the
driver after the last call. -/
def poll_all : Nat → SIM800_Control → SIM800_Control
  | 0, s => s
  | n + 1, s => if s.serial_rx = [] then s else poll_all n (check_for_response s)

/-! ## The caller id of a `+CMGL:` header -/

/-- The text `get_pending_sms` copies as caller id: the C string at
`&rx_buffer[token_start]` once the header loop has run over the line. -/
def cmgl_caller_field (rx_buffer : List Nat) : List Nat :=
  let r := cmgl_header_loop rx_buffer.length 7 0 0 (List.replicate 4 0) rx_buffer
  cstr (r.2.2.drop r.1)

/-- The header step of `get_pending_sms`, taken when the line `+CMGL:` came: the header
loop and `strncpy (stored_caller_id, (char *)&rx_buffer[token_start],
MAX_CALLER_ID_SIZE)`. -/
def cmgl_store (s : SIM800_Control) : SIM800_Control :=
  let r := cmgl_header_loop s.rx_buffer.length 7 0 0 (List.replicate 4 0) s.rx_buffer
  let s := { s with rx_buffer := r.2.2 }
  let caller := s.rx_buffer.drop r.1
  { s with stored_caller_id := strncpy s.stored_caller_id caller MAX_CALLER_ID_SIZE }

/-- A sender of 18 characters: 20 with the quotes of the header around it. -/
def LONG_SENDER : List Nat := lit "+44770090012345678"

/-- A reply to `AT+CMGL="ALL"` as `SMS_LISTING`, from the sender `LONG_SENDER`. -/
def SMS_LISTING_LONG : List Nat :=
  [13, 10] ++ lit "+CMGL: 1," ++ [34] ++ lit "REC UNREAD" ++ [34, 44, 34] ++ LONG_SENDER ++
    [34, 44, 34, 34, 44, 34] ++ lit "24/01/01,10:00:00+00" ++ [34, 13, 10] ++
    lit "Hello" ++ [13, 10, 13, 10] ++ lit "OK" ++ [13, 10]

/-- An initialised driver whose modem is silent to the bare CR LF and then lists
`SMS_LISTING_LONG`. -/
def sms_driver_long : SIM800_Control :=
  { constructed 1 [[], SMS_LISTING_LONG] with initialised := true }

/-- A `+CMGL:` header line as the modem sends it, from the given sender. -/
def CMGL_HEADER (sender : List Nat) : List Nat :=
  lit "+CMGL: 1," ++ [34] ++ lit "REC UNREAD" ++ [34, 44, 34] ++ sender ++
    [34, 44, 34, 34, 44, 34] ++ lit "24/01/01,10:00:00+00" ++ [34]

/-- A `+CLIP: ` line as the modem sends it, between CR LF, whose caller id has 30
digits: 32 characters with its quotes. -/
def LONG_CLIP_REPLY : List Nat :=
  [13, 10] ++ CLIP_LINE (lit "012345678901234567890123456789") ++ [13, 10]

/-- The driver `sms_sender` with an idle hook of 30 s, in front of a modem that answers
nothing to the commands of the first attempt and rings, with `LONG_CLIP_REPLY`, once
the text has been sent. -/
def sms_sender_ringing : SIM800_Control :=
  { constructed 30000 [[], [], [], LONG_CLIP_REPLY] with
    initialised := true
    sms_buffer := strncpy (List.replicate TX_BUFFER_SIZE 0) (lit "Hello") TX_BUFFER_SIZE }

/-! # Proofs -/

/-! ## C strings -/

theorem cstr_append_nul (l t : List Nat) : cstr (l ++ 0 :: t) = cstr l := by
  induction l with
  | nil => simp [cstr]
  | cons a l ih =>
    by_cases h : a = 0
    · simp [cstr, h]
    · have ih2 : List.takeWhile (fun c => c != 0) (l ++ 0 :: t)
          = List.takeWhile (fun c => c != 0) l := ih
      simp [cstr, List.takeWhile_cons, h, ih2]

theorem cstr_of_nul_free (l : List Nat) (h : ∀ c ∈ l, c ≠ 0) : cstr l = l := by
  induction l with
  | nil => rfl
  | cons a l ih =>
    have ha : a ≠ 0 := h a (by simp)
    have hl : List.takeWhile (fun c => c != 0) l = l :=
      ih (fun c hc => h c (by simp [hc]))
    simp [cstr, List.takeWhile_cons, ha, hl]

theorem take_succ_set (buf : List Nat) (p c : Nat) (h : p < buf.length) :
    (buf.set p c).take (p + 1) = buf.take p ++ [c] := by
  induction buf generalizing p with
  | nil => simp at h
  | cons a buf ih =>
    cases p with
    | zero => simp
    | succ p =>
      have hp : p < buf.length := by simpa using h
      simp [ih p hp]

theorem set_eq_take_nul (buf : List Nat) (p v : Nat) (h : p < buf.length) :
    buf.set p v = buf.take p ++ v :: buf.drop (p + 1) := by
  rw [List.set_eq_take_append_cons_drop, if_pos h]

/-! ## The line reader -/

theorem cr_segments_from_no_cr (acc bytes : List Nat) (h : 13 ∉ bytes) :
    cr_segments_from acc bytes = [] := by
  induction bytes generalizing acc with
  | nil => rfl
  | cons c rest ih =>
    have hc : c ≠ 13 := fun e => h (by simp [e])
    have hr : 13 ∉ rest := fun e => h (by simp [e])
    simp [cr_segments_from, hc, ih _ hr]

/-- The segments are what splitting at the CR bytes gives. -/
theorem cr_segments_from_append (acc seg rest : List Nat) (h : 13 ∉ seg) :
    cr_segments_from acc (seg ++ 13 :: rest) = (acc ++ seg) :: cr_segments_from [] rest := by
  induction seg generalizing acc with
  | nil => simp [cr_segments_from]
  | cons c seg ih =>
    have hc : c ≠ 13 := fun e => h (by simp [e])
    have hr : 13 ∉ seg := fun e => h (by simp [e])
    simp [cr_segments_from, hc, ih _ hr]

/-- With a CR still to come, the segment being read is one of the segments. -/
theorem cr_segments_from_head (acc bytes : List Nat) (h : 13 ∈ bytes) :
    ∃ seg tl, cr_segments_from acc bytes = (acc ++ seg) :: tl := by
  induction bytes generalizing acc with
  | nil => simp at h
  | cons c rest ih =>
    by_cases hc : c = 13
    · exact ⟨[], cr_segments_from [] rest, by simp [cr_segments_from, hc]⟩
    · have hr : 13 ∈ rest := by
        rcases List.mem_cons.mp h with e | e
        · exact absurd e.symm hc
        · exact e
      obtain ⟨seg, tl, e⟩ := ih (acc ++ [c]) hr
      exact ⟨c :: seg, tl, by simp [cr_segments_from, hc, e]⟩

theorem strip_lf_append (a b : List Nat) : strip_lf (a ++ b) = strip_lf a ++ strip_lf b := by
  simp [strip_lf]

theorem rx_byte_serial_rx (c : Nat) (s : SIM800_Control) :
    (rx_byte c s).serial_rx = s.serial_rx := by
  simp only [rx_byte]; split_ifs <;> rfl

theorem rx_byte_state (c : Nat) (s : SIM800_Control) :
    (rx_byte c s).rx_buff_state
      = if c = 13 ∧ 0 < s.rx_buff_pos then BS_DATA else s.rx_buff_state := by
  simp only [rx_byte]
  by_cases h10 : c = 10
  · have : ¬ c = 13 := by omega
    simp [h10, rx_store]
  · by_cases h13 : c = 13
    · by_cases hp : 0 < s.rx_buff_pos
      · simp [h13, hp, rx_store]
      · simp [h13, hp, rx_store]
    · simp only [h10, h13, if_false, false_and]
      split_ifs <;> rfl

/-- Without a CR in the queue the receive loop empties it and reports nothing. -/
theorem rx_loop_no_cr (bytes : List Nat) (s : SIM800_Control) (h : 13 ∉ bytes)
    (hs : s.rx_buff_state = BS_WAITING) (hq : s.serial_rx = bytes) :
    (rx_loop bytes s).rx_buff_state = BS_WAITING ∧ (rx_loop bytes s).serial_rx = [] := by
  induction bytes generalizing s with
  | nil => exact ⟨hs, hq⟩
  | cons c rest ih =>
    have hc : c ≠ 13 := fun e => h (by simp [e])
    have hr : 13 ∉ rest := fun e => h (by simp [e])
    rw [rx_loop, if_pos hs]
    apply ih _ hr
    · rw [rx_byte_state]; simp [hc, idle, serial_pop, hs]
    · rw [rx_byte_serial_rx]; rfl

theorem take_set_self (buf : List Nat) (p v : Nat) : (buf.set p v).take p = buf.take p := by
  induction buf generalizing p with
  | nil => simp
  | cons a buf ih =>
    cases p with
    | zero => simp
    | succ p => simp [ih p]

theorem framing_idle_pop (s : SIM800_Control) (acc rest : List Nat) (h : Framing s acc) :
    Framing (idle (serial_pop rest s)) acc :=
  ⟨h.waiting, h.size, h.pos, h.held⟩

theorem framing_lf (s : SIM800_Control) (acc : List Nat) (h : Framing s acc) :
    Framing (rx_byte 10 s) (acc ++ [10]) := by
  have e : rx_byte 10 s = rx_store s.rx_buff_pos 10 s := by simp [rx_byte]
  rw [e]
  refine ⟨h.waiting, ?_, ?_, ?_⟩
  · simp only [rx_store]; split_ifs <;> simp [h.size]
  · simp [rx_store, strip_lf_append, h.pos, strip_lf]
  · simp only [rx_store, strip_lf_append]
    split_ifs
    · rw [take_set_self, h.held]; simp [strip_lf]
    · rw [h.held]; simp [strip_lf]

theorem framing_char (s : SIM800_Control) (acc : List Nat) (c : Nat) (h : Framing s acc)
    (h10 : c ≠ 10) (h13 : c ≠ 13) (hp : s.rx_buff_pos < RX_BUFFER_SIZE) :
    Framing (rx_byte c s) (acc ++ [c]) := by
  have e : rx_byte c s = { rx_store s.rx_buff_pos c s with rx_buff_pos := s.rx_buff_pos + 1 } := by
    simp only [rx_byte, h10, h13, if_false]
    rw [if_pos (by simpa [rx_store] using hp)]
    rfl
  have hs : strip_lf (acc ++ [c]) = strip_lf acc ++ [c] := by simp [strip_lf, h10]
  rw [e]
  refine ⟨h.waiting, ?_, ?_, ?_⟩
  · simp [rx_store, hp, h.size]
  · simp [hs, h.pos]
  · simp only [rx_store, if_pos hp, hs]
    rw [take_succ_set _ _ _ (by rw [h.size]; exact hp), h.held]

theorem framing_bare_cr (s : SIM800_Control) (acc : List Nat) (h : Framing s acc)
    (hp : s.rx_buff_pos = 0) : Framing (rx_byte 13 s) [] := by
  have e : rx_byte 13 s = rx_store s.rx_buff_pos 0 (rx_store s.rx_buff_pos 13 s) := by
    simp [rx_byte, rx_store, hp]
  rw [e]
  refine ⟨h.waiting, ?_, ?_, ?_⟩
  · simp only [rx_store]; split_ifs <;> simp [h.size]
  · simp [rx_store, hp, strip_lf]
  · simp [rx_store, hp, strip_lf]

/-- A CR after at least one stored byte: the line is ready and is the stored bytes
up to their first NUL. -/
theorem rx_byte_cr_line (s : SIM800_Control) (acc : List Nat) (h : Framing s acc)
    (hp : 0 < s.rx_buff_pos) (hlt : s.rx_buff_pos < RX_BUFFER_SIZE) :
    (rx_byte 13 s).rx_buff_state = BS_DATA ∧
      cstr (rx_byte 13 s).rx_buffer = cstr (strip_lf acc) ∧
      (rx_byte 13 s).rx_buffer.length = RX_BUFFER_SIZE := by
  have e : rx_byte 13 s
      = { rx_store s.rx_buff_pos 0 (rx_store s.rx_buff_pos 13 s) with rx_buff_state := BS_DATA } := by
    simp [rx_byte, rx_store, hp]
  rw [e]
  refine ⟨rfl, ?_, ?_⟩
  · simp only [rx_store, if_pos hlt]
    rw [set_eq_take_nul _ _ _ (by simp [h.size, hlt]), take_set_self, h.held, cstr_append_nul]
  · simp [rx_store, hlt, h.size]

theorem rx_loop_not_waiting (bytes : List Nat) (s : SIM800_Control)
    (h : s.rx_buff_state ≠ BS_WAITING) : rx_loop bytes s = s := by
  cases bytes with
  | nil => rfl
  | cons c rest => rw [rx_loop, if_neg h]

theorem poll_lines_empty (fuel : Nat) (s : SIM800_Control) (h : s.serial_rx = []) :
    poll_lines fuel s = [] := by
  cases fuel with
  | zero => rfl
  | succ n => simp [poll_lines, h]

theorem rx_prepare_serial_rx (s : SIM800_Control) : (rx_prepare s).serial_rx = s.serial_rx := by
  simp only [rx_prepare]; split_ifs <;> rfl

theorem rx_prepare_after_line (s : SIM800_Control) (h : s.rx_buff_state = BS_DATA) :
    Framing (rx_prepare s) [] := by
  have e : rx_prepare s
      = { rx_clear s with rx_buff_pos := 0, rx_buff_state := BS_WAITING } := by
    simp [rx_prepare, h]
  rw [e]
  exact ⟨rfl, by simp [rx_clear], rfl, rfl⟩

theorem rx_prepare_at_start (s : SIM800_Control) (hp : s.rx_buff_pos = 0)
    (hl : s.rx_buffer.length = RX_BUFFER_SIZE) : Framing (rx_prepare s) [] := by
  simp only [rx_prepare]
  split_ifs
  · exact ⟨rfl, by simp [rx_clear], rfl, rfl⟩
  · exact ⟨rfl, hl, hp, by simp [hp, strip_lf]⟩

/-- The lines collected from the middle of a segment onwards. -/
theorem rx_loop_lines (bytes : List Nat) : ∀ (acc : List Nat) (s : SIM800_Control) (fuel : Nat),
    Framing s acc → s.serial_rx = bytes →
    (∀ seg ∈ cr_segments_from acc bytes, (strip_lf seg).length < RX_BUFFER_SIZE) →
    bytes.length ≤ fuel →
    (if (rx_loop bytes s).rx_buff_state = BS_DATA
      then cstr (rx_loop bytes s).rx_buffer :: poll_lines fuel (rx_loop bytes s)
      else poll_lines fuel (rx_loop bytes s)) = lines_of (cr_segments_from acc bytes) := by
  induction bytes with
  | nil =>
    intro acc s fuel hf hq _ _
    simp [rx_loop, hf.waiting, poll_lines_empty fuel s hq, cr_segments_from, lines_of]
  | cons c rest ih =>
    intro acc s fuel hf hq hseg hfuel
    by_cases hin : 13 ∈ c :: rest
    · -- a CR lies ahead: the segment being read is bounded
      obtain ⟨seg, tl, hsegs⟩ := cr_segments_from_head acc (c :: rest) hin
      have hbound : s.rx_buff_pos < RX_BUFFER_SIZE := by
        have := hseg (acc ++ seg) (by rw [hsegs]; simp)
        rw [strip_lf_append, List.length_append] at this
        rw [hf.pos]; omega
      have hf0 := framing_idle_pop s acc rest hf
      have hpos0 : (idle (serial_pop rest s)).rx_buff_pos = s.rx_buff_pos := rfl
      rw [rx_loop, if_pos hf.waiting]
      have hq1 : (rx_byte c (idle (serial_pop rest s))).serial_rx = rest := by
        rw [rx_byte_serial_rx]; rfl
      by_cases h13 : c = 13
      · subst h13
        by_cases hp : 0 < s.rx_buff_pos
        · obtain ⟨hst, hline, hlen⟩ := rx_byte_cr_line _ acc hf0 (by rw [hpos0]; exact hp)
            (by rw [hpos0]; exact hbound)
          rw [rx_loop_not_waiting _ _ (by rw [hst]; decide), if_pos hst, hline]
          have hne : strip_lf acc ≠ [] := by
            intro e; rw [hf.pos, e] at hp; simp at hp
          have hrest : poll_lines fuel (rx_byte 13 (idle (serial_pop rest s)))
              = lines_of (cr_segments_from [] rest) := by
            by_cases hr : rest = []
            · rw [poll_lines_empty _ _ (by rw [hq1, hr]), hr]
              simp [cr_segments_from, lines_of]
            · cases fuel with
              | zero => simp at hfuel
              | succ f =>
                have hfr := rx_prepare_after_line _ hst
                have := ih [] _ f hfr (by rw [rx_prepare_serial_rx, hq1])
                  (fun sg hsg => hseg sg (by simp [cr_segments_from, hsg]))
                  (by simp at hfuel; omega)
                rw [poll_lines, if_neg (by rw [hq1]; exact hr)]
                simp only [check_for_response, rx_prepare_serial_rx, hq1]
                exact this
          rw [hrest]
          simp [cr_segments_from, lines_of, hne]
        · have hp0 : s.rx_buff_pos = 0 := by omega
          have hfr := framing_bare_cr _ acc hf0 (by rw [hpos0]; exact hp0)
          have hemp : strip_lf acc = [] := by
            have := hf.pos; rw [hp0] at this
            exact List.length_eq_zero.mp this.symm
          rw [ih [] _ fuel hfr hq1
            (fun sg hsg => hseg sg (by simp [cr_segments_from, hsg]))
            (by simp at hfuel; omega)]
          simp [cr_segments_from, lines_of, hemp]
      · by_cases h10 : c = 10
        · subst h10
          have hfr := framing_lf _ acc hf0
          rw [ih (acc ++ [10]) _ fuel hfr hq1
            (fun sg hsg => hseg sg (by simpa [cr_segments_from] using hsg))
            (by simp at hfuel; omega)]
          simp [cr_segments_from]
        · have hfr := framing_char _ acc c hf0 h10 h13 (by rw [hpos0]; exact hbound)
          rw [ih (acc ++ [c]) _ fuel hfr hq1
            (fun sg hsg => hseg sg (by simpa [cr_segments_from, h13] using hsg))
            (by simp at hfuel; omega)]
          simp [cr_segments_from, h13]
    · -- no CR ahead: nothing more is reported
      obtain ⟨hst, hq2⟩ := rx_loop_no_cr (c :: rest) s hin hf.waiting hq
      rw [hst, if_neg (by decide), poll_lines_empty _ _ hq2, cr_segments_from_no_cr _ _ hin]
      rfl

theorem cr_segments_from_mem (bytes : List Nat) : ∀ (acc seg : List Nat) (c : Nat),
    seg ∈ cr_segments_from acc bytes → c ∈ seg → c ∈ acc ∨ c ∈ bytes := by
  induction bytes with
  | nil => intro acc seg c h; simp [cr_segments_from] at h
  | cons b rest ih =>
    intro acc seg c h hc
    by_cases hb : b = 13
    · simp only [cr_segments_from, hb, if_true, List.mem_cons] at h
      rcases h with h | h
      · left; rw [← h]; exact hc
      · rcases ih [] seg c h hc with h2 | h2
        · simp at h2
        · right; simp [h2]
    · simp only [cr_segments_from, hb, if_false] at h
      rcases ih (acc ++ [b]) seg c h hc with h2 | h2
      · rcases List.mem_append.mp h2 with h3 | h3
        · left; exact h3
        · right; simp at h3; simp [h3]
      · right; simp [h2]

theorem map_cstr_of_nul_free (ls : List (List Nat)) (h : ∀ l ∈ ls, ∀ c ∈ l, c ≠ 0) :
    ls.map cstr = ls := by
  induction ls with
  | nil => rfl
  | cons l ls ih =>
    rw [List.map_cons, cstr_of_nul_free l (h l (by simp)),
      ih (fun l2 h2 => h l2 (by simp [h2]))]

/-- C1, as the claim states it, fails on input with a NUL byte: for the bytes
`A NUL B CR` the reported line is the C string `A`, not the segment `A NUL B`. -/
theorem line_reader_nul_counterexample :
    (∀ seg ∈ cr_segments [65, 0, 66, 13], (strip_lf seg).length < RX_BUFFER_SIZE) ∧
      poll_lines 5 (with_input [65, 0, 66, 13]) = [[65]] ∧
      expected_lines [65, 0, 66, 13] = [[65, 0, 66]] ∧
      poll_lines 5 (with_input [65, 0, 66, 13]) ≠ expected_lines [65, 0, 66, 13] := by
  decide

/-- C1 (amended): from an empty receive buffer, polling `check_for_response` until
the bytes are exhausted, with every CR-terminated segment holding fewer than
RX_BUFFER_SIZE bytes other than CR and LF, reports in order the CR-terminated
segments with LF bytes removed, the non-empty ones only, each read as a C string
(cut at its first NUL); on input without NUL bytes these are exactly the segments
themselves. -/
theorem line_reader_framing (s : SIM800_Control) (bytes : List Nat) (fuel : Nat)
    (hq : s.serial_rx = bytes) (hp : s.rx_buff_pos = 0)
    (hl : s.rx_buffer.length = RX_BUFFER_SIZE)
    (hseg : ∀ seg ∈ cr_segments bytes, (strip_lf seg).length < RX_BUFFER_SIZE)
    (hfuel : bytes.length < fuel) :
    poll_lines fuel s = (expected_lines bytes).map cstr ∧
      ((∀ c ∈ bytes, c ≠ 0) → poll_lines fuel s = expected_lines bytes) := by
  have main : poll_lines fuel s = (expected_lines bytes).map cstr := by
    by_cases hb : bytes = []
    · rw [poll_lines_empty _ _ (by rw [hq, hb]), hb]; rfl
    · cases fuel with
      | zero => simp at hfuel
      | succ f =>
        have hfr := rx_prepare_at_start s hp hl
        have := rx_loop_lines bytes [] _ f hfr (by rw [rx_prepare_serial_rx, hq]) hseg
          (by omega)
        rw [poll_lines, if_neg (by rw [hq]; exact hb)]
        simp only [check_for_response, rx_prepare_serial_rx, hq]
        exact this
  refine ⟨main, fun hnul => ?_⟩
  rw [main]
  apply map_cstr_of_nul_free
  intro l hl2 c hc
  simp only [expected_lines, List.mem_filter, List.mem_map] at hl2
  obtain ⟨⟨seg, hseg2, rfl⟩, _⟩ := hl2
  have hc2 : c ∈ seg := (List.mem_filter.mp hc).1
  rcases cr_segments_from_mem bytes [] seg c hseg2 hc2 with h | h
  · simp at h
  · exact hnul c h

/-- C1 witness: the reply `CR LF O K CR LF LF CR + C S Q CR` surfaces `OK` and `+CSQ`. -/
theorem line_reader_framing_witness :
    poll_lines 20 (with_input [13, 10, 79, 75, 13, 10, 10, 13, 43, 67, 83, 81, 13])
        = (expected_lines [13, 10, 79, 75, 13, 10, 10, 13, 43, 67, 83, 81, 13]).map cstr ∧
      ((∀ c ∈ [13, 10, 79, 75, 13, 10, 10, 13, 43, 67, 83, 81, 13], c ≠ 0) →
        poll_lines 20 (with_input [13, 10, 79, 75, 13, 10, 10, 13, 43, 67, 83, 81, 13])
          = expected_lines [13, 10, 79, 75, 13, 10, 10, 13, 43, 67, 83, 81, 13]) :=
  line_reader_framing _ _ 20 rfl rfl (List.length_replicate _ _) (by decide) (by decide)

theorem expected_lines_sample :
    expected_lines [13, 10, 79, 75, 13, 10, 10, 13, 43, 67, 83, 81, 13]
      = [[79, 75], [43, 67, 83, 81]] := by decide

/-! ## What check_for_response and process_urc leave alone -/

theorem rx_byte_touch (c : Nat) (s : SIM800_Control) :
    rx_byte c s = { s with rx_buffer := (rx_byte c s).rx_buffer,
                           rx_buff_pos := (rx_byte c s).rx_buff_pos,
                           rx_buff_state := (rx_byte c s).rx_buff_state,
                           rx_overrun := (rx_byte c s).rx_overrun } := by
  simp only [rx_byte]; split_ifs <;> rfl

theorem rx_prepare_touch (s : SIM800_Control) :
    rx_prepare s = { s with rx_buffer := (rx_prepare s).rx_buffer,
                            rx_buff_pos := (rx_prepare s).rx_buff_pos,
                            rx_buff_state := (rx_prepare s).rx_buff_state } := by
  simp only [rx_prepare]; split_ifs <;> rfl

theorem rx_byte_blind {α : Type} (f : SIM800_Control → α) (hf : RxBlind f) (c : Nat)
    (s : SIM800_Control) : f (rx_byte c s) = f s :=
  (congrArg f (rx_byte_touch c s)).trans (hf s _ _ _ _ s.clock s.serial_rx)

theorem rx_prepare_blind {α : Type} (f : SIM800_Control → α) (hf : RxBlind f)
    (s : SIM800_Control) : f (rx_prepare s) = f s :=
  (congrArg f (rx_prepare_touch s)).trans (hf s _ _ _ s.rx_overrun s.clock s.serial_rx)

theorem idle_pop_blind {α : Type} (f : SIM800_Control → α) (hf : RxBlind f) (rest : List Nat)
    (s : SIM800_Control) : f (idle (serial_pop rest s)) = f s :=
  hf s s.rx_buffer s.rx_buff_pos s.rx_buff_state s.rx_overrun (s.clock + s.idle_ms) rest

theorem idle_blind {α : Type} (f : SIM800_Control → α) (hf : RxBlind f)
    (s : SIM800_Control) : f (idle s) = f s :=
  hf s s.rx_buffer s.rx_buff_pos s.rx_buff_state s.rx_overrun (s.clock + s.idle_ms) s.serial_rx

theorem rx_loop_blind {α : Type} (f : SIM800_Control → α) (hf : RxBlind f) (bytes : List Nat)
    (s : SIM800_Control) : f (rx_loop bytes s) = f s := by
  induction bytes generalizing s with
  | nil => rfl
  | cons c rest ih =>
    rw [rx_loop]
    split_ifs
    · rw [ih, rx_byte_blind f hf, idle_pop_blind f hf]
    · rfl

theorem check_for_response_blind {α : Type} (f : SIM800_Control → α) (hf : RxBlind f)
    (s : SIM800_Control) : f (check_for_response s) = f s := by
  simp only [check_for_response]
  rw [rx_loop_blind f hf, rx_prepare_blind f hf]

theorem process_urc_touch (s : SIM800_Control) :
    process_urc s = { s with rx_buffer := (process_urc s).rx_buffer,
                             incoming_call_ring_time := (process_urc s).incoming_call_ring_time,
                             stored_caller_id := (process_urc s).stored_caller_id,
                             incoming_call_received := (process_urc s).incoming_call_received,
                             sms_buffer := (process_urc s).sms_buffer,
                             gsm_resets := (process_urc s).gsm_resets,
                             initialised := (process_urc s).initialised,
                             website_connected := (process_urc s).website_connected } := by
  simp only [process_urc]; split_ifs <;> rfl

theorem process_urc_blind {α : Type} (f : SIM800_Control → α) (hf : UrcBlind f)
    (s : SIM800_Control) : f (process_urc s) = f s :=
  (congrArg f (process_urc_touch s)).trans (hf s _ _ _ _ _ _ _ _)

/-! ## Reading one line -/

theorem rx_byte_clock (c : Nat) (s : SIM800_Control) : (rx_byte c s).clock = s.clock := by
  simp only [rx_byte]; split_ifs <;> rfl

theorem rx_byte_idle_ms (c : Nat) (s : SIM800_Control) : (rx_byte c s).idle_ms = s.idle_ms := by
  simp only [rx_byte]; split_ifs <;> rfl

theorem framing_congr (s : SIM800_Control) (a b : List Nat) (h : strip_lf a = strip_lf b)
    (hf : Framing s a) : Framing s b :=
  ⟨hf.waiting, hf.size, h ▸ hf.pos, h ▸ hf.held⟩

theorem fresh_prepare (s : SIM800_Control) (h : Fresh s) : Framing (rx_prepare s) [] := by
  rcases h with h | h | ⟨hp, hl⟩
  · exact rx_prepare_after_line s h
  · have e : rx_prepare s
        = { rx_clear s with rx_buff_pos := 0, rx_buff_state := BS_WAITING } := by
      simp [rx_prepare, h]
    rw [e]
    exact ⟨rfl, by simp [rx_clear], rfl, rfl⟩
  · exact rx_prepare_at_start s hp hl

/-- The receive loop steps over CR and LF bytes met before any text. -/
theorem rx_loop_junk (junk bytes : List Nat) : ∀ (s : SIM800_Control), Framing s [] →
    is_junk junk → s.serial_rx = junk ++ bytes →
    ∃ s1, rx_loop (junk ++ bytes) s = rx_loop bytes s1 ∧ Framing s1 [] ∧
      s1.serial_rx = bytes ∧ s1.clock = s.clock + junk.length * s.idle_ms ∧
      s1.idle_ms = s.idle_ms := by
  induction junk with
  | nil => intro s hf _ hq; exact ⟨s, rfl, hf, hq, by simp, rfl⟩
  | cons c junk ih =>
    intro s hf hj hq
    have hj2 : is_junk junk := fun d hd => hj d (by simp [hd])
    have hf0 := framing_idle_pop s [] (junk ++ bytes) hf
    have hq1 : (rx_byte c (idle (serial_pop (junk ++ bytes) s))).serial_rx = junk ++ bytes := by
      rw [rx_byte_serial_rx]; rfl
    have hfr : Framing (rx_byte c (idle (serial_pop (junk ++ bytes) s))) [] := by
      rcases hj c (by simp) with e | e
      · subst e
        exact framing_congr _ _ _ (by simp [strip_lf]) (framing_lf _ [] hf0)
      · subst e
        exact framing_bare_cr _ [] hf0 (by rw [hf0.pos]; simp [strip_lf])
    obtain ⟨s1, he, hf1, hq2, hc, hi⟩ := ih _ hfr hj2 hq1
    refine ⟨s1, ?_, hf1, hq2, ?_, ?_⟩
    · rw [List.cons_append, rx_loop, if_pos hf.waiting, he]
    · rw [hc, rx_byte_clock, rx_byte_idle_ms]
      simp only [idle, serial_pop, List.length_cons]
      ring
    · rw [hi, rx_byte_idle_ms]; rfl

/-- The receive loop stores a run of text bytes. -/
theorem rx_loop_text (line bytes : List Nat) : ∀ (s : SIM800_Control) (acc : List Nat),
    Framing s acc → (∀ c ∈ line, c ≠ 10 ∧ c ≠ 13) →
    (strip_lf acc).length + line.length ≤ RX_BUFFER_SIZE → s.serial_rx = line ++ bytes →
    ∃ s1, rx_loop (line ++ bytes) s = rx_loop bytes s1 ∧ Framing s1 (acc ++ line) ∧
      s1.serial_rx = bytes ∧ s1.clock = s.clock + line.length * s.idle_ms ∧
      s1.idle_ms = s.idle_ms := by
  induction line with
  | nil => intro s acc hf _ _ hq; exact ⟨s, rfl, by simpa using hf, hq, by simp, rfl⟩
  | cons c line ih =>
    intro s acc hf hl hlen hq
    have hc := hl c (by simp)
    have hf0 := framing_idle_pop s acc (line ++ bytes) hf
    have hq1 : (rx_byte c (idle (serial_pop (line ++ bytes) s))).serial_rx = line ++ bytes := by
      rw [rx_byte_serial_rx]; rfl
    have hpos : (idle (serial_pop (line ++ bytes) s)).rx_buff_pos < RX_BUFFER_SIZE := by
      rw [hf0.pos]; simp at hlen; omega
    have hfr := framing_char _ acc c hf0 hc.1 hc.2 hpos
    have hs : strip_lf (acc ++ [c]) = strip_lf acc ++ [c] := by simp [strip_lf, hc.1]
    obtain ⟨s1, he, hf1, hq2, hck, hi⟩ := ih _ (acc ++ [c]) hfr
      (fun d hd => hl d (by simp [hd])) (by rw [hs]; simp at hlen ⊢; omega) hq1
    refine ⟨s1, ?_, by simpa using hf1, hq2, ?_, ?_⟩
    · rw [List.cons_append, rx_loop, if_pos hf.waiting, he]
    · rw [hck, rx_byte_clock, rx_byte_idle_ms]
      simp only [idle, serial_pop, List.length_cons]
      ring
    · rw [hi, rx_byte_idle_ms]; rfl

theorem strip_lf_of_line (l : List Nat) (h : ∀ c ∈ l, c ≠ 10 ∧ c ≠ 13) : strip_lf l = l := by
  simp only [strip_lf, List.filter_eq_self]
  intro c hc
  simpa using (h c hc).1

/-- What one call of `check_for_response` does with a line waiting in the queue. -/
theorem check_for_response_line (s : SIM800_Control) (junk line rest : List Nat)
    (hfresh : Fresh s) (hq : s.serial_rx = junk ++ line ++ 13 :: rest)
    (hj : is_junk junk) (hl : is_line line) :
    (check_for_response s).rx_buff_state = BS_DATA ∧
      (check_for_response s).serial_rx = rest ∧
      (check_for_response s).clock = s.clock + (junk.length + line.length + 1) * s.idle_ms ∧
      (check_for_response s).rx_buff_pos = line.length ∧
      (∃ tail, (check_for_response s).rx_buffer = line ++ 0 :: tail) ∧
      (check_for_response s).rx_buffer.length = RX_BUFFER_SIZE := by
  obtain ⟨hne, hlen, hch⟩ := hl
  have hch2 : ∀ c ∈ line, c ≠ 10 ∧ c ≠ 13 := fun c hc => ⟨(hch c hc).2.1, (hch c hc).2.2⟩
  have hstrip := strip_lf_of_line line hch2
  have hf := fresh_prepare s hfresh
  have hq0 : (rx_prepare s).serial_rx = junk ++ (line ++ 13 :: rest) := by
    rw [rx_prepare_serial_rx, hq, List.append_assoc]
  obtain ⟨s1, he1, hf1, hq1, hc1, hi1⟩ := rx_loop_junk junk _ _ hf hj hq0
  obtain ⟨s2, he2, hf2, hq2, hc2, hi2⟩ := rx_loop_text line (13 :: rest) s1 [] hf1 hch2
    (by simp [strip_lf]; omega) hq1
  have hclk0 : (rx_prepare s).clock = s.clock := by
    simp only [rx_prepare]; split_ifs <;> rfl
  have hidl0 : (rx_prepare s).idle_ms = s.idle_ms := by
    simp only [rx_prepare]; split_ifs <;> rfl
  have hE : check_for_response s = rx_byte 13 (idle (serial_pop rest s2)) := by
    have hf3 := framing_idle_pop s2 ([] ++ line) rest hf2
    have hst : (rx_byte 13 (idle (serial_pop rest s2))).rx_buff_state = BS_DATA := by
      rw [rx_byte_state]
      have : 0 < (idle (serial_pop rest s2)).rx_buff_pos := by
        rw [hf3.pos]; simp only [List.nil_append, hstrip]
        exact List.length_pos.mpr hne
      simp [this]
    simp only [check_for_response]
    rw [rx_prepare_serial_rx, hq, List.append_assoc, he1, he2, rx_loop, if_pos hf2.waiting,
      rx_loop_not_waiting _ _ (by rw [hst]; decide)]
  have hf3 := framing_idle_pop s2 ([] ++ line) rest hf2
  have hpos3 : (idle (serial_pop rest s2)).rx_buff_pos = line.length := by
    rw [hf3.pos]; simp [hstrip]
  have hp : 0 < (idle (serial_pop rest s2)).rx_buff_pos := by
    rw [hpos3]; exact List.length_pos.mpr hne
  have e : rx_byte 13 (idle (serial_pop rest s2))
      = { rx_store (idle (serial_pop rest s2)).rx_buff_pos 0
            (rx_store (idle (serial_pop rest s2)).rx_buff_pos 13 (idle (serial_pop rest s2)))
          with rx_buff_state := BS_DATA } := by
    simp [rx_byte, rx_store, hp]
  rw [hE]
  refine ⟨by rw [e], by rw [rx_byte_serial_rx]; rfl, ?_, ?_, ?_, ?_⟩
  · rw [rx_byte_clock]
    simp only [idle, serial_pop]
    rw [hc2, hc1, hi2, hi1, hclk0, hidl0]; ring
  · rw [e]; exact hpos3
  · refine ⟨((idle (serial_pop rest s2)).rx_buffer.set line.length 13).drop (line.length + 1), ?_⟩
    rw [e]
    simp only [rx_store, hpos3, if_pos hlen]
    rw [set_eq_take_nul _ _ _ (by simp; rw [hf3.size]; exact hlen), take_set_self]
    have := hf3.held
    rw [hpos3] at this
    simp only [List.nil_append, hstrip] at this
    rw [this]
  · rw [e]
    simp only [rx_store, hpos3, if_pos hlen, List.length_set]
    exact hf3.size

/-- One call of `check_for_response` with only CR and LF bytes in the queue. -/
theorem check_for_response_junk (s : SIM800_Control) (junk : List Nat)
    (hfresh : Fresh s) (hq : s.serial_rx = junk) (hj : is_junk junk) :
    (check_for_response s).rx_buff_state = BS_WAITING ∧
      (check_for_response s).serial_rx = [] ∧
      (check_for_response s).clock = s.clock + junk.length * s.idle_ms ∧
      (check_for_response s).rx_buff_pos = 0 ∧
      (check_for_response s).rx_buffer.length = RX_BUFFER_SIZE := by
  have hf := fresh_prepare s hfresh
  have hq0 : (rx_prepare s).serial_rx = junk ++ [] := by
    rw [rx_prepare_serial_rx, hq, List.append_nil]
  obtain ⟨s1, he1, hf1, hq1, hc1, hi1⟩ := rx_loop_junk junk _ _ hf hj hq0
  have hclk0 : (rx_prepare s).clock = s.clock := by
    simp only [rx_prepare]; split_ifs <;> rfl
  have hidl0 : (rx_prepare s).idle_ms = s.idle_ms := by
    simp only [rx_prepare]; split_ifs <;> rfl
  have hE : check_for_response s = s1 := by
    simp only [check_for_response]
    rw [hq0, he1]; rfl
  rw [hE]
  exact ⟨hf1.waiting, hq1, by rw [hc1, hclk0, hidl0], by rw [hf1.pos]; rfl, hf1.size⟩

/-! ## wait_for_status -/

theorem strstr_line (line tail pat : List Nat) :
    strstr (line ++ 0 :: tail) pat = strstr line pat := by
  simp only [strstr, cstr_append_nul]

theorem cstr_line (line tail : List Nat) (h : ∀ c ∈ line, c ≠ 0) :
    cstr (line ++ 0 :: tail) = line := by
  rw [cstr_append_nul, cstr_of_nul_free line h]

theorem fresh_idle (s : SIM800_Control) (h : Fresh s) : Fresh (idle s) := h

theorem fresh_of_data (s : SIM800_Control) (h : s.rx_buff_state = BS_DATA) : Fresh s :=
  Or.inl h

theorem process_urc_state (s : SIM800_Control) :
    (process_urc s).rx_buff_state = s.rx_buff_state :=
  process_urc_blind (fun s => s.rx_buff_state) (fun _ _ _ _ _ _ _ _ _ => rfl) s

theorem process_urc_serial_rx (s : SIM800_Control) : (process_urc s).serial_rx = s.serial_rx :=
  process_urc_blind (fun s => s.serial_rx) (fun _ _ _ _ _ _ _ _ _ => rfl) s

theorem process_urc_clock (s : SIM800_Control) : (process_urc s).clock = s.clock :=
  process_urc_blind (fun s => s.clock) (fun _ _ _ _ _ _ _ _ _ => rfl) s

theorem process_urc_idle_ms (s : SIM800_Control) : (process_urc s).idle_ms = s.idle_ms :=
  process_urc_blind (fun s => s.idle_ms) (fun _ _ _ _ _ _ _ _ _ => rfl) s

/-- A turn of `wait_for_status` that reads a line with neither OK nor ERROR before
the deadline: the wait goes on. -/
theorem wait_for_status_turn_other (start t : Nat) (s : SIM800_Control)
    (junk line rest : List Nat) (hfresh : Fresh s)
    (hq : s.serial_rx = junk ++ line ++ 13 :: rest) (hj : is_junk junk) (hl : is_line line)
    (hok : strstr line (lit "OK") = false) (herr : strstr line (lit "ERROR") = false)
    (hdl : ¬ millis (idle s) > uadd start (t % 256 * 1000)) :
    (wait_for_status_turn start t s).1 = BS_UNKNOWN ∧
      Fresh (wait_for_status_turn start t s).2 ∧
      (wait_for_status_turn start t s).2.serial_rx = rest ∧
      (wait_for_status_turn start t s).2.clock
        = s.clock + (junk.length + line.length + 2) * s.idle_ms ∧
      (wait_for_status_turn start t s).2.idle_ms = s.idle_ms := by
  obtain ⟨hst, hrx, hclk, _, ⟨tail, hbuf⟩, _⟩ :=
    check_for_response_line (idle s) junk line rest (fresh_idle s hfresh) hq hj hl
  have hnul : ∀ c ∈ line, c ≠ 0 := fun c hc => (hl.2.2 c hc).1
  have hidl : (check_for_response (idle s)).idle_ms = s.idle_ms :=
    check_for_response_blind (fun s => s.idle_ms) (fun _ _ _ _ _ _ _ => rfl) (idle s)
  have hclk2 : (check_for_response (idle s)).clock
      = s.clock + (junk.length + line.length + 2) * s.idle_ms := by
    rw [hclk]; simp only [idle]; ring
  have h1 : strstr (check_for_response (idle s)).rx_buffer (lit "OK") = false := by
    rw [hbuf, strstr_line, hok]
  have h2 : strstr (check_for_response (idle s)).rx_buffer (lit "ERROR") = false := by
    rw [hbuf, strstr_line, herr]
  simp only [wait_for_status_turn, hst, h1, h2, if_true, if_neg hdl, Bool.false_eq_true, if_false]
  split_ifs
  · exact ⟨rfl, fresh_of_data _ (by rw [process_urc_state, hst]),
      by rw [process_urc_serial_rx, hrx], by rw [process_urc_clock, hclk2],
      by rw [process_urc_idle_ms, hidl]⟩
  · exact ⟨rfl, fresh_of_data _ hst, hrx, hclk2, hidl⟩

/-- A turn of `wait_for_status` that reads a line with OK or ERROR: the wait ends
with the line's classification, whatever the clock says. -/
theorem wait_for_status_turn_status (start t : Nat) (s : SIM800_Control)
    (junk line rest : List Nat) (hfresh : Fresh s)
    (hq : s.serial_rx = junk ++ line ++ 13 :: rest) (hj : is_junk junk) (hl : is_line line)
    (hst : strstr line (lit "OK") = true ∨ strstr line (lit "ERROR") = true) :
    (wait_for_status_turn start t s).1
        = (if strstr line (lit "OK") then BS_OK else BS_ERROR) ∧
      (wait_for_status_turn start t s).2 = check_for_response (idle s) := by
  obtain ⟨hsd, _, _, _, ⟨tail, hbuf⟩, _⟩ :=
    check_for_response_line (idle s) junk line rest (fresh_idle s hfresh) hq hj hl
  have hnul : ∀ c ∈ line, c ≠ 0 := fun c hc => (hl.2.2 c hc).1
  have h1 : strstr (check_for_response (idle s)).rx_buffer (lit "OK")
      = strstr line (lit "OK") := by rw [hbuf, strstr_line]
  have h2 : strstr (check_for_response (idle s)).rx_buffer (lit "ERROR")
      = strstr line (lit "ERROR") := by rw [hbuf, strstr_line]
  simp only [wait_for_status_turn, hsd, h1, h2, if_true]
  by_cases hok : strstr line (lit "OK") = true
  · simp [hok]
  · have herr : strstr line (lit "ERROR") = true := by
      rcases hst with h | h
      · exact absurd h hok
      · exact h
    simp [hok, herr]

theorem frame_lines_length_cons (f : List Nat × List Nat) (fs : List (List Nat × List Nat)) :
    (frame_lines (f :: fs)).length = f.1.length + f.2.length + 1 + (frame_lines fs).length := by
  simp [frame_lines]; ring

/-- The loop of `wait_for_status` works through lines with neither OK nor ERROR and
stops at the first line with one of them. -/
theorem wait_for_status_loop_skip (start t B c0 : Nat)
    (hB : ∀ c, c0 ≤ c → c ≤ B → ¬ c % ULONG > uadd start (t % 256 * 1000))
    (junk l rest : List Nat) (hj : is_junk junk) (hl : is_line l)
    (hst : strstr l (lit "OK") = true ∨ strstr l (lit "ERROR") = true) :
    ∀ (pre : List (List Nat × List Nat)) (s : SIM800_Control) (fuel : Nat), Fresh s →
    s.serial_rx = frame_lines pre ++ (junk ++ l ++ 13 :: rest) →
    (∀ f ∈ pre, is_junk f.1 ∧ is_line f.2 ∧
      strstr f.2 (lit "OK") = false ∧ strstr f.2 (lit "ERROR") = false) →
    c0 ≤ s.clock →
    s.clock + (pre.length + (frame_lines pre).length) * s.idle_ms ≤ B →
    pre.length < fuel →
    ∃ s0, Fresh s0 ∧ s0.serial_rx = junk ++ l ++ 13 :: rest ∧
      wait_for_status_loop fuel start t s
        = some (if strstr l (lit "OK") then BS_OK else BS_ERROR, check_for_response (idle s0)) := by
  intro pre
  induction pre with
  | nil =>
    intro s fuel hfresh hq _ _ _ hfuel
    cases fuel with
    | zero => simp at hfuel
    | succ f =>
      obtain ⟨h1, h2⟩ := wait_for_status_turn_status start t s junk l rest hfresh
        (by simpa [frame_lines] using hq) hj hl hst
      refine ⟨s, hfresh, by simpa [frame_lines] using hq, ?_⟩
      have hne : (wait_for_status_turn start t s).1 ≠ BS_UNKNOWN := by
        rw [h1]; split_ifs <;> decide
      rw [wait_for_status_loop]
      simp only [if_neg hne]
      rw [← h1, ← h2]
  | cons f pre ih =>
    intro s fuel hfresh hq hpre hc0 hbound hfuel
    cases fuel with
    | zero => simp at hfuel
    | succ fu =>
      obtain ⟨hfj, hfl, hfok, hferr⟩ := hpre f (by simp)
      have hq2 : s.serial_rx
          = f.1 ++ f.2 ++ 13 :: (frame_lines pre ++ (junk ++ l ++ 13 :: rest)) := by
        rw [hq]; simp [frame_lines]
      have hlen := frame_lines_length_cons f pre
      have hbound2 : s.clock + (pre.length + 1 + (f.1.length + f.2.length + 1
          + (frame_lines pre).length)) * s.idle_ms ≤ B := by
        rw [hlen] at hbound; simpa using hbound
      have hdl : ¬ millis (idle s) > uadd start (t % 256 * 1000) := by
        apply hB
        · simp only [idle]; omega
        · simp only [idle]; nlinarith
      obtain ⟨h1, h2, h3, h4, h5⟩ :=
        wait_for_status_turn_other start t s f.1 f.2 _ hfresh hq2 hfj hfl hfok hferr hdl
      obtain ⟨s0, hs0, hq0, he⟩ := ih _ fu h2 h3 (fun g hg => hpre g (by simp [hg]))
        (by rw [h4]; omega) (by rw [h4, h5]; nlinarith) (by simpa using hfuel)
      refine ⟨s0, hs0, hq0, ?_⟩
      rw [wait_for_status_loop]
      simp only [h1, if_true]
      exact he

/-- The loop of `wait_for_status` gives BS_TIMEOUT only from a turn in which the clock had passed
the deadline and no line with OK or ERROR was read. -/
theorem wait_for_status_loop_timeout_only (start t : Nat) : ∀ (fuel : Nat)
    (s s1 : SIM800_Control),
    wait_for_status_loop fuel start t s = some (BS_TIMEOUT, s1) →
    ∃ s0, wait_for_status_turn start t s0 = (BS_TIMEOUT, s1) ∧
      millis (idle s0) > uadd start (t % 256 * 1000) ∧
      ¬ ((check_for_response (idle s0)).rx_buff_state = BS_DATA ∧
        (strstr (check_for_response (idle s0)).rx_buffer (lit "OK") = true ∨
          strstr (check_for_response (idle s0)).rx_buffer (lit "ERROR") = true)) := by
  intro fuel
  induction fuel with
  | zero => intro s s1 h; simp [wait_for_status_loop] at h
  | succ f ih =>
    intro s s1 h
    rw [wait_for_status_loop] at h
    by_cases hu : (wait_for_status_turn start t s).1 = BS_UNKNOWN
    · simp only [hu, if_true] at h
      exact ih _ _ h
    · simp only [hu, if_false, Option.some.injEq] at h
      refine ⟨s, h, ?_⟩
      have h1 : (wait_for_status_turn start t s).1 = BS_TIMEOUT := by rw [h]
      have key : (wait_for_status_turn start t s).1 = BS_TIMEOUT →
          millis (idle s) > uadd start (t % 256 * 1000) ∧
          ¬ ((check_for_response (idle s)).rx_buff_state = BS_DATA ∧
            (strstr (check_for_response (idle s)).rx_buffer (lit "OK") = true ∨
              strstr (check_for_response (idle s)).rx_buffer (lit "ERROR") = true)) := by
        simp only [wait_for_status_turn]
        split_ifs <;> simp_all
      exact key h1

theorem no_wrap_deadline (clock T c : Nat) (hw : clock % ULONG + T < ULONG) (h1 : clock ≤ c)
    (h2 : c ≤ clock + T) : ¬ c % ULONG > uadd (clock % ULONG) T := by
  simp only [uadd, ULONG] at *
  omega

/-- C2: with the lines of the modem waiting on the serial line, any number of lines
that contain neither OK nor ERROR (unmodelled URCs among them) followed by a line that
contains one of them, `wait_for_status` returns the classification of that line
(BS_OK if it contains OK, otherwise BS_ERROR) provided the lines before it are read
within the timeout; and whenever it returns BS_TIMEOUT the clock had passed the
deadline in a turn that read no line with OK or ERROR. -/
theorem status_wait_tolerates_urcs (s : SIM800_Control) (t fuel : Nat)
    (pre : List (List Nat × List Nat)) (junk l rest : List Nat)
    (hfresh : Fresh s) (hq : s.serial_rx = frame_lines pre ++ (junk ++ l ++ 13 :: rest))
    (hpre : ∀ f ∈ pre, is_junk f.1 ∧ is_line f.2 ∧
      strstr f.2 (lit "OK") = false ∧ strstr f.2 (lit "ERROR") = false)
    (hj : is_junk junk) (hl : is_line l)
    (hst : strstr l (lit "OK") = true ∨ strstr l (lit "ERROR") = true)
    (hwrap : millis s + t % 256 * 1000 < ULONG)
    (htime : (pre.length + (frame_lines pre).length) * s.idle_ms ≤ t % 256 * 1000)
    (hfuel : pre.length < fuel) :
    (∃ s1, wait_for_status fuel t s
          = some (if strstr l (lit "OK") then BS_OK else BS_ERROR, s1) ∧
        cstr s1.rx_buffer = l ∧ s1.serial_rx = rest) ∧
      (∀ (fuel2 : Nat) (s2 s3 : SIM800_Control),
        wait_for_status fuel2 t s2 = some (BS_TIMEOUT, s3) →
        ∃ s0, wait_for_status_turn (millis s2) t s0 = (BS_TIMEOUT, s3) ∧
          millis (idle s0) > uadd (millis s2) (t % 256 * 1000) ∧
          ¬ ((check_for_response (idle s0)).rx_buff_state = BS_DATA ∧
            (strstr (check_for_response (idle s0)).rx_buffer (lit "OK") = true ∨
              strstr (check_for_response (idle s0)).rx_buffer (lit "ERROR") = true))) := by
  constructor
  · obtain ⟨s0, hs0, hq0, he⟩ := wait_for_status_loop_skip (millis s) t
      (s.clock + t % 256 * 1000) s.clock
      (fun c h1 h2 => no_wrap_deadline s.clock _ c hwrap h1 h2)
      junk l rest hj hl hst pre s fuel hfresh hq hpre (le_refl _) (by omega) hfuel
    obtain ⟨_, hrx, _, _, ⟨tail, hbuf⟩, _⟩ :=
      check_for_response_line (idle s0) junk l rest (fresh_idle s0 hs0) hq0 hj hl
    exact ⟨_, he, by rw [hbuf, cstr_line _ _ (fun c hc => (hl.2.2 c hc).1)], hrx⟩
  · intro fuel2 s2 s3 h
    exact wait_for_status_loop_timeout_only (millis s2) t fuel2 s2 s3 h

/-- C2 witness: two `+CIEV: x` lines, then `OK`, each framed by CR LF. -/
theorem status_wait_tolerates_urcs_witness :
    (∃ s1, wait_for_status 3 2
          (with_input (frame_lines [([13, 10], lit "+CIEV: x"), ([10, 13, 10], lit "+CIEV: x")]
            ++ ([10, 13, 10] ++ lit "OK" ++ 13 :: [10])))
          = some (if strstr (lit "OK") (lit "OK") then BS_OK else BS_ERROR, s1) ∧
        cstr s1.rx_buffer = lit "OK" ∧ s1.serial_rx = [10]) ∧
      (∀ (fuel2 : Nat) (s2 s3 : SIM800_Control),
        wait_for_status fuel2 2 s2 = some (BS_TIMEOUT, s3) →
        ∃ s0, wait_for_status_turn (millis s2) 2 s0 = (BS_TIMEOUT, s3) ∧
          millis (idle s0) > uadd (millis s2) (2 % 256 * 1000) ∧
          ¬ ((check_for_response (idle s0)).rx_buff_state = BS_DATA ∧
            (strstr (check_for_response (idle s0)).rx_buffer (lit "OK") = true ∨
              strstr (check_for_response (idle s0)).rx_buffer (lit "ERROR") = true))) :=
  status_wait_tolerates_urcs _ 2 3
    [([13, 10], lit "+CIEV: x"), ([10, 13, 10], lit "+CIEV: x")] [10, 13, 10] (lit "OK") [10]
    (Or.inr (Or.inr ⟨rfl, List.length_replicate _ _⟩)) rfl (by decide) (by decide) (by decide)
    (by decide) (by decide) (by decide) (by decide)

/-! ## wait_for_data -/

theorem strlen_line (line tail : List Nat) (h : ∀ c ∈ line, c ≠ 0) :
    strlen (line ++ 0 :: tail) = line.length := by
  rw [strlen, cstr_line line tail h]

/-- The turn of `wait_for_data` on a waiting line, as a function of the line alone. -/
theorem wait_for_data_turn_line (pattern : Option (List Nat)) (start t : Nat)
    (s : SIM800_Control) (junk line rest : List Nat) (hfresh : Fresh s)
    (hq : s.serial_rx = junk ++ line ++ 13 :: rest) (hj : is_junk junk) (hl : is_line line) :
    wait_for_data_turn pattern start t s =
      if line.length < 4 ∧ strstr line (lit "OK") = true then
        (BS_OK, check_for_response (idle s))
      else if line.length < 7 ∧ strstr line (lit "ERROR") = true then
        (BS_ERROR, check_for_response (idle s))
      else
        match pattern with
        | some pat =>
          if strstr line pat = true then (BS_DATA, check_for_response (idle s))
          else (if millis (idle s) > uadd start (t % 256 * 1000) then BS_TIMEOUT else BS_UNKNOWN,
                process_urc (check_for_response (idle s)))
        | none => (BS_DATA, check_for_response (idle s)) := by
  obtain ⟨hsd, _, _, _, ⟨tail, hbuf⟩, _⟩ :=
    check_for_response_line (idle s) junk line rest (fresh_idle s hfresh) hq hj hl
  have hnul : ∀ c ∈ line, c ≠ 0 := fun c hc => (hl.2.2 c hc).1
  have h0 : strlen (check_for_response (idle s)).rx_buffer = line.length := by
    rw [hbuf, strlen_line _ _ hnul]
  have hs : ∀ pat, strstr (check_for_response (idle s)).rx_buffer pat = strstr line pat := by
    intro pat; rw [hbuf, strstr_line]
  simp only [wait_for_data_turn, hsd, if_true, h0, hs]

/-- C3: for a line waiting on the serial line, the turn of `wait_for_data` that reads
it gives BS_OK exactly when the line is shorter than 4 characters and contains OK,
and BS_ERROR exactly when it is not such a line, is shorter than 7 characters and
contains ERROR; a line shorter than 4 characters with OK makes `wait_for_data`
return BS_OK. -/
theorem data_wait_length_guard (pattern : Option (List Nat)) (fuel t : Nat)
    (s : SIM800_Control) (junk line rest : List Nat) (hfresh : Fresh s)
    (hq : s.serial_rx = junk ++ line ++ 13 :: rest) (hj : is_junk junk) (hl : is_line line) :
    ((wait_for_data_turn pattern (millis s) t s).1 = BS_OK ↔
        (line.length < 4 ∧ strstr line (lit "OK") = true)) ∧
      ((wait_for_data_turn pattern (millis s) t s).1 = BS_ERROR ↔
        (¬ (line.length < 4 ∧ strstr line (lit "OK") = true) ∧
          line.length < 7 ∧ strstr line (lit "ERROR") = true)) ∧
      ((line.length < 4 ∧ strstr line (lit "OK") = true) →
        ∃ s1, wait_for_data pattern (fuel + 1) t s = some (BS_OK, s1) ∧
          cstr s1.rx_buffer = line) := by
  have hturn := wait_for_data_turn_line pattern (millis s) t s junk line rest hfresh hq hj hl
  refine ⟨?_, ?_, ?_⟩
  · rw [hturn]
    by_cases h1 : line.length < 4 ∧ strstr line (lit "OK") = true
    · simp [h1]
    · simp only [h1, if_false, iff_false]
      cases pattern with
      | none => split_ifs <;> simp
      | some pat => simp only []; split_ifs <;> simp
  · rw [hturn]
    by_cases h1 : line.length < 4 ∧ strstr line (lit "OK") = true
    · simp [h1]
    · simp only [h1, if_false, not_false_eq_true, true_and]
      by_cases h2 : line.length < 7 ∧ strstr line (lit "ERROR") = true
      · simp [h2]
      · simp only [h2, if_false, iff_false]
        cases pattern with
        | none => simp
        | some pat => simp only []; split_ifs <;> simp
  · intro h1
    obtain ⟨_, _, _, _, ⟨tail, hbuf⟩, _⟩ :=
      check_for_response_line (idle s) junk line rest (fresh_idle s hfresh) hq hj hl
    refine ⟨check_for_response (idle s), ?_, ?_⟩
    · rw [wait_for_data, wait_for_data_loop, hturn]
      simp [h1]
    · rw [hbuf, cstr_line _ _ (fun c hc => (hl.2.2 c hc).1)]

/-- C3 witness: the reply `CR LF O K CR LF`. -/
theorem data_wait_length_guard_witness :
    ((wait_for_data_turn none (millis (with_input ([13, 10] ++ lit "OK" ++ 13 :: [10]))) 2
          (with_input ([13, 10] ++ lit "OK" ++ 13 :: [10]))).1 = BS_OK ↔
        ((lit "OK").length < 4 ∧ strstr (lit "OK") (lit "OK") = true)) ∧
      ((wait_for_data_turn none (millis (with_input ([13, 10] ++ lit "OK" ++ 13 :: [10]))) 2
          (with_input ([13, 10] ++ lit "OK" ++ 13 :: [10]))).1 = BS_ERROR ↔
        (¬ ((lit "OK").length < 4 ∧ strstr (lit "OK") (lit "OK") = true) ∧
          (lit "OK").length < 7 ∧ strstr (lit "OK") (lit "ERROR") = true)) ∧
      (((lit "OK").length < 4 ∧ strstr (lit "OK") (lit "OK") = true) →
        ∃ s1, wait_for_data none (0 + 1) 2 (with_input ([13, 10] ++ lit "OK" ++ 13 :: [10]))
            = some (BS_OK, s1) ∧ cstr s1.rx_buffer = lit "OK") :=
  data_wait_length_guard none 0 2 _ [13, 10] (lit "OK") [10]
    (Or.inr (Or.inr ⟨rfl, List.length_replicate _ _⟩)) rfl (by decide) (by decide)

/-- The long data line `+CMGL: 1,"OK",...` is never classified as BS_OK, whatever
the pattern: with the pattern `+CMGL:` it is data. -/
theorem data_wait_long_line_not_ok (pattern : Option (List Nat)) (start t : Nat) :
    (wait_for_data_turn pattern start t (with_input (CMGL_OK_LINE ++ [13, 10]))).1 ≠ BS_OK ∧
      (wait_for_data_turn (some (lit "+CMGL:")) start t
        (with_input (CMGL_OK_LINE ++ [13, 10]))).1 = BS_DATA := by
  have hturn := fun pat => wait_for_data_turn_line pat start t
    (with_input (CMGL_OK_LINE ++ [13, 10])) [] CMGL_OK_LINE [10]
    (Or.inr (Or.inr ⟨rfl, List.length_replicate _ _⟩)) rfl (by decide) (by decide)
  have h1 : ¬ (CMGL_OK_LINE.length < 4 ∧ strstr CMGL_OK_LINE (lit "OK") = true) := by decide
  have h2 : ¬ (CMGL_OK_LINE.length < 7 ∧ strstr CMGL_OK_LINE (lit "ERROR") = true) := by decide
  constructor
  · rw [hturn pattern]
    simp only [h1, h2, if_false]
    cases pattern with
    | none => simp
    | some pat => simp only []; split_ifs <;> simp
  · have h3 : strstr CMGL_OK_LINE (lit "+CMGL:") = true := by decide
    rw [hturn]
    simp only [h1, h2, if_false, h3, if_true]

/-- C4: a waiting line that is not a short OK/ERROR status makes `wait_for_data`
return BS_DATA when no pattern was supplied, and when a pattern was supplied and the
line contains it; otherwise the line goes to `process_urc`, the turn's result is the
timeout flag alone, and (the deadline not passed) the wait goes on from there. -/
theorem data_wait_matching (fuel t : Nat) (s : SIM800_Control) (junk line rest : List Nat)
    (hfresh : Fresh s) (hq : s.serial_rx = junk ++ line ++ 13 :: rest) (hj : is_junk junk)
    (hl : is_line line)
    (hok : ¬ (line.length < 4 ∧ strstr line (lit "OK") = true))
    (herr : ¬ (line.length < 7 ∧ strstr line (lit "ERROR") = true)) :
    (∃ s1, wait_for_data none (fuel + 1) t s = some (BS_DATA, s1) ∧ cstr s1.rx_buffer = line) ∧
      (∀ pat, strstr line pat = true →
        ∃ s1, wait_for_data (some pat) (fuel + 1) t s = some (BS_DATA, s1) ∧
          cstr s1.rx_buffer = line) ∧
      (∀ pat, strstr line pat = false →
        wait_for_data_turn (some pat) (millis s) t s
          = (if millis (idle s) > uadd (millis s) (t % 256 * 1000) then BS_TIMEOUT
              else BS_UNKNOWN, process_urc (check_for_response (idle s))) ∧
        wait_for_data (some pat) (fuel + 1) t s
          = if millis (idle s) > uadd (millis s) (t % 256 * 1000)
            then some (BS_TIMEOUT, process_urc (check_for_response (idle s)))
            else wait_for_data_loop (some pat) fuel (millis s) t
              (process_urc (check_for_response (idle s)))) := by
  have hturn := fun pattern =>
    wait_for_data_turn_line pattern (millis s) t s junk line rest hfresh hq hj hl
  obtain ⟨_, _, _, _, ⟨tail, hbuf⟩, _⟩ :=
    check_for_response_line (idle s) junk line rest (fresh_idle s hfresh) hq hj hl
  have hc : cstr (check_for_response (idle s)).rx_buffer = line := by
    rw [hbuf, cstr_line _ _ (fun c hc => (hl.2.2 c hc).1)]
  refine ⟨⟨_, ?_, hc⟩, fun pat hp => ⟨_, ?_, hc⟩, fun pat hp => ?_⟩
  · rw [wait_for_data, wait_for_data_loop, hturn]
    simp [hok, herr]
  · rw [wait_for_data, wait_for_data_loop, hturn]
    simp [hok, herr, hp]
  · have e : wait_for_data_turn (some pat) (millis s) t s
        = (if millis (idle s) > uadd (millis s) (t % 256 * 1000) then BS_TIMEOUT
            else BS_UNKNOWN, process_urc (check_for_response (idle s))) := by
      rw [hturn]
      simp only [hok, herr, if_false, hp, Bool.false_eq_true]
    refine ⟨e, ?_⟩
    rw [wait_for_data, wait_for_data_loop, e]
    by_cases hd : millis (idle s) > uadd (millis s) (t % 256 * 1000)
    · simp [hd]
    · simp [hd]

/-- C4 witness: the line `+CSQ: 18,0` framed by CR LF. -/
theorem data_wait_matching_witness :
    (∃ s1, wait_for_data none (0 + 1) 5 (with_input ([13, 10] ++ lit "+CSQ: 18,0" ++ 13 :: [10]))
        = some (BS_DATA, s1) ∧ cstr s1.rx_buffer = lit "+CSQ: 18,0") ∧
      (∀ pat, strstr (lit "+CSQ: 18,0") pat = true →
        ∃ s1, wait_for_data (some pat) (0 + 1) 5
            (with_input ([13, 10] ++ lit "+CSQ: 18,0" ++ 13 :: [10])) = some (BS_DATA, s1) ∧
          cstr s1.rx_buffer = lit "+CSQ: 18,0") ∧
      (∀ pat, strstr (lit "+CSQ: 18,0") pat = false →
        wait_for_data_turn (some pat)
            (millis (with_input ([13, 10] ++ lit "+CSQ: 18,0" ++ 13 :: [10]))) 5
            (with_input ([13, 10] ++ lit "+CSQ: 18,0" ++ 13 :: [10]))
          = (if millis (idle (with_input ([13, 10] ++ lit "+CSQ: 18,0" ++ 13 :: [10])))
                > uadd (millis (with_input ([13, 10] ++ lit "+CSQ: 18,0" ++ 13 :: [10])))
                  (5 % 256 * 1000) then BS_TIMEOUT
              else BS_UNKNOWN,
              process_urc (check_for_response
                (idle (with_input ([13, 10] ++ lit "+CSQ: 18,0" ++ 13 :: [10]))))) ∧
        wait_for_data (some pat) (0 + 1) 5
            (with_input ([13, 10] ++ lit "+CSQ: 18,0" ++ 13 :: [10]))
          = if millis (idle (with_input ([13, 10] ++ lit "+CSQ: 18,0" ++ 13 :: [10])))
                > uadd (millis (with_input ([13, 10] ++ lit "+CSQ: 18,0" ++ 13 :: [10])))
                  (5 % 256 * 1000)
            then some (BS_TIMEOUT, process_urc (check_for_response
                (idle (with_input ([13, 10] ++ lit "+CSQ: 18,0" ++ 13 :: [10])))))
            else wait_for_data_loop (some pat) 0
              (millis (with_input ([13, 10] ++ lit "+CSQ: 18,0" ++ 13 :: [10]))) 5
              (process_urc (check_for_response
                (idle (with_input ([13, 10] ++ lit "+CSQ: 18,0" ++ 13 :: [10])))))) :=
  data_wait_matching 0 5 _ [13, 10] (lit "+CSQ: 18,0") [10]
    (Or.inr (Or.inr ⟨rfl, List.length_replicate _ _⟩)) rfl (by decide) (by decide)
    (by decide) (by decide)

/-! ## The UCS2 block of get_pending_sms -/

theorem char_at_set_ne (buf : List Nat) (i j v : Nat) (h : i ≠ j) :
    char_at (buf.set i v) j = char_at buf j := by
  simp [char_at, List.getD_eq_getElem?_getD, List.getElem?_set, h]

theorem char_at_set_eq (buf : List Nat) (i v : Nat) (h : i < buf.length) :
    char_at (buf.set i v) i = v := by
  simp [char_at, List.getD_eq_getElem?_getD, List.getElem?_set, h]

theorem strlen_le_length (buf : List Nat) : strlen buf ≤ buf.length :=
  (List.takeWhile_prefix _).length_le

theorem ucs2_quad_congr (a b : List Nat) (p : Nat)
    (h : ∀ j, j < 4 → char_at a (p + j) = char_at b (p + j)) : ucs2_quad a p = ucs2_quad b p := by
  have h0 := h 0 (by omega)
  have h1 := h 1 (by omega)
  have h2 := h 2 (by omega)
  have h3 := h 3 (by omega)
  simp only [Nat.add_zero] at h0
  simp only [ucs2_quad, h0, h1, h2, h3]

/-- The decode loop stores at every index it visits the byte of that index's own
quad in the buffer it started from, and touches nothing else. -/
theorem ucs2_decode_loop_spec (orig : List Nat) (off : Nat) : ∀ (m idx : Nat) (cur : List Nat),
    cur.length = orig.length → (∀ i, idx ≤ i → char_at cur i = char_at orig i) →
    idx + m ≤ orig.length → 4 * (idx + m) + off ≤ 256 →
    (ucs2_decode_loop m idx off cur).length = orig.length ∧
      (∀ k, idx ≤ k → k < idx + m →
        char_at (ucs2_decode_loop m idx off cur) k = ucs2_quad orig (4 * k + off)) ∧
      (∀ i, i < idx → char_at (ucs2_decode_loop m idx off cur) i = char_at cur i) ∧
      (∀ i, idx + m ≤ i → char_at (ucs2_decode_loop m idx off cur) i = char_at orig i) := by
  intro m
  induction m with
  | zero =>
    intro idx cur hlen hag _ _
    exact ⟨hlen, fun k h1 h2 => by omega, fun i _ => rfl, fun i hi => hag i (by omega)⟩
  | succ m ih =>
    intro idx cur hlen hag hfit hbyte
    have hmod : (idx * 4 + off) % 256 = 4 * idx + off := by omega
    have hq : ucs2_quad cur (4 * idx + off) = ucs2_quad orig (4 * idx + off) :=
      ucs2_quad_congr _ _ _ (fun j _ => hag _ (by omega))
    have hidx : idx < cur.length := by omega
    obtain ⟨h1, h2, h3, h4⟩ := ih (idx + 1) (cur.set idx (ucs2_quad cur ((idx * 4 + off) % 256)))
      (by rw [List.length_set, hlen])
      (fun i hi => by rw [char_at_set_ne _ _ _ _ (by omega)]; exact hag i (by omega))
      (by omega) (by omega)
    rw [ucs2_decode_loop]
    refine ⟨h1, ?_, ?_, ?_⟩
    · intro k hk1 hk2
      by_cases hk : k = idx
      · subst hk
        rw [h3 k (by omega), char_at_set_eq _ _ _ hidx, hmod, hq]
      · exact h2 k (by omega) (by omega)
    · intro i hi
      rw [h3 i (by omega), char_at_set_ne _ _ _ _ (by omega)]
    · intro i hi
      exact h4 i (by omega)

theorem ucs2_scan_range (buf : List Nat) : ∀ (n idx : Nat),
    ucs2_scan n idx buf = 255 ∨
      (idx ≤ ucs2_scan n idx buf ∧ ucs2_scan n idx buf < idx + n) := by
  intro n
  induction n with
  | zero => intro idx; left; rfl
  | succ n ih =>
    intro idx
    rw [ucs2_scan]
    split_ifs
    · right; omega
    · rcases ih (idx + 1) with h | h
      · left; exact h
      · right; omega

/-- When the block decodes, the start offset is below 8 and the body has at least
14 characters. -/
theorem ucs2_start_offset_trigger (cid buf : List Nat) (h : ucs2_start_offset cid buf ≠ 255) :
    ucs2_start_offset cid buf < 8 ∧ 14 ≤ strlen buf := by
  unfold ucs2_start_offset at h ⊢
  split_ifs at h ⊢ with hc
  · rcases ucs2_scan_range buf 8 0 with h2 | h2
    · exact absurd h2 h
    · exact ⟨by omega, hc.2⟩
  · exact absurd rfl h

/-- The block of `get_pending_sms`, when it decodes: every byte below the decoded
length is the byte of its own quad, the byte at the decoded length is NUL, and the
rest of the buffer is as it was. -/
theorem ucs2_fixup_spec (s : SIM800_Control) (hlen : s.sms_buffer.length = TX_BUFFER_SIZE)
    (htrig : ucs2_start_offset s.stored_caller_id s.sms_buffer ≠ 255) :
    (ucs2_fixup s).sms_buffer.length = TX_BUFFER_SIZE ∧
      ucs2_decoded_length s.sms_buffer (ucs2_start_offset s.stored_caller_id s.sms_buffer)
        = (strlen s.sms_buffer - ucs2_start_offset s.stored_caller_id s.sms_buffer) / 4 ∧
      (∀ k, k < ucs2_decoded_length s.sms_buffer
            (ucs2_start_offset s.stored_caller_id s.sms_buffer) →
        char_at (ucs2_fixup s).sms_buffer k = ucs2_quad s.sms_buffer
          (4 * k + ucs2_start_offset s.stored_caller_id s.sms_buffer)) ∧
      char_at (ucs2_fixup s).sms_buffer (ucs2_decoded_length s.sms_buffer
        (ucs2_start_offset s.stored_caller_id s.sms_buffer)) = 0 ∧
      (∀ i, ucs2_decoded_length s.sms_buffer
            (ucs2_start_offset s.stored_caller_id s.sms_buffer) < i →
        char_at (ucs2_fixup s).sms_buffer i = char_at s.sms_buffer i) := by
  obtain ⟨hoff, h14⟩ := ucs2_start_offset_trigger _ _ htrig
  have hsl := strlen_le_length s.sms_buffer
  rw [hlen] at hsl
  simp only [TX_BUFFER_SIZE] at hsl hlen ⊢
  have hn : ucs2_decoded_length s.sms_buffer (ucs2_start_offset s.stored_caller_id s.sms_buffer)
      = (strlen s.sms_buffer - ucs2_start_offset s.stored_caller_id s.sms_buffer) / 4 := by
    simp only [ucs2_decoded_length]
    omega
  obtain ⟨h1, h2, _, h4⟩ := ucs2_decode_loop_spec s.sms_buffer
    (ucs2_start_offset s.stored_caller_id s.sms_buffer)
    (ucs2_decoded_length s.sms_buffer (ucs2_start_offset s.stored_caller_id s.sms_buffer))
    0 s.sms_buffer rfl (fun _ _ => rfl) (by rw [hn, hlen]; omega) (by rw [hn]; omega)
  have hout : (ucs2_fixup s).sms_buffer
      = (ucs2_decode_loop
          (ucs2_decoded_length s.sms_buffer (ucs2_start_offset s.stored_caller_id s.sms_buffer))
          0 (ucs2_start_offset s.stored_caller_id s.sms_buffer) s.sms_buffer).set
          (ucs2_decoded_length s.sms_buffer (ucs2_start_offset s.stored_caller_id s.sms_buffer))
          0 := by
    simp only [ucs2_fixup, if_pos htrig]
  rw [hout]
  refine ⟨by rw [List.length_set, h1, hlen], hn, ?_, ?_, ?_⟩
  · intro k hk
    rw [char_at_set_ne _ _ _ _ (by omega)]
    exact h2 k (by omega) (by omega)
  · exact char_at_set_eq _ _ _ (by rw [h1, hlen, hn]; omega)
  · intro i hi
    rw [char_at_set_ne _ _ _ _ (by omega)]
    exact h4 i (by omega)

theorem char_at_cons4 (a b c d : Nat) (l : List Nat) (i : Nat) :
    char_at (a :: b :: c :: d :: l) (i + 4) = char_at l i := by
  simp [char_at]

theorem char_at_quad_body (rest : List Nat) : ∀ (qs : List (Nat × Nat)) (k : Nat) (q : Nat × Nat),
    qs[k]? = some q →
    char_at (quad_body qs ++ rest) (4 * k) = 48 ∧
      char_at (quad_body qs ++ rest) (4 * k + 1) = 48 ∧
      char_at (quad_body qs ++ rest) (4 * k + 2) = q.1 ∧
      char_at (quad_body qs ++ rest) (4 * k + 3) = q.2 := by
  intro qs
  induction qs with
  | nil => intro k q h; simp at h
  | cons p qs ih =>
    intro k q h
    cases k with
    | zero =>
      simp only [List.getElem?_cons_zero, Option.some.injEq] at h
      subst h
      simp [quad_body, char_at]
    | succ k =>
      simp only [List.getElem?_cons_succ] at h
      obtain ⟨h0, h1, h2, h3⟩ := ih k q h
      have e0 : 4 * (k + 1) = 4 * k + 4 := by ring
      have e1 : 4 * (k + 1) + 1 = 4 * k + 1 + 4 := by ring
      have e2 : 4 * (k + 1) + 2 = 4 * k + 2 + 4 := by ring
      have e3 : 4 * (k + 1) + 3 = 4 * k + 3 + 4 := by ring
      simp only [quad_body, List.cons_append]
      rw [e1, e2, e3, e0, char_at_cons4, char_at_cons4, char_at_cons4, char_at_cons4]
      exact ⟨h0, h1, h2, h3⟩

theorem quad_body_length (qs : List (Nat × Nat)) : (quad_body qs).length = 4 * qs.length := by
  induction qs with
  | nil => rfl
  | cons p qs ih => simp only [quad_body, List.length_cons, ih]; ring

theorem quad_body_nul_free (qs : List (Nat × Nat))
    (h : ∀ q ∈ qs, is_hex_upper q.1 ∧ is_hex_upper q.2) : ∀ c ∈ quad_body qs, c ≠ 0 := by
  induction qs with
  | nil => intro c hc; simp [quad_body] at hc
  | cons p qs ih =>
    intro c hc
    obtain ⟨hp1, hp2⟩ := h p (by simp)
    simp only [quad_body, List.mem_cons] at hc
    rcases hc with e | e | e | e | e
    · omega
    · omega
    · subst e; unfold is_hex_upper at hp1; omega
    · subst e; unfold is_hex_upper at hp2; omega
    · exact ih (fun q hq => h q (by simp [hq])) c e

theorem ucs2_quad_of_hex (buf : List Nat) (p x y : Nat) (h0 : char_at buf p = 48)
    (h1 : char_at buf (p + 1) = 48) (h2 : char_at buf (p + 2) = x) (h3 : char_at buf (p + 3) = y)
    (hx : is_hex_upper x) (hy : is_hex_upper y) :
    ucs2_quad buf p = 16 * hex_value x + hex_value y := by
  have ex : ucs2_hex_ok x = true := by
    unfold is_hex_upper at hx
    simp only [ucs2_hex_ok, Bool.or_eq_true, Bool.and_eq_true, decide_eq_true_eq]
    omega
  have ey : ucs2_hex_ok y = true := by
    unfold is_hex_upper at hy
    simp only [ucs2_hex_ok, Bool.or_eq_true, Bool.and_eq_true, decide_eq_true_eq]
    omega
  simp only [ucs2_quad, h0, h1, h2, h3, ex, ey, and_self, if_true, ucs2_ascii_val, hex_value]
  unfold is_hex_upper at hx hy
  split_ifs <;> omega

/-- C5: with a stored caller id whose second character is neither `+` nor `0` and a
fetched body of n >= 4 complete quads `00XY` (X, Y in 0-9, A-F, X not `0` in the
first two quads), the UCS2 block of `get_pending_sms` leaves in the SMS buffer the n
bytes 16*value(X_k)+value(Y_k), followed by a NUL. -/
theorem ucs2_heuristic_decode (s : SIM800_Control) (quads : List (Nat × Nat)) (tail : List Nat)
    (hcid : char_at s.stored_caller_id 1 ≠ 43 ∧ char_at s.stored_caller_id 1 ≠ 48)
    (hbuf : s.sms_buffer = quad_body quads ++ 0 :: tail)
    (hlen : s.sms_buffer.length = TX_BUFFER_SIZE)
    (hn : 4 ≤ quads.length)
    (hhex : ∀ q ∈ quads, is_hex_upper q.1 ∧ is_hex_upper q.2)
    (hx : ∀ q ∈ quads.take 2, q.1 ≠ 48) :
    (ucs2_fixup s).sms_buffer.take quads.length
        = quads.map (fun q => 16 * hex_value q.1 + hex_value q.2) ∧
      char_at (ucs2_fixup s).sms_buffer quads.length = 0 := by
  have hstr : strlen s.sms_buffer = 4 * quads.length := by
    rw [hbuf, strlen_line _ _ (quad_body_nul_free quads hhex), quad_body_length]
  -- the scan finds the pattern at index 0
  obtain ⟨q0, hq0⟩ : ∃ q, quads[0]? = some q :=
    ⟨quads[0], by rw [List.getElem?_eq_getElem]⟩
  obtain ⟨q1, hq1⟩ : ∃ q, quads[1]? = some q :=
    ⟨quads[1], by rw [List.getElem?_eq_getElem]⟩
  have hq0x : q0.1 ≠ 48 := hx q0 (by
    rw [List.mem_iff_getElem?]; exact ⟨0, by rw [List.getElem?_take_of_lt (by omega), hq0]⟩)
  have hq1x : q1.1 ≠ 48 := hx q1 (by
    rw [List.mem_iff_getElem?]; exact ⟨1, by rw [List.getElem?_take_of_lt (by omega), hq1]⟩)
  obtain ⟨a0, a1, a2, _⟩ := char_at_quad_body (0 :: tail) quads 0 q0 hq0
  obtain ⟨b0, b1, b2, _⟩ := char_at_quad_body (0 :: tail) quads 1 q1 hq1
  have hoff : ucs2_start_offset s.stored_caller_id s.sms_buffer = 0 := by
    have hp : ucs2_pattern_at s.sms_buffer 0 = true := by
      simp only [Nat.mul_zero, Nat.zero_add, Nat.mul_one] at a0 a1 a2 b0 b1 b2
      simp [ucs2_pattern_at, hbuf, a0, a1, a2, b0, b1, b2, hq0x, hq1x]
    have hc : (char_at s.stored_caller_id 1 = 112 ∨
        (char_at s.stored_caller_id 1 ≠ 43 ∧ char_at s.stored_caller_id 1 ≠ 48)) ∧
        strlen s.sms_buffer ≥ 14 := ⟨Or.inr hcid, by rw [hstr]; omega⟩
    rw [ucs2_start_offset, if_pos hc, ucs2_scan, if_pos hp]
  obtain ⟨h1, h2, h3, h4, _⟩ := ucs2_fixup_spec s hlen (by rw [hoff]; decide)
  rw [hoff] at h2 h3 h4
  have hdl : ucs2_decoded_length s.sms_buffer 0 = quads.length := by
    rw [h2, hstr]; omega
  rw [hdl] at h3 h4
  refine ⟨?_, h4⟩
  apply List.ext_getElem?
  intro k
  rw [List.getElem?_take, List.getElem?_map]
  by_cases hk : k < quads.length
  · have hk2 : k < (ucs2_fixup s).sms_buffer.length := by
      rw [h1]; simp only [TX_BUFFER_SIZE] at hlen ⊢
      have := strlen_le_length s.sms_buffer
      omega
    have hget : (ucs2_fixup s).sms_buffer[k]? = some (char_at (ucs2_fixup s).sms_buffer k) := by
      simp [char_at, List.getD_eq_getElem?_getD, List.getElem?_eq_getElem hk2]
    obtain ⟨c0, c1, c2, c3⟩ := char_at_quad_body (0 :: tail) quads k quads[k]
      (List.getElem?_eq_getElem hk)
    obtain ⟨hh1, hh2⟩ := hhex quads[k] (List.getElem_mem _)
    rw [if_pos hk, hget, h3 k hk, List.getElem?_eq_getElem hk, Option.map_some']
    rw [Nat.add_zero, hbuf,
      ucs2_quad_of_hex _ (4 * k) _ _ c0 c1 c2 c3 hh1 hh2]
  · rw [if_neg hk, List.getElem?_eq_none (by omega)]
    rfl

set_option maxRecDepth 8000 in
/-- C5 witness: the body `0041004200430044` from the sender `"Lebara"` decodes to
`ABCD`. -/
theorem ucs2_heuristic_decode_witness :
    (ucs2_fixup (with_sms ([34] ++ lit "Lebara" ++ [34]) (lit "0041004200430044"))).sms_buffer.take
        [(52, 49), (52, 50), (52, 51), (52, 52)].length
        = [(52, 49), (52, 50), (52, 51), (52, 52)].map
            (fun q => 16 * hex_value q.1 + hex_value q.2) ∧
      char_at (ucs2_fixup
        (with_sms ([34] ++ lit "Lebara" ++ [34]) (lit "0041004200430044"))).sms_buffer
        [(52, 49), (52, 50), (52, 51), (52, 52)].length = 0 :=
  ucs2_heuristic_decode _ [(52, 49), (52, 50), (52, 51), (52, 52)] (List.replicate 145 0)
    (by decide) (by decide) (by decide) (by decide) (by decide) (by decide)

set_option maxRecDepth 8000 in
theorem ucs2_decode_abcd :
    cstr (ucs2_fixup (with_sms ([34] ++ lit "Lebara" ++ [34])
      (lit "0041004200430044"))).sms_buffer = lit "ABCD" := by
  decide

theorem ucs2_hex_ok_iff (c : Nat) : ucs2_hex_ok c = true ↔ is_hex_upper c := by
  simp only [ucs2_hex_ok, is_hex_upper, Bool.or_eq_true, Bool.and_eq_true, decide_eq_true_eq]

theorem ucs2_quad_not_hex (buf : List Nat) (p : Nat)
    (h : ¬ is_hex_upper (char_at buf (p + 2)) ∨ ¬ is_hex_upper (char_at buf (p + 3))) :
    ucs2_quad buf p = 42 := by
  rw [ucs2_quad, if_neg]
  rw [ucs2_hex_ok_iff, ucs2_hex_ok_iff]
  tauto

/-- C6: in a body that triggers the UCS2 decode, a quad whose third or fourth
character is not a hex digit is stored as `*` at its own output position; every
output position below the decoded length holds the byte of its own quad alone, the
decoded length is a matter of the body's length and start offset only, and so a body
that differs in that one quad (same length, same start offset) decodes to the same
bytes at all other positions and to the same length. -/
theorem ucs2_placeholder (s : SIM800_Control) (hlen : s.sms_buffer.length = TX_BUFFER_SIZE)
    (htrig : ucs2_start_offset s.stored_caller_id s.sms_buffer ≠ 255) :
    (∀ k, k < ucs2_decoded_length s.sms_buffer
          (ucs2_start_offset s.stored_caller_id s.sms_buffer) →
        (¬ is_hex_upper (char_at s.sms_buffer
            (4 * k + ucs2_start_offset s.stored_caller_id s.sms_buffer + 2)) ∨
          ¬ is_hex_upper (char_at s.sms_buffer
            (4 * k + ucs2_start_offset s.stored_caller_id s.sms_buffer + 3))) →
        char_at (ucs2_fixup s).sms_buffer k = 42) ∧
      (∀ k, k < ucs2_decoded_length s.sms_buffer
          (ucs2_start_offset s.stored_caller_id s.sms_buffer) →
        char_at (ucs2_fixup s).sms_buffer k = ucs2_quad s.sms_buffer
          (4 * k + ucs2_start_offset s.stored_caller_id s.sms_buffer)) ∧
      char_at (ucs2_fixup s).sms_buffer (ucs2_decoded_length s.sms_buffer
        (ucs2_start_offset s.stored_caller_id s.sms_buffer)) = 0 ∧
      (∀ (s2 : SIM800_Control) (k : Nat), s2.sms_buffer.length = TX_BUFFER_SIZE →
        ucs2_start_offset s2.stored_caller_id s2.sms_buffer
          = ucs2_start_offset s.stored_caller_id s.sms_buffer →
        strlen s2.sms_buffer = strlen s.sms_buffer →
        (∀ i, i ≠ 4 * k + ucs2_start_offset s.stored_caller_id s.sms_buffer + 2 →
          i ≠ 4 * k + ucs2_start_offset s.stored_caller_id s.sms_buffer + 3 →
          char_at s2.sms_buffer i = char_at s.sms_buffer i) →
        ucs2_decoded_length s2.sms_buffer (ucs2_start_offset s2.stored_caller_id s2.sms_buffer)
          = ucs2_decoded_length s.sms_buffer (ucs2_start_offset s.stored_caller_id s.sms_buffer) ∧
        ∀ j, j < ucs2_decoded_length s.sms_buffer
            (ucs2_start_offset s.stored_caller_id s.sms_buffer) → j ≠ k →
          char_at (ucs2_fixup s2).sms_buffer j = char_at (ucs2_fixup s).sms_buffer j) := by
  obtain ⟨_, h2, h3, h4, _⟩ := ucs2_fixup_spec s hlen htrig
  refine ⟨fun k hk hbad => ?_, h3, h4, ?_⟩
  · rw [h3 k hk]
    exact ucs2_quad_not_hex _ _ hbad
  · intro s2 k hlen2 hoff hstr hsame
    obtain ⟨_, g2, g3, _, _⟩ := ucs2_fixup_spec s2 hlen2 (by rw [hoff]; exact htrig)
    have hdl : ucs2_decoded_length s2.sms_buffer
        (ucs2_start_offset s2.stored_caller_id s2.sms_buffer)
        = ucs2_decoded_length s.sms_buffer
          (ucs2_start_offset s.stored_caller_id s.sms_buffer) := by
      rw [g2, h2, hoff, hstr]
    refine ⟨hdl, fun j hj hjk => ?_⟩
    rw [g3 j (by rw [hdl]; exact hj), h3 j hj, hoff]
    exact ucs2_quad_congr _ _ _ (fun i hi => hsame _ (by omega) (by omega))

set_option maxRecDepth 8000 in
/-- C6 witness: the body `0041004z00430044` decodes to `A*CD`. -/
theorem ucs2_placeholder_witness :
    cstr (ucs2_fixup (with_sms ([34] ++ lit "Lebara" ++ [34])
        (lit "0041004z00430044"))).sms_buffer = lit "A*CD" ∧
      char_at (ucs2_fixup (with_sms ([34] ++ lit "Lebara" ++ [34])
        (lit "0041004z00430044"))).sms_buffer 1 = 42 :=
  ⟨by decide,
    (ucs2_placeholder (with_sms ([34] ++ lit "Lebara" ++ [34]) (lit "0041004z00430044"))
      (by decide) (by decide)).1 1 (by decide) (by decide)⟩

set_option maxRecDepth 8000 in
/-- C7, as the claim states it, fails: the quad `004a` decodes to `*`, while `004A`
decodes to the byte 0x4A, in bodies that both trigger the decode. -/
theorem ucs2_lower_case_counterexample :
    ucs2_start_offset (with_sms ([34] ++ lit "Lebara" ++ [34])
        (lit "004A004200430044")).stored_caller_id
        (with_sms ([34] ++ lit "Lebara" ++ [34]) (lit "004A004200430044")).sms_buffer = 0 ∧
      ucs2_start_offset (with_sms ([34] ++ lit "Lebara" ++ [34])
        (lit "004a004200430044")).stored_caller_id
        (with_sms ([34] ++ lit "Lebara" ++ [34]) (lit "004a004200430044")).sms_buffer = 0 ∧
      char_at (ucs2_fixup (with_sms ([34] ++ lit "Lebara" ++ [34])
        (lit "004A004200430044"))).sms_buffer 0 = 0x4A ∧
      char_at (ucs2_fixup (with_sms ([34] ++ lit "Lebara" ++ [34])
        (lit "004a004200430044"))).sms_buffer 0 = 42 ∧
      char_at (ucs2_fixup (with_sms ([34] ++ lit "Lebara" ++ [34])
        (lit "004a004200430044"))).sms_buffer 0 ≠
      char_at (ucs2_fixup (with_sms ([34] ++ lit "Lebara" ++ [34])
        (lit "004A004200430044"))).sms_buffer 0 := by
  decide

/-- C7 (amended): the hex digits of the UCS2 decode are upper-case only: in a body
that triggers the decode, a quad whose third or fourth character is a lower-case
letter `a`-`f` is stored as `*`, not as the byte of its upper-case form. -/
theorem ucs2_lower_case_rejected (s : SIM800_Control)
    (hlen : s.sms_buffer.length = TX_BUFFER_SIZE)
    (htrig : ucs2_start_offset s.stored_caller_id s.sms_buffer ≠ 255) (k : Nat)
    (hk : k < ucs2_decoded_length s.sms_buffer
      (ucs2_start_offset s.stored_caller_id s.sms_buffer))
    (hlow : (97 ≤ char_at s.sms_buffer
          (4 * k + ucs2_start_offset s.stored_caller_id s.sms_buffer + 2) ∧
        char_at s.sms_buffer
          (4 * k + ucs2_start_offset s.stored_caller_id s.sms_buffer + 2) ≤ 102) ∨
      (97 ≤ char_at s.sms_buffer
          (4 * k + ucs2_start_offset s.stored_caller_id s.sms_buffer + 3) ∧
        char_at s.sms_buffer
          (4 * k + ucs2_start_offset s.stored_caller_id s.sms_buffer + 3) ≤ 102)) :
    char_at (ucs2_fixup s).sms_buffer k = 42 := by
  obtain ⟨_, _, h3, _, _⟩ := ucs2_fixup_spec s hlen htrig
  rw [h3 k hk]
  apply ucs2_quad_not_hex
  unfold is_hex_upper
  omega

set_option maxRecDepth 8000 in
/-- C7 witness: the first quad of `004a004200430044`. -/
theorem ucs2_lower_case_rejected_witness :
    char_at (ucs2_fixup (with_sms ([34] ++ lit "Lebara" ++ [34])
      (lit "004a004200430044"))).sms_buffer 0 = 42 :=
  ucs2_lower_case_rejected (with_sms ([34] ++ lit "Lebara" ++ [34]) (lit "004a004200430044"))
    (by decide) (by decide) 0 (by decide) (by decide)

/-! ## The status mapping of call_number -/

theorem char_at_append_left (a b : List Nat) (i : Nat) (h : i < a.length) :
    char_at (a ++ b) i = char_at a i := by
  simp [char_at, List.getD_eq_getElem?_getD, List.getElem?_append_left h]

theorem char_at_append_right (a b : List Nat) (i : Nat) :
    char_at (a ++ b) (a.length + i) = char_at b i := by
  simp [char_at, List.getD_eq_getElem?_getD, List.getElem?_append_right]

theorem char_at_of_mem_free (a : List Nat) (i c : Nat) (h : c ∉ a) (hi : i < a.length) :
    char_at a i ≠ c := by
  intro e
  apply h
  have : a[i] = c := by
    simpa [char_at, List.getD_eq_getElem?_getD, List.getElem?_eq_getElem hi] using e
  rw [← this]
  exact List.getElem_mem _

theorem strlen_set_nul (buf : List Nat) (idx : Nat) (h : idx < buf.length) :
    strlen (buf.set idx 0) ≤ idx := by
  rw [set_eq_take_nul buf idx 0 h, strlen, cstr_append_nul]
  exact le_trans (strlen_le_length _) (by simp)

/-- The comma loop steps over a stretch without commas. -/
theorem clcc_loop_skip (buf : List Nat) (csv ts : Nat) : ∀ (m fuel idx : Nat), m ≤ fuel →
    idx + m ≤ strlen buf → (∀ i, idx ≤ i → i < idx + m → char_at buf i ≠ 44) →
    clcc_loop fuel idx csv ts buf = clcc_loop (fuel - m) (idx + m) csv ts buf := by
  intro m
  induction m with
  | zero => intro fuel idx _ _ _; rfl
  | succ m ih =>
    intro fuel idx hf hs hc
    cases fuel with
    | zero => omega
    | succ fuel =>
      rw [clcc_loop, if_pos (by omega), if_neg (hc idx (le_refl _) (by omega)),
        ih fuel (idx + 1) (by omega) (by omega) (fun i h1 h2 => hc i (by omega) (by omega))]
      congr 1
      · omega
      · omega

/-- After the second comma `token_start` stays, and only a byte that held a comma
can change. -/
theorem clcc_loop_tail (ts : Nat) : ∀ (fuel idx : Nat) (buf : List Nat),
    (clcc_loop fuel idx 2 ts buf).1 = ts ∧
      ∀ j, char_at buf j ≠ 44 → char_at (clcc_loop fuel idx 2 ts buf).2 j = char_at buf j := by
  intro fuel
  induction fuel with
  | zero => intro idx buf; exact ⟨rfl, fun _ _ => rfl⟩
  | succ fuel ih =>
    intro idx buf
    rw [clcc_loop]
    by_cases h1 : idx < strlen buf
    · rw [if_pos h1]
      by_cases h2 : char_at buf idx = 44
      · rw [if_pos h2]
        have hlen : idx < buf.length := lt_of_lt_of_le h1 (strlen_le_length buf)
        have hstop : ¬ idx + 1 < strlen (buf.set idx 0) := by
          have := strlen_set_nul buf idx hlen
          omega
        have e : clcc_loop fuel (idx + 1) 3 ts (buf.set idx 0) = (ts, buf.set idx 0) := by
          cases fuel with
          | zero => rfl
          | succ f => rw [clcc_loop, if_neg hstop]
        simp only [show (2 + 1) % 256 = 3 from rfl, show ¬ (3 = 2) by decide, if_false, if_true, e]
        refine ⟨trivial, fun j hj => ?_⟩
        rw [char_at_set_ne]
        intro hij
        exact hj (hij ▸ h2)
      · rw [if_neg h2]
        exact ih (idx + 1) buf
    · rw [if_neg h1]
      exact ⟨rfl, fun _ _ => rfl⟩

/-- On a `+CLCC:` line the switch of `call_number` sees the character that follows
the second comma after the prefix. -/
theorem clcc_data_code (f1 f2 rest tail : List Nat) (code : Nat) (cc cs : Bool)
    (h1 : 44 ∉ f1) (h2 : 44 ∉ f2) (hcode : code ≠ 44)
    (hnul : ∀ c ∈ lit "+CLCC:" ++ f1 ++ 44 :: (f2 ++ 44 :: code :: rest), c ≠ 0)
    (hlen : (lit "+CLCC:" ++ f1 ++ 44 :: (f2 ++ 44 :: code :: rest)).length < RX_BUFFER_SIZE) :
    (clcc_data (lit "+CLCC:" ++ f1 ++ 44 :: (f2 ++ 44 :: code :: rest) ++ 0 :: tail) cc cs).1
        = (clcc_switch code cc cs).1 ∧
      (clcc_data (lit "+CLCC:" ++ f1 ++ 44 :: (f2 ++ 44 :: code :: rest) ++ 0 :: tail) cc cs).2.1
        = (clcc_switch code cc cs).2 := by
  have hp : (lit "+CLCC:").length = 6 := by decide
  -- name the buffer and the positions of its two commas
  generalize hb : lit "+CLCC:" ++ f1 ++ 44 :: (f2 ++ 44 :: code :: rest) ++ 0 :: tail = buf
  have hstr : strlen buf = 6 + f1.length + 1 + (f2.length + 1 + (1 + rest.length)) := by
    rw [← hb, strlen_line _ _ hnul]
    simp only [List.length_append, List.length_cons, hp]
    omega
  have hblen : strlen buf ≤ buf.length := strlen_le_length buf
  have hrx : strlen buf < RX_BUFFER_SIZE := by
    rw [hstr]
    simp only [List.length_append, List.length_cons, hp] at hlen
    omega
  simp only [RX_BUFFER_SIZE] at hrx
  have e1 : lit "+CLCC:" ++ f1 ++ 44 :: (f2 ++ 44 :: code :: rest) ++ 0 :: tail
      = (lit "+CLCC:" ++ f1) ++ (44 :: (f2 ++ 44 :: code :: (rest ++ 0 :: tail))) := by simp
  have e2 : lit "+CLCC:" ++ f1 ++ 44 :: (f2 ++ 44 :: code :: rest) ++ 0 :: tail
      = (lit "+CLCC:" ++ f1 ++ 44 :: f2) ++ (44 :: code :: (rest ++ 0 :: tail)) := by simp
  have e3 : lit "+CLCC:" ++ f1 ++ 44 :: (f2 ++ 44 :: code :: rest) ++ 0 :: tail
      = (lit "+CLCC:" ++ f1 ++ 44 :: (f2 ++ [44])) ++ (code :: (rest ++ 0 :: tail)) := by simp
  have l1 : (lit "+CLCC:" ++ f1).length = 6 + f1.length := by simp [hp]
  have l2 : (lit "+CLCC:" ++ f1 ++ 44 :: f2).length = 6 + f1.length + 1 + f2.length := by
    simp [hp]; ring
  have l3 : (lit "+CLCC:" ++ f1 ++ 44 :: (f2 ++ [44])).length
      = 6 + f1.length + 1 + f2.length + 1 := by
    simp [hp]; ring
  have hf1 : ∀ i, 6 ≤ i → i < 6 + f1.length → char_at buf i ≠ 44 := by
    intro i hi1 hi2
    obtain ⟨d, rfl⟩ : ∃ d, i = 6 + d := ⟨i - 6, by omega⟩
    rw [← hb, e1, char_at_append_left _ _ _ (by rw [l1]; omega), ← hp, char_at_append_right]
    exact char_at_of_mem_free f1 d 44 h1 (by omega)
  have hc1 : char_at buf (6 + f1.length) = 44 := by
    have := char_at_append_right (lit "+CLCC:" ++ f1)
      (44 :: (f2 ++ 44 :: code :: (rest ++ 0 :: tail))) 0
    rw [l1, Nat.add_zero] at this
    rw [← hb, e1, this]; rfl
  have hf2 : ∀ i, 6 + f1.length + 1 ≤ i → i < 6 + f1.length + 1 + f2.length →
      char_at buf i ≠ 44 := by
    intro i hi1 hi2
    obtain ⟨d, rfl⟩ : ∃ d, i = 6 + f1.length + 1 + d := ⟨i - (6 + f1.length + 1), by omega⟩
    have e4 : lit "+CLCC:" ++ f1 ++ 44 :: f2 = (lit "+CLCC:" ++ f1 ++ [44]) ++ f2 := by simp
    have l4 : (lit "+CLCC:" ++ f1 ++ [44]).length = 6 + f1.length + 1 := by
      simp only [List.length_append, List.length_cons, List.length_nil, hp]
    rw [← hb, e2, char_at_append_left _ _ _ (by rw [l2]; omega), e4, ← l4,
      char_at_append_right]
    exact char_at_of_mem_free f2 d 44 h2 (by omega)
  have hc2 : char_at buf (6 + f1.length + 1 + f2.length) = 44 := by
    have := char_at_append_right (lit "+CLCC:" ++ f1 ++ 44 :: f2)
      (44 :: code :: (rest ++ 0 :: tail)) 0
    rw [l2, Nat.add_zero] at this
    rw [← hb, e2, this]; rfl
  have hc3 : char_at buf (6 + f1.length + 1 + f2.length + 1) = code := by
    have := char_at_append_right (lit "+CLCC:" ++ f1 ++ 44 :: (f2 ++ [44]))
      (code :: (rest ++ 0 :: tail)) 0
    rw [l3, Nat.add_zero] at this
    rw [← hb, e3, this]; rfl
  -- run the loop: first field, first comma, second field, second comma, the rest
  have run : clcc_loop buf.length 6 0 0 buf
      = clcc_loop (buf.length - f1.length - 1 - f2.length - 1)
          (6 + f1.length + 1 + f2.length + 1) 2 (6 + f1.length + 1 + f2.length + 1) buf := by
    rw [clcc_loop_skip buf 0 0 f1.length buf.length 6 (by omega) (by omega) hf1]
    obtain ⟨g1, hg1⟩ : ∃ g, buf.length - f1.length = g + 1 := ⟨buf.length - f1.length - 1, by omega⟩
    rw [hg1, clcc_loop, if_pos (by omega), if_pos hc1]
    simp only [show (0 + 1) % 256 = 1 from rfl, show ¬ (1 = 2) by decide,
      show ¬ (1 = 3) by decide, if_false]
    rw [clcc_loop_skip buf 1 0 f2.length g1 (6 + f1.length + 1) (by omega) (by omega) hf2]
    obtain ⟨g2, hg2⟩ : ∃ g, g1 - f2.length = g + 1 := ⟨g1 - f2.length - 1, by omega⟩
    rw [hg2, clcc_loop, if_pos (by omega), if_pos hc2]
    simp only [show (1 + 1) % 256 = 2 from rfl, show ¬ (2 = 3) by decide, if_false, if_true]
    have hm : (6 + f1.length + 1 + f2.length + 1) % 256 = 6 + f1.length + 1 + f2.length + 1 := by
      omega
    rw [hm]
    congr 1
    omega
  obtain ⟨t1, t2⟩ := clcc_loop_tail (6 + f1.length + 1 + f2.length + 1)
    (buf.length - f1.length - 1 - f2.length - 1) (6 + f1.length + 1 + f2.length + 1) buf
  have hcode2 : char_at (clcc_loop buf.length 6 0 0 buf).2 (clcc_loop buf.length 6 0 0 buf).1
      = code := by
    rw [run, t1, t2 _ (by rw [hc3]; exact hcode), hc3]
  simp only [clcc_data, hcode2, and_self]

/-- C8: for a `+CLCC:` data line of the poll loop of `call_number` whose character
after the second comma following the prefix is `code`: the codes 0, 1 and 6 mark the
call complete and successful, 4 and 5 complete and failed, and 2 and 3 leave
`call_complete` and `call_successful` as they were, so that a call not yet complete
stays so and the loop polls again. -/
theorem call_status_mapping (f1 f2 rest tail : List Nat) (code : Nat) (cc cs : Bool)
    (h1 : 44 ∉ f1) (h2 : 44 ∉ f2)
    (hnul : ∀ c ∈ lit "+CLCC:" ++ f1 ++ 44 :: (f2 ++ 44 :: code :: rest), c ≠ 0)
    (hlen : (lit "+CLCC:" ++ f1 ++ 44 :: (f2 ++ 44 :: code :: rest)).length < RX_BUFFER_SIZE) :
    ((code = 48 ∨ code = 49 ∨ code = 54) →
        (clcc_data (lit "+CLCC:" ++ f1 ++ 44 :: (f2 ++ 44 :: code :: rest) ++ 0 :: tail)
          cc cs).1 = true ∧
        (clcc_data (lit "+CLCC:" ++ f1 ++ 44 :: (f2 ++ 44 :: code :: rest) ++ 0 :: tail)
          cc cs).2.1 = true) ∧
      ((code = 52 ∨ code = 53) →
        (clcc_data (lit "+CLCC:" ++ f1 ++ 44 :: (f2 ++ 44 :: code :: rest) ++ 0 :: tail)
          cc cs).1 = true ∧
        (clcc_data (lit "+CLCC:" ++ f1 ++ 44 :: (f2 ++ 44 :: code :: rest) ++ 0 :: tail)
          cc cs).2.1 = false) ∧
      ((code = 50 ∨ code = 51) →
        (clcc_data (lit "+CLCC:" ++ f1 ++ 44 :: (f2 ++ 44 :: code :: rest) ++ 0 :: tail)
          cc cs).1 = cc ∧
        (clcc_data (lit "+CLCC:" ++ f1 ++ 44 :: (f2 ++ 44 :: code :: rest) ++ 0 :: tail)
          cc cs).2.1 = cs) := by
  refine ⟨fun h => ?_, fun h => ?_, fun h => ?_⟩
  · obtain ⟨e1, e2⟩ := clcc_data_code f1 f2 rest tail code cc cs h1 h2 (by omega) hnul hlen
    rw [e1, e2]
    rcases h with h | h | h <;> subst h <;> exact ⟨rfl, rfl⟩
  · obtain ⟨e1, e2⟩ := clcc_data_code f1 f2 rest tail code cc cs h1 h2 (by omega) hnul hlen
    rw [e1, e2]
    rcases h with h | h <;> subst h <;> exact ⟨rfl, rfl⟩
  · obtain ⟨e1, e2⟩ := clcc_data_code f1 f2 rest tail code cc cs h1 h2 (by omega) hnul hlen
    rw [e1, e2]
    rcases h with h | h <;> subst h <;> exact ⟨rfl, rfl⟩

/-- C8 witness: the line `+CLCC: 1,0,3,0,0` (ringing) met with the call not complete. -/
theorem call_status_mapping_witness :
    ((51 = 48 ∨ 51 = 49 ∨ 51 = 54) →
        (clcc_data (lit "+CLCC:" ++ [32, 49] ++ 44 :: ([48] ++ 44 :: 51 :: lit ",0,0")
          ++ 0 :: [0, 0]) false false).1 = true ∧
        (clcc_data (lit "+CLCC:" ++ [32, 49] ++ 44 :: ([48] ++ 44 :: 51 :: lit ",0,0")
          ++ 0 :: [0, 0]) false false).2.1 = true) ∧
      ((51 = 52 ∨ 51 = 53) →
        (clcc_data (lit "+CLCC:" ++ [32, 49] ++ 44 :: ([48] ++ 44 :: 51 :: lit ",0,0")
          ++ 0 :: [0, 0]) false false).1 = true ∧
        (clcc_data (lit "+CLCC:" ++ [32, 49] ++ 44 :: ([48] ++ 44 :: 51 :: lit ",0,0")
          ++ 0 :: [0, 0]) false false).2.1 = false) ∧
      ((51 = 50 ∨ 51 = 51) →
        (clcc_data (lit "+CLCC:" ++ [32, 49] ++ 44 :: ([48] ++ 44 :: 51 :: lit ",0,0")
          ++ 0 :: [0, 0]) false false).1 = false ∧
        (clcc_data (lit "+CLCC:" ++ [32, 49] ++ 44 :: ([48] ++ 44 :: 51 :: lit ",0,0")
          ++ 0 :: [0, 0]) false false).2.1 = false) :=
  call_status_mapping [32, 49] [48] (lit ",0,0") [0, 0] 51 false false
    (by decide) (by decide) (by decide) (by decide)

/-- The claim's codes on the line `+CLCC: 1,0,<code>,0,0`: 0 and 6 end the call as
successful, 4 and 5 as failed, 2 and 3 leave it not complete. -/
theorem call_status_samples :
    (clcc_data (lit "+CLCC: 1,0,0,0,0" ++ [0]) false false).1 = true ∧
      (clcc_data (lit "+CLCC: 1,0,0,0,0" ++ [0]) false false).2.1 = true ∧
      (clcc_data (lit "+CLCC: 1,0,6,0,0" ++ [0]) false false).1 = true ∧
      (clcc_data (lit "+CLCC: 1,0,6,0,0" ++ [0]) false false).2.1 = true ∧
      (clcc_data (lit "+CLCC: 1,0,4,0,0" ++ [0]) false false).1 = true ∧
      (clcc_data (lit "+CLCC: 1,0,4,0,0" ++ [0]) false false).2.1 = false ∧
      (clcc_data (lit "+CLCC: 1,0,5,0,0" ++ [0]) false false).1 = true ∧
      (clcc_data (lit "+CLCC: 1,0,5,0,0" ++ [0]) false false).2.1 = false ∧
      (clcc_data (lit "+CLCC: 1,0,2,0,0" ++ [0]) false false).1 = false ∧
      (clcc_data (lit "+CLCC: 1,0,3,0,0" ++ [0]) false false).1 = false := by
  decide

/-! ## A quiet line: settling, sending, timing out -/

theorem clockBlind_of_rxBlind {α : Type} (f : SIM800_Control → α) (hf : RxBlind f) :
    ClockBlind f :=
  fun s clk => hf s s.rx_buffer s.rx_buff_pos s.rx_buff_state s.rx_overrun clk s.serial_rx

theorem delay_blind {α : Type} (f : SIM800_Control → α) (hf : ClockBlind f) (n : Nat)
    (s : SIM800_Control) : f (delay n s) = f s := hf s _

theorem idle_clock_blind {α : Type} (f : SIM800_Control → α) (hf : ClockBlind f)
    (s : SIM800_Control) : f (idle s) = f s := hf s _

theorem idle_wait_blind {α : Type} (f : SIM800_Control → α) (hf : ClockBlind f) (n : Nat)
    (s : SIM800_Control) : f (idle_wait n s) = f s := by
  induction n generalizing s with
  | zero => rfl
  | succ n ih => rw [idle_wait, ih, delay_blind f hf, idle_clock_blind f hf]

theorem idle_wait_clock (n : Nat) (s : SIM800_Control) :
    (idle_wait n s).clock = s.clock + n * (s.idle_ms + 10) := by
  induction n generalizing s with
  | zero => simp [idle_wait]
  | succ n ih =>
    rw [idle_wait, ih]
    simp only [delay, idle]
    ring

theorem fresh_idle_wait (n : Nat) (s : SIM800_Control) (h : Fresh s) : Fresh (idle_wait n s) := by
  unfold Fresh at h ⊢
  rw [idle_wait_blind (fun s => s.rx_buff_state) (fun _ _ => rfl),
    idle_wait_blind (fun s => s.rx_buff_pos) (fun _ _ => rfl),
    idle_wait_blind (fun s => s.rx_buffer) (fun _ _ => rfl)]
  exact h

theorem drain_loop_quiet (fuel : Nat) (s : SIM800_Control)
    (h : (check_for_response s).rx_buff_state ≠ BS_DATA) :
    drain_loop (fuel + 1) s = check_for_response s := by
  rw [drain_loop]
  simp only [if_neg h]

/-- Settling a quiet line: the waiting CR and LF bytes are swallowed, no line is
handed to `process_urc`. -/
theorem let_terminal_settle_quiet (s : SIM800_Control) (h : Quiet s) :
    (let_terminal_settle s).serial_rx = [] ∧
      (let_terminal_settle s).rx_buff_state = BS_WAITING ∧
      (let_terminal_settle s).rx_buff_pos = 0 ∧
      (let_terminal_settle s).rx_buffer.length = RX_BUFFER_SIZE ∧
      (let_terminal_settle s).clock
        = s.clock + 15 * (s.idle_ms + 10) + s.serial_rx.length * s.idle_ms ∧
      ∀ {α : Type} (f : SIM800_Control → α), RxBlind f → f (let_terminal_settle s) = f s := by
  have hq : (idle_wait 15 s).serial_rx = s.serial_rx :=
    idle_wait_blind (fun s => s.serial_rx) (fun _ _ => rfl) 15 s
  have hi : (idle_wait 15 s).idle_ms = s.idle_ms :=
    idle_wait_blind (fun s => s.idle_ms) (fun _ _ => rfl) 15 s
  obtain ⟨h1, h2, h3, h4, h5⟩ := check_for_response_junk (idle_wait 15 s) s.serial_rx
    (fresh_idle_wait 15 s h.1) hq h.2
  have e : let_terminal_settle s = check_for_response (idle_wait 15 s) := by
    simp only [let_terminal_settle]
    exact drain_loop_quiet _ _ (by rw [h1]; decide)
  rw [e]
  refine ⟨h2, h1, h4, h5, ?_, ?_⟩
  · rw [h3, idle_wait_clock, hi]
  · intro α f hf
    rw [check_for_response_blind f hf, idle_wait_blind f (clockBlind_of_rxBlind f hf)]

theorem quiet_of_settled (s : SIM800_Control) (h1 : s.serial_rx = [])
    (h3 : s.rx_buff_pos = 0) (h4 : s.rx_buffer.length = RX_BUFFER_SIZE) : Quiet s :=
  ⟨Or.inr (Or.inr ⟨h3, h4⟩), by rw [h1]; intro c hc; simp at hc⟩

theorem cstr_idem (l : List Nat) : cstr (cstr l) = cstr l :=
  cstr_of_nul_free _ (fun c hc => by
    have := List.mem_takeWhile_imp hc
    simpa using this)

theorem cstr_strcpy (dst src : List Nat) : cstr (strcpy dst src) = cstr src := by
  simp only [strcpy, List.append_assoc, List.singleton_append]
  rw [cstr_append_nul, cstr_idem]

theorem transmit_eq (cmd : List Nat) (s : SIM800_Control) :
    transmit cmd s = { s with tx_buffer := strcpy s.tx_buffer cmd,
                              serial_tx := s.serial_tx ++ cstr cmd ++ [13, 10],
                              serial_rx := s.serial_rx ++ s.modem_script.headD [],
                              modem_script := s.modem_script.tail } := by
  simp only [transmit, serial_print, modem_reply, cstr_strcpy]

theorem transmit_blind {α : Type} (f : SIM800_Control → α) (hf1 : RxBlind f) (hf2 : TxBlind f)
    (cmd : List Nat) (s : SIM800_Control) : f (transmit cmd s) = f s := by
  rw [transmit_eq]
  have h1 := hf2 s (strcpy s.tx_buffer cmd) (s.serial_tx ++ cstr cmd ++ [13, 10])
    s.modem_script.tail
  have h2 := hf1 { s with tx_buffer := strcpy s.tx_buffer cmd,
                          serial_tx := s.serial_tx ++ cstr cmd ++ [13, 10],
                          modem_script := s.modem_script.tail }
    s.rx_buffer s.rx_buff_pos s.rx_buff_state s.rx_overrun s.clock
    (s.serial_rx ++ s.modem_script.headD [])
  exact h2.trans h1

/-- Sending a command on a quiet line: the command goes out, the modem's scripted
reply is what waits on the line afterwards. -/
theorem send_command_quiet (cmd : List Nat) (s : SIM800_Control) (h : Quiet s)
    (hfit : strlen cmd ≤ TX_BUFFER_SIZE) :
    (send_command cmd s).serial_rx = s.modem_script.headD [] ∧
      (send_command cmd s).modem_script = s.modem_script.tail ∧
      Fresh (send_command cmd s) ∧
      (send_command cmd s).serial_tx = s.serial_tx ++ cstr cmd ++ [13, 10] ∧
      (send_command cmd s).clock
        = s.clock + 15 * (s.idle_ms + 10) + s.serial_rx.length * s.idle_ms + 50 ∧
      ∀ {α : Type} (f : SIM800_Control → α), RxBlind f → TxBlind f →
        f (send_command cmd s) = f s := by
  obtain ⟨h1, _, h3, h4, h5, h6⟩ := let_terminal_settle_quiet s h
  have hscript : (let_terminal_settle s).modem_script = s.modem_script :=
    h6 (fun s => s.modem_script) (fun _ _ _ _ _ _ _ => rfl)
  have htx : (let_terminal_settle s).serial_tx = s.serial_tx :=
    h6 (fun s => s.serial_tx) (fun _ _ _ _ _ _ _ => rfl)
  have e : send_command cmd s = delay 50 (transmit cmd (let_terminal_settle s)) := by
    simp only [send_command, if_pos hfit]
  rw [e]
  refine ⟨?_, ?_, ?_, ?_, ?_, ?_⟩
  · rw [transmit_eq]; simp only [delay]; rw [h1, hscript]; rfl
  · rw [transmit_eq]; simp only [delay]; rw [hscript]
  · rw [transmit_eq]; exact Or.inr (Or.inr ⟨h3, h4⟩)
  · rw [transmit_eq]; simp only [delay]; rw [htx]
  · rw [transmit_eq]; simp only [delay]; rw [h5]
  · intro α f hf1 hf2
    rw [delay_blind f (clockBlind_of_rxBlind f hf1), transmit_blind f hf1 hf2, h6 f hf1]

/-- A turn of `wait_for_status` on a quiet line only swallows the CR and LF bytes. -/
theorem wait_for_status_turn_quiet (start t : Nat) (s : SIM800_Control) (h : Quiet s) :
    wait_for_status_turn start t s
      = (if millis (idle s) > uadd start (t % 256 * 1000) then BS_TIMEOUT else BS_UNKNOWN,
          check_for_response (idle s)) := by
  obtain ⟨h1, _⟩ := check_for_response_junk (idle s) s.serial_rx (fresh_idle s h.1) rfl h.2
  simp only [wait_for_status_turn, h1]
  simp

/-- On a quiet line the loop of `wait_for_status` runs until the clock passes the
deadline and gives BS_TIMEOUT. -/
theorem wait_for_status_loop_quiet (start t c0 T J i : Nat) (hi : 0 < i)
    (hchk : ∀ c, c0 ≤ c → c ≤ c0 + T + J + i →
      (c % ULONG > uadd start (t % 256 * 1000) ↔ c > c0 + T)) :
    ∀ (fuel : Nat) (s : SIM800_Control), Quiet s → s.idle_ms = i → c0 ≤ s.clock →
    s.serial_rx.length * i ≤ J →
    s.clock + s.serial_rx.length * i ≤ c0 + T + J →
    c0 + T + J + i + 1 ≤ s.clock + s.serial_rx.length * i + fuel →
    ∃ s1, wait_for_status_loop fuel start t s = some (BS_TIMEOUT, s1) ∧
      s1.serial_rx = [] ∧ s1.rx_buff_state = BS_WAITING ∧ s1.rx_buff_pos = 0 ∧
      s1.rx_buffer.length = RX_BUFFER_SIZE ∧
      c0 + T < s1.clock ∧ s1.clock ≤ c0 + T + J + i ∧
      ∀ {α : Type} (f : SIM800_Control → α), RxBlind f → f s1 = f s := by
  intro fuel
  induction fuel with
  | zero => intro s _ _ _ _ h1 h2; omega
  | succ fuel ih =>
    intro s hq hidl hc0 hR hP hF
    obtain ⟨g1, g2, g3, g4, g5⟩ :=
      check_for_response_junk (idle s) s.serial_rx (fresh_idle s hq.1) rfl hq.2
    have hclk : (check_for_response (idle s)).clock = s.clock + i + s.serial_rx.length * i := by
      rw [g3]; simp only [idle, hidl]
    have hblind : ∀ {α : Type} (f : SIM800_Control → α), RxBlind f →
        f (check_for_response (idle s)) = f s := by
      intro α f hf
      rw [check_for_response_blind f hf, idle_blind f hf]
    generalize hRv : s.serial_rx.length * i = R at hR hP hF hclk
    rw [wait_for_status_loop, wait_for_status_turn_quiet start t s hq]
    have hm : millis (idle s) = (s.clock + i) % ULONG := by simp only [millis, idle, hidl]
    rw [hm]
    by_cases hto : s.clock + i > c0 + T
    · have hgt := (hchk (s.clock + i) (by omega) (by omega)).mpr hto
      simp only [if_pos hgt]
      exact ⟨_, rfl, g2, g1, g4, g5, by rw [hclk]; omega, by rw [hclk]; omega, hblind⟩
    · have hle : ¬ (s.clock + i) % ULONG > uadd start (t % 256 * 1000) := fun hgt =>
        hto ((hchk (s.clock + i) (by omega) (by omega)).mp hgt)
      simp only [if_neg hle, if_true]
      have hq2 : Quiet (check_for_response (idle s)) := quiet_of_settled _ g2 g4 g5
      have hidl2 : (check_for_response (idle s)).idle_ms = i := by
        rw [hblind (fun s => s.idle_ms) (fun _ _ _ _ _ _ _ => rfl), hidl]
      obtain ⟨s1, e1, e2, e3, e4, e5, e6, e7, e8⟩ := ih (check_for_response (idle s)) hq2 hidl2
        (by rw [hclk]; omega) (by rw [g2]; simp) (by rw [g2, hclk]; simp; omega)
        (by rw [g2, hclk]; simp; omega)
      exact ⟨s1, e1, e2, e3, e4, e5, e6, e7, fun f hf => (e8 f hf).trans (hblind f hf)⟩

/-- The function `wait_for_status` on a quiet line, the clock not near its wrap: BS_TIMEOUT once
the timeout has passed, and nothing but the clock and the receive side has changed. -/
theorem wait_for_status_quiet (fuel t : Nat) (s : SIM800_Control) (h : Quiet s)
    (hi : 0 < s.idle_ms)
    (hwrap : s.clock + t % 256 * 1000 + (s.serial_rx.length + 1) * s.idle_ms < ULONG)
    (hfuel : t % 256 * 1000 + s.idle_ms + 1 ≤ fuel) :
    ∃ s1, wait_for_status fuel t s = some (BS_TIMEOUT, s1) ∧
      s1.serial_rx = [] ∧ s1.rx_buff_state = BS_WAITING ∧ s1.rx_buff_pos = 0 ∧
      s1.rx_buffer.length = RX_BUFFER_SIZE ∧
      s.clock + t % 256 * 1000 < s1.clock ∧
      s1.clock ≤ s.clock + t % 256 * 1000 + (s.serial_rx.length + 1) * s.idle_ms ∧
      ∀ {α : Type} (f : SIM800_Control → α), RxBlind f → f s1 = f s := by
  have e : (s.serial_rx.length + 1) * s.idle_ms
      = s.serial_rx.length * s.idle_ms + s.idle_ms := by ring
  rw [e] at hwrap ⊢
  generalize hJ : s.serial_rx.length * s.idle_ms = J at hwrap
  generalize hT : t % 256 * 1000 = T at hwrap hfuel
  have hchk : ∀ c, s.clock ≤ c → c ≤ s.clock + T + J + s.idle_ms →
      (c % ULONG > uadd (millis s) (t % 256 * 1000) ↔ c > s.clock + T) := by
    intro c h1 h2
    rw [hT]
    simp only [uadd, millis, ULONG] at *
    omega
  obtain ⟨s1, e1, e2, e3, e4, e5, e6, e7, e8⟩ := wait_for_status_loop_quiet (millis s) t s.clock
    T J s.idle_ms hi hchk fuel s h rfl (le_refl _) (by rw [hJ]) (by rw [hJ]; omega)
    (by rw [hJ]; omega)
  exact ⟨s1, e1, e2, e3, e4, e5, e6, by omega, e8⟩

/-- The function `wait_for_status` with a line containing OK next on the serial line: BS_OK from
the first turn. -/
theorem wait_for_status_ok_line (fuel t : Nat) (s : SIM800_Control) (junk line rest : List Nat)
    (hfresh : Fresh s) (hq : s.serial_rx = junk ++ line ++ 13 :: rest) (hj : is_junk junk)
    (hl : is_line line) (hok : strstr line (lit "OK") = true) :
    ∃ s1, wait_for_status (fuel + 1) t s = some (BS_OK, s1) ∧
      s1.serial_rx = rest ∧ s1.rx_buff_state = BS_DATA ∧
      s1.clock = s.clock + (junk.length + line.length + 2) * s.idle_ms ∧
      (∃ tail, s1.rx_buffer = line ++ 0 :: tail) ∧
      ∀ {α : Type} (f : SIM800_Control → α), RxBlind f → f s1 = f s := by
  obtain ⟨h1, h2⟩ := wait_for_status_turn_status (millis s) t s junk line rest hfresh hq hj hl
    (Or.inl hok)
  obtain ⟨g1, g2, g3, _, g5, _⟩ :=
    check_for_response_line (idle s) junk line rest (fresh_idle s hfresh) hq hj hl
  refine ⟨check_for_response (idle s), ?_, g2, g1, ?_, g5, ?_⟩
  · rw [hok] at h1
    simp only [if_true] at h1
    rw [wait_for_status, wait_for_status_loop]
    simp only [h1]
    rw [if_neg (by decide), ← h2, ← h1]
  · rw [g3]; simp only [idle]; ring
  · intro α f hf
    rw [check_for_response_blind f hf, idle_blind f hf]

/-- The function `wait_for_data` with a line next on the serial line that its first turn
classifies: the result of that turn, the line in `rx_buffer`. -/
theorem wait_for_data_first_line (pattern : Option (List Nat)) (fuel t : Nat)
    (s : SIM800_Control) (junk line rest : List Nat)
    (hfresh : Fresh s) (hq : s.serial_rx = junk ++ line ++ 13 :: rest) (hj : is_junk junk)
    (hl : is_line line)
    (hres : (wait_for_data_turn pattern (millis s) t s).1 ≠ BS_UNKNOWN)
    (hsame : (wait_for_data_turn pattern (millis s) t s).2 = check_for_response (idle s)) :
    ∃ s1, wait_for_data pattern (fuel + 1) t s
        = some ((wait_for_data_turn pattern (millis s) t s).1, s1) ∧
      s1.serial_rx = rest ∧ s1.rx_buff_state = BS_DATA ∧
      s1.clock = s.clock + (junk.length + line.length + 2) * s.idle_ms ∧
      (∃ tail, s1.rx_buffer = line ++ 0 :: tail) ∧
      s1.rx_buffer.length = RX_BUFFER_SIZE ∧
      ∀ {α : Type} (f : SIM800_Control → α), RxBlind f → f s1 = f s := by
  obtain ⟨g1, g2, g3, _, g5, g6⟩ :=
    check_for_response_line (idle s) junk line rest (fresh_idle s hfresh) hq hj hl
  refine ⟨check_for_response (idle s), ?_, g2, g1, ?_, g5, g6, ?_⟩
  · rw [wait_for_data, wait_for_data_loop]
    simp only [if_neg hres]
    rw [← hsame]
  · rw [g3]; simp only [idle]; ring
  · intro α f hf
    rw [check_for_response_blind f hf, idle_blind f hf]

/-! ## The signal poll -/

theorem starts_with_append (p x : List Nat) : starts_with p (p ++ x) = true := by
  induction p with
  | nil => cases x <;> rfl
  | cons a p ih => simp [starts_with, ih]

theorem find_in_head (p x : List Nat) : find_in (p ++ x) p = true := by
  cases h : p ++ x with
  | nil =>
    have : p = [] := by
      cases p with
      | nil => rfl
      | cons a p => simp at h
    subst this; rfl
  | cons c cs =>
    rw [find_in, ← h, starts_with_append]; rfl

theorem strstr_head (p x : List Nat) (hp : ∀ c ∈ p, c ≠ 0) (hx : ∀ c ∈ x, c ≠ 0) :
    strstr (p ++ x) p = true := by
  have h : ∀ c ∈ p ++ x, c ≠ 0 := by
    intro c hc
    rcases List.mem_append.mp hc with h | h
    · exact hp c h
    · exact hx c h
  rw [strstr, cstr_of_nul_free _ h, cstr_of_nul_free _ hp, find_in_head]

/-- The comma loop of `get_rssi` and `process_urc` replaces the first comma it meets
by a NUL and stops. -/
theorem nul_commas_first (buf : List Nat) : ∀ (m fuel idx : Nat), m < fuel →
    idx + m < strlen buf → (∀ i, idx ≤ i → i < idx + m → char_at buf i ≠ 44) →
    char_at buf (idx + m) = 44 → nul_commas fuel idx buf = buf.set (idx + m) 0 := by
  intro m
  induction m with
  | zero =>
    intro fuel idx hf hs _ hc
    obtain ⟨f, rfl⟩ : ∃ f, fuel = f + 1 := ⟨fuel - 1, by omega⟩
    simp only [Nat.add_zero] at hs hc ⊢
    have hlen : idx < buf.length := lt_of_lt_of_le hs (strlen_le_length buf)
    have hstop : ¬ idx + 1 < strlen (buf.set idx 0) := by
      have := strlen_set_nul buf idx hlen
      omega
    rw [nul_commas, if_pos hs, if_pos hc]
    cases f with
    | zero => rfl
    | succ f => rw [nul_commas, if_neg hstop]
  | succ m ih =>
    intro fuel idx hf hs hn hc
    obtain ⟨f, rfl⟩ : ∃ f, fuel = f + 1 := ⟨fuel - 1, by omega⟩
    rw [nul_commas, if_pos (by omega), if_neg (hn idx (le_refl _) (by omega)),
      ih f (idx + 1) (by omega) (by omega) (fun i h1 h2 => hn i (by omega) (by omega))
        (by rw [← hc]; congr 1; omega)]
    congr 1
    omega

theorem atoi_digits_stop (ds : List Nat) (c : Nat) (rest : List Nat)
    (hc : ¬ (48 ≤ c ∧ c ≤ 57)) : ∀ acc, atoi_digits acc (ds ++ c :: rest) = atoi_digits acc ds := by
  induction ds with
  | nil => intro acc; simp [atoi_digits, hc]
  | cons d ds ih =>
    intro acc
    simp only [List.cons_append, atoi_digits]
    split_ifs
    · exact ih _
    · rfl

/-- The decimal digits of an RSSI value 0..31 or 99: one or two digits, read back by
`atoi` as the value. -/
theorem decimal_rssi (n : Nat) (h : n ≤ 31 ∨ n = 99) :
    (∀ c ∈ decimal n, 48 ≤ c ∧ c ≤ 57) ∧ 0 < (decimal n).length ∧ (decimal n).length ≤ 2 ∧
      ∀ (c : Nat) (rest : List Nat), ¬ (48 ≤ c ∧ c ≤ 57) →
        to_byte (atoi (decimal n ++ c :: rest)) = n := by
  have key : ∀ ds : List Nat, (∀ c ∈ ds, 48 ≤ c ∧ c ≤ 57) → ds ≠ [] →
      ∀ (c : Nat) (rest : List Nat), ¬ (48 ≤ c ∧ c ≤ 57) →
        atoi (ds ++ c :: rest) = (atoi_digits 0 ds : Int) := by
    intro ds hds hne c rest hc
    cases ds with
    | nil => exact absurd rfl hne
    | cons d ds =>
      have hd := hds d (by simp)
      have hsp : isspace d = false := by
        simp only [isspace, Bool.or_eq_false_iff, beq_eq_false_iff_ne, Bool.and_eq_false_iff,
          decide_eq_false_iff_not]
        omega
      have h45 : d ≠ 45 := by omega
      have h43 : d ≠ 43 := by omega
      have := atoi_digits_stop (d :: ds) c rest hc 0
      simp only [List.cons_append] at this
      simp only [atoi, List.cons_append, List.dropWhile_cons, hsp, Bool.false_eq_true, if_false]
      split
      · rename_i heq; simp at heq; omega
      · rename_i heq; simp at heq; omega
      · rw [this]
  have fin : ∀ m : Nat, m ≤ 31 ∨ m = 99 →
      ((∀ c ∈ decimal m, 48 ≤ c ∧ c ≤ 57) ∧ 0 < (decimal m).length ∧ (decimal m).length ≤ 2 ∧
        decimal m ≠ [] ∧ atoi_digits 0 (decimal m) = m) := by
    intro m hm
    rcases hm with hm | hm
    · interval_cases m <;> decide
    · subst hm; decide
  obtain ⟨f1, f2, f3, f4, f5⟩ := fin n h
  refine ⟨f1, f2, f3, fun c rest hc => ?_⟩
  rw [key _ f1 f4 c rest hc, f5]
  simp only [to_byte]
  have : n < 256 := by omega
  omega

theorem set_append_cons (a t : List Nat) (x v : Nat) :
    (a ++ x :: t).set a.length v = a ++ v :: t := by
  induction a with
  | nil => rfl
  | cons c a ih => simp [ih]

/-- The parse step of `get_rssi` on the line `+CSQ: n,b`. -/
theorem rssi_parse_line (s : SIM800_Control) (n : Nat) (b tail : List Nat)
    (hn : n ≤ 31 ∨ n = 99) (hb : ∀ c ∈ b, c ≠ 0)
    (hbuf : s.rx_buffer = (lit "+CSQ: " ++ decimal n ++ 44 :: b) ++ 0 :: tail) :
    (rssi_parse s).recvd_rssi = n := by
  obtain ⟨d1, d2, d3, d4⟩ := decimal_rssi n hn
  have hp : (lit "+CSQ: ").length = 6 := by decide
  have hpn : ∀ c ∈ lit "+CSQ: ", c ≠ 0 ∧ c ≠ 44 := by decide
  have hnul : ∀ c ∈ lit "+CSQ: " ++ decimal n ++ 44 :: b, c ≠ 0 := by
    intro c hc
    simp only [List.mem_append, List.mem_cons] at hc
    rcases hc with (h | h) | h | h
    · exact (hpn c h).1
    · have := d1 c h; omega
    · omega
    · exact hb c h
  have hstr : strlen s.rx_buffer = 6 + (decimal n).length + 1 + b.length := by
    rw [hbuf, strlen_line _ _ hnul]
    simp only [List.length_append, List.length_cons, hp]
    omega
  have e1 : s.rx_buffer = (lit "+CSQ: " ++ decimal n) ++ 44 :: (b ++ 0 :: tail) := by
    rw [hbuf]; simp
  have l1 : (lit "+CSQ: " ++ decimal n).length = 6 + (decimal n).length := by simp [hp]
  have hdig : ∀ i, 6 ≤ i → i < 6 + (decimal n).length → char_at s.rx_buffer i ≠ 44 := by
    intro i hi1 hi2
    obtain ⟨d, rfl⟩ : ∃ d, i = 6 + d := ⟨i - 6, by omega⟩
    rw [e1, char_at_append_left _ _ _ (by rw [l1]; omega), ← hp, char_at_append_right]
    apply char_at_of_mem_free _ _ _ _ (by omega)
    intro hmem
    have := d1 44 hmem
    omega
  have hcomma : char_at s.rx_buffer (6 + (decimal n).length) = 44 := by
    have := char_at_append_right (lit "+CSQ: " ++ decimal n) (44 :: (b ++ 0 :: tail)) 0
    rw [l1, Nat.add_zero] at this
    rw [e1, this]; rfl
  have hlen : strlen s.rx_buffer ≤ s.rx_buffer.length := strlen_le_length _
  have hloop : nul_commas s.rx_buffer.length 6 s.rx_buffer
      = (lit "+CSQ: " ++ decimal n) ++ 0 :: (b ++ 0 :: tail) := by
    rw [nul_commas_first s.rx_buffer (decimal n).length s.rx_buffer.length 6 (by omega)
      (by omega) hdig hcomma, ← l1]
    conv_lhs => rw [e1]
    exact set_append_cons _ _ _ _
  have hdrop : ((lit "+CSQ: " ++ decimal n) ++ 0 :: (b ++ 0 :: tail)).drop 6
      = decimal n ++ 0 :: (b ++ 0 :: tail) := by
    rw [List.append_assoc, ← hp, List.drop_left]
  simp only [rssi_parse, hloop, hdrop]
  exact d4 0 _ (by omega)

/-- A due poll of `get_rssi` answered by `+CSQ: n,b` and `OK`: the value returned and
cached is n, and nothing else of the session state has moved. -/
theorem get_rssi_polled (fuel : Nat) (s : SIM800_Control) (r0 j1 j2 j3 b : List Nat) (n : Nat)
    (rest : List (List Nat)) (hini : s.initialised = true) (hq : Quiet s)
    (hdue : usub (millis s) s.rssi_last_called > 10000)
    (hscript : s.modem_script = r0 :: csq_reply j1 j2 j3 n b :: rest)
    (hr0 : is_junk r0) (hj1 : is_junk j1) (hj2 : is_junk j2)
    (hb : ∀ c ∈ b, c ≠ 0 ∧ c ≠ 10 ∧ c ≠ 13) (hblen : b.length ≤ 150)
    (hn : n ≤ 31 ∨ n = 99) :
    ∃ s1, get_rssi (fuel + 1) s = some (n, s1) ∧ s1.recvd_rssi = n ∧
      s1.initialised = true ∧ s1.protocol_error_count = s.protocol_error_count ∧
      s1.modem_script = rest ∧ s1.serial_rx = j3 := by
  obtain ⟨d1, d2, d3, _⟩ := decimal_rssi n hn
  have hp : (lit "+CSQ: ").length = 6 := by decide
  have hpn : ∀ c ∈ lit "+CSQ: ", c ≠ 0 ∧ c ≠ 10 ∧ c ≠ 13 := by decide
  -- the line `+CSQ: n,b`
  have hline : is_line (lit "+CSQ: " ++ decimal n ++ 44 :: b) := by
    refine ⟨by simp [lit], ?_, ?_⟩
    · simp only [List.length_append, List.length_cons, hp, RX_BUFFER_SIZE]; omega
    · intro c hc
      simp only [List.mem_append, List.mem_cons] at hc
      rcases hc with (h | h) | h | h
      · exact hpn c h
      · have := d1 c h; omega
      · omega
      · exact hb c h
  have hlinelen : 7 ≤ (lit "+CSQ: " ++ decimal n ++ 44 :: b).length := by
    simp only [List.length_append, List.length_cons, hp]; omega
  have hpat : strstr (lit "+CSQ: " ++ decimal n ++ 44 :: b) (lit "+CSQ: ") = true := by
    rw [List.append_assoc]
    apply strstr_head _ _ (fun c hc => (hpn c hc).1)
    intro c hc
    simp only [List.mem_append, List.mem_cons] at hc
    rcases hc with h | h | h
    · have := d1 c h; omega
    · omega
    · exact (hb c h).1
  -- send the empty command, settle, send AT+CSQ
  have hqa : Quiet (rssi_mark s) := hq
  obtain ⟨a1, a2, a3, _, _, a6⟩ := send_command_quiet [13, 10] (rssi_mark s) hqa (by decide)
  have hsa : (rssi_mark s).modem_script = r0 :: csq_reply j1 j2 j3 n b :: rest := hscript
  rw [hsa] at a1 a2
  simp only [List.headD_cons, List.tail_cons] at a1 a2
  have hqb : Quiet (send_command [13, 10] (rssi_mark s)) := ⟨a3, by rw [a1]; exact hr0⟩
  obtain ⟨b1, _, b3, b4, _, b6⟩ := let_terminal_settle_quiet _ hqb
  have hqc := quiet_of_settled _ b1 b3 b4
  obtain ⟨c1, c2, c3, _, _, c6⟩ := send_command_quiet (lit "AT+CSQ") _ hqc (by decide)
  have hsc : (let_terminal_settle (send_command [13, 10] (rssi_mark s))).modem_script
      = csq_reply j1 j2 j3 n b :: rest := by
    rw [b6 (fun s => s.modem_script) (fun _ _ _ _ _ _ _ => rfl), a2]
  rw [hsc] at c1 c2
  simp only [List.headD_cons, List.tail_cons] at c1 c2
  generalize hsd : send_command (lit "AT+CSQ")
    (let_terminal_settle (send_command [13, 10] (rssi_mark s))) = sd at c1 c2 c3 c6
  -- the data wait reads the `+CSQ:` line
  have hqd : sd.serial_rx
      = j1 ++ (lit "+CSQ: " ++ decimal n ++ 44 :: b) ++ 13 :: (j2 ++ lit "OK" ++ 13 :: j3) := by
    rw [c1]; rfl
  have hturn := wait_for_data_turn_line (some (lit "+CSQ: ")) (millis sd) 5 sd j1 _ _ c3 hqd
    hj1 hline
  have hturn2 : wait_for_data_turn (some (lit "+CSQ: ")) (millis sd) 5 sd
      = (BS_DATA, check_for_response (idle sd)) := by
    rw [hturn, if_neg (by omega), if_neg (by omega)]
    simp only [hpat, if_true]
  have hne : (wait_for_data_turn (some (lit "+CSQ: ")) (millis sd) 5 sd).1 ≠ BS_UNKNOWN := by
    rw [hturn2]
    show BS_DATA ≠ BS_UNKNOWN
    decide
  obtain ⟨se, e1, e2, e3, _, ⟨tail, e5⟩, _, e7⟩ := wait_for_data_first_line
    (some (lit "+CSQ: ")) fuel 5 sd j1 _ _ c3 hqd hj1 hline hne (by rw [hturn2])
  rw [hturn2] at e1
  -- the parse step, then the status wait reads `OK`
  have hrssi := rssi_parse_line se n b tail hn (fun c hc => (hb c hc).1) e5
  have hfresh : Fresh (rssi_parse se) := Or.inl e3
  have hqf : (rssi_parse se).serial_rx = j2 ++ lit "OK" ++ 13 :: j3 := e2
  obtain ⟨sg, g1, g2, _, _, _, g6⟩ := wait_for_status_ok_line fuel 5 (rssi_parse se) j2
    (lit "OK") j3 hfresh hqf hj2 (by decide) (by decide)
  have hini0 : (rssi_mark s).initialised = true := hini
  have hpec0 : (rssi_mark s).protocol_error_count = s.protocol_error_count := rfl
  have hfin : ∀ {α : Type} (f : SIM800_Control → α), RxBlind f → TxBlind f →
      f sd = f (rssi_mark s) := by
    intro α f hf1 hf2
    rw [c6 f hf1 hf2, b6 f hf1, a6 f hf1 hf2]
  refine ⟨sg, ?_, ?_, ?_, ?_, ?_, g2⟩
  · have hr : sg.recvd_rssi = n := by
      rw [g6 (fun s => s.recvd_rssi) (fun _ _ _ _ _ _ _ => rfl)]; exact hrssi
    rw [get_rssi, if_neg (by rw [hini]; decide), if_pos hdue]
    simp only [hsd, e1, if_true, g1]
    rw [if_neg (by decide), hr]
  · rw [g6 (fun s => s.recvd_rssi) (fun _ _ _ _ _ _ _ => rfl)]; exact hrssi
  · rw [g6 (fun s => s.initialised) (fun _ _ _ _ _ _ _ => rfl)]
    show se.initialised = true
    rw [e7 (fun s => s.initialised) (fun _ _ _ _ _ _ _ => rfl),
      hfin (fun s => s.initialised) (fun _ _ _ _ _ _ _ => rfl) (fun _ _ _ _ => rfl)]
    exact hini
  · rw [g6 (fun s => s.protocol_error_count) (fun _ _ _ _ _ _ _ => rfl)]
    show se.protocol_error_count = s.protocol_error_count
    rw [e7 (fun s => s.protocol_error_count) (fun _ _ _ _ _ _ _ => rfl),
      hfin (fun s => s.protocol_error_count) (fun _ _ _ _ _ _ _ => rfl) (fun _ _ _ _ => rfl)]
    rfl
  · rw [g6 (fun s => s.modem_script) (fun _ _ _ _ _ _ _ => rfl)]
    show se.modem_script = rest
    rw [e7 (fun s => s.modem_script) (fun _ _ _ _ _ _ _ => rfl), c2]

/-- C9: a due signal poll on an initialised driver that gets the reply `+CSQ: n,b`
followed by `OK`, n the decimal form of an RSSI in 0..31 or 99: the polled value is
n, `get_signal_bars` returns 0 if n is 0 or 99, 1 if n < 10, 2 if n < 15, 3 if n < 20
and 4 otherwise, and `get_signal_percent` returns 0 if n is 0 or 99 and
floor (n * 100 / 31) otherwise. -/
theorem signal_indicators (fuel : Nat) (s : SIM800_Control) (r0 j1 j2 j3 b : List Nat) (n : Nat)
    (rest : List (List Nat)) (hini : s.initialised = true) (hq : Quiet s)
    (hdue : usub (millis s) s.rssi_last_called > 10000)
    (hscript : s.modem_script = r0 :: csq_reply j1 j2 j3 n b :: rest)
    (hr0 : is_junk r0) (hj1 : is_junk j1) (hj2 : is_junk j2)
    (hb : ∀ c ∈ b, c ≠ 0 ∧ c ≠ 10 ∧ c ≠ 13) (hblen : b.length ≤ 150)
    (hn : n ≤ 31 ∨ n = 99) :
    (∃ s1, get_rssi (fuel + 1) s = some (n, s1) ∧ s1.recvd_rssi = n) ∧
      (∃ s1, get_signal_bars (fuel + 1) s = some (bars_of n, s1)) ∧
      (∃ s1, get_signal_percent (fuel + 1) s = some (percent_of n, s1)) := by
  obtain ⟨s1, h1, h2, h3, _⟩ := get_rssi_polled fuel s r0 j1 j2 j3 b n rest hini hq hdue
    hscript hr0 hj1 hj2 hb hblen hn
  refine ⟨⟨s1, h1, h2⟩, ⟨s1, ?_⟩, ⟨s1, ?_⟩⟩
  · rw [get_signal_bars, h1]
    simp only [h3, Bool.true_eq_false, if_false, bars_of]
    split_ifs <;> rfl
  · rw [get_signal_percent, h1]
    simp only [h3, Bool.true_eq_false, if_false, percent_of]
    split_ifs
    · rfl
    · have : n * 100 / 31 % 256 = n * 100 / 31 := by omega
      rw [this]

/-- C9 witness: the reply `+CSQ: 18,0` then `OK` gives the value 18, 3 bars and 58
percent. -/
theorem signal_indicators_witness :
    (∃ s1, get_rssi (0 + 1) csq_18_driver = some (18, s1) ∧ s1.recvd_rssi = 18) ∧
      (∃ s1, get_signal_bars (0 + 1) csq_18_driver = some (3, s1)) ∧
      (∃ s1, get_signal_percent (0 + 1) csq_18_driver = some (58, s1)) :=
  signal_indicators 0 csq_18_driver [] [13, 10] [10, 13, 10] [10] (lit "0") 18 [] rfl
    ⟨Or.inr (Or.inr ⟨rfl, List.length_replicate _ _⟩), by decide⟩ (by decide) rfl
    (by decide) (by decide) (by decide) (by decide) (by decide) (by decide)

/-! ## Steps of a scripted bring-up -/

theorem is_junk_lf : is_junk [10] := by decide

/-- A command sent from a calm state: the reply waits on the line. -/
theorem calm_send (cmd : List Nat) (s : SIM800_Control) (i pe : Nat) (r : List Nat)
    (script : List (List Nat)) (h : Calm s i pe (r :: script)) (hfit : strlen cmd ≤ TX_BUFFER_SIZE) :
    Fresh (send_command cmd s) ∧ (send_command cmd s).serial_rx = r ∧
      (send_command cmd s).idle_ms = i ∧ (send_command cmd s).protocol_error_count = pe ∧
      (send_command cmd s).modem_script = script ∧
      s.clock ≤ (send_command cmd s).clock ∧
      (send_command cmd s).clock ≤ s.clock + 15 * (i + 10) + 3 * i + 50 := by
  obtain ⟨a1, a2, a3, _, a5, a6⟩ := send_command_quiet cmd s h.quiet hfit
  rw [h.script] at a1 a2
  have hidl := a6 (fun s => s.idle_ms) (fun _ _ _ _ _ _ _ => rfl) (fun _ _ _ _ => rfl)
  have hpe := a6 (fun s => s.protocol_error_count) (fun _ _ _ _ _ _ _ => rfl)
    (fun _ _ _ _ => rfl)
  have hfew := h.few
  rw [h.idle_ms] at a5
  have hmul : s.serial_rx.length * i ≤ 3 * i := Nat.mul_le_mul_right i hfew
  refine ⟨a3, a1, hidl.trans h.idle_ms, hpe.trans h.errors, a2, ?_, ?_⟩
  · rw [a5]; omega
  · rw [a5]; omega

/-- A reply that is nothing, or only CR and LF bytes, leaves the state calm. -/
theorem calm_send_silent (cmd : List Nat) (s : SIM800_Control) (i pe : Nat) (r : List Nat)
    (script : List (List Nat)) (h : Calm s i pe (r :: script)) (hfit : strlen cmd ≤ TX_BUFFER_SIZE)
    (hr : is_junk r) (hr3 : r.length ≤ 3) :
    Calm (send_command cmd s) i pe script ∧ s.clock ≤ (send_command cmd s).clock ∧
      (send_command cmd s).clock ≤ s.clock + 15 * (i + 10) + 3 * i + 50 := by
  obtain ⟨a1, a2, a3, a4, a5, a6, a7⟩ := calm_send cmd s i pe r script h hfit
  exact ⟨⟨⟨a1, by rw [a2]; exact hr⟩, by rw [a2]; exact hr3, a3, a4, a5⟩, a6, a7⟩

/-- Settling from a calm state. -/
theorem calm_settle (s : SIM800_Control) (i pe : Nat) (script : List (List Nat))
    (h : Calm s i pe script) :
    Calm (let_terminal_settle s) i pe script ∧ (let_terminal_settle s).serial_rx = [] ∧
      s.clock ≤ (let_terminal_settle s).clock ∧
      (let_terminal_settle s).clock ≤ s.clock + 15 * (i + 10) + 3 * i := by
  obtain ⟨b1, _, b3, b4, b5, b6⟩ := let_terminal_settle_quiet s h.quiet
  have hfew := h.few
  rw [h.idle_ms] at b5
  have hmul : s.serial_rx.length * i ≤ 3 * i := Nat.mul_le_mul_right i hfew
  refine ⟨⟨quiet_of_settled _ b1 b3 b4, by rw [b1]; simp, ?_, ?_, ?_⟩, b1, ?_, ?_⟩
  · rw [b6 (fun s => s.idle_ms) (fun _ _ _ _ _ _ _ => rfl)]; exact h.idle_ms
  · rw [b6 (fun s => s.protocol_error_count) (fun _ _ _ _ _ _ _ => rfl)]; exact h.errors
  · rw [b6 (fun s => s.modem_script) (fun _ _ _ _ _ _ _ => rfl)]; exact h.script
  · rw [b5]; omega
  · rw [b5]; omega

/-- A status wait from a calm state, nothing coming: BS_TIMEOUT after the timeout. -/
theorem calm_timeout (fuel t : Nat) (s : SIM800_Control) (i pe : Nat) (script : List (List Nat))
    (h : Calm s i pe script) (hi : 0 < i) (hwrap : s.clock + t % 256 * 1000 + 4 * i < ULONG)
    (hfuel : t % 256 * 1000 + i + 1 ≤ fuel) :
    ∃ s1, wait_for_status fuel t s = some (BS_TIMEOUT, s1) ∧ Calm s1 i pe script ∧
      s1.serial_rx = [] ∧ s.clock ≤ s1.clock ∧ s1.clock ≤ s.clock + t % 256 * 1000 + 4 * i := by
  have hfew := h.few
  have hmul : (s.serial_rx.length + 1) * i ≤ 4 * i := Nat.mul_le_mul_right i (by omega)
  obtain ⟨s1, e1, e2, _, e4, e5, e6, e7, e8⟩ := wait_for_status_quiet fuel t s h.quiet
    (by rw [h.idle_ms]; exact hi) (by rw [h.idle_ms]; omega) (by rw [h.idle_ms]; exact hfuel)
  rw [h.idle_ms] at e7
  refine ⟨s1, e1, ⟨quiet_of_settled _ e2 e4 e5, by rw [e2]; simp, ?_, ?_, ?_⟩, e2, by omega,
    by omega⟩
  · rw [e8 (fun s => s.idle_ms) (fun _ _ _ _ _ _ _ => rfl)]; exact h.idle_ms
  · rw [e8 (fun s => s.protocol_error_count) (fun _ _ _ _ _ _ _ => rfl)]; exact h.errors
  · rw [e8 (fun s => s.modem_script) (fun _ _ _ _ _ _ _ => rfl)]; exact h.script

/-- A status wait that finds the line `OK` next on the serial line, a LF after it. -/
theorem calm_ok (fuel t : Nat) (s : SIM800_Control) (i pe : Nat) (script : List (List Nat))
    (junk : List Nat) (hfresh : Fresh s) (hq : s.serial_rx = junk ++ lit "OK" ++ 13 :: [10])
    (hj : is_junk junk) (hj3 : junk.length ≤ 3) (hidl : s.idle_ms = i)
    (hpe : s.protocol_error_count = pe) (hs : s.modem_script = script) (hfuel : 0 < fuel) :
    ∃ s1, wait_for_status fuel t s = some (BS_OK, s1) ∧ Calm s1 i pe script ∧
      s1.serial_rx = [10] ∧ s.clock ≤ s1.clock ∧ s1.clock ≤ s.clock + 7 * i := by
  obtain ⟨f, rfl⟩ : ∃ f, fuel = f + 1 := ⟨fuel - 1, by omega⟩
  obtain ⟨s1, g1, g2, g3, g4, _, g6⟩ := wait_for_status_ok_line f t s junk (lit "OK") [10]
    hfresh hq hj (by decide) (by decide)
  have hlen : (lit "OK").length = 2 := by decide
  rw [hidl, hlen] at g4
  have hmul : (junk.length + 2 + 2) * i ≤ 7 * i := Nat.mul_le_mul_right i (by omega)
  refine ⟨s1, g1, ⟨⟨Or.inl g3, by rw [g2]; exact is_junk_lf⟩, by rw [g2]; simp, ?_, ?_, ?_⟩, g2,
    by rw [g4]; omega, by rw [g4]; omega⟩
  · rw [g6 (fun s => s.idle_ms) (fun _ _ _ _ _ _ _ => rfl)]; exact hidl
  · rw [g6 (fun s => s.protocol_error_count) (fun _ _ _ _ _ _ _ => rfl)]; exact hpe
  · rw [g6 (fun s => s.modem_script) (fun _ _ _ _ _ _ _ => rfl)]; exact hs

/-- A configuration command answered `OK`: `initialise` goes on with its next step. -/
theorem command_ok_scripted (fuel : Nat) (cmd : List Nat) (t : Nat) (count : Bool)
    (s : SIM800_Control) (i pe : Nat)
    (script : List (List Nat)) (h : Calm s i pe (OK_REPLY :: script))
    (hfit : strlen cmd ≤ TX_BUFFER_SIZE) (hfuel : 0 < fuel) :
    ∃ s1, (∀ next, command_ok fuel cmd t count s next = next s1) ∧ Calm s1 i pe script ∧
      s.clock ≤ s1.clock ∧ s1.clock ≤ s.clock + 15 * (i + 10) + 10 * i + 50 := by
  obtain ⟨a1, a2, a3, a4, a5, a6, a7⟩ := calm_send cmd s i pe OK_REPLY script h hfit
  obtain ⟨s1, b1, b2, _, b4, b5⟩ := calm_ok fuel t (send_command cmd s) i pe script [13, 10]
    a1 (by rw [a2]; rfl) (by decide) (by decide) a3 a4 a5 hfuel
  refine ⟨s1, fun next => ?_, b2, by omega, by omega⟩
  simp only [command_ok, b1]
  rw [if_neg (by decide)]

theorem usub_elapsed (a b : Nat) (h1 : a ≤ b) (h2 : b < ULONG) : usub b a = b - a := by
  simp only [usub, ULONG] at *
  omega

/-- A status wait from a calm state whose result is not looked at. -/
theorem wait_ignored_timeout (fuel t : Nat) (s : SIM800_Control) (i pe : Nat)
    (script : List (List Nat)) (h : Calm s i pe script) (hi : 0 < i)
    (hwrap : s.clock + t % 256 * 1000 + 4 * i < ULONG) (hfuel : t % 256 * 1000 + i + 1 ≤ fuel) :
    ∃ s1, (∀ next, wait_ignored fuel t s next = next s1) ∧ Calm s1 i pe script ∧
      s.clock ≤ s1.clock ∧ s1.clock ≤ s.clock + t % 256 * 1000 + 4 * i := by
  obtain ⟨s1, e1, e2, _, e4, e5⟩ := calm_timeout fuel t s i pe script h hi hwrap hfuel
  exact ⟨s1, fun next => by simp only [wait_ignored, e1], e2, e4, e5⟩

/-- A command answered `OK` where the answer is waited for but not looked at. -/
theorem send_wait_ignored_ok (fuel : Nat) (cmd : List Nat) (t : Nat) (s : SIM800_Control)
    (i pe : Nat) (script : List (List Nat)) (h : Calm s i pe (OK_REPLY :: script))
    (hfit : strlen cmd ≤ TX_BUFFER_SIZE) (hfuel : 0 < fuel) :
    ∃ s1, (∀ next, wait_ignored fuel t (send_command cmd s) next = next s1) ∧
      Calm s1 i pe script ∧ s.clock ≤ s1.clock ∧
      s1.clock ≤ s.clock + 15 * (i + 10) + 10 * i + 50 := by
  obtain ⟨a1, a2, a3, a4, a5, a6, a7⟩ := calm_send cmd s i pe OK_REPLY script h hfit
  obtain ⟨s1, b1, b2, _, b4, b5⟩ := calm_ok fuel t (send_command cmd s) i pe script [13, 10]
    a1 (by rw [a2]; rfl) (by decide) (by decide) a3 a4 a5 hfuel
  exact ⟨s1, fun next => by simp only [wait_ignored, b1], b2, by omega, by omega⟩

/-- The probe loop against the script: two `AT` without reply, the third answered `OK`
with more bytes behind it. -/
theorem probe_loop_scripted (fuel turns : Nat) (s : SIM800_Control) (i pe : Nat)
    (more : List Nat) (script : List (List Nat))
    (h : Calm s i pe ([] :: [] :: (OK_REPLY ++ more) :: script))
    (hi : 0 < i) (hi2 : i ≤ 100) (hwrap : s.clock + 20000 < ULONG)
    (hfuel : 2000 + i + 1 ≤ fuel) (hturns : 4 ≤ turns) :
    ∃ s1, probe_loop fuel (millis s) turns BS_UNKNOWN s = some (BS_OK, s1) ∧
      s1.rx_buff_state = BS_DATA ∧ s1.serial_rx = 10 :: more ∧ s1.idle_ms = i ∧
      s1.protocol_error_count = pe ∧ s1.modem_script = script ∧
      s.clock ≤ s1.clock ∧ s1.clock ≤ s.clock + 12000 := by
  obtain ⟨k, rfl⟩ : ∃ k, turns = k + 4 := ⟨turns - 4, by omega⟩
  have hm : millis s = s.clock := by simp only [millis, ULONG] at *; omega
  have hat : strlen (lit "AT") ≤ TX_BUFFER_SIZE := by decide
  -- first probe: no reply
  obtain ⟨a1, a2, a3⟩ := calm_send_silent (lit "AT") s i pe [] _ h hat (by decide) (by decide)
  obtain ⟨s1, b1, b2, _, b4, b5⟩ := calm_timeout fuel 2 _ i pe _ a1 hi
    (by simp only [ULONG] at *; omega) (by omega)
  -- second probe: no reply
  obtain ⟨c1, c2, c3⟩ := calm_send_silent (lit "AT") s1 i pe [] _ b2 hat (by decide) (by decide)
  obtain ⟨s2, d1, d2, _, d4, d5⟩ := calm_timeout fuel 2 _ i pe _ c1 hi
    (by simp only [ULONG] at *; omega) (by omega)
  -- third probe: OK
  obtain ⟨e1, e2, e3, e4, e5, e6, e7⟩ := calm_send (lit "AT") s2 i pe _ script d2 hat
  obtain ⟨f, hf⟩ : ∃ f, fuel = f + 1 := ⟨fuel - 1, by omega⟩
  obtain ⟨s3, g1, g2, g3, g4, _, g6⟩ := wait_for_status_ok_line f 2 (send_command (lit "AT") s2)
    [13, 10] (lit "OK") (10 :: more) e1 (by rw [e2]; simp [OK_REPLY]) (by decide) (by decide)
    (by decide)
  rw [← hf] at g1
  have hlen : (lit "OK").length = 2 := by decide
  rw [e3, hlen] at g4
  simp only [List.length_cons, List.length_nil] at g4
  have hu1 : usub (millis s) (millis s) < 30000 := by simp [usub, ULONG]
  have hu2 : usub (millis s1) (millis s) < 30000 := by
    rw [hm]
    have : millis s1 = s1.clock := by simp only [millis, ULONG] at *; omega
    rw [this, usub_elapsed _ _ (by omega) (by simp only [ULONG] at *; omega)]
    omega
  have hu3 : usub (millis s2) (millis s) < 30000 := by
    rw [hm]
    have : millis s2 = s2.clock := by simp only [millis, ULONG] at *; omega
    rw [this, usub_elapsed _ _ (by omega) (by simp only [ULONG] at *; omega)]
    omega
  refine ⟨s3, ?_, g3, g2, ?_, ?_, ?_, by omega, by omega⟩
  · rw [probe_loop, if_pos ⟨hu1, by decide⟩]
    simp only [b1]
    rw [probe_loop, if_pos ⟨hu2, by decide⟩]
    simp only [d1]
    rw [probe_loop, if_pos ⟨hu3, by decide⟩]
    simp only [g1]
    rw [probe_loop, if_neg (by simp)]
  · rw [g6 (fun s => s.idle_ms) (fun _ _ _ _ _ _ _ => rfl)]; exact e3
  · rw [g6 (fun s => s.protocol_error_count) (fun _ _ _ _ _ _ _ => rfl)]; exact e4
  · rw [g6 (fun s => s.modem_script) (fun _ _ _ _ _ _ _ => rfl)]; exact e5

/-- A data wait that finds next on the serial line a line it accepts (any line when
there is no pattern, a line containing the pattern otherwise): the wait ends in its
first turn with that line in `rx_buffer`. -/
theorem wait_for_data_line_decides (pattern : Option (List Nat)) (fuel t : Nat)
    (s : SIM800_Control) (junk line rest : List Nat)
    (hfresh : Fresh s) (hq : s.serial_rx = junk ++ line ++ 13 :: rest) (hj : is_junk junk)
    (hl : is_line line)
    (hpat : pattern = none ∨ ∃ p, pattern = some p ∧ strstr line p = true)
    (hfuel : 0 < fuel) :
    ∃ rv s1, wait_for_data pattern fuel t s = some (rv, s1) ∧
      (rv = BS_OK ∨ rv = BS_ERROR ∨ rv = BS_DATA) ∧
      s1.serial_rx = rest ∧ s1.rx_buff_state = BS_DATA ∧
      s1.clock = s.clock + (junk.length + line.length + 2) * s.idle_ms ∧
      (∃ tail, s1.rx_buffer = line ++ 0 :: tail) ∧
      ∀ {α : Type} (f : SIM800_Control → α), RxBlind f → f s1 = f s := by
  obtain ⟨f, rfl⟩ : ∃ f, fuel = f + 1 := ⟨fuel - 1, by omega⟩
  have hturn := wait_for_data_turn_line pattern (millis s) t s junk line rest hfresh hq hj hl
  have key : ((wait_for_data_turn pattern (millis s) t s).1 = BS_OK ∨
      (wait_for_data_turn pattern (millis s) t s).1 = BS_ERROR ∨
      (wait_for_data_turn pattern (millis s) t s).1 = BS_DATA) ∧
      (wait_for_data_turn pattern (millis s) t s).2 = check_for_response (idle s) := by
    rw [hturn]
    rcases hpat with h | ⟨p, h, hp⟩
    · subst h
      split_ifs <;> simp
    · subst h
      simp only [hp, if_true]
      split_ifs <;> simp
  obtain ⟨s1, e1, e2, e3, e4, e5, _, e7⟩ := wait_for_data_first_line pattern f t s junk line rest
    hfresh hq hj hl (by rcases key.1 with h | h | h <;> rw [h] <;> decide) key.2
  exact ⟨_, s1, e1, key.1, e2, e3, e4, e5, e7⟩

theorem calm_idle_wait (n : Nat) (s : SIM800_Control) (i pe : Nat) (script : List (List Nat))
    (h : Calm s i pe script) : Calm (idle_wait n s) i pe script := by
  have e1 : (idle_wait n s).serial_rx = s.serial_rx :=
    idle_wait_blind (fun s => s.serial_rx) (fun _ _ => rfl) n s
  have e2 : (idle_wait n s).idle_ms = s.idle_ms :=
    idle_wait_blind (fun s => s.idle_ms) (fun _ _ => rfl) n s
  have e3 : (idle_wait n s).protocol_error_count = s.protocol_error_count :=
    idle_wait_blind (fun s => s.protocol_error_count) (fun _ _ => rfl) n s
  have e4 : (idle_wait n s).modem_script = s.modem_script :=
    idle_wait_blind (fun s => s.modem_script) (fun _ _ => rfl) n s
  exact ⟨⟨fresh_idle_wait n s h.quiet.1, by rw [e1]; exact h.quiet.2⟩, by rw [e1]; exact h.few,
    e2.trans h.idle_ms, e3.trans h.errors, e4.trans h.script⟩

/-- The SIM query answered by a data line and `OK`: `initialise` goes on. -/
theorem ccid_scripted (fuel : Nat) (s : SIM800_Control) (i pe : Nat) (ccid : List Nat)
    (script : List (List Nat))
    (h : Calm s i pe (([13, 10] ++ ccid ++ [13, 10] ++ OK_REPLY) :: script))
    (hccid : is_line ccid) (hfuel : 0 < fuel) :
    ∃ s1 s2, (∀ next, data_ignored none fuel 2 (send_command (lit "AT+CCID") s) next = next s1) ∧
      wait_for_status fuel 2 s1 = some (BS_OK, s2) ∧ Calm s2 i pe script ∧
      s.clock ≤ s2.clock ∧ s2.clock ≤ s.clock + 15 * (i + 10) + 176 * i + 50 := by
  obtain ⟨a1, a2, a3, a4, a5, a6, a7⟩ := calm_send (lit "AT+CCID") s i pe _ script h (by decide)
  have hq : (send_command (lit "AT+CCID") s).serial_rx
      = [13, 10] ++ ccid ++ 13 :: (10 :: OK_REPLY) := by rw [a2]; simp
  obtain ⟨rv, s1, b1, _, b3, b4, b5, _, b7⟩ := wait_for_data_line_decides none fuel 2
    (send_command (lit "AT+CCID") s) [13, 10] ccid (10 :: OK_REPLY) a1 hq (by decide) hccid
    (Or.inl rfl) hfuel
  rw [a3] at b5
  simp only [List.length_cons, List.length_nil] at b5
  have hlen : ccid.length * i ≤ 161 * i :=
    Nat.mul_le_mul_right i (by have := hccid.2.1; simp only [RX_BUFFER_SIZE] at this; omega)
  have hclk : s1.clock = (send_command (lit "AT+CCID") s).clock + 4 * i + ccid.length * i := by
    rw [b5]; ring
  obtain ⟨s2, c1, c2, _, c4, c5⟩ := calm_ok fuel 2 s1 i pe script [10, 13, 10]
    (Or.inl b4) (by rw [b3]; rfl) (by decide) (by decide)
    (by rw [b7 (fun s => s.idle_ms) (fun _ _ _ _ _ _ _ => rfl)]; exact a3)
    (by rw [b7 (fun s => s.protocol_error_count) (fun _ _ _ _ _ _ _ => rfl)]; exact a4)
    (by rw [b7 (fun s => s.modem_script) (fun _ _ _ _ _ _ _ => rfl)]; exact a5) hfuel
  exact ⟨s1, s2, fun next => by simp only [data_ignored, b1], c1, c2, by omega, by omega⟩

/-- The configuration sequence of `initialise` against a modem that answers every
command with `OK`, the SIM query after a data line: it ends with `initialised`
set and the error counter as it was. -/
theorem initialise_config_scripted (fuel : Nat) (s : SIM800_Control) (i pe : Nat)
    (ccid : List Nat) (script : List (List Nat))
    (h : Calm s i pe (OK_REPLY :: OK_REPLY :: ([13, 10] ++ ccid ++ [13, 10] ++ OK_REPLY) ::
      OK_REPLY :: OK_REPLY :: OK_REPLY :: OK_REPLY :: OK_REPLY :: script))
    (hccid : is_line ccid) (hi : 0 < i) (hi2 : i ≤ 100) (hwrap : s.clock + 100000 < ULONG)
    (hfuel : 5000 + i + 1 ≤ fuel) :
    ∃ s1, initialise_config fuel s = some s1 ∧ s1.initialised = true ∧
      s1.protocol_error_count = pe := by
  have hf0 : 0 < fuel := by omega
  -- the 1 s wait
  have h0 := calm_idle_wait 100 s i pe _ h
  have hc0 : (idle_wait 100 s).clock = s.clock + 100 * (i + 10) := by
    rw [idle_wait_clock, h.idle_ms]
  -- AT&F, ATE 0, AT+CCID
  obtain ⟨s1, e1, k1, l1, u1⟩ := command_ok_scripted fuel (lit "AT&F") 2 true _ i pe _ h0
    (by decide) hf0
  obtain ⟨s2, e2, k2, l2, u2⟩ := command_ok_scripted fuel (lit "ATE 0") 2 true s1 i pe _ k1
    (by decide) hf0
  obtain ⟨s3, s4, e3, e4, k4, l4, u4⟩ := ccid_scripted fuel s2 i pe ccid _ k2 hccid hf0
  -- AT+CMGF=1, AT+CLIP=1, AT+CUSD=1
  obtain ⟨s5, e5, k5, l5, u5⟩ := command_ok_scripted fuel (lit "AT+CMGF=1") 2 false s4 i pe _ k4
    (by decide) hf0
  obtain ⟨s6, e6, k6, l6, u6⟩ := command_ok_scripted fuel (lit "AT+CLIP=1") 15 true s5 i pe _ k5
    (by decide) hf0
  obtain ⟨s7, e7, k7, l7, u7⟩ := command_ok_scripted fuel (lit "AT+CUSD=1") 2 true s6 i pe _ k6
    (by decide) hf0
  -- the function-mode cycle
  obtain ⟨s8, e8, k8, l8, u8⟩ := wait_ignored_timeout fuel 5 s7 i pe _ k7 hi
    (by simp only [ULONG] at *; omega) (by omega)
  obtain ⟨s9, e9, k9, l9, u9⟩ := send_wait_ignored_ok fuel (lit "AT+CFUN=4") 15 s8 i pe _ k8
    (by decide) hf0
  obtain ⟨s10, e10, k10, l10, u10⟩ := wait_ignored_timeout fuel 5 s9 i pe _ k9 hi
    (by simp only [ULONG] at *; omega) (by omega)
  obtain ⟨s11, e11, k11, _, _⟩ := send_wait_ignored_ok fuel (lit "AT+CFUN=1") 15 s10 i pe _ k10
    (by decide) hf0
  refine ⟨{ s11 with initialised := true }, ?_, rfl, k11.errors⟩
  simp only [initialise_config, cfun_cycle, e1, e2, e3, e4, e5, e6, e7, e8, e9, e10, e11]
  rw [if_neg (by decide)]

/-- C10 (amended): bring-up end to end.  From a fresh receive buffer and an empty
serial line, with the scripted modem that gives no reply to the first two `AT`
probes, `OK` to the third, then the banner `SMS Ready`, and `OK` to every later
configuration command, the SIM query `AT+CCID` after its data line, `initialise`
without forced reset returns with `initialised` true and `protocol_error_count` as it
was before the call (idle hook of 1 to 100 ms, clock not near its wrap). -/
theorem bringup_end_to_end (fuel : Nat) (s : SIM800_Control) (ccid : List Nat)
    (rest : List (List Nat)) (hfresh : Fresh s) (hrx : s.serial_rx = [])
    (hscript : s.modem_script = bringup_script ccid ++ rest) (hccid : is_line ccid)
    (hi : 0 < s.idle_ms) (hi2 : s.idle_ms ≤ 100) (hwrap : s.clock + 200000 < ULONG)
    (hfuel : 5200 ≤ fuel) :
    ∃ s1, initialise fuel false s = some s1 ∧ s1.initialised = true ∧
      s1.protocol_error_count = s.protocol_error_count := by
  generalize hiv : s.idle_ms = i at hi hi2
  -- the 1 s wait, the empty command, the settle
  have hcalm : Calm { s with initialised := false } i s.protocol_error_count
      ([] :: [] :: [] :: (OK_REPLY ++ SMS_READY_BANNER) :: OK_REPLY :: OK_REPLY ::
        ([13, 10] ++ ccid ++ [13, 10] ++ OK_REPLY) ::
        OK_REPLY :: OK_REPLY :: OK_REPLY :: OK_REPLY :: OK_REPLY :: rest) :=
    ⟨⟨hfresh, by rw [show ({ s with initialised := false } : SIM800_Control).serial_rx
          = s.serial_rx from rfl, hrx]; decide⟩,
      by rw [show ({ s with initialised := false } : SIM800_Control).serial_rx
          = s.serial_rx from rfl, hrx]; simp,
      hiv, rfl, hscript⟩
  have e0 : initialise_reset false s = idle_wait 100 { s with initialised := false } := rfl
  have h0 := calm_idle_wait 100 _ i _ _ hcalm
  have hc0 : (idle_wait 100 { s with initialised := false }).clock
      = s.clock + 100 * (i + 10) := by
    rw [idle_wait_clock]
    show s.clock + 100 * (s.idle_ms + 10) = _
    rw [hiv]
  obtain ⟨h1, l1, u1⟩ := calm_send_silent [13, 10] _ i _ [] _ h0 (by decide) (by decide)
    (by decide)
  obtain ⟨h2, _, l2, u2⟩ := calm_settle _ i _ _ h1
  -- the probe loop and the banner
  obtain ⟨s3, e3, a1, a2, a3, a4, a5, l3, u3⟩ := probe_loop_scripted fuel fuel _ i _
    SMS_READY_BANNER _ h2 hi hi2 (by simp only [ULONG] at *; omega) (by omega) (by omega)
  obtain ⟨rv, s4, e4, _, b2, b3, b4, _, b6⟩ := wait_for_data_line_decides
    (some (lit "SMS Ready")) fuel 30 s3 [10, 13, 10] (lit "SMS Ready") [10] (Or.inl a1)
    (by rw [a2]; rfl) (by decide) (by decide) (Or.inr ⟨_, rfl, by decide⟩) (by omega)
  rw [a3] at b4
  have hlen : (lit "SMS Ready").length = 9 := by decide
  rw [hlen] at b4
  simp only [List.length_cons, List.length_nil] at b4
  have h4 : Calm s4 i s.protocol_error_count
      (OK_REPLY :: OK_REPLY :: ([13, 10] ++ ccid ++ [13, 10] ++ OK_REPLY) ::
        OK_REPLY :: OK_REPLY :: OK_REPLY :: OK_REPLY :: OK_REPLY :: rest) :=
    ⟨⟨Or.inl b3, by rw [b2]; exact is_junk_lf⟩, by rw [b2]; simp,
      (b6 (fun s => s.idle_ms) (fun _ _ _ _ _ _ _ => rfl)).trans a3,
      (b6 (fun s => s.protocol_error_count) (fun _ _ _ _ _ _ _ => rfl)).trans a4,
      (b6 (fun s => s.modem_script) (fun _ _ _ _ _ _ _ => rfl)).trans a5⟩
  -- the configuration sequence
  obtain ⟨s5, e5, c1, c2⟩ := initialise_config_scripted fuel s4 i _ ccid rest h4 hccid hi hi2
    (by simp only [ULONG] at *; omega) (by omega)
  refine ⟨s5, ?_, c1, c2⟩
  simp only [initialise, e0, e3, e4]
  rw [if_neg (by decide)]
  simp only [Bool.false_eq_true, and_false, if_false, e5]

/-- C10 witness: the constructed driver, an idle hook of 10 ms, a 20-digit card
identifier. -/
theorem bringup_end_to_end_witness :
    ∃ s1, initialise 6000 false (constructed 10 (bringup_script SAMPLE_CCID ++ [])) = some s1 ∧
      s1.initialised = true ∧
      s1.protocol_error_count
        = (constructed 10 (bringup_script SAMPLE_CCID ++ [])).protocol_error_count :=
  bringup_end_to_end 6000 (constructed 10 (bringup_script SAMPLE_CCID ++ [])) SAMPLE_CCID []
    (Or.inr (Or.inr ⟨rfl, List.length_replicate _ _⟩)) rfl rfl (by decide) (by decide)
    (by decide) (by decide) (by decide)

set_option maxRecDepth 100000 in
/-- C10, as the claim states it, fails: with a bare `OK` as the answer to every
configuration command, the SIM query `AT+CCID` included, `initialise` returns with
`initialised` false: the data wait after `AT+CCID` takes the `OK`, and the status
wait that follows times out. -/
theorem bringup_bare_ok_counterexample :
    (initialise 12 false (constructed 500 all_ok_script)).map
      (fun s => (s.initialised, s.protocol_error_count)) = some (false, 0) := by
  decide

/-! ## Adequacy of the definitions: substring search and loop bounds -/

theorem starts_with_iff (p s : List Nat) : starts_with p s = true ↔ p <+: s := by
  induction p generalizing s with
  | nil => simp [starts_with]
  | cons a p ih =>
    cases s with
    | nil => simp [starts_with]
    | cons c s =>
      simp only [starts_with, Bool.and_eq_true, beq_iff_eq, ih, List.cons_prefix_cons]

/-- The substring search of `strstr` finds exactly the infixes. -/
theorem find_in_iff (s p : List Nat) : find_in s p = true ↔ p <:+: s := by
  induction s with
  | nil =>
    simp only [find_in, starts_with_iff]
    constructor
    · intro h; exact h.isInfix
    · intro h
      have := List.eq_nil_of_infix_nil h
      subst this
      exact List.prefix_refl _
  | cons c s ih =>
    simp only [find_in, Bool.or_eq_true, starts_with_iff, ih]
    rw [List.infix_cons_iff]

/-- The receive loop only takes bytes from the front of the queue, and at least one
when it ends with a line. -/
theorem rx_loop_consumes (bytes : List Nat) : ∀ (s : SIM800_Control), s.serial_rx = bytes →
    s.rx_buff_state = BS_WAITING →
    (rx_loop bytes s).serial_rx.length ≤ bytes.length ∧
      ((rx_loop bytes s).rx_buff_state = BS_DATA →
        (rx_loop bytes s).serial_rx.length < bytes.length) := by
  induction bytes with
  | nil =>
    intro s hq hw
    refine ⟨by rw [rx_loop, hq], fun h => ?_⟩
    rw [rx_loop, hw] at h
    exact absurd h (by decide)
  | cons c rest ih =>
    intro s hq hw
    rw [rx_loop, if_pos hw]
    have hq1 : (rx_byte c (idle (serial_pop rest s))).serial_rx = rest := by
      rw [rx_byte_serial_rx]; rfl
    by_cases hst : (rx_byte c (idle (serial_pop rest s))).rx_buff_state = BS_WAITING
    · obtain ⟨h1, h2⟩ := ih _ hq1 hst
      exact ⟨by simp only [List.length_cons]; omega,
        fun h => by have := h2 h; simp only [List.length_cons]; omega⟩
    · rw [rx_loop_not_waiting _ _ hst, hq1]
      exact ⟨by simp, fun _ => by simp⟩

/-- The fuel that `let_terminal_settle` gives its loop is never used up: any fuel
above the length of the receive queue gives the same result. -/
theorem drain_loop_fuel : ∀ (fuel : Nat) (s : SIM800_Control), s.serial_rx.length < fuel →
    drain_loop (fuel + 1) s = drain_loop fuel s := by
  intro fuel
  induction fuel with
  | zero => intro s h; omega
  | succ fuel ih =>
    intro s h
    have h2 : (check_for_response s).rx_buff_state = BS_DATA →
        (check_for_response s).serial_rx.length < (rx_prepare s).serial_rx.length :=
      (rx_loop_consumes (rx_prepare s).serial_rx (rx_prepare s) rfl
        (by simp only [rx_prepare])).2
    rw [rx_prepare_serial_rx] at h2
    conv_lhs => rw [drain_loop]
    conv_rhs => rw [drain_loop]
    by_cases hd : (check_for_response s).rx_buff_state = BS_DATA
    · simp only [hd, if_true]
      apply ih
      rw [process_urc_serial_rx]
      have h3 : (check_for_response s).serial_rx.length < s.serial_rx.length := h2 hd
      omega
    · simp only [hd, if_false]

/-- The fuel of the comma loop of `get_rssi` and `process_urc` is never used up. -/
theorem nul_commas_fuel : ∀ (fuel idx : Nat) (buf : List Nat), buf.length ≤ idx + fuel →
    nul_commas (fuel + 1) idx buf = nul_commas fuel idx buf := by
  intro fuel
  induction fuel with
  | zero =>
    intro idx buf h
    have h1 := strlen_le_length buf
    have h2 : ¬ idx < strlen buf := by omega
    simp only [nul_commas, if_neg h2]
  | succ fuel ih =>
    intro idx buf h
    conv_lhs => rw [nul_commas]
    conv_rhs => rw [nul_commas]
    by_cases hi : idx < strlen buf
    · rw [if_pos hi, if_pos hi]
      apply ih
      split_ifs
      · rw [List.length_set]; omega
      · omega
    · rw [if_neg hi, if_neg hi]

/-- The fuel of the comma loop of `call_number` is never used up. -/
theorem clcc_loop_fuel : ∀ (fuel idx csv ts : Nat) (buf : List Nat), buf.length ≤ idx + fuel →
    clcc_loop (fuel + 1) idx csv ts buf = clcc_loop fuel idx csv ts buf := by
  intro fuel
  induction fuel with
  | zero =>
    intro idx csv ts buf h
    have h1 := strlen_le_length buf
    have h2 : ¬ idx < strlen buf := by omega
    simp only [clcc_loop, if_neg h2]
  | succ fuel ih =>
    intro idx csv ts buf h
    conv_lhs => rw [clcc_loop]
    conv_rhs => rw [clcc_loop]
    by_cases hi : idx < strlen buf
    · rw [if_pos hi, if_pos hi]
      by_cases hc : char_at buf idx = 44
      · rw [if_pos hc, if_pos hc]
        apply ih
        split_ifs
        · rw [List.length_set]; omega
        · omega
      · rw [if_neg hc, if_neg hc]
        exact ih _ _ _ _ (by omega)
    · rw [if_neg hi, if_neg hi]

/-- The fuel of the header loop of `get_pending_sms` is never used up. -/
theorem cmgl_header_loop_fuel : ∀ (fuel idx csv ts : Nat) (sms_id buf : List Nat),
    buf.length ≤ idx + fuel →
    cmgl_header_loop (fuel + 1) idx csv ts sms_id buf
      = cmgl_header_loop fuel idx csv ts sms_id buf := by
  intro fuel
  induction fuel with
  | zero =>
    intro idx csv ts sms_id buf h
    have h1 := strlen_le_length buf
    have h2 : ¬ idx < strlen buf := by omega
    simp only [cmgl_header_loop, if_neg h2]
  | succ fuel ih =>
    intro idx csv ts sms_id buf h
    conv_lhs => rw [cmgl_header_loop]
    conv_rhs => rw [cmgl_header_loop]
    by_cases hi : idx < strlen buf
    · rw [if_pos hi, if_pos hi]
      by_cases hc : char_at buf idx = 44
      · rw [if_pos hc, if_pos hc]
        simp only []
        split_ifs
        · exact ih _ _ _ _ _ (by omega)
        · exact ih _ _ _ _ _ (by omega)
        · exact ih _ _ _ _ _ (by rw [List.length_set]; omega)
        · exact ih _ _ _ _ _ (by omega)
      · rw [if_neg hc, if_neg hc]
        exact ih _ _ _ _ _ (by omega)
    · rw [if_neg hi, if_neg hi]

/-! ## Whole-function runs on sample modem dialogues -/

set_option maxRecDepth 100000 in
/-- A run of `get_pending_sms` on `SMS_LISTING`: the message id, the caller id with its
quotes and the decoded body. -/
theorem get_pending_sms_sample :
    (get_pending_sms 100 sms_driver).map
        (fun r => (r.1, cstr r.2.1, cstr r.2.2.sms_buffer, cstr r.2.2.stored_caller_id))
      = some (true, lit "1", lit "ABCD", [34] ++ lit "Lebara" ++ [34]) := by
  decide

set_option maxRecDepth 100000 in
/-- Two runs of `call_number`: dialling, ringing, active ends in success; dialling,
waiting ends in failure. -/
theorem call_number_sample :
    (call_number 100 (lit "0123") (call_driver [50, 51, 48])).map (fun r => r.1) = some true
    ∧ (call_number 100 (lit "0123") (call_driver [50, 53])).map (fun r => r.1)
        = some false := by
  decide

/-! ## Frame facts that hold in every state

What the line reader and the URC handler do not write is left alone by every wait and
every settle, whatever arrives on the line. -/

theorem drain_loop_frame {α : Type} (f : SIM800_Control → α) (h1 : RxBlind f) (h2 : UrcBlind f) :
    ∀ (fuel : Nat) (s : SIM800_Control), f (drain_loop fuel s) = f s := by
  intro fuel
  induction fuel with
  | zero => intro s; rfl
  | succ fuel ih =>
    intro s
    rw [drain_loop]
    by_cases hd : (check_for_response s).rx_buff_state = BS_DATA
    · simp only [hd, if_true]
      rw [ih, process_urc_blind f h2, check_for_response_blind f h1]
    · simp only [hd, if_false]
      exact check_for_response_blind f h1 s

theorem let_terminal_settle_frame {α : Type} (f : SIM800_Control → α) (h1 : RxBlind f)
    (h2 : UrcBlind f) (s : SIM800_Control) : f (let_terminal_settle s) = f s := by
  simp only [let_terminal_settle]
  rw [drain_loop_frame f h1 h2, idle_wait_blind f (clockBlind_of_rxBlind f h1)]

theorem send_command_frame {α : Type} (f : SIM800_Control → α) (h1 : RxBlind f)
    (h2 : UrcBlind f) (h3 : TxBlind f) (cmd : List Nat) (s : SIM800_Control) :
    f (send_command cmd s) = f s := by
  simp only [send_command]
  rw [delay_blind f (clockBlind_of_rxBlind f h1)]
  split_ifs
  · rw [transmit_blind f h1 h3, let_terminal_settle_frame f h1 h2]
  · exact let_terminal_settle_frame f h1 h2 s

/-- What `send_command` writes to the serial port: the command and CR LF when it is
accepted, nothing otherwise. -/
theorem send_command_serial_tx (cmd : List Nat) (s : SIM800_Control) :
    (send_command cmd s).serial_tx
      = s.serial_tx ++ (if strlen cmd ≤ TX_BUFFER_SIZE then cstr cmd ++ [13, 10] else []) := by
  have hs : (let_terminal_settle s).serial_tx = s.serial_tx :=
    let_terminal_settle_frame (fun s => s.serial_tx) (fun _ _ _ _ _ _ _ => rfl)
      (fun _ _ _ _ _ _ _ _ _ => rfl) s
  simp only [send_command]
  rw [delay_blind (fun s => s.serial_tx) (fun _ _ => rfl)]
  split_ifs
  · rw [transmit_eq]
    simp only [hs, List.append_assoc]
  · rw [hs, List.append_nil]

theorem wait_for_status_turn_frame {α : Type} (f : SIM800_Control → α) (h1 : RxBlind f)
    (h2 : UrcBlind f) (start t : Nat) (s : SIM800_Control) :
    f (wait_for_status_turn start t s).2 = f s := by
  have e : f (check_for_response (idle s)) = f s := by
    rw [check_for_response_blind f h1, idle_blind f h1]
  simp only [wait_for_status_turn]
  split_ifs
  all_goals first
    | exact e
    | (show f (process_urc (check_for_response (idle s))) = f s
       rw [process_urc_blind f h2]; exact e)

theorem wait_for_status_loop_frame {α : Type} (f : SIM800_Control → α) (h1 : RxBlind f)
    (h2 : UrcBlind f) (start t : Nat) : ∀ (fuel : Nat) (s : SIM800_Control)
    (r : Sim800_Buffer_State × SIM800_Control),
    wait_for_status_loop fuel start t s = some r → f r.2 = f s := by
  intro fuel
  induction fuel with
  | zero => intro s r h; simp [wait_for_status_loop] at h
  | succ fuel ih =>
    intro s r h
    rw [wait_for_status_loop] at h
    by_cases hu : (wait_for_status_turn start t s).1 = BS_UNKNOWN
    · simp only [hu, if_true] at h
      rw [ih _ _ h, wait_for_status_turn_frame f h1 h2]
    · simp only [hu, if_false, Option.some.injEq] at h
      rw [← h, wait_for_status_turn_frame f h1 h2]

theorem wait_for_status_frame {α : Type} (f : SIM800_Control → α) (h1 : RxBlind f)
    (h2 : UrcBlind f) (fuel t : Nat) (s : SIM800_Control)
    (r : Sim800_Buffer_State × SIM800_Control) (h : wait_for_status fuel t s = some r) :
    f r.2 = f s :=
  wait_for_status_loop_frame f h1 h2 _ _ _ _ _ h

theorem wait_for_data_turn_frame {α : Type} (f : SIM800_Control → α) (h1 : RxBlind f)
    (h2 : UrcBlind f) (pattern : Option (List Nat)) (start t : Nat) (s : SIM800_Control) :
    f (wait_for_data_turn pattern start t s).2 = f s := by
  have e : f (check_for_response (idle s)) = f s := by
    rw [check_for_response_blind f h1, idle_blind f h1]
  cases pattern with
  | none =>
    simp only [wait_for_data_turn]
    split_ifs
    all_goals exact e
  | some pat =>
    simp only [wait_for_data_turn]
    split_ifs
    all_goals first
      | exact e
      | (show f (process_urc (check_for_response (idle s))) = f s
         rw [process_urc_blind f h2]; exact e)

theorem wait_for_data_loop_frame {α : Type} (f : SIM800_Control → α) (h1 : RxBlind f)
    (h2 : UrcBlind f) (pattern : Option (List Nat)) (start t : Nat) : ∀ (fuel : Nat)
    (s : SIM800_Control) (r : Sim800_Buffer_State × SIM800_Control),
    wait_for_data_loop pattern fuel start t s = some r → f r.2 = f s := by
  intro fuel
  induction fuel with
  | zero => intro s r h; simp [wait_for_data_loop] at h
  | succ fuel ih =>
    intro s r h
    rw [wait_for_data_loop] at h
    by_cases hu : (wait_for_data_turn pattern start t s).1 = BS_UNKNOWN
    · simp only [hu, if_true] at h
      rw [ih _ _ h, wait_for_data_turn_frame f h1 h2]
    · simp only [hu, if_false, Option.some.injEq] at h
      rw [← h, wait_for_data_turn_frame f h1 h2]

theorem wait_for_data_frame {α : Type} (f : SIM800_Control → α) (h1 : RxBlind f)
    (h2 : UrcBlind f) (pattern : Option (List Nat)) (fuel t : Nat) (s : SIM800_Control)
    (r : Sim800_Buffer_State × SIM800_Control) (h : wait_for_data pattern fuel t s = some r) :
    f r.2 = f s :=
  wait_for_data_loop_frame f h1 h2 _ _ _ _ _ _ h

/-! ## process_urc: the incoming-call line -/

theorem nul_commas_none (buf : List Nat) : ∀ (fuel idx : Nat),
    (∀ i, idx ≤ i → i < strlen buf → char_at buf i ≠ 44) → nul_commas fuel idx buf = buf := by
  intro fuel
  induction fuel with
  | zero => intro idx _; rfl
  | succ fuel ih =>
    intro idx h
    rw [nul_commas]
    by_cases hi : idx < strlen buf
    · rw [if_pos hi, if_neg (h idx (le_refl _) hi)]
      exact ih (idx + 1) (fun i h1 h2 => h i (by omega) h2)
    · rw [if_neg hi]

theorem cstr_append_of_nul_free (a r : List Nat) (h : ∀ c ∈ a, c ≠ 0) :
    cstr (a ++ r) = a ++ cstr r := by
  induction a with
  | nil => rfl
  | cons x a ih =>
    have hx : x ≠ 0 := h x (List.mem_cons_self _ _)
    have ih2 := ih (fun c hc => h c (List.mem_cons_of_mem _ hc))
    simp only [cstr] at ih2 ⊢
    simp [List.takeWhile_cons, hx, ih2]

theorem cstr_nul_free (buf : List Nat) : ∀ c ∈ cstr buf, c ≠ 0 := by
  intro c hc
  have := List.mem_takeWhile_imp hc
  simpa using this

theorem cstr_rest (buf : List Nat) : cstr (buf.dropWhile (fun c => c != 0)) = [] := by
  induction buf with
  | nil => rfl
  | cons x buf ih =>
    by_cases hx : x = 0
    · subst hx; rfl
    · simp only [List.dropWhile_cons, bne_iff_ne, ne_eq, hx, not_false_eq_true, if_true,
        decide_True]
      exact ih

theorem cstr_split (buf : List Nat) : buf = cstr buf ++ buf.dropWhile (fun c => c != 0) :=
  (List.takeWhile_append_dropWhile _ _).symm

theorem split_at_comma (t : List Nat) : 44 ∉ t ∨ ∃ a b, t = a ++ 44 :: b ∧ 44 ∉ a := by
  induction t with
  | nil => left; simp
  | cons x t ih =>
    by_cases hx : x = 44
    · right; exact ⟨[], t, by rw [hx]; rfl, by simp⟩
    · rcases ih with h | ⟨a, b, h1, h2⟩
      · left
        intro hm
        rcases List.mem_cons.1 hm with h3 | h3
        · exact hx h3.symm
        · exact h h3
      · right
        refine ⟨x :: a, b, by rw [h1]; rfl, ?_⟩
        intro hm
        rcases List.mem_cons.1 hm with h3 | h3
        · exact hx h3.symm
        · exact h2 h3

theorem takeWhile_comma_free (a r : List Nat) (h : 44 ∉ a) :
    (a ++ r).takeWhile (fun c => c != 44) = a ++ r.takeWhile (fun c => c != 44) := by
  induction a with
  | nil => rfl
  | cons x a ih =>
    have hx : x ≠ 44 := fun e => h (by rw [e]; exact List.mem_cons_self _ _)
    have ih2 := ih (fun hm => h (List.mem_cons_of_mem _ hm))
    simp [List.takeWhile_cons, hx, ih2]

/-- The comma loop and the copy of `process_urc` on a line with a comma after
character 7: what is copied is the text between them. -/
theorem clip_copy (pre id after rest : List Nat) (hpre : pre.length = 7)
    (hnul : ∀ c ∈ (pre ++ id) ++ 44 :: after, c ≠ 0) (hid : 44 ∉ id) (hrest : cstr rest = []) :
    cstr ((nul_commas ((pre ++ id) ++ 44 :: (after ++ rest)).length 7
      ((pre ++ id) ++ 44 :: (after ++ rest))).drop 7) = id := by
  have hsl : strlen ((pre ++ id) ++ 44 :: (after ++ rest)) = ((pre ++ id) ++ 44 :: after).length := by
    have e : (pre ++ id) ++ 44 :: (after ++ rest) = ((pre ++ id) ++ 44 :: after) ++ rest := by
      simp
    rw [e, strlen, cstr_append_of_nul_free _ _ hnul, hrest, List.append_nil]
  have hlen : ((pre ++ id) ++ 44 :: (after ++ rest)).length
      = 7 + id.length + 1 + (after ++ rest).length := by
    simp only [List.length_append, List.length_cons, hpre]; omega
  rw [nul_commas_first _ id.length _ 7 (by rw [hlen]; omega)
    (by rw [hsl]; simp only [List.length_append, List.length_cons, hpre]; omega)
    (fun i h1 h2 => by
      obtain ⟨j, rfl⟩ : ∃ j, i = 7 + j := ⟨i - 7, by omega⟩
      rw [List.append_assoc, ← hpre, char_at_append_right,
        char_at_append_left _ _ _ (by omega)]
      exact char_at_of_mem_free id j 44 hid (by omega))
    (by
      have e : 7 + id.length = (pre ++ id).length + 0 := by
        simp only [List.length_append, hpre, Nat.add_zero]
      rw [e, char_at_append_right]; rfl)]
  have e2 : 7 + id.length = (pre ++ id).length := by simp only [List.length_append, hpre]
  rw [e2, set_append_cons, List.append_assoc, ← hpre, List.drop_left, cstr_append_nul]
  exact cstr_of_nul_free _ (fun c hc => hnul c (by simp [hc]))

/-- The same on a line without a comma after character 7: the rest of the line is copied. -/
theorem clip_copy_no_comma (pre id rest : List Nat) (hpre : pre.length = 7)
    (hnul : ∀ c ∈ pre ++ id, c ≠ 0) (hid : 44 ∉ id) (hrest : cstr rest = []) :
    cstr ((nul_commas ((pre ++ id) ++ rest).length 7 ((pre ++ id) ++ rest)).drop 7) = id := by
  have hsl : strlen ((pre ++ id) ++ rest) = (pre ++ id).length := by
    rw [strlen, cstr_append_of_nul_free _ _ hnul, hrest, List.append_nil]
  rw [nul_commas_none _ _ 7 (fun i h1 h2 => by
    obtain ⟨j, rfl⟩ : ∃ j, i = 7 + j := ⟨i - 7, by omega⟩
    rw [hsl] at h2
    simp only [List.length_append, hpre] at h2
    rw [List.append_assoc, ← hpre, char_at_append_right,
      char_at_append_left _ _ _ (by omega)]
    exact char_at_of_mem_free id j 44 hid (by omega))]
  rw [List.append_assoc, ← hpre, List.drop_left,
    cstr_append_of_nul_free _ _ (fun c hc => hnul c (by simp [hc])), hrest, List.append_nil]

theorem clip_copy_field (buf : List Nat)
    (hline : starts_with (lit "+CLIP: ") (cstr buf) = true) :
    strstr buf (lit "+CLIP: ") = true ∧
      cstr ((nul_commas buf.length 7 buf).drop 7) = clip_field buf := by
  obtain ⟨t, ht⟩ := (starts_with_iff _ _).1 hline
  obtain ⟨R, hR, hb⟩ : ∃ R, cstr R = [] ∧ buf = cstr buf ++ R :=
    ⟨_, cstr_rest buf, cstr_split buf⟩
  have hnul := cstr_nul_free buf
  have hc : cstr buf = lit "+CLIP: " ++ t := ht.symm
  rw [hc] at hb hnul
  constructor
  · have e : cstr (lit "+CLIP: ") = lit "+CLIP: " := by decide
    rw [strstr, hc, e]
    exact find_in_head _ _
  · have hclip : clip_field buf = t.takeWhile (fun c => c != 44) := by
      rw [clip_field, hc]
      have e7 : (lit "+CLIP: ").length = 7 := by decide
      rw [← e7, List.drop_left]
    rw [hclip]
    rcases split_at_comma t with h | ⟨a, b, h1, h2⟩
    · have e := takeWhile_comma_free t [] h
      simp only [List.append_nil, List.takeWhile_nil] at e
      rw [e]
      have := clip_copy_no_comma (lit "+CLIP: ") t R (by decide) hnul h hR
      rw [← hb] at this
      exact this
    · have e := takeWhile_comma_free a (44 :: b) h2
      have e0 : (44 :: b).takeWhile (fun c => c != 44) = [] := by
        simp [List.takeWhile_cons]
      rw [e0, List.append_nil] at e
      rw [h1, e]
      have hb2 : buf = (lit "+CLIP: " ++ a) ++ 44 :: (b ++ R) := by
        rw [hb, h1]; simp
      have := clip_copy (lit "+CLIP: ") a b R (by decide)
        (fun c hc => hnul c (by rw [h1]; simpa using hc)) h2 hR
      rw [← hb2] at this
      exact this

/-- C13 (incoming-call URC): a ready line that starts with `+CLIP: `, given to
`process_urc`.  With no ring pending the ring time becomes the value of `millis ()`
and the stored caller id the text from character 7 up to the first following comma,
or `"UNKNOWN"` in double quotes when that text has 2 characters; with a ring pending
neither changes. -/
theorem incoming_call_urc (s : SIM800_Control)
    (hline : starts_with (lit "+CLIP: ") (cstr s.rx_buffer) = true) :
    (s.incoming_call_ring_time = 0 →
        (process_urc s).incoming_call_ring_time = millis s ∧
        cstr (process_urc s).stored_caller_id
          = if (clip_field s.rx_buffer).length = 2 then UNKNOWN_ID
            else clip_field s.rx_buffer) ∧
      (s.incoming_call_ring_time ≠ 0 →
        (process_urc s).incoming_call_ring_time = s.incoming_call_ring_time ∧
        (process_urc s).stored_caller_id = s.stored_caller_id) := by
  obtain ⟨hstr, hcopy⟩ := clip_copy_field s.rx_buffer hline
  constructor
  · intro h0
    have hlen : strlen (strcpy s.stored_caller_id
        ((nul_commas s.rx_buffer.length 7 s.rx_buffer).drop 7))
        = (clip_field s.rx_buffer).length := by
      rw [strlen, cstr_strcpy, hcopy]
    simp only [process_urc, hstr, h0, if_true, hlen]
    split_ifs with h2
    · refine ⟨rfl, ?_⟩
      show cstr (strcpy _ UNKNOWN_ID) = UNKNOWN_ID
      rw [cstr_strcpy]
      decide
    · refine ⟨rfl, ?_⟩
      show cstr (strcpy _ _) = clip_field s.rx_buffer
      rw [cstr_strcpy, hcopy]
  · intro h0
    have e : process_urc s = s := by
      simp only [process_urc, hstr, h0, if_true, if_false]
    rw [e]
    exact ⟨rfl, rfl⟩

set_option maxRecDepth 20000 in
theorem incoming_call_urc_witness :
    starts_with (lit "+CLIP: ") (cstr (with_line (CLIP_LINE (lit "07700900123"))).rx_buffer) = true ∧
      ((with_line (CLIP_LINE (lit "07700900123"))).incoming_call_ring_time = 0 →
        (process_urc (with_line (CLIP_LINE (lit "07700900123")))).incoming_call_ring_time
          = millis (with_line (CLIP_LINE (lit "07700900123"))) ∧
        cstr (process_urc (with_line (CLIP_LINE (lit "07700900123")))).stored_caller_id
          = if (clip_field (with_line (CLIP_LINE (lit "07700900123"))).rx_buffer).length = 2
            then UNKNOWN_ID
            else clip_field (with_line (CLIP_LINE (lit "07700900123"))).rx_buffer) ∧
      ((with_line (CLIP_LINE (lit "07700900123"))).incoming_call_ring_time ≠ 0 →
        (process_urc (with_line (CLIP_LINE (lit "07700900123")))).incoming_call_ring_time
          = (with_line (CLIP_LINE (lit "07700900123"))).incoming_call_ring_time ∧
        (process_urc (with_line (CLIP_LINE (lit "07700900123")))).stored_caller_id
          = (with_line (CLIP_LINE (lit "07700900123"))).stored_caller_id) :=
  ⟨by decide, incoming_call_urc _ (by decide)⟩

set_option maxRecDepth 20000 in
/-- Two runs of `process_urc` on `+CLIP: ` lines: a number, and a withheld number. -/
theorem incoming_call_urc_samples :
    cstr (process_urc (with_line (CLIP_LINE (lit "07700900123")))).stored_caller_id
        = [34] ++ lit "07700900123" ++ [34] ∧
      cstr (process_urc (with_line (CLIP_LINE []))).stored_caller_id = UNKNOWN_ID ∧
      (process_urc { with_line (CLIP_LINE (lit "07700900123")) with clock := 5000 }
        ).incoming_call_ring_time = 5000 := by
  decide

/-! ## process_urc: the reboot banners -/

/-- The increment of an `int` below `INT_MAX` adds one. -/
theorem int_incr_of_lt (x : Int) (h1 : INT_MIN ≤ x) (h2 : x < INT_MAX) : int_incr x = x + 1 := by
  simp only [INT_MIN, INT_MAX] at h1 h2
  simp only [int_incr]
  omega

/-- The increment of `INT_MAX` gives `INT_MIN`, and the result of an increment is
always a value of `int`. -/
theorem int_incr_range (x : Int) :
    int_incr INT_MAX = INT_MIN ∧ INT_MIN ≤ int_incr x ∧ int_incr x ≤ INT_MAX := by
  simp only [INT_MIN, INT_MAX, int_incr]
  omega

/-- What `process_urc` does with a reboot banner on an initialised driver. -/
theorem process_urc_reboot (s : SIM800_Control)
    (hline : strstr s.rx_buffer (lit "SMS Ready") = true ∨
      strstr s.rx_buffer (lit "Call Ready") = true)
    (hclip : strstr s.rx_buffer (lit "+CLIP: ") = false)
    (hcmti : strstr s.rx_buffer CMTI_SM = false) (hi : s.initialised = true) :
    process_urc s = { s with gsm_resets := int_incr s.gsm_resets, initialised := false } := by
  simp only [process_urc, hclip, hcmti, hi, hline, Bool.false_eq_true, if_false, true_and,
    if_true]

/-- C14 amended (reboot detection): a ready line that contains `SMS Ready` or
`Call Ready` and matches neither the `+CLIP: ` nor the `+CMTI: "SM"` rule, given to
`process_urc`.  On an initialised driver `initialised` becomes false and `gsm_resets`
takes the statement `gsm_resets++` of an `int`: it goes up by exactly one when it is
below `INT_MAX`.  On a driver that is not initialised both stay as they are. -/
theorem reboot_detection (s : SIM800_Control)
    (hline : strstr s.rx_buffer (lit "SMS Ready") = true ∨
      strstr s.rx_buffer (lit "Call Ready") = true)
    (hclip : strstr s.rx_buffer (lit "+CLIP: ") = false)
    (hcmti : strstr s.rx_buffer CMTI_SM = false) :
    (s.initialised = true →
        (process_urc s).initialised = false ∧
        (process_urc s).gsm_resets = int_incr s.gsm_resets ∧
        (INT_MIN ≤ s.gsm_resets → s.gsm_resets < INT_MAX →
          (process_urc s).gsm_resets = s.gsm_resets + 1)) ∧
      (s.initialised = false →
        (process_urc s).gsm_resets = s.gsm_resets ∧ (process_urc s).initialised = false) := by
  constructor
  · intro hi
    rw [process_urc_reboot s hline hclip hcmti hi]
    exact ⟨rfl, rfl, fun h1 h2 => int_incr_of_lt _ h1 h2⟩
  · intro hi
    have e : process_urc s
        = if strstr s.rx_buffer (lit "CLOSED") = true then { s with website_connected := false }
          else s := by
      simp only [process_urc, hclip, hcmti, hi, Bool.false_eq_true, if_false, false_and]
    rw [e]
    split_ifs
    · exact ⟨rfl, hi⟩
    · exact ⟨rfl, hi⟩

set_option maxRecDepth 20000 in
/-- C14 witness: the banner `SMS Ready` on an initialised driver whose counter is 0. -/
theorem reboot_detection_witness :
    (strstr { with_line (lit "SMS Ready") with initialised := true }.rx_buffer (lit "SMS Ready")
          = true ∨
        strstr { with_line (lit "SMS Ready") with initialised := true }.rx_buffer
          (lit "Call Ready") = true) ∧
      (process_urc { with_line (lit "SMS Ready") with initialised := true }).initialised
          = false ∧
      (process_urc { with_line (lit "SMS Ready") with initialised := true }).gsm_resets
          = { with_line (lit "SMS Ready") with initialised := true }.gsm_resets + 1 :=
  have h := (reboot_detection { with_line (lit "SMS Ready") with initialised := true }
    (by decide) (by decide) (by decide)).1 rfl
  ⟨by decide, h.1, h.2.2 (by decide) (by decide)⟩

set_option maxRecDepth 20000 in
/-- C14, as stated, fails: on the initialised driver whose counter stands at `INT_MAX`
the banner `SMS Ready` clears `initialised`, and `gsm_resets++` overflows the `int`: the
counter is `INT_MIN` afterwards, not its value before plus one. -/
theorem reboot_detection_overflow_counterexample :
    resets_full_driver.initialised = true ∧ resets_full_driver.gsm_resets = 32767 ∧
      strstr resets_full_driver.rx_buffer (lit "SMS Ready") = true ∧
      strstr resets_full_driver.rx_buffer (lit "+CLIP: ") = false ∧
      strstr resets_full_driver.rx_buffer CMTI_SM = false ∧
      (process_urc resets_full_driver).initialised = false ∧
      (process_urc resets_full_driver).gsm_resets = -32768 ∧
      (process_urc resets_full_driver).gsm_resets ≠ resets_full_driver.gsm_resets + 1 := by
  have h := process_urc_reboot resets_full_driver (Or.inl (by decide)) (by decide) (by decide) rfl
  refine ⟨rfl, rfl, by decide, by decide, by decide, ?_, ?_, ?_⟩
  · rw [h]
  · rw [h]; decide
  · rw [h]; decide

/-! ## send_command: what is written, and where -/

/-- Accept or reject: `send_command` writes the command and CR LF, or nothing, and it
writes nothing exactly when the command is longer than `TX_BUFFER_SIZE` characters. -/
theorem send_command_all_or_nothing (cmd : List Nat) (s : SIM800_Control) :
    ((send_command cmd s).serial_tx = s.serial_tx ++ cstr cmd ++ [13, 10] ∨
        (send_command cmd s).serial_tx = s.serial_tx) ∧
      ((send_command cmd s).serial_tx = s.serial_tx ↔ TX_BUFFER_SIZE < strlen cmd) := by
  rw [send_command_serial_tx]
  by_cases h : strlen cmd ≤ TX_BUFFER_SIZE
  · rw [if_pos h]
    refine ⟨Or.inl (List.append_assoc _ _ _).symm, ?_⟩
    constructor
    · intro e
      have := congrArg List.length e
      simp only [List.length_append, List.length_cons, List.length_nil] at this
      omega
    · intro h2; omega
  · rw [if_neg h, List.append_nil]
    exact ⟨Or.inr rfl, fun _ => by omega, fun _ => rfl⟩

theorem send_command_tx_buffer (cmd : List Nat) (s : SIM800_Control) :
    (send_command cmd s).tx_buffer
      = if strlen cmd ≤ TX_BUFFER_SIZE then strcpy s.tx_buffer cmd else s.tx_buffer := by
  have hs : (let_terminal_settle s).tx_buffer = s.tx_buffer :=
    let_terminal_settle_frame (fun s => s.tx_buffer) (fun _ _ _ _ _ _ _ => rfl)
      (fun _ _ _ _ _ _ _ _ _ => rfl) s
  simp only [send_command]
  rw [delay_blind (fun s => s.tx_buffer) (fun _ _ => rfl)]
  split_ifs
  · rw [transmit_eq]
    simp only [hs]
  · exact hs

/-- C15 (command rejection by capacity), the case the code gets wrong: a command of
exactly `TX_BUFFER_SIZE` characters is accepted and transmitted, and its copy into
`tx_buffer` takes `TX_BUFFER_SIZE + 1` bytes, one more than the array has. -/
theorem send_command_accepts_full_length (cmd : List Nat) (s : SIM800_Control)
    (hcmd : strlen cmd = TX_BUFFER_SIZE) (hbuf : s.tx_buffer.length = TX_BUFFER_SIZE) :
    (send_command cmd s).serial_tx = s.serial_tx ++ cstr cmd ++ [13, 10] ∧
      (send_command cmd s).tx_buffer = cstr cmd ++ [0] ∧
      (send_command cmd s).tx_buffer.length = TX_BUFFER_SIZE + 1 := by
  have hfit : strlen cmd ≤ TX_BUFFER_SIZE := by omega
  have hlen : (cstr cmd).length = TX_BUFFER_SIZE := hcmd
  have hcopy : strcpy s.tx_buffer cmd = cstr cmd ++ [0] := by
    simp only [strcpy]
    rw [List.drop_of_length_le (by simp only [List.length_append, List.length_cons,
      List.length_nil, hlen, hbuf]; omega), List.append_nil]
  rw [send_command_serial_tx, send_command_tx_buffer, if_pos hfit, if_pos hfit, hcopy]
  refine ⟨(List.append_assoc _ _ _).symm, rfl, ?_⟩
  simp only [List.length_append, List.length_cons, List.length_nil, hlen]

theorem send_command_accepts_full_length_witness :
    strlen (List.replicate 162 65) = TX_BUFFER_SIZE ∧
      (send_command (List.replicate 162 65) (constructed 1 [])).serial_tx
        = (constructed 1 []).serial_tx ++ cstr (List.replicate 162 65) ++ [13, 10] ∧
      (send_command (List.replicate 162 65) (constructed 1 [])).tx_buffer
        = cstr (List.replicate 162 65) ++ [0] ∧
      (send_command (List.replicate 162 65) (constructed 1 [])).tx_buffer.length
        = TX_BUFFER_SIZE + 1 :=
  have h : strlen (List.replicate 162 65) = TX_BUFFER_SIZE := by
    rw [strlen, cstr_of_nul_free _ (fun c hc => by
      rw [(List.mem_replicate.1 hc).2]; decide), List.length_replicate]; rfl
  ⟨h, send_command_accepts_full_length _ _ h (List.length_replicate _ _)⟩

/-! ## refresh on an idle line -/

set_option maxRecDepth 100000 in
/-- C12, as stated, fails on a driver that is not initialised: with nothing on the line
and no ring pending, `refresh` starts the bring-up and transmits (here the empty
command and one `AT` probe, to a modem that stays silent). -/
theorem refresh_reinitialises_counterexample :
    (constructed 40000 []).serial_rx = [] ∧
      (constructed 40000 []).incoming_call_ring_time = 0 ∧
      (refresh 2 (constructed 40000 [])).map (fun s => s.serial_tx)
        = some ([13, 10, 13, 10] ++ lit "AT" ++ [13, 10]) ∧
      (refresh 2 (constructed 40000 [])).map (fun s => s.serial_tx)
        ≠ some (constructed 40000 []).serial_tx := by
  decide

theorem check_for_response_nothing (s : SIM800_Control) (h : s.serial_rx = []) :
    check_for_response s = rx_prepare s := by
  simp only [check_for_response]
  rw [rx_prepare_serial_rx, h]
  rfl

/-- C12 amended (refresh is a no-op when idle): on an initialised driver with no bytes
on the line and no ring pending, `refresh` returns at once, writes nothing to the
serial port and leaves the flags, the counters, the call record, the SMS buffer and
the clock as they were; only the receive buffer is made ready for the next line. -/
theorem refresh_idle_noop (fuel : Nat) (s : SIM800_Control) (hini : s.initialised = true)
    (hrx : s.serial_rx = []) (hring : s.incoming_call_ring_time = 0) :
    ∃ s1, refresh fuel s = some s1 ∧ s1 = rx_prepare s ∧
      s1.serial_tx = s.serial_tx ∧ s1.tx_buffer = s.tx_buffer ∧
      s1.initialised = s.initialised ∧ s1.sim_card_inserted = s.sim_card_inserted ∧
      s1.net_registration_denied = s.net_registration_denied ∧
      s1.website_connected = s.website_connected ∧
      s1.protocol_error_count = s.protocol_error_count ∧ s1.gsm_resets = s.gsm_resets ∧
      s1.signal_strength = s.signal_strength ∧
      s1.stored_caller_id = s.stored_caller_id ∧
      s1.incoming_call_received = s.incoming_call_received ∧
      s1.incoming_call_ring_time = s.incoming_call_ring_time ∧
      s1.sms_buffer = s.sms_buffer ∧ s1.clock = s.clock ∧
      s1.modem_script = s.modem_script := by
  have hc := check_for_response_nothing s hrx
  have hst : ¬ (rx_prepare s).rx_buff_state = BS_DATA := by
    show ¬ BS_WAITING = BS_DATA
    decide
  have hr : ¬ ((rx_prepare s).incoming_call_ring_time > 0 ∧
      usub (millis (rx_prepare s)) (rx_prepare s).incoming_call_ring_time > 10000) := by
    have e : (rx_prepare s).incoming_call_ring_time = 0 :=
      (rx_prepare_blind (fun s => s.incoming_call_ring_time) (fun _ _ _ _ _ _ _ => rfl) s).trans
        hring
    rw [e]
    omega
  refine ⟨rx_prepare s, ?_, rfl,
    rx_prepare_blind (fun s => s.serial_tx) (fun _ _ _ _ _ _ _ => rfl) s,
    rx_prepare_blind (fun s => s.tx_buffer) (fun _ _ _ _ _ _ _ => rfl) s,
    rx_prepare_blind (fun s => s.initialised) (fun _ _ _ _ _ _ _ => rfl) s,
    rx_prepare_blind (fun s => s.sim_card_inserted) (fun _ _ _ _ _ _ _ => rfl) s,
    rx_prepare_blind (fun s => s.net_registration_denied) (fun _ _ _ _ _ _ _ => rfl) s,
    rx_prepare_blind (fun s => s.website_connected) (fun _ _ _ _ _ _ _ => rfl) s,
    rx_prepare_blind (fun s => s.protocol_error_count) (fun _ _ _ _ _ _ _ => rfl) s,
    rx_prepare_blind (fun s => s.gsm_resets) (fun _ _ _ _ _ _ _ => rfl) s,
    rx_prepare_blind (fun s => s.signal_strength) (fun _ _ _ _ _ _ _ => rfl) s,
    rx_prepare_blind (fun s => s.stored_caller_id) (fun _ _ _ _ _ _ _ => rfl) s,
    rx_prepare_blind (fun s => s.incoming_call_received) (fun _ _ _ _ _ _ _ => rfl) s,
    rx_prepare_blind (fun s => s.incoming_call_ring_time) (fun _ _ _ _ _ _ _ => rfl) s,
    rx_prepare_blind (fun s => s.sms_buffer) (fun _ _ _ _ _ _ _ => rfl) s, ?_,
    rx_prepare_blind (fun s => s.modem_script) (fun _ _ _ _ _ _ _ => rfl) s⟩
  · simp only [refresh, hini, Bool.true_eq_false, if_false]
    rw [hc]
    simp only [hst, if_false, hr]
  · simp only [rx_prepare]
    split_ifs <;> rfl

theorem refresh_idle_noop_witness :
    idle_driver.initialised = true ∧ idle_driver.serial_rx = [] ∧
      idle_driver.incoming_call_ring_time = 0 ∧
      ∃ s1, refresh 0 idle_driver = some s1 ∧ s1 = rx_prepare idle_driver ∧
        s1.serial_tx = idle_driver.serial_tx ∧ s1.tx_buffer = idle_driver.tx_buffer ∧
        s1.initialised = idle_driver.initialised ∧
        s1.sim_card_inserted = idle_driver.sim_card_inserted ∧
        s1.net_registration_denied = idle_driver.net_registration_denied ∧
        s1.website_connected = idle_driver.website_connected ∧
        s1.protocol_error_count = idle_driver.protocol_error_count ∧
        s1.gsm_resets = idle_driver.gsm_resets ∧
        s1.signal_strength = idle_driver.signal_strength ∧
        s1.stored_caller_id = idle_driver.stored_caller_id ∧
        s1.incoming_call_received = idle_driver.incoming_call_received ∧
        s1.incoming_call_ring_time = idle_driver.incoming_call_ring_time ∧
        s1.sms_buffer = idle_driver.sms_buffer ∧ s1.clock = idle_driver.clock ∧
        s1.modem_script = idle_driver.modem_script :=
  ⟨rfl, rfl, rfl, refresh_idle_noop 0 idle_driver rfl rfl rfl⟩

/-! ## Time spent by the primitives -/

theorem spent_refl (s : SIM800_Control) : Spent s s 0 0 :=
  ⟨rfl, le_refl _, le_refl _⟩

theorem spent_trans {s a b : SIM800_Control} {l1 h1 l2 h2 : Nat} (x : Spent s a l1 h1)
    (y : Spent a b l2 h2) : Spent s b (l1 + l2) (h1 + h2) :=
  ⟨y.idle_ms.trans x.idle_ms, by have := x.clock; have := y.clock; omega,
    by have := x.horizon; have := y.horizon; omega⟩

theorem spent_weaken {s a : SIM800_Control} {l1 h1 l2 h2 : Nat} (x : Spent s a l1 h1)
    (hl : l2 ≤ l1) (hh : h1 ≤ h2) : Spent s a l2 h2 :=
  ⟨x.idle_ms, by have := x.clock; omega, by have := x.horizon; omega⟩

/-- A step that leaves the idle time and the modem script alone and pays for the
clock with bytes read or with `d` ms. -/
theorem spent_of_env (s s1 : SIM800_Control) (d : Nat) (h1 : s1.idle_ms = s.idle_ms)
    (h2 : s1.modem_script = s.modem_script)
    (h3 : s1.clock + s.idle_ms * s1.serial_rx.length
      = s.clock + s.idle_ms * s.serial_rx.length + d)
    (h4 : s.clock + d ≤ s1.clock) : Spent s s1 d d := by
  refine ⟨h1, h4, ?_⟩
  simp only [horizon, pending, h1, h2, Nat.mul_add]
  omega

theorem spent_idle (s : SIM800_Control) : Spent s (idle s) s.idle_ms s.idle_ms :=
  spent_of_env s (idle s) s.idle_ms rfl rfl (by simp only [idle]; omega) (le_refl _)

theorem spent_delay (n : Nat) (s : SIM800_Control) : Spent s (delay n s) n n :=
  spent_of_env s (delay n s) n rfl rfl (by simp only [delay]; omega) (le_refl _)

theorem idle_wait_idle_ms (n : Nat) (s : SIM800_Control) : (idle_wait n s).idle_ms = s.idle_ms :=
  idle_wait_blind (fun s => s.idle_ms) (fun _ _ => rfl) n s

theorem spent_idle_wait (n : Nat) (s : SIM800_Control) :
    Spent s (idle_wait n s) (n * (s.idle_ms + 10)) (n * (s.idle_ms + 10)) := by
  have hq : (idle_wait n s).serial_rx = s.serial_rx :=
    idle_wait_blind (fun s => s.serial_rx) (fun _ _ => rfl) n s
  have hm : (idle_wait n s).modem_script = s.modem_script :=
    idle_wait_blind (fun s => s.modem_script) (fun _ _ => rfl) n s
  refine spent_of_env s _ _ (idle_wait_idle_ms n s) hm ?_ ?_
  · rw [idle_wait_clock, hq]; omega
  · rw [idle_wait_clock]

/-- The receive loop pays one call of the idle hook for every byte it reads. -/
theorem rx_loop_env (bytes : List Nat) : ∀ (s : SIM800_Control), s.serial_rx = bytes →
    (rx_loop bytes s).idle_ms = s.idle_ms ∧
      (rx_loop bytes s).modem_script = s.modem_script ∧
      (rx_loop bytes s).clock + s.idle_ms * (rx_loop bytes s).serial_rx.length
        = s.clock + s.idle_ms * bytes.length ∧
      s.clock ≤ (rx_loop bytes s).clock := by
  induction bytes with
  | nil =>
    intro s hq
    rw [rx_loop, hq]
    exact ⟨rfl, rfl, rfl, le_refl _⟩
  | cons c rest ih =>
    intro s hq
    rw [rx_loop]
    by_cases hw : s.rx_buff_state = BS_WAITING
    · rw [if_pos hw]
      have hq1 : (rx_byte c (idle (serial_pop rest s))).serial_rx = rest := by
        rw [rx_byte_serial_rx]; rfl
      have hi1 : (rx_byte c (idle (serial_pop rest s))).idle_ms = s.idle_ms := by
        rw [rx_byte_idle_ms]; rfl
      have hc1 : (rx_byte c (idle (serial_pop rest s))).clock = s.clock + s.idle_ms := by
        rw [rx_byte_clock]; rfl
      have hm1 : (rx_byte c (idle (serial_pop rest s))).modem_script = s.modem_script := by
        rw [rx_byte_blind (fun s => s.modem_script) (fun _ _ _ _ _ _ _ => rfl)]; rfl
      obtain ⟨h1, h2, h3, h4⟩ := ih _ hq1
      rw [hi1] at h1 h3
      rw [hc1] at h3 h4
      refine ⟨h1, h2.trans hm1, ?_, by omega⟩
      rw [h3, List.length_cons, Nat.mul_succ]
      omega
    · rw [if_neg hw, hq]
      exact ⟨rfl, rfl, rfl, le_refl _⟩

theorem spent_check_for_response (s : SIM800_Control) :
    Spent s (check_for_response s) 0 0 := by
  obtain ⟨h1, h2, h3, h4⟩ : (check_for_response s).idle_ms = (rx_prepare s).idle_ms ∧
      (check_for_response s).modem_script = (rx_prepare s).modem_script ∧
      (check_for_response s).clock
          + (rx_prepare s).idle_ms * (check_for_response s).serial_rx.length
        = (rx_prepare s).clock + (rx_prepare s).idle_ms * (rx_prepare s).serial_rx.length ∧
      (rx_prepare s).clock ≤ (check_for_response s).clock :=
    rx_loop_env (rx_prepare s).serial_rx (rx_prepare s) rfl
  have hi : (rx_prepare s).idle_ms = s.idle_ms :=
    rx_prepare_blind (fun s => s.idle_ms) (fun _ _ _ _ _ _ _ => rfl) s
  have hm : (rx_prepare s).modem_script = s.modem_script :=
    rx_prepare_blind (fun s => s.modem_script) (fun _ _ _ _ _ _ _ => rfl) s
  have hc : (rx_prepare s).clock = s.clock := by
    simp only [rx_prepare]; split_ifs <;> rfl
  rw [hi, hc, rx_prepare_serial_rx] at h3
  rw [hc] at h4
  exact spent_of_env s (check_for_response s) 0 (h1.trans hi) (h2.trans hm) h3 h4

theorem spent_process_urc (s : SIM800_Control) : Spent s (process_urc s) 0 0 :=
  spent_of_env s (process_urc s) 0 (process_urc_idle_ms s)
    (process_urc_blind (fun s => s.modem_script) (fun _ _ _ _ _ _ _ _ _ => rfl) s)
    (by rw [process_urc_clock, process_urc_serial_rx]; rfl)
    (by rw [process_urc_clock]; exact le_refl _)

theorem spent_drain_loop : ∀ (fuel : Nat) (s : SIM800_Control),
    Spent s (drain_loop fuel s) 0 0 := by
  intro fuel
  induction fuel with
  | zero => intro s; exact spent_refl s
  | succ fuel ih =>
    intro s
    rw [drain_loop]
    by_cases hd : (check_for_response s).rx_buff_state = BS_DATA
    · simp only [hd, if_true]
      exact spent_weaken (spent_trans (spent_check_for_response s)
        (spent_trans (spent_process_urc _) (ih _))) (by omega) (by omega)
    · simp only [hd, if_false]
      exact spent_check_for_response s

theorem spent_let_terminal_settle (s : SIM800_Control) :
    Spent s (let_terminal_settle s) (15 * (s.idle_ms + 10)) (15 * (s.idle_ms + 10)) := by
  simp only [let_terminal_settle]
  exact spent_weaken (spent_trans (spent_idle_wait 15 s) (spent_drain_loop _ _))
    (by omega) (by omega)

theorem list_headD_tail_sum (l : List (List Nat)) :
    (l.headD []).length + (l.tail.map List.length).sum = (l.map List.length).sum := by
  cases l with
  | nil => rfl
  | cons a l => simp

theorem spent_transmit (cmd : List Nat) (s : SIM800_Control) : Spent s (transmit cmd s) 0 0 := by
  rw [transmit_eq]
  refine ⟨rfl, le_refl _, ?_⟩
  have := list_headD_tail_sum s.modem_script
  simp only [horizon, pending, List.length_append]
  rw [Nat.add_assoc, this]
  exact le_refl _

theorem spent_send_command (cmd : List Nat) (s : SIM800_Control) :
    Spent s (send_command cmd s) (15 * (s.idle_ms + 10) + 50) (15 * (s.idle_ms + 10) + 50) := by
  simp only [send_command]
  split_ifs
  · exact spent_weaken (spent_trans (spent_let_terminal_settle s)
      (spent_trans (spent_transmit cmd _) (spent_delay 50 _))) (by omega) (by omega)
  · exact spent_weaken (spent_trans (spent_let_terminal_settle s) (spent_delay 50 _))
      (by omega) (by omega)

/-! ## The waits return -/

theorem spent_turn_core (s : SIM800_Control) :
    Spent s (check_for_response (idle s)) s.idle_ms s.idle_ms ∧
      Spent s (process_urc (check_for_response (idle s))) s.idle_ms s.idle_ms := by
  have h1 : Spent s (check_for_response (idle s)) s.idle_ms s.idle_ms :=
    spent_weaken (spent_trans (spent_idle s) (spent_check_for_response _)) (by omega) (by omega)
  exact ⟨h1, spent_weaken (spent_trans h1 (spent_process_urc _)) (by omega) (by omega)⟩

theorem spent_wait_for_status_turn (start t : Nat) (s : SIM800_Control) :
    Spent s (wait_for_status_turn start t s).2 s.idle_ms s.idle_ms := by
  obtain ⟨h1, h2⟩ := spent_turn_core s
  simp only [wait_for_status_turn]
  split_ifs
  all_goals first
    | exact h1
    | exact h2

theorem spent_wait_for_data_turn (pattern : Option (List Nat)) (start t : Nat)
    (s : SIM800_Control) : Spent s (wait_for_data_turn pattern start t s).2 s.idle_ms s.idle_ms := by
  obtain ⟨h1, h2⟩ := spent_turn_core s
  cases pattern with
  | none =>
    simp only [wait_for_data_turn]
    split_ifs
    all_goals exact h1
  | some pat =>
    simp only [wait_for_data_turn]
    split_ifs
    all_goals first
      | exact h1
      | exact h2

/-- A turn of `wait_for_status` that leaves `return_val` at `BS_UNKNOWN` has not seen
the deadline pass. -/
theorem wait_for_status_turn_goes_on (start t : Nat) (s : SIM800_Control)
    (h : (wait_for_status_turn start t s).1 = BS_UNKNOWN) :
    ¬ millis (idle s) > uadd start (t % 256 * 1000) := by
  intro hd
  simp only [wait_for_status_turn, hd, if_true] at h
  split_ifs at h

theorem wait_for_data_turn_goes_on (pattern : Option (List Nat)) (start t : Nat)
    (s : SIM800_Control) (h : (wait_for_data_turn pattern start t s).1 = BS_UNKNOWN) :
    ¬ millis (idle s) > uadd start (t % 256 * 1000) := by
  intro hd
  cases pattern with
  | none =>
    simp only [wait_for_data_turn, hd, if_true] at h
    split_ifs at h
  | some pat =>
    simp only [wait_for_data_turn, hd, if_true] at h
    split_ifs at h

/-- A wait loop returns: every turn costs one call of the idle hook, and a turn that
goes on has not seen the deadline, so after at most `T / i` turns the deadline has
passed.  `H0` is the horizon at the start of the loop. -/
theorem wait_loop_returns
    (turn : SIM800_Control → Sim800_Buffer_State × SIM800_Control)
    (loop : Nat → SIM800_Control → Option (Sim800_Buffer_State × SIM800_Control))
    (hstep : ∀ fuel s, loop (fuel + 1) s
      = if (turn s).1 = BS_UNKNOWN then loop fuel (turn s).2 else some (turn s))
    (start T i H0 : Nat) (hw : H0 + T + i < ULONG)
    (hturn : ∀ s, s.idle_ms = i → Spent s (turn s).2 i i)
    (hcont : ∀ s, (turn s).1 = BS_UNKNOWN → ¬ millis (idle s) > uadd start T) :
    ∀ (f : Nat) (s : SIM800_Control), s.idle_ms = i → start ≤ s.clock →
      horizon s + start ≤ H0 + s.clock → horizon s ≤ H0 + T →
      start + T < s.clock + (f + 1) * i →
      ∃ r, loop (f + 1) s = some r ∧ r.2.idle_ms = i ∧ s.clock + i ≤ r.2.clock ∧
        horizon r.2 ≤ H0 + T + i := by
  intro f
  induction f with
  | zero =>
    intro s hidle hs hpend hhor hfuel
    have sp := hturn s hidle
    rw [hstep]
    by_cases hu : (turn s).1 = BS_UNKNOWN
    · exfalso
      have hc := hcont s hu
      have hclk : s.clock ≤ horizon s := by simp only [horizon]; omega
      have e1 : millis (idle s) = s.clock + i := by
        simp only [millis, idle, hidle]
        exact Nat.mod_eq_of_lt (by omega)
      have e2 : uadd start T = start + T := Nat.mod_eq_of_lt (by omega)
      rw [e1, e2] at hc
      omega
    · rw [if_neg hu]
      exact ⟨_, rfl, sp.idle_ms.trans hidle, sp.clock, by have := sp.horizon; omega⟩
  | succ f ih =>
    intro s hidle hs hpend hhor hfuel
    have sp := hturn s hidle
    rw [hstep]
    by_cases hu : (turn s).1 = BS_UNKNOWN
    · rw [if_pos hu]
      have hc := hcont s hu
      have hclk : s.clock ≤ horizon s := by simp only [horizon]; omega
      have e1 : millis (idle s) = s.clock + i := by
        simp only [millis, idle, hidle]
        exact Nat.mod_eq_of_lt (by omega)
      have e2 : uadd start T = start + T := Nat.mod_eq_of_lt (by omega)
      rw [e1, e2] at hc
      have h1 := sp.clock
      have h2 := sp.horizon
      have e3 : (f + 1 + 1) * i = (f + 1) * i + i := Nat.succ_mul _ _
      obtain ⟨r, hr, hri, hrc, hrh⟩ := ih (turn s).2 (sp.idle_ms.trans hidle) (by omega)
        (by omega) (by omega) (by omega)
      exact ⟨r, hr, hri, by omega, hrh⟩
    · rw [if_neg hu]
      exact ⟨_, rfl, sp.idle_ms.trans hidle, sp.clock, by have := sp.horizon; omega⟩

/-- `wait_for_status` returns when the idle hook takes time, the clock does not wrap
before the deadline and the fuel covers the timeout; it spends at least one call of
the idle hook and at most the timeout and one more. -/
theorem wait_for_status_returns (fuel t : Nat) (s : SIM800_Control) (hi : 0 < s.idle_ms)
    (hw : horizon s + t % 256 * 1000 + s.idle_ms < ULONG) (hf : t % 256 * 1000 < fuel) :
    ∃ r, wait_for_status fuel t s = some r ∧
      Spent s r.2 s.idle_ms (t % 256 * 1000 + s.idle_ms) := by
  obtain ⟨f, rfl⟩ : ∃ f, fuel = f + 1 := ⟨fuel - 1, by omega⟩
  have hclk : s.clock ≤ horizon s := by simp only [horizon]; omega
  have hm : millis s = s.clock := Nat.mod_eq_of_lt (by omega)
  have hfi : f + 1 ≤ (f + 1) * s.idle_ms := Nat.le_mul_of_pos_right _ hi
  obtain ⟨r, hr, hri, hrc, hrh⟩ := wait_loop_returns (wait_for_status_turn (millis s) t)
    (fun fuel s1 => wait_for_status_loop fuel (millis s) t s1) (fun _ _ => rfl)
    (millis s) (t % 256 * 1000) s.idle_ms (horizon s) hw
    (fun s1 h1 => by rw [← h1]; exact spent_wait_for_status_turn _ _ _)
    (fun s1 h1 => wait_for_status_turn_goes_on _ _ _ h1)
    f s rfl (by omega) (by omega) (by omega) (by omega)
  exact ⟨r, hr, hri, hrc, by omega⟩

theorem wait_for_data_returns (pattern : Option (List Nat)) (fuel t : Nat) (s : SIM800_Control)
    (hi : 0 < s.idle_ms) (hw : horizon s + t % 256 * 1000 + s.idle_ms < ULONG)
    (hf : t % 256 * 1000 < fuel) :
    ∃ r, wait_for_data pattern fuel t s = some r ∧
      Spent s r.2 s.idle_ms (t % 256 * 1000 + s.idle_ms) := by
  obtain ⟨f, rfl⟩ : ∃ f, fuel = f + 1 := ⟨fuel - 1, by omega⟩
  have hclk : s.clock ≤ horizon s := by simp only [horizon]; omega
  have hm : millis s = s.clock := Nat.mod_eq_of_lt (by omega)
  have hfi : f + 1 ≤ (f + 1) * s.idle_ms := Nat.le_mul_of_pos_right _ hi
  obtain ⟨r, hr, hri, hrc, hrh⟩ := wait_loop_returns (wait_for_data_turn pattern (millis s) t)
    (fun fuel s1 => wait_for_data_loop pattern fuel (millis s) t s1) (fun _ _ => rfl)
    (millis s) (t % 256 * 1000) s.idle_ms (horizon s) hw
    (fun s1 h1 => by rw [← h1]; exact spent_wait_for_data_turn _ _ _ _)
    (fun s1 h1 => wait_for_data_turn_goes_on _ _ _ _ h1)
    f s rfl (by omega) (by omega) (by omega) (by omega)
  exact ⟨r, hr, hri, hrc, by omega⟩

/-! ## send_sms_from_buffer: three attempts -/

theorem sms_attempt_frame {α : Type} (f : SIM800_Control → α) (h1 : RxBlind f)
    (h2 : UrcBlind f) (h3 : TxBlind f) (fuel : Nat) (num : List Nat) (s : SIM800_Control)
    (r : Sim800_Buffer_State × SIM800_Control) (h : sms_attempt fuel num s = some r) :
    f r.2 = f s := by
  simp only [sms_attempt] at h
  rw [wait_for_status_frame f h1 h2 _ _ _ _ h, send_command_frame f h1 h2 h3,
    send_command_frame f h1 h2 h3, send_command_frame f h1 h2 h3,
    let_terminal_settle_frame f h1 h2, send_command_frame f h1 h2 h3, idle_blind f h1]

/-- An attempt returns, within 60 s and the time of its four commands. -/
theorem sms_attempt_returns (fuel : Nat) (num : List Nat) (s : SIM800_Control)
    (hi : 0 < s.idle_ms) (hw : horizon s + (77 * s.idle_ms + 60950) < ULONG)
    (hf : 60000 < fuel) :
    ∃ r, sms_attempt fuel num s = some r ∧ Spent s r.2 0 (77 * s.idle_ms + 60950) := by
  have a1 := spent_idle s
  have a2 := spent_send_command [13, 10] (idle s)
  have a3 := spent_let_terminal_settle (send_command [13, 10] (idle s))
  have a4 := spent_send_command (cmgs_command num)
    (let_terminal_settle (send_command [13, 10] (idle s)))
  have a5 := spent_send_command
    (send_command (cmgs_command num)
      (let_terminal_settle (send_command [13, 10] (idle s)))).sms_buffer
    (send_command (cmgs_command num) (let_terminal_settle (send_command [13, 10] (idle s))))
  have a6 := spent_send_command (ctrl_z (cmgs_command num))
    (send_command
      (send_command (cmgs_command num)
        (let_terminal_settle (send_command [13, 10] (idle s)))).sms_buffer
      (send_command (cmgs_command num) (let_terminal_settle (send_command [13, 10] (idle s)))))
  have e1 := a1.idle_ms
  rw [e1] at a2
  have e2 := a2.idle_ms.trans e1
  rw [e2] at a3
  have e3 := a3.idle_ms.trans e2
  rw [e3] at a4
  have e4 := a4.idle_ms.trans e3
  rw [e4] at a5
  have e5 := a5.idle_ms.trans e4
  rw [e5] at a6
  have e6 := a6.idle_ms.trans e5
  have b := spent_trans a1 (spent_trans a2 (spent_trans a3 (spent_trans a4 (spent_trans a5 a6))))
  have hb := b.horizon
  obtain ⟨r, hr, sp⟩ := wait_for_status_returns fuel 60 _ (by rw [e6]; exact hi)
    (by rw [e6]; omega) (by omega)
  rw [e6] at sp
  refine ⟨r, hr, spent_weaken (spent_trans b sp) (by omega) (by omega)⟩

theorem sms_send_loop_sent (fuel : Nat) (num : List Nat) (left : Nat) (s : SIM800_Control) :
    sms_send_loop fuel num left true s = some (true, s) := by
  cases left with
  | zero => rfl
  | succ n => simp [sms_send_loop]

/-- The retry loop with `left` attempts to go: it returns, either on the first `BS_OK`
with the SMS buffer cleared, or after `left` attempts without one. -/
theorem sms_send_loop_spec (fuel : Nat) (num : List Nat) (i : Nat) (hi : 0 < i)
    (hf : 60000 < fuel) : ∀ (left : Nat) (s : SIM800_Control), s.idle_ms = i →
    horizon s + left * (77 * i + 60950) < ULONG →
    ∃ b s1, sms_send_loop fuel num left false s = some (b, s1) ∧
      ((b = true ∧ s1.sms_buffer = List.replicate TX_BUFFER_SIZE 0 ∧
          ∃ n p q, n < left ∧ failed_attempts fuel num n s p ∧
            sms_attempt fuel num p = some (BS_OK, q) ∧ s1 = clear_sms_buffer q) ∨
        (b = false ∧ failed_attempts fuel num left s s1)) := by
  intro left
  induction left with
  | zero =>
    intro s _ _
    exact ⟨false, s, rfl, Or.inr ⟨rfl, rfl⟩⟩
  | succ left ih =>
    intro s hs hw
    have e : (left + 1) * (77 * i + 60950) = left * (77 * i + 60950) + (77 * i + 60950) :=
      Nat.succ_mul _ _
    obtain ⟨⟨rv, p⟩, hr, sp0⟩ := sms_attempt_returns fuel num s (by rw [hs]; exact hi)
      (by rw [hs]; omega) hf
    have sp : Spent s p 0 (77 * i + 60950) := by rw [hs] at sp0; exact sp0
    rw [sms_send_loop]
    simp only [if_true, hr]
    by_cases hok : rv = BS_OK
    · subst hok
      simp only [if_true]
      rw [sms_send_loop_sent]
      exact ⟨true, _, rfl, Or.inl ⟨rfl, rfl, 0, s, p, by omega, rfl, hr, rfl⟩⟩
    · simp only [hok, if_false]
      obtain ⟨b, s1, h1, h2⟩ := ih p (sp.idle_ms.trans hs) (by have := sp.horizon; omega)
      refine ⟨b, s1, h1, ?_⟩
      rcases h2 with ⟨hb, hz, n, p1, q, hn, hfa, hq, hs1⟩ | ⟨hb, hfa⟩
      · exact Or.inl ⟨hb, hz, n + 1, p1, q, by omega, ⟨rv, p, hr, hok, hfa⟩, hq, hs1⟩
      · exact Or.inr ⟨hb, ⟨rv, p, hr, hok, hfa⟩⟩

/-- The command built for a destination number of at most 19 characters fits the 30
bytes of `temp_cmd` and reads `AT+CMGS="<number>"`. -/
theorem cmgs_command_fits (num : List Nat) (hnum : strlen num ≤ 19) :
    (cmgs_command num).length = 30 ∧
      cstr (cmgs_command num) = lit "AT+CMGS=" ++ [34] ++ cstr num ++ [34] := by
  have hP : strcpy (List.replicate 30 0) (lit "AT+CMGS=" ++ [34])
      = (lit "AT+CMGS=" ++ [34]) ++ List.replicate 21 0 := by decide
  have h9 : (lit "AT+CMGS=" ++ [34]).length = 9 := by decide
  have hn : (cstr num).length ≤ 19 := hnum
  have ht : temp_cmd_with (lit "AT+CMGS=" ++ [34]) num
      = ((lit "AT+CMGS=" ++ [34]) ++ cstr num) ++ 0 :: List.replicate (20 - strlen num) 0 := by
    simp only [temp_cmd_with]
    rw [hP, List.take_left, List.drop_left]
    simp only [strcpy, List.drop_replicate, List.length_append, List.length_cons,
      List.length_nil, List.append_assoc, List.singleton_append, strlen]
    have e21 : 21 - ((cstr num).length + (0 + 1)) = 20 - (cstr num).length := by omega
    rw [e21]
    rfl
  have hidx : 9 + strlen num = ((lit "AT+CMGS=" ++ [34]) ++ cstr num).length := by
    rw [List.length_append, h9]; rfl
  rw [cmgs_command, ht, hidx, set_append_cons]
  constructor
  · simp only [List.length_append, List.length_cons, List.length_replicate, h9, strlen]
    omega
  · have e : (lit "AT+CMGS=" ++ [34] ++ cstr num) ++ 34 :: List.replicate (20 - strlen num) 0
        = (lit "AT+CMGS=" ++ [34] ++ cstr num ++ [34]) ++ List.replicate (20 - strlen num) 0 := by
      simp
    rw [e, cstr_append_of_nul_free]
    · obtain ⟨k, hk⟩ : ∃ k, 20 - strlen num = k + 1 := ⟨19 - strlen num, by
        simp only [strlen]; omega⟩
      rw [hk]
      simp [List.replicate_succ, cstr]
    · intro c hc
      simp only [List.mem_append, List.mem_singleton] at hc
      rcases hc with (hc | hc) | hc
      · rcases hc with hc | hc
        · revert c; decide
        · rw [hc]; decide
      · exact cstr_nul_free num c hc
      · rw [hc]; decide

/-! ## call_number: the poll loop returns, the hang-up is checked -/

theorem spent_count_protocol_error (s : SIM800_Control) :
    Spent s (count_protocol_error s) 0 0 :=
  ⟨rfl, le_refl _, le_refl _⟩

theorem spent_with_rx_buffer (s : SIM800_Control) (buf : List Nat) :
    Spent s { s with rx_buffer := buf } 0 0 :=
  ⟨rfl, le_refl _, le_refl _⟩

theorem spent_idle_wait_at (n i : Nat) (s : SIM800_Control) (h : s.idle_ms = i) :
    Spent s (idle_wait n s) (n * (i + 10)) (n * (i + 10)) := by
  subst h; exact spent_idle_wait n s

theorem spent_send_command_at (cmd : List Nat) (i : Nat) (s : SIM800_Control)
    (h : s.idle_ms = i) :
    Spent s (send_command cmd s) (15 * (i + 10) + 50) (15 * (i + 10) + 50) := by
  subst h; exact spent_send_command cmd s

theorem spent_let_terminal_settle_at (i : Nat) (s : SIM800_Control) (h : s.idle_ms = i) :
    Spent s (let_terminal_settle s) (15 * (i + 10)) (15 * (i + 10)) := by
  subst h; exact spent_let_terminal_settle s

theorem wait_for_status_returns_at (fuel t i : Nat) (s : SIM800_Control) (h : s.idle_ms = i)
    (hi : 0 < i) (hw : horizon s + t % 256 * 1000 + i < ULONG) (hf : t % 256 * 1000 < fuel) :
    ∃ r p, wait_for_status fuel t s = some (r, p) ∧ Spent s p i (t % 256 * 1000 + i) ∧
      p.idle_ms = i := by
  subst h
  obtain ⟨⟨r, p⟩, h1, h2⟩ := wait_for_status_returns fuel t s hi hw hf
  exact ⟨r, p, h1, h2, h2.idle_ms⟩

theorem wait_for_data_returns_at (pattern : Option (List Nat)) (fuel t i : Nat)
    (s : SIM800_Control) (h : s.idle_ms = i) (hi : 0 < i)
    (hw : horizon s + t % 256 * 1000 + i < ULONG) (hf : t % 256 * 1000 < fuel) :
    ∃ r p, wait_for_data pattern fuel t s = some (r, p) ∧ Spent s p i (t % 256 * 1000 + i) ∧
      p.idle_ms = i := by
  subst h
  obtain ⟨⟨r, p⟩, h1, h2⟩ := wait_for_data_returns pattern fuel t s hi hw hf
  exact ⟨r, p, h1, h2, h2.idle_ms⟩

/-- One poll of `call_number` returns; it takes at least 700 ms and the time of 66
calls of the idle hook, at most 5 s more. -/
theorem call_poll_turn_returns (fuel : Nat) (cc cs : Bool) (i : Nat) (s : SIM800_Control)
    (hs : s.idle_ms = i) (hi : 0 < i) (hw : horizon s + (66 * i + 5700) < ULONG)
    (hf : 5000 < fuel) :
    ∃ r, call_poll_turn fuel cc cs s = some r ∧
      Spent s r.2.2 (66 * i + 700) (66 * i + 5700) ∧
      (r.1 = false → r.2.2.protocol_error_count = s.protocol_error_count) := by
  have a1 := spent_send_command_at (lit "AT+CLCC") i s hs
  obtain ⟨rv, p, hr, sp, hp⟩ := wait_for_data_returns_at (some (lit "+CLCC:")) fuel 5 i
    (send_command (lit "AT+CLCC") s) (a1.idle_ms.trans hs) hi
    (by have := a1.horizon; omega) (by omega)
  have hpe : p.protocol_error_count = s.protocol_error_count := by
    rw [wait_for_data_frame (fun s => s.protocol_error_count) (fun _ _ _ _ _ _ _ => rfl)
      (fun _ _ _ _ _ _ _ _ _ => rfl) _ _ _ _ _ hr]
    exact send_command_frame (fun s => s.protocol_error_count) (fun _ _ _ _ _ _ _ => rfl)
      (fun _ _ _ _ _ _ _ _ _ => rfl) (fun _ _ _ _ => rfl) _ _
  have b := spent_trans a1 sp
  simp only [call_poll_turn, hr]
  refine ⟨_, rfl, ?_, ?_⟩
  · by_cases h1 : rv = BS_DATA
    · simp only [h1, if_true]
      exact spent_weaken (spent_trans b (spent_trans (spent_with_rx_buffer p _)
        (spent_idle_wait_at 50 i _ hp))) (by omega) (by omega)
    · by_cases h2 : rv = BS_OK
      · simp only [h1, h2, if_true, if_false]
        exact spent_weaken (spent_trans b (spent_idle_wait_at 50 i _ hp)) (by omega) (by omega)
      · by_cases h3 : rv = BS_ERROR
        · simp only [h1, h2, h3, if_true, if_false]
          exact spent_weaken (spent_trans b (spent_trans (spent_count_protocol_error p)
            (spent_idle_wait_at 50 i _ hp))) (by omega) (by omega)
        · simp only [h1, h2, h3, if_false]
          exact spent_weaken (spent_trans b (spent_idle_wait_at 50 i _ hp)) (by omega) (by omega)
  · intro hcc
    by_cases h1 : rv = BS_DATA
    · simp only [h1, if_true]
      rw [idle_wait_blind (fun s => s.protocol_error_count) (fun _ _ => rfl)]
      exact hpe
    · by_cases h2 : rv = BS_OK
      · subst h2
        exact absurd hcc (by simp)
      · by_cases h3 : rv = BS_ERROR
        · subst h3
          exact absurd hcc (by simp)
        · simp only [h1, h2, h3, if_false]
          rw [idle_wait_blind (fun s => s.protocol_error_count) (fun _ _ => rfl)]
          exact hpe

/-- The poll loop of `call_number` returns: a poll takes at least 700 ms, so after 65
polls the 45 s are over. -/
theorem call_poll_loop_returns (fuel i start H0 : Nat) (hi : 0 < i) (hf : 5000 < fuel)
    (hw : H0 + 410700 + 66 * i < ULONG) :
    ∀ (f : Nat) (cc cs : Bool) (s : SIM800_Control), s.idle_ms = i → start ≤ s.clock →
      horizon s + 9 * start ≤ H0 + 9 * s.clock → horizon s ≤ H0 + 410700 + 66 * i →
      start + 45000 ≤ s.clock + f * 700 →
      ∃ b s1, call_poll_loop fuel start (f + 1) cc cs s = some (b, s1) ∧ s1.idle_ms = i ∧
        s.clock ≤ s1.clock ∧ horizon s1 ≤ H0 + 410700 + 66 * i := by
  intro f
  induction f with
  | zero =>
    intro cc cs s hs hst hj hh hfuel
    have hclk : s.clock ≤ horizon s := by simp only [horizon]; omega
    have hm : millis s = s.clock := Nat.mod_eq_of_lt (by omega)
    have hu : usub (millis s) start = s.clock - start := by
      rw [hm]; exact usub_elapsed _ _ hst (by omega)
    rw [call_poll_loop, if_neg (by rw [hu]; omega)]
    exact ⟨cs, s, rfl, hs, le_refl _, hh⟩
  | succ f ih =>
    intro cc cs s hs hst hj hh hfuel
    have hclk : s.clock ≤ horizon s := by simp only [horizon]; omega
    have hm : millis s = s.clock := Nat.mod_eq_of_lt (by omega)
    have hu : usub (millis s) start = s.clock - start := by
      rw [hm]; exact usub_elapsed _ _ hst (by omega)
    rw [call_poll_loop]
    by_cases hgo : usub (millis s) start < 45000 ∧ cc = false
    · rw [if_pos hgo]
      rw [hu] at hgo
      obtain ⟨⟨cc1, cs1, p⟩, hr, sp0, -⟩ := call_poll_turn_returns fuel cc cs i s hs hi
        (by omega) hf
      have sp : Spent s p (66 * i + 700) (66 * i + 5700) := sp0
      have h1 := sp.clock
      have h2 := sp.horizon
      simp only [hr]
      obtain ⟨b, s1, e, e1, e2, e3⟩ := ih cc1 cs1 p (sp.idle_ms.trans hs) (by omega)
        (by omega) (by omega) (by omega)
      exact ⟨b, s1, e, e1, by omega, e3⟩
    · rw [if_neg hgo]
      exact ⟨cs, s, rfl, hs, le_refl _, hh⟩

/-- The dial command built for a number of at most 24 characters fits the 30 bytes of
`temp_cmd` and reads `ATD <number>;`. -/
theorem dial_command_fits (num : List Nat) (hnum : strlen num ≤ 24) :
    ((temp_cmd_with (lit "ATD ") num).set (4 + strlen num) 59).length = 30 ∧
      cstr ((temp_cmd_with (lit "ATD ") num).set (4 + strlen num) 59)
        = lit "ATD " ++ cstr num ++ [59] := by
  have hP : strcpy (List.replicate 30 0) (lit "ATD ") = lit "ATD " ++ List.replicate 26 0 := by
    decide
  have h4 : (lit "ATD ").length = 4 := by decide
  have hn : (cstr num).length ≤ 24 := hnum
  have ht : temp_cmd_with (lit "ATD ") num
      = (lit "ATD " ++ cstr num) ++ 0 :: List.replicate (25 - strlen num) 0 := by
    simp only [temp_cmd_with]
    rw [hP, List.take_left, List.drop_left]
    simp only [strcpy, List.drop_replicate, List.length_append, List.length_cons,
      List.length_nil, List.append_assoc, List.singleton_append, strlen]
    have e26 : 26 - ((cstr num).length + (0 + 1)) = 25 - (cstr num).length := by omega
    rw [e26]
  have hidx : 4 + strlen num = (lit "ATD " ++ cstr num).length := by
    rw [List.length_append, h4]; rfl
  rw [ht, hidx, set_append_cons]
  constructor
  · simp only [List.length_append, List.length_cons, List.length_replicate, h4, strlen]
    omega
  · have e : (lit "ATD " ++ cstr num) ++ 59 :: List.replicate (25 - strlen num) 0
        = (lit "ATD " ++ cstr num ++ [59]) ++ List.replicate (25 - strlen num) 0 := by
      simp
    rw [e, cstr_append_of_nul_free]
    · obtain ⟨k, hk⟩ : ∃ k, 25 - strlen num = k + 1 := ⟨24 - strlen num, by
        simp only [strlen]; omega⟩
      rw [hk]
      simp [List.replicate_succ, cstr]
    · intro c hc
      simp only [List.mem_append, List.mem_singleton] at hc
      rcases hc with (hc | hc) | hc
      · revert c; decide
      · exact cstr_nul_free num c hc
      · rw [hc]; decide

/-- The dial command built for a number of 25 characters or more: the bytes written
from `&temp_cmd[0]` are `ATD <number>;` with no NUL among them, 30 bytes or more: no
terminator is left inside the 30 bytes of `temp_cmd`, and from 26 characters on the
copy itself runs past the array. -/
theorem dial_command_overrun (num : List Nat) (hnum : 25 ≤ strlen num) :
    (temp_cmd_with (lit "ATD ") num).set (4 + strlen num) 59 = lit "ATD " ++ cstr num ++ [59] ∧
      30 ≤ strlen ((temp_cmd_with (lit "ATD ") num).set (4 + strlen num) 59) ∧
      (26 ≤ strlen num → 30 < (temp_cmd_with (lit "ATD ") num).length) := by
  have hP : strcpy (List.replicate 30 0) (lit "ATD ") = lit "ATD " ++ List.replicate 26 0 := by
    decide
  have h4 : (lit "ATD ").length = 4 := by decide
  have hn : 25 ≤ (cstr num).length := hnum
  have ht : temp_cmd_with (lit "ATD ") num = (lit "ATD " ++ cstr num) ++ 0 :: [] := by
    simp only [temp_cmd_with]
    rw [hP, List.take_left, List.drop_left]
    simp only [strcpy, List.drop_replicate, List.length_append, List.length_cons,
      List.length_nil, List.append_assoc, List.singleton_append, strlen]
    have e26 : 26 - ((cstr num).length + (0 + 1)) = 0 := by omega
    rw [e26]
    rfl
  have hidx : 4 + strlen num = (lit "ATD " ++ cstr num).length := by
    rw [List.length_append, h4]; rfl
  have hset : (temp_cmd_with (lit "ATD ") num).set (4 + strlen num) 59
      = lit "ATD " ++ cstr num ++ [59] := by
    rw [ht, hidx, set_append_cons]
  have hfree : ∀ c ∈ lit "ATD " ++ cstr num ++ [59], c ≠ 0 := by
    intro c hc
    simp only [List.mem_append, List.mem_singleton] at hc
    rcases hc with (hc | hc) | hc
    · revert c; decide
    · exact cstr_nul_free num c hc
    · rw [hc]; decide
  refine ⟨hset, ?_, fun h26 => ?_⟩
  · rw [hset, strlen, cstr_of_nul_free _ hfree]
    simp only [List.length_append, h4, List.length_singleton]
    omega
  · rw [ht]
    simp only [List.length_append, h4, List.length_singleton]
    have : 26 ≤ (cstr num).length := h26
    omega

/-- C18 (outbound call always ends with a checked hang-up), as the code has it: on an
initialised driver and for a number of at most 24 characters, with which the dial
command `ATD <number>;` and its NUL fit the 30 bytes of `temp_cmd`, `call_number`
returns, and the last bytes it transmits are `ATH` and CR LF.  When the dial command
is not answered `BS_OK` the result is false.  When it is, the hang-up comes after the
poll loop, however that ended, and its answer is waited for 20 s: an answer other than
`BS_OK` makes the result false (and counts a protocol error), and on `BS_OK` the result
is the call status `cs` the poll loop ended with.  The answers are those the line
reader gives as long as every store was inside `rx_buffer`: the results are stated for
a call that ends with `rx_overrun` false, and the flag is never cleared once set
(`rx_overrun_stays`). -/
theorem call_ends_with_checked_hangup (fuel : Nat) (num : List Nat) (s : SIM800_Control)
    (hini : s.initialised = true) (hnum : strlen num ≤ 24) (hi : 0 < s.idle_ms)
    (hw : horizon s + 452450 + 129 * s.idle_ms < ULONG) (hf : 20000 < fuel) :
    ((temp_cmd_with (lit "ATD ") num).set (4 + strlen num) 59).length = 30 ∧
    cstr ((temp_cmd_with (lit "ATD ") num).set (4 + strlen num) 59)
      = lit "ATD " ++ cstr num ++ [59] ∧
    ∃ b s1 rd d, call_number fuel num s = some (b, s1) ∧
      wait_for_status fuel 20 (dial_sent num s) = some (rd, d) ∧
      (∃ pre, s1.serial_tx = pre ++ lit "ATH" ++ [13, 10]) ∧
      (s1.rx_overrun = false →
        (rd ≠ BS_OK → b = false ∧ s1 = send_command (lit "ATH") d) ∧
        (rd = BS_OK → ∃ e cs q rh h,
          wait_for_status fuel 1 d = some e ∧
          call_poll_loop fuel (millis e.2) fuel false false e.2 = some (cs, q) ∧
          wait_for_status fuel 20 (send_command (lit "ATH") q) = some (rh, h) ∧
          (rh ≠ BS_OK → b = false ∧ s1 = count_protocol_error h) ∧
          (rh = BS_OK → b = cs ∧ s1 = h))) := by
  refine ⟨(dial_command_fits num hnum).1, (dial_command_fits num hnum).2, ?_⟩
  have hath : strlen (lit "ATH") ≤ TX_BUFFER_SIZE := by decide
  have hcath : cstr (lit "ATH") = lit "ATH" := by decide
  have a1 := spent_send_command_at [13, 10] s.idle_ms s rfl
  have a2 := spent_let_terminal_settle_at s.idle_ms _ a1.idle_ms
  have a3 := spent_send_command_at
    ((temp_cmd_with (lit "ATD ") num).set (4 + strlen num) 59) s.idle_ms _
    (a2.idle_ms.trans a1.idle_ms)
  have b3 := spent_trans a1 (spent_trans a2 a3)
  have hb3 := b3.horizon
  obtain ⟨rd, d, hd2, spd, hdi⟩ := wait_for_status_returns_at fuel 20 s.idle_ms _
    b3.idle_ms hi (by omega) (by omega)
  have hd : wait_for_status fuel 20 (dial_sent num s) = some (rd, d) := hd2
  have b4 := spent_trans b3 spd
  have hb4 := b4.horizon
  by_cases hrd : rd = BS_OK
  · subst hrd
    obtain ⟨re, e, he, spe, hei⟩ := wait_for_status_returns_at fuel 1 s.idle_ms d hdi hi
      (by omega) (by omega)
    have b5 := spent_trans b4 spe
    have hb5 := b5.horizon
    have hclk : e.clock ≤ horizon e := by simp only [horizon]; omega
    have hm : millis e = e.clock := Nat.mod_eq_of_lt (by omega)
    obtain ⟨f, hfe⟩ : ∃ f, fuel = f + 1 := ⟨fuel - 1, by omega⟩
    obtain ⟨cs, q, hq, hqi, hqc, hqh⟩ := call_poll_loop_returns fuel s.idle_ms (millis e)
      (horizon e) hi (by omega) (by omega) f false false e hei (by omega) (by omega)
      (by omega) (by omega)
    rw [← hfe] at hq
    have a6 := spent_send_command_at (lit "ATH") s.idle_ms q hqi
    have hb6 := a6.horizon
    obtain ⟨rh, h, hh, sph, hhi⟩ := wait_for_status_returns_at fuel 20 s.idle_ms
      (send_command (lit "ATH") q) (a6.idle_ms.trans hqi) hi (by omega) (by omega)
    have htx : h.serial_tx = q.serial_tx ++ lit "ATH" ++ [13, 10] := by
      have e1 := wait_for_status_frame (fun s => s.serial_tx) (fun _ _ _ _ _ _ _ => rfl)
        (fun _ _ _ _ _ _ _ _ _ => rfl) _ _ _ _ hh
      simp only at e1
      rw [e1, send_command_serial_tx, if_pos hath, hcath, List.append_assoc]
    have hcall : call_number fuel num s
        = if rh ≠ BS_OK then some (false, count_protocol_error h) else some (cs, h) := by
      simp only [call_number, hini, Bool.true_eq_false, if_false, hd2, he, hq, hh, ne_eq,
        not_true_eq_false]
    by_cases hrh : rh = BS_OK
    · rw [if_neg (by simpa using hrh)] at hcall
      exact ⟨cs, h, BS_OK, d, hcall, hd, ⟨q.serial_tx, htx⟩, fun _ =>
        ⟨fun hx => absurd rfl hx, fun _ =>
          ⟨(re, e), cs, q, rh, h, he, hq, hh, fun hx => absurd hrh hx, fun _ => ⟨rfl, rfl⟩⟩⟩⟩
    · rw [if_pos hrh] at hcall
      exact ⟨false, count_protocol_error h, BS_OK, d, hcall, hd, ⟨q.serial_tx, htx⟩, fun _ =>
        ⟨fun hx => absurd rfl hx, fun _ =>
          ⟨(re, e), cs, q, rh, h, he, hq, hh, fun _ => ⟨rfl, rfl⟩, fun hx => absurd hx hrh⟩⟩⟩
  · have hcall : call_number fuel num s = some (false, send_command (lit "ATH") d) := by
      simp only [call_number, hini, Bool.true_eq_false, if_false, hd2, ne_eq, hrd,
        not_false_eq_true, if_true]
    refine ⟨false, _, rd, d, hcall, hd, ⟨d.serial_tx, ?_⟩, fun _ => ⟨fun _ => ⟨rfl, rfl⟩,
      fun hx => absurd hx hrd⟩⟩
    rw [send_command_serial_tx, if_pos hath, hcath, List.append_assoc]

set_option maxRecDepth 20000 in
theorem call_ends_with_checked_hangup_witness :
    (call_driver [50, 51, 48]).initialised = true ∧ strlen (lit "0123") ≤ 24 ∧
      ((temp_cmd_with (lit "ATD ") (lit "0123")).set (4 + strlen (lit "0123")) 59).length = 30 ∧
      cstr ((temp_cmd_with (lit "ATD ") (lit "0123")).set (4 + strlen (lit "0123")) 59)
        = lit "ATD " ++ cstr (lit "0123") ++ [59] ∧
      ∃ b s1 rd d, call_number 20001 (lit "0123") (call_driver [50, 51, 48]) = some (b, s1) ∧
        wait_for_status 20001 20 (dial_sent (lit "0123") (call_driver [50, 51, 48]))
          = some (rd, d) ∧
        (∃ pre, s1.serial_tx = pre ++ lit "ATH" ++ [13, 10]) ∧
        (s1.rx_overrun = false →
          (rd ≠ BS_OK → b = false ∧ s1 = send_command (lit "ATH") d) ∧
          (rd = BS_OK → ∃ e cs q rh h,
            wait_for_status 20001 1 d = some e ∧
            call_poll_loop 20001 (millis e.2) 20001 false false e.2 = some (cs, q) ∧
            wait_for_status 20001 20 (send_command (lit "ATH") q) = some (rh, h) ∧
            (rh ≠ BS_OK → b = false ∧ s1 = count_protocol_error h) ∧
            (rh = BS_OK → b = cs ∧ s1 = h))) :=
  ⟨rfl, by decide,
    call_ends_with_checked_hangup 20001 (lit "0123") (call_driver [50, 51, 48]) rfl
      (by decide) (by decide) (by decide) (by decide)⟩

/-! ## sms_available: the failure streak -/

theorem sms_poll_failed_streak (p : SIM800_Control) :
    (p.consecutive_errors < 5 →
        (sms_poll_failed p).consecutive_errors = p.consecutive_errors + 1 ∧
        (sms_poll_failed p).gsm_resets = p.gsm_resets ∧
        (sms_poll_failed p).initialised = p.initialised) ∧
      (p.consecutive_errors = 5 →
        (sms_poll_failed p).consecutive_errors = 0 ∧
        (sms_poll_failed p).gsm_resets = int_incr p.gsm_resets ∧
        (sms_poll_failed p).initialised = false) := by
  constructor
  · intro h
    have e : (p.consecutive_errors + 1) % 256 = p.consecutive_errors + 1 :=
      Nat.mod_eq_of_lt (by omega)
    simp only [sms_poll_failed, count_protocol_error, e]
    rw [if_neg (by omega)]
    exact ⟨rfl, rfl, rfl⟩
  · intro h
    simp only [sms_poll_failed, count_protocol_error, h]
    exact ⟨rfl, rfl, rfl⟩

/-- What a poll does when its list query fails. -/
theorem sms_available_failed (fuel : Nat) (s p : SIM800_Control) (r : Sim800_Buffer_State)
    (hini : s.initialised = true) (hdue : usub (millis s) s.sms_last_called > 1000)
    (hq : wait_for_data (some (lit "+CMGL:")) fuel 20 (sms_query s) = some (r, p))
    (h1 : r ≠ BS_DATA) (h2 : r ≠ BS_OK) :
    sms_available fuel s = some (false, sms_poll_failed p) ∧
      p.consecutive_errors = s.consecutive_errors := by
  constructor
  · simp only [sms_available, hini, Bool.true_eq_false, if_false, hdue, if_true, hq, h1, h2]
  · have e := wait_for_data_frame (fun s => s.consecutive_errors) (fun _ _ _ _ _ _ _ => rfl)
      (fun _ _ _ _ _ _ _ _ _ => rfl) _ _ _ _ _ hq
    simp only at e
    rw [e]
    simp only [sms_query]
    rw [send_command_frame (fun s => s.consecutive_errors) (fun _ _ _ _ _ _ _ => rfl)
        (fun _ _ _ _ _ _ _ _ _ => rfl) (fun _ _ _ _ => rfl),
      let_terminal_settle_frame (fun s => s.consecutive_errors) (fun _ _ _ _ _ _ _ => rfl)
        (fun _ _ _ _ _ _ _ _ _ => rfl),
      send_command_frame (fun s => s.consecutive_errors) (fun _ _ _ _ _ _ _ => rfl)
        (fun _ _ _ _ _ _ _ _ _ => rfl) (fun _ _ _ _ => rfl)]

/-- One failed poll: the streak goes up by one below 5 and nothing is reset; at 5 the
poll resets the streak, counts a reset and clears `initialised`. -/
theorem failed_poll_step (fuel : Nat) (s s1 : SIM800_Control) (h : failed_poll fuel s s1) :
    (s.consecutive_errors < 5 →
        s1.consecutive_errors = s.consecutive_errors + 1 ∧ s1.gsm_resets = s.gsm_resets ∧
        s1.initialised = true) ∧
      (s.consecutive_errors = 5 →
        s1.consecutive_errors = 0 ∧ s1.gsm_resets = int_incr s.gsm_resets ∧
        s1.initialised = false) := by
  obtain ⟨hini, hdue, r, p, hq, h1, h2, hpi, hpg, hres⟩ := h
  obtain ⟨e1, e2⟩ := sms_available_failed fuel s p r hini hdue hq h1 h2
  rw [e1] at hres
  have e3 : s1 = sms_poll_failed p := by
    simp only [Option.some.injEq, Prod.mk.injEq, true_and] at hres
    exact hres.symm
  obtain ⟨f1, f2⟩ := sms_poll_failed_streak p
  rw [e3]
  constructor
  · intro hlt
    obtain ⟨g1, g2, g3⟩ := f1 (by omega)
    exact ⟨by omega, g2.trans hpg, g3.trans hpi⟩
  · intro heq
    obtain ⟨g1, g2, g3⟩ := f2 (by omega)
    exact ⟨g1, by rw [g2, hpg], g3⟩

theorem failed_polls_streak (fuel : Nat) : ∀ (n : Nat) (s s1 : SIM800_Control),
    failed_polls fuel n s s1 → s.consecutive_errors + n ≤ 5 →
    s1.consecutive_errors = s.consecutive_errors + n ∧ s1.gsm_resets = s.gsm_resets ∧
      s1.initialised = s.initialised := by
  intro n
  induction n with
  | zero =>
    intro s s1 h _
    rw [show s1 = s from h]
    exact ⟨rfl, rfl, rfl⟩
  | succ n ih =>
    intro s s1 h hle
    obtain ⟨mid, hm, hrest⟩ := h
    obtain ⟨g1, g2, g3⟩ := (failed_poll_step fuel s mid hm).1 (by omega)
    obtain ⟨k1, k2, k3⟩ := ih mid s1 hrest (by omega)
    exact ⟨by omega, k2.trans g2, by rw [k3, g3, hm.1]⟩

theorem failed_polls_snoc (fuel : Nat) : ∀ (n : Nat) (s mid s1 : SIM800_Control),
    failed_polls fuel n s mid → failed_poll fuel mid s1 → failed_polls fuel (n + 1) s s1 := by
  intro n
  induction n with
  | zero =>
    intro s mid s1 h1 h2
    rw [show mid = s from h1] at h2
    exact ⟨s1, h2, rfl⟩
  | succ n ih =>
    intro s mid s1 h1 h2
    obtain ⟨m, hm, hrest⟩ := h1
    exact ⟨m, hm, ih m mid s1 hrest h2⟩

theorem failed_polls_last (fuel : Nat) : ∀ (n : Nat) (s s1 : SIM800_Control),
    failed_polls fuel (n + 1) s s1 →
    ∃ mid, failed_polls fuel n s mid ∧ failed_poll fuel mid s1 := by
  intro n
  induction n with
  | zero =>
    intro s s1 h
    obtain ⟨m, hm, hrest⟩ := h
    rw [show s1 = m from hrest]
    exact ⟨s, rfl, hm⟩
  | succ n ih =>
    intro s s1 h
    obtain ⟨m, hm, hrest⟩ := h
    obtain ⟨mid, k1, k2⟩ := ih m s1 hrest
    exact ⟨mid, ⟨m, hm, k1⟩, k2⟩

/-- C17 amended (SMS poll failure streak): from a failure streak of zero on an
initialised driver whose reset counter is a value of `int` below `INT_MAX`, 5 failed
polls in a row leave `initialised` true and `gsm_resets` as it was, the streak at 5; it
is the sixth failed poll that increments `gsm_resets` by one and clears `initialised`
(the code tests `consecutive_errors > 5`). -/
theorem sms_poll_failure_streak (fuel : Nat) (s s5 s6 : SIM800_Control)
    (hstreak : s.consecutive_errors = 0) (hini : s.initialised = true)
    (hmin : INT_MIN ≤ s.gsm_resets) (hmax : s.gsm_resets < INT_MAX)
    (h5 : failed_polls fuel 5 s s5) (h6 : failed_poll fuel s5 s6) :
    (s5.initialised = true ∧ s5.gsm_resets = s.gsm_resets ∧ s5.consecutive_errors = 5) ∧
      (failed_polls fuel 6 s s6 ∧ s6.initialised = false ∧
        s6.gsm_resets = s.gsm_resets + 1 ∧ s6.consecutive_errors = 0) := by
  obtain ⟨a1, a2, a3⟩ := failed_polls_streak fuel 5 s s5 h5 (by omega)
  obtain ⟨b1, b2, b3⟩ := (failed_poll_step fuel s5 s6 h6).2 (by omega)
  exact ⟨⟨a3.trans hini, a2, by omega⟩,
    failed_polls_snoc fuel 5 s s5 s6 h5 h6, b3,
    by rw [b2, a2]; exact int_incr_of_lt _ hmin hmax, b1⟩

/-! ## A modem that does not answer -/

theorem wait_for_data_turn_quiet (pattern : Option (List Nat)) (start t : Nat)
    (s : SIM800_Control) (h : Quiet s) :
    wait_for_data_turn pattern start t s
      = (if millis (idle s) > uadd start (t % 256 * 1000) then BS_TIMEOUT else BS_UNKNOWN,
          check_for_response (idle s)) := by
  obtain ⟨h1, _⟩ := check_for_response_junk (idle s) s.serial_rx (fresh_idle s h.1) rfl h.2
  simp only [wait_for_data_turn, h1]
  simp

/-- On a quiet line `wait_for_data` can only time out, and it leaves the line quiet. -/
theorem wait_for_data_loop_quiet (pattern : Option (List Nat)) (start t : Nat) :
    ∀ (fuel : Nat) (s : SIM800_Control) (r : Sim800_Buffer_State × SIM800_Control),
    Quiet s → wait_for_data_loop pattern fuel start t s = some r →
    r.1 = BS_TIMEOUT ∧ Quiet r.2 ∧
      ∀ {α : Type} (f : SIM800_Control → α), RxBlind f → f r.2 = f s := by
  intro fuel
  induction fuel with
  | zero => intro s r _ h; simp [wait_for_data_loop] at h
  | succ fuel ih =>
    intro s r hq h
    obtain ⟨g1, g2, g3, g4, g5⟩ :=
      check_for_response_junk (idle s) s.serial_rx (fresh_idle s hq.1) rfl hq.2
    have hblind : ∀ {α : Type} (f : SIM800_Control → α), RxBlind f →
        f (check_for_response (idle s)) = f s := by
      intro α f hf
      rw [check_for_response_blind f hf, idle_blind f hf]
    have hq2 : Quiet (check_for_response (idle s)) := quiet_of_settled _ g2 g4 g5
    rw [wait_for_data_loop, wait_for_data_turn_quiet pattern start t s hq] at h
    by_cases hto : millis (idle s) > uadd start (t % 256 * 1000)
    · simp only [if_pos hto, reduceCtorEq, if_false, Option.some.injEq] at h
      rw [← h]
      exact ⟨rfl, hq2, hblind⟩
    · simp only [if_neg hto, if_true] at h
      obtain ⟨e1, e2, e3⟩ := ih _ r hq2 h
      exact ⟨e1, e2, fun f hf => (e3 f hf).trans (hblind f hf)⟩

theorem send_command_unanswered (cmd : List Nat) (s : SIM800_Control) (h : Quiet s)
    (hs : s.modem_script = []) (hfit : strlen cmd ≤ TX_BUFFER_SIZE) :
    Quiet (send_command cmd s) ∧ (send_command cmd s).modem_script = [] ∧
      ∀ {α : Type} (f : SIM800_Control → α), RxBlind f → TxBlind f →
        f (send_command cmd s) = f s := by
  obtain ⟨a1, a2, a3, _, _, a6⟩ := send_command_quiet cmd s h hfit
  rw [hs] at a1 a2
  refine ⟨⟨a3, ?_⟩, a2, a6⟩
  rw [a1]
  intro c hc
  simp at hc

theorem settle_unanswered (s : SIM800_Control) (h : Quiet s) (hs : s.modem_script = []) :
    Quiet (let_terminal_settle s) ∧ (let_terminal_settle s).modem_script = [] ∧
      ∀ {α : Type} (f : SIM800_Control → α), RxBlind f → f (let_terminal_settle s) = f s := by
  obtain ⟨b1, _, b3, b4, _, b6⟩ := let_terminal_settle_quiet s h
  exact ⟨quiet_of_settled _ b1 b3 b4,
    (b6 (fun s => s.modem_script) (fun _ _ _ _ _ _ _ => rfl)).trans hs, b6⟩

theorem sms_poll_failed_frame {α : Type} (f : SIM800_Control → α)
    (hf : ∀ (s : SIM800_Control) pe ce gr ini,
      f { s with protocol_error_count := pe, consecutive_errors := ce, gsm_resets := gr,
                 initialised := ini } = f s)
    (p : SIM800_Control) : f (sms_poll_failed p) = f p := by
  simp only [sms_poll_failed, count_protocol_error]
  split_ifs
  · exact hf p _ _ _ _
  · exact hf p _ _ p.gsm_resets p.initialised

/-- A due poll in front of a modem that does not answer is a failed poll: the list
query times out. -/
theorem failed_poll_unanswered (fuel i : Nat) (s : SIM800_Control) (hq : Quiet s)
    (hs : s.modem_script = []) (hidle : s.idle_ms = i) (hi : 10 ≤ i)
    (hini : s.initialised = true) (hdue : s.sms_last_called + 1000 < s.clock)
    (hw : horizon s + 20550 + 46 * i < ULONG) (hf : 20000 < fuel) :
    ∃ s1, failed_poll fuel s s1 ∧ Quiet s1 ∧ s1.modem_script = [] ∧ s1.idle_ms = i ∧
      s1.sms_last_called = s.clock ∧ s.clock + 1000 < s1.clock ∧
      horizon s1 ≤ horizon s + 20550 + 46 * i := by
  have hclk : s.clock ≤ horizon s := by simp only [horizon]; omega
  have hm : millis s = s.clock := Nat.mod_eq_of_lt (by omega)
  have hdue2 : usub (millis s) s.sms_last_called > 1000 := by
    rw [hm, usub_elapsed _ _ (by omega) (by omega)]; omega
  have hcmd : strlen AT_CMGL_ALL ≤ TX_BUFFER_SIZE := by decide
  -- the three commands of the query
  have qa : Quiet { s with sms_last_called := millis s } := hq
  obtain ⟨qb, sb, fb⟩ := send_command_unanswered [13, 10] { s with sms_last_called := millis s }
    qa hs (by decide)
  obtain ⟨qc, sc, fc⟩ := settle_unanswered _ qb sb
  obtain ⟨qd, sd, fd⟩ := send_command_unanswered AT_CMGL_ALL _ qc sc hcmd
  have a0 : Spent s { s with sms_last_called := millis s } 0 0 := ⟨rfl, le_refl _, le_refl _⟩
  have a1 := spent_send_command_at [13, 10] i { s with sms_last_called := millis s } hidle
  have a2 := spent_let_terminal_settle_at i _ (a1.idle_ms.trans hidle)
  have a3 := spent_send_command_at AT_CMGL_ALL i _ (a2.idle_ms.trans (a1.idle_ms.trans hidle))
  have b3 : Spent s (sms_query s) (45 * i + 550) (45 * i + 550) :=
    spent_weaken (spent_trans a0 (spent_trans a1 (spent_trans a2 a3))) (by omega) (by omega)
  have hb3 := b3.horizon
  have hb3c := b3.clock
  obtain ⟨r, p, hr, sp, hpi⟩ := wait_for_data_returns_at (some (lit "+CMGL:")) fuel 20 i
    (sms_query s) (b3.idle_ms.trans hidle) (by omega) (by omega) (by omega)
  have hsp := sp.horizon
  have hspc := sp.clock
  obtain ⟨hto, qp, fp⟩ := wait_for_data_loop_quiet _ _ _ _ _ _ qd hr
  simp only at hto fp qp
  have hchain : ∀ {α : Type} (f : SIM800_Control → α), RxBlind f → TxBlind f →
      f p = f { s with sms_last_called := millis s } := by
    intro α f h1 h2
    rw [fp f h1]
    exact (fd f h1 h2).trans ((fc f h1).trans (fb f h1 h2))
  have hp_ini : p.initialised = true :=
    (hchain (fun s => s.initialised) (fun _ _ _ _ _ _ _ => rfl) (fun _ _ _ _ => rfl)).trans hini
  have hp_res : p.gsm_resets = s.gsm_resets :=
    hchain (fun s => s.gsm_resets) (fun _ _ _ _ _ _ _ => rfl) (fun _ _ _ _ => rfl)
  have hp_last : p.sms_last_called = millis s :=
    hchain (fun s => s.sms_last_called) (fun _ _ _ _ _ _ _ => rfl) (fun _ _ _ _ => rfl)
  have hp_script : p.modem_script = [] :=
    (fp (fun s => s.modem_script) (fun _ _ _ _ _ _ _ => rfl)).trans sd
  subst hto
  obtain ⟨e1, -⟩ := sms_available_failed fuel s p BS_TIMEOUT hini hdue2 hr (by decide)
    (by decide)
  refine ⟨sms_poll_failed p,
    ⟨hini, hdue2, BS_TIMEOUT, p, hr, by decide, by decide, hp_ini, hp_res, e1⟩, ?_, ?_, ?_, ?_, ?_,
    ?_⟩
  · have e := sms_poll_failed_frame (fun s => (s.rx_buff_state, s.rx_buff_pos, s.rx_buffer,
      s.serial_rx)) (fun _ _ _ _ _ => rfl) p
    simp only [Prod.mk.injEq] at e
    obtain ⟨e1, e2, e3, e4⟩ := e
    simp only [Quiet, Fresh, e1, e2, e3, e4]
    exact qp
  · rw [sms_poll_failed_frame (fun s => s.modem_script) (fun _ _ _ _ _ => rfl)]
    exact hp_script
  · rw [sms_poll_failed_frame (fun s => s.idle_ms) (fun _ _ _ _ _ => rfl)]
    exact hpi
  · rw [sms_poll_failed_frame (fun s => s.sms_last_called) (fun _ _ _ _ _ => rfl), hp_last, hm]
  · rw [sms_poll_failed_frame (fun s => s.clock) (fun _ _ _ _ _ => rfl)]
    omega
  · rw [sms_poll_failed_frame (fun s => horizon s) (fun _ _ _ _ _ => rfl)]
    omega

/-- Polls in a row in front of a modem that does not answer: as long as the streak
stays at 5 or below, every poll is a failed poll and the next one is due. -/
theorem failed_polls_unanswered (fuel i : Nat) (hi : 10 ≤ i) (hf : 20000 < fuel) :
    ∀ (n : Nat) (s : SIM800_Control), Quiet s → s.modem_script = [] → s.idle_ms = i →
      s.initialised = true → s.sms_last_called + 1000 < s.clock →
      s.consecutive_errors + n ≤ 5 → horizon s + n * (20550 + 46 * i) < ULONG →
      ∃ s1, failed_polls fuel n s s1 ∧ Quiet s1 ∧ s1.modem_script = [] ∧ s1.idle_ms = i ∧
        s1.initialised = true ∧ s1.sms_last_called + 1000 < s1.clock ∧
        s1.consecutive_errors = s.consecutive_errors + n ∧
        horizon s1 ≤ horizon s + n * (20550 + 46 * i) := by
  intro n
  induction n with
  | zero =>
    intro s hq hs hidle hini hdue _ _
    exact ⟨s, rfl, hq, hs, hidle, hini, hdue, rfl, by omega⟩
  | succ n ih =>
    intro s hq hs hidle hini hdue hce hw
    have e : (n + 1) * (20550 + 46 * i) = n * (20550 + 46 * i) + (20550 + 46 * i) :=
      Nat.succ_mul _ _
    obtain ⟨mid, hp, mq, ms, mi, ml, mc, mh⟩ := failed_poll_unanswered fuel i s hq hs hidle hi
      hini hdue (by omega) hf
    obtain ⟨g1, g2, g3⟩ := (failed_poll_step fuel s mid hp).1 (by omega)
    obtain ⟨s1, k1, k2, k3, k4, k5, k6, k7, k8⟩ := ih mid mq ms mi g3 (by omega) (by omega)
      (by omega)
    exact ⟨s1, ⟨mid, hp, k1⟩, k2, k3, k4, k5, k6, by omega, by omega⟩

theorem unanswered_driver_quiet : Quiet unanswered_driver :=
  quiet_of_settled _ rfl rfl (List.length_replicate _ _)

/-- C17, as stated, fails: in front of a modem that does not answer, 5 due polls in a
row from a streak of zero all fail (the list query times out), and afterwards
`initialised` is still true and `gsm_resets` has not moved. -/
theorem sms_poll_five_failures_counterexample :
    unanswered_driver.consecutive_errors = 0 ∧ unanswered_driver.initialised = true ∧
      ∃ s5, failed_polls 20001 5 unanswered_driver s5 ∧ s5.initialised = true ∧
        s5.gsm_resets = unanswered_driver.gsm_resets ∧
        ¬ (s5.initialised = false ∧ s5.gsm_resets = unanswered_driver.gsm_resets + 1) := by
  obtain ⟨s5, h5, -, -, -, hini, -, -, -⟩ := failed_polls_unanswered 20001 10 (by decide)
    (by decide) 5 unanswered_driver unanswered_driver_quiet rfl rfl rfl (by decide) (by decide)
    (by decide)
  obtain ⟨-, a2, -⟩ := failed_polls_streak 20001 5 unanswered_driver s5 h5 (by decide)
  refine ⟨rfl, rfl, s5, h5, hini, a2, ?_⟩
  rintro ⟨h, -⟩
  rw [hini] at h
  exact absurd h (by decide)

theorem sms_poll_failure_streak_witness :
    unanswered_driver.consecutive_errors = 0 ∧ unanswered_driver.initialised = true ∧
      INT_MIN ≤ unanswered_driver.gsm_resets ∧ unanswered_driver.gsm_resets < INT_MAX ∧
      ∃ s5 s6, failed_polls 20001 5 unanswered_driver s5 ∧ failed_poll 20001 s5 s6 ∧
        (s5.initialised = true ∧ s5.gsm_resets = unanswered_driver.gsm_resets ∧
          s5.consecutive_errors = 5) ∧
        (failed_polls 20001 6 unanswered_driver s6 ∧ s6.initialised = false ∧
          s6.gsm_resets = unanswered_driver.gsm_resets + 1 ∧ s6.consecutive_errors = 0) := by
  obtain ⟨s5, h5, q5, m5, i5, ini5, d5, -, hz5⟩ := failed_polls_unanswered 20001 10 (by decide)
    (by decide) 5 unanswered_driver unanswered_driver_quiet rfl rfl rfl (by decide) (by decide)
    (by decide)
  have hh : horizon unanswered_driver = 2000 := by decide
  rw [hh] at hz5
  obtain ⟨s6, h6, -⟩ := failed_poll_unanswered 20001 10 s5 q5 m5 i5 (by decide) ini5 d5
    (by simp only [ULONG]; omega) (by decide)
  exact ⟨rfl, rfl, by decide, by decide, s5, s6, h5, h6,
    sms_poll_failure_streak 20001 unanswered_driver s5 s6 rfl rfl (by decide) (by decide)
      h5 h6⟩

/-! ## Relations kept by every step -/

theorem stable_idle_wait {R : SIM800_Control → SIM800_Control → Prop} (hR : Stable R) :
    ∀ (n : Nat) (s : SIM800_Control), R s (idle_wait n s) := by
  intro n
  induction n with
  | zero => intro s; exact hR.refl s
  | succ n ih =>
    intro s
    rw [idle_wait]
    exact hR.trans _ _ _ (hR.idle s) (hR.trans _ _ _ (hR.delay 10 _) (ih _))

theorem stable_drain_loop {R : SIM800_Control → SIM800_Control → Prop} (hR : Stable R) :
    ∀ (fuel : Nat) (s : SIM800_Control), R s (drain_loop fuel s) := by
  intro fuel
  induction fuel with
  | zero => intro s; exact hR.refl s
  | succ fuel ih =>
    intro s
    rw [drain_loop]
    by_cases hd : (check_for_response s).rx_buff_state = BS_DATA
    · simp only [hd, if_true]
      exact hR.trans _ _ _ (hR.rx s) (hR.trans _ _ _ (hR.urc _) (ih _))
    · simp only [hd, if_false]
      exact hR.rx s

theorem stable_let_terminal_settle {R : SIM800_Control → SIM800_Control → Prop}
    (hR : Stable R) (s : SIM800_Control) : R s (let_terminal_settle s) := by
  simp only [let_terminal_settle]
  exact hR.trans _ _ _ (stable_idle_wait hR 15 s) (stable_drain_loop hR _ _)

theorem stable_send_command {R : SIM800_Control → SIM800_Control → Prop} (hR : Stable R)
    (cmd : List Nat) (s : SIM800_Control) : R s (send_command cmd s) := by
  simp only [send_command]
  split_ifs
  · exact hR.trans _ _ _ (stable_let_terminal_settle hR s)
      (hR.trans _ _ _ (hR.tx cmd _) (hR.delay 50 _))
  · exact hR.trans _ _ _ (stable_let_terminal_settle hR s) (hR.delay 50 _)

theorem stable_wait_for_status_turn {R : SIM800_Control → SIM800_Control → Prop}
    (hR : Stable R) (start t : Nat) (s : SIM800_Control) :
    R s (wait_for_status_turn start t s).2 := by
  have e : R s (check_for_response (idle s)) := hR.trans _ _ _ (hR.idle s) (hR.rx _)
  have e2 : R s (process_urc (check_for_response (idle s))) := hR.trans _ _ _ e (hR.urc _)
  simp only [wait_for_status_turn]
  split_ifs
  all_goals first
    | exact e
    | exact e2

theorem stable_wait_for_data_turn {R : SIM800_Control → SIM800_Control → Prop}
    (hR : Stable R) (pattern : Option (List Nat)) (start t : Nat) (s : SIM800_Control) :
    R s (wait_for_data_turn pattern start t s).2 := by
  have e : R s (check_for_response (idle s)) := hR.trans _ _ _ (hR.idle s) (hR.rx _)
  have e2 : R s (process_urc (check_for_response (idle s))) := hR.trans _ _ _ e (hR.urc _)
  cases pattern with
  | none =>
    simp only [wait_for_data_turn]
    split_ifs
    all_goals exact e
  | some pat =>
    simp only [wait_for_data_turn]
    split_ifs
    all_goals first
      | exact e
      | exact e2

theorem stable_wait_for_status {R : SIM800_Control → SIM800_Control → Prop} (hR : Stable R)
    (t : Nat) : ∀ (fuel start : Nat) (s : SIM800_Control)
    (r : Sim800_Buffer_State × SIM800_Control),
    wait_for_status_loop fuel start t s = some r → R s r.2 := by
  intro fuel
  induction fuel with
  | zero => intro start s r h; simp [wait_for_status_loop] at h
  | succ fuel ih =>
    intro start s r h
    rw [wait_for_status_loop] at h
    by_cases hu : (wait_for_status_turn start t s).1 = BS_UNKNOWN
    · simp only [hu, if_true] at h
      exact hR.trans _ _ _ (stable_wait_for_status_turn hR start t s) (ih _ _ _ h)
    · simp only [hu, if_false, Option.some.injEq] at h
      rw [← h]
      exact stable_wait_for_status_turn hR start t s

theorem stable_wait_for_data {R : SIM800_Control → SIM800_Control → Prop} (hR : Stable R)
    (pattern : Option (List Nat)) (t : Nat) : ∀ (fuel start : Nat) (s : SIM800_Control)
    (r : Sim800_Buffer_State × SIM800_Control),
    wait_for_data_loop pattern fuel start t s = some r → R s r.2 := by
  intro fuel
  induction fuel with
  | zero => intro start s r h; simp [wait_for_data_loop] at h
  | succ fuel ih =>
    intro start s r h
    rw [wait_for_data_loop] at h
    by_cases hu : (wait_for_data_turn pattern start t s).1 = BS_UNKNOWN
    · simp only [hu, if_true] at h
      exact hR.trans _ _ _ (stable_wait_for_data_turn hR pattern start t s) (ih _ _ _ h)
    · simp only [hu, if_false, Option.some.injEq] at h
      rw [← h]
      exact stable_wait_for_data_turn hR pattern start t s

/-- The flag `rx_overrun` is never cleared: once a store has fallen outside `rx_buffer`
it stays set across every primitive step. -/
theorem rx_overrun_stays :
    Stable (fun s s1 => s.rx_overrun = true → s1.rx_overrun = true) where
  refl := fun _ h => h
  trans := fun _ _ _ h1 h2 h => h2 (h1 h)
  rx := fun s h => by
    simp only [check_for_response]
    have hp : (rx_prepare s).rx_overrun = true := by
      simp only [rx_prepare]; split_ifs <;> exact h
    generalize rx_prepare s = p at hp
    generalize p.serial_rx = bytes
    induction bytes generalizing p with
    | nil => rw [rx_loop]; exact hp
    | cons c rest ih =>
      rw [rx_loop]
      split_ifs
      · apply ih
        simp only [rx_byte]
        split_ifs
        all_goals simp [rx_store, rx_clear, idle, serial_pop, hp]
      · exact hp
  urc := fun s h => (process_urc_blind (fun s => s.rx_overrun)
    (fun _ _ _ _ _ _ _ _ _ => rfl) s).trans h
  idle := fun _ h => h
  delay := fun _ _ h => h
  tx := fun _ _ h => h

/-- Nothing but the last statement of `initialise` sets `initialised`: once false it
stays false across every primitive step. -/
theorem stays_uninitialised :
    Stable (fun s s1 => s.initialised = false → s1.initialised = false) where
  refl := fun _ h => h
  trans := fun _ _ _ h1 h2 h => h2 (h1 h)
  rx := fun s h => (check_for_response_blind (fun s => s.initialised)
    (fun _ _ _ _ _ _ _ => rfl) s).trans h
  urc := fun s h => by
    simp only [process_urc]
    split_ifs
    all_goals first
      | exact h
      | rfl
  idle := fun _ h => h
  delay := fun _ _ h => h
  tx := fun cmd s h => (transmit_blind (fun s => s.initialised) (fun _ _ _ _ _ _ _ => rfl)
    (fun _ _ _ _ => rfl) cmd s).trans h

/-! ## initialise: which steps decide the result -/

theorem stable_probe_loop {R : SIM800_Control → SIM800_Control → Prop} (hR : Stable R)
    (fuel start : Nat) : ∀ (turns : Nat) (rv : Sim800_Buffer_State) (s : SIM800_Control)
    (r : Sim800_Buffer_State × SIM800_Control),
    probe_loop fuel start turns rv s = some r → R s r.2 := by
  intro turns
  induction turns with
  | zero => intro rv s r h; simp [probe_loop] at h
  | succ turns ih =>
    intro rv s r h
    rw [probe_loop] at h
    by_cases hgo : usub (millis s) start < 30000 ∧ rv ≠ BS_OK
    · rw [if_pos hgo] at h
      cases hw : wait_for_status fuel 2 (send_command (lit "AT") s) with
      | none => simp [hw] at h
      | some x =>
        simp only [hw] at h
        exact hR.trans _ _ _ (stable_send_command hR _ s)
          (hR.trans _ _ _ (stable_wait_for_status hR 2 _ _ _ _ hw) (ih _ _ _ h))
    · rw [if_neg hgo, Option.some.injEq] at h
      rw [← h]
      exact hR.refl s

theorem command_ok_some (fuel : Nat) (cmd : List Nat) (t : Nat) (count : Bool)
    (s s1 : SIM800_Control) (next : SIM800_Control → Option SIM800_Control)
    (h : command_ok fuel cmd t count s next = some s1) :
    ∃ rv p, wait_for_status fuel t (send_command cmd s) = some (rv, p) ∧
      ((rv ≠ BS_OK ∧ s1 = if count then count_protocol_error p else p) ∨
        (rv = BS_OK ∧ next p = some s1)) := by
  simp only [command_ok] at h
  cases hw : wait_for_status fuel t (send_command cmd s) with
  | none => simp [hw] at h
  | some x =>
    obtain ⟨rv, p⟩ := x
    simp only [hw] at h
    refine ⟨rv, p, rfl, ?_⟩
    by_cases hrv : rv = BS_OK
    · right
      rw [if_neg (by simpa using hrv)] at h
      exact ⟨hrv, h⟩
    · left
      rw [if_pos hrv, Option.some.injEq] at h
      exact ⟨hrv, h.symm⟩

theorem command_ok_of_ok (fuel : Nat) (cmd : List Nat) (t : Nat) (count : Bool)
    (s p : SIM800_Control) (next : SIM800_Control → Option SIM800_Control)
    (h : wait_for_status fuel t (send_command cmd s) = some (BS_OK, p)) :
    command_ok fuel cmd t count s next = next p := by
  simp only [command_ok, h]
  rw [if_neg (by decide)]

theorem wait_ignored_some (fuel t : Nat) (s s1 : SIM800_Control)
    (next : SIM800_Control → Option SIM800_Control)
    (h : wait_ignored fuel t s next = some s1) :
    ∃ r, wait_for_status fuel t s = some r ∧ next r.2 = some s1 := by
  simp only [wait_ignored] at h
  cases hw : wait_for_status fuel t s with
  | none => simp [hw] at h
  | some x =>
    simp only [hw] at h
    exact ⟨x, rfl, h⟩

theorem data_ignored_some (pattern : Option (List Nat)) (fuel t : Nat) (s s1 : SIM800_Control)
    (next : SIM800_Control → Option SIM800_Control)
    (h : data_ignored pattern fuel t s next = some s1) :
    ∃ r, wait_for_data pattern fuel t s = some r ∧ next r.2 = some s1 := by
  simp only [data_ignored] at h
  cases hw : wait_for_data pattern fuel t s with
  | none => simp [hw] at h
  | some x =>
    simp only [hw] at h
    exact ⟨x, rfl, h⟩

theorem data_ignored_of (pattern : Option (List Nat)) (fuel t : Nat) (s : SIM800_Control)
    (r : Sim800_Buffer_State × SIM800_Control)
    (next : SIM800_Control → Option SIM800_Control)
    (h : wait_for_data pattern fuel t s = some r) :
    data_ignored pattern fuel t s next = next r.2 := by
  simp only [data_ignored, h]

/-- The end of the configuration sequence, from the settle wait before the
function-mode cycle on: whatever its waits return, it ends by setting `initialised`. -/
theorem cfun_tail_sets_initialised (fuel : Nat) (s s1 : SIM800_Control)
    (h : wait_ignored fuel 5 s (fun s => cfun_cycle fuel s
      (fun s => some { s with initialised := true })) = some s1) :
    s1.initialised = true := by
  obtain ⟨r1, -, h1⟩ := wait_ignored_some _ _ _ _ _ h
  simp only [cfun_cycle] at h1
  obtain ⟨r2, -, h2⟩ := wait_ignored_some _ _ _ _ _ h1
  obtain ⟨r3, -, h3⟩ := wait_ignored_some _ _ _ _ _ h2
  obtain ⟨r4, -, h4⟩ := wait_ignored_some _ _ _ _ _ h3
  simp only [Option.some.injEq] at h4
  rw [← h4]

/-- The configuration sequence ends with `initialised` true exactly when its six
checked steps each received `BS_OK`. -/
theorem initialise_config_checked (fuel : Nat) (a s1 : SIM800_Control)
    (ha : a.initialised = false) (h : initialise_config fuel a = some s1) :
    s1.initialised = true ↔ ∃ s6, config_steps_ok fuel a s6 := by
  have hS := stays_uninitialised
  have st_send : ∀ cmd (s : SIM800_Control), s.initialised = false →
      (send_command cmd s).initialised = false := fun cmd s => stable_send_command hS cmd s
  have st_wait : ∀ t s (r : Sim800_Buffer_State × SIM800_Control),
      wait_for_status fuel t s = some r → s.initialised = false → r.2.initialised = false :=
    fun t s r hr => stable_wait_for_status hS t _ _ _ _ hr
  have st_data : ∀ pat t s (r : Sim800_Buffer_State × SIM800_Control),
      wait_for_data pat fuel t s = some r → s.initialised = false → r.2.initialised = false :=
    fun pat t s r hr => stable_wait_for_data hS pat t _ _ _ _ hr
  have hcount : ∀ (c : Bool) (p : SIM800_Control), p.initialised = false →
      (if c then count_protocol_error p else p).initialised = false := by
    intro c p hp
    cases c
    · exact hp
    · exact hp
  have h0 : (idle_wait 100 a).initialised = false := stable_idle_wait hS 100 a ha
  constructor
  · intro htrue
    simp only [initialise_config] at h
    -- AT&F
    obtain ⟨rv1, p1, w1, c1⟩ := command_ok_some _ _ _ _ _ _ _ h
    have i1 := st_wait _ _ _ w1 (st_send _ _ h0)
    rcases c1 with ⟨-, e⟩ | ⟨o1, h⟩
    · rw [e, hcount _ _ i1] at htrue; exact absurd htrue (by decide)
    subst o1
    -- ATE 0
    obtain ⟨rv2, p2, w2, c2⟩ := command_ok_some _ _ _ _ _ _ _ h
    have i2 := st_wait _ _ _ w2 (st_send _ _ i1)
    rcases c2 with ⟨-, e⟩ | ⟨o2, h⟩
    · rw [e, hcount _ _ i2] at htrue; exact absurd htrue (by decide)
    subst o2
    -- AT+CCID
    obtain ⟨⟨r, c⟩, w3, h⟩ := data_ignored_some _ _ _ _ _ _ h
    have i3 := st_data _ _ _ _ w3 (st_send _ _ i2)
    simp only at h i3
    cases w4 : wait_for_status fuel 2 c with
    | none => simp [w4] at h
    | some x =>
      obtain ⟨rv4, p4⟩ := x
      have i4 := st_wait _ _ _ w4 i3
      simp only [w4] at h
      by_cases o4 : rv4 = BS_OK
      · subst o4
        rw [if_neg (by decide)] at h
        -- AT+CMGF=1
        obtain ⟨rv5, p5, w5, c5⟩ := command_ok_some _ _ _ _ _ _ _ h
        have i5 := st_wait _ _ _ w5 (st_send _ _ i4)
        rcases c5 with ⟨-, e⟩ | ⟨o5, h⟩
        · rw [e, hcount _ _ i5] at htrue; exact absurd htrue (by decide)
        subst o5
        -- AT+CLIP=1
        obtain ⟨rv6, p6, w6, c6⟩ := command_ok_some _ _ _ _ _ _ _ h
        have i6 := st_wait _ _ _ w6 (st_send _ _ i5)
        rcases c6 with ⟨-, e⟩ | ⟨o6, h⟩
        · rw [e, hcount _ _ i6] at htrue; exact absurd htrue (by decide)
        subst o6
        -- AT+CUSD=1
        obtain ⟨rv7, p7, w7, c7⟩ := command_ok_some _ _ _ _ _ _ _ h
        have i7 := st_wait _ _ _ w7 (st_send _ _ i6)
        rcases c7 with ⟨-, e⟩ | ⟨o7, h⟩
        · rw [e, hcount _ _ i7] at htrue; exact absurd htrue (by decide)
        subst o7
        exact ⟨p7, p1, p2, r, c, p4, p5, p6, w1, w2, w3, w4, w5, w6, w7⟩
      · rw [if_pos o4, Option.some.injEq] at h
        rw [← h] at htrue
        rw [i4] at htrue
        exact absurd htrue (by decide)
  · rintro ⟨s6, p1, p2, r, c, p4, p5, p6, w1, w2, w3, w4, w5, w6, w7⟩
    simp only [initialise_config] at h
    rw [command_ok_of_ok _ _ _ _ _ _ _ w1, command_ok_of_ok _ _ _ _ _ _ _ w2,
      data_ignored_of _ _ _ _ _ _ w3] at h
    simp only [w4] at h
    rw [if_neg (by decide), command_ok_of_ok _ _ _ _ _ _ _ w5,
      command_ok_of_ok _ _ _ _ _ _ _ w6, command_ok_of_ok _ _ _ _ _ _ _ w7] at h
    exact cfun_tail_sets_initialised fuel _ _ h

theorem pin_mode_initialised (b : Bool) (x : SIM800_Control) :
    (pin_mode b x).initialised = x.initialised := rfl

theorem initialise_reset_uninitialised (fw : Bool) (s : SIM800_Control) :
    (initialise_reset fw s).initialised = false := by
  have e : ∀ (n : Nat) (x : SIM800_Control), (idle_wait n x).initialised = x.initialised :=
    fun n x => idle_wait_blind (fun s => s.initialised) (fun _ _ => rfl) n x
  have e1 : (idle_wait 100 { s with initialised := false }).initialised = false := e 100 _
  cases fw with
  | false =>
    have e0 : initialise_reset false s = idle_wait 100 { s with initialised := false } := rfl
    rw [e0]
    exact e1
  | true =>
    have e0 : initialise_reset true s
        = idle_wait 50 (pin_mode false (idle_wait 50 (pin_mode true
            (idle_wait 100 { s with initialised := false })))) := rfl
    rw [e0, e 50, pin_mode_initialised, e 50, pin_mode_initialised]
    exact e1

theorem initialise_sim_check_uninitialised (fuel : Nat) (a s1 : SIM800_Control)
    (ha : a.initialised = false) (h : initialise_sim_check fuel a = some s1) :
    s1.initialised = false := by
  have hS := stays_uninitialised
  simp only [initialise_sim_check] at h
  obtain ⟨⟨r, c⟩, w3, h⟩ := data_ignored_some _ _ _ _ _ _ h
  have i3 : c.initialised = false :=
    stable_wait_for_data hS _ _ _ _ _ _ w3 (stable_send_command hS _ _ ha)
  simp only at h
  cases w4 : wait_for_status fuel 2 c with
  | none => simp [w4] at h
  | some x =>
    obtain ⟨rv4, p4⟩ := x
    have i4 : p4.initialised = false := stable_wait_for_status hS _ _ _ _ _ w4 i3
    simp only [w4] at h
    split_ifs at h
    · simp only [Option.some.injEq] at h
      rw [← h]
      exact i4
    · simp only [Option.some.injEq] at h
      rw [← h]
      exact i4

/-- When `initialise` returns, `initialised` is true exactly when the configuration
sequence was reached and each of its six checked steps received `BS_OK`. -/
theorem initialise_initialised_iff (fuel : Nat) (fw : Bool) (s s1 : SIM800_Control)
    (h : initialise fuel fw s = some s1) :
    s1.initialised = true ↔
      ∃ a s6, config_reached fuel fw s a ∧ config_steps_ok fuel a s6 := by
  have hS := stays_uninitialised
  have h0 : (bringup_start fw s).initialised = false :=
    stable_let_terminal_settle hS _ (stable_send_command hS _ _
      (initialise_reset_uninitialised fw s))
  have hinit : initialise fuel fw s
      = match probe_loop fuel (millis (bringup_start fw s)) fuel BS_UNKNOWN
          (bringup_start fw s) with
        | none => none
        | some (return_val, s) =>
          if return_val ≠ BS_OK then some s
          else
            match wait_for_data (some (lit "SMS Ready")) fuel 30 s with
            | none => none
            | some (return_val, s) =>
              if return_val ≠ BS_DATA ∧ fw = true then initialise_sim_check fuel s
              else initialise_config fuel s := rfl
  rw [hinit] at h
  cases hp : probe_loop fuel (millis (bringup_start fw s)) fuel BS_UNKNOWN
      (bringup_start fw s) with
  | none => simp [hp] at h
  | some x =>
    obtain ⟨rv, p⟩ := x
    have ip : p.initialised = false := stable_probe_loop hS _ _ _ _ _ _ hp h0
    simp only [hp] at h
    by_cases hrv : rv = BS_OK
    · subst hrv
      rw [if_neg (by decide)] at h
      cases hd : wait_for_data (some (lit "SMS Ready")) fuel 30 p with
      | none => simp [hd] at h
      | some y =>
        obtain ⟨rv2, a⟩ := y
        have ia : a.initialised = false := stable_wait_for_data hS _ _ _ _ _ _ hd ip
        simp only [hd] at h
        by_cases hsim : rv2 ≠ BS_DATA ∧ fw = true
        · rw [if_pos hsim] at h
          have i1 := initialise_sim_check_uninitialised fuel a s1 ia h
          constructor
          · intro ht; rw [i1] at ht; exact absurd ht (by decide)
          · rintro ⟨a2, s6, ⟨p2, rv3, q1, q2, q3⟩, -⟩
            rw [hp] at q1
            simp only [Option.some.injEq, Prod.mk.injEq, true_and] at q1
            subst q1
            rw [hd] at q2
            simp only [Option.some.injEq, Prod.mk.injEq] at q2
            obtain ⟨e1, -⟩ := q2
            subst e1
            exact absurd hsim q3
        · rw [if_neg hsim] at h
          rw [initialise_config_checked fuel a s1 ia h]
          constructor
          · rintro ⟨s6, hs6⟩
            exact ⟨a, s6, ⟨p, rv2, hp, hd, hsim⟩, hs6⟩
          · rintro ⟨a2, s6, ⟨p2, rv3, q1, q2, -⟩, hs6⟩
            rw [hp] at q1
            simp only [Option.some.injEq, Prod.mk.injEq, true_and] at q1
            subst q1
            rw [hd] at q2
            simp only [Option.some.injEq, Prod.mk.injEq] at q2
            obtain ⟨-, e2⟩ := q2
            subst e2
            exact ⟨s6, hs6⟩
    · rw [if_pos hrv, Option.some.injEq] at h
      constructor
      · intro ht
        rw [← h, ip] at ht
        exact absurd ht (by decide)
      · rintro ⟨a2, s6, ⟨p2, rv3, q1, -, -⟩, -⟩
        rw [hp] at q1
        simp only [Option.some.injEq, Prod.mk.injEq] at q1
        exact absurd q1.1 hrv

/-! ## A scripted bring-up, step by step -/

/-- A command answered `OK` from a calm state: the status wait returns `BS_OK`. -/
theorem step_ok_scripted (fuel : Nat) (cmd : List Nat) (t : Nat) (s : SIM800_Control)
    (i pe : Nat) (script : List (List Nat)) (h : Calm s i pe (OK_REPLY :: script))
    (hfit : strlen cmd ≤ TX_BUFFER_SIZE) (hfuel : 0 < fuel) :
    ∃ s1, wait_for_status fuel t (send_command cmd s) = some (BS_OK, s1) ∧
      Calm s1 i pe script ∧ s.clock ≤ s1.clock ∧
      s1.clock ≤ s.clock + 15 * (i + 10) + 10 * i + 50 := by
  obtain ⟨a1, a2, a3, a4, a5, a6, a7⟩ := calm_send cmd s i pe OK_REPLY script h hfit
  obtain ⟨s1, b1, b2, _, b4, b5⟩ := calm_ok fuel t (send_command cmd s) i pe script [13, 10]
    a1 (by rw [a2]; rfl) (by decide) (by decide) a3 a4 a5 hfuel
  exact ⟨s1, b1, b2, by omega, by omega⟩

/-- A command left unanswered from a calm state: the status wait returns
`BS_TIMEOUT`. -/
theorem step_silent_scripted (fuel : Nat) (cmd : List Nat) (t : Nat) (s : SIM800_Control)
    (i pe : Nat) (script : List (List Nat)) (h : Calm s i pe ([] :: script))
    (hfit : strlen cmd ≤ TX_BUFFER_SIZE) (hi : 0 < i)
    (hwrap : s.clock + t % 256 * 1000 + 22 * i + 200 < ULONG)
    (hfuel : t % 256 * 1000 + i + 1 ≤ fuel) :
    ∃ s1, wait_for_status fuel t (send_command cmd s) = some (BS_TIMEOUT, s1) ∧
      Calm s1 i pe script ∧ s.clock ≤ s1.clock ∧
      s1.clock ≤ s.clock + t % 256 * 1000 + 22 * i + 200 := by
  obtain ⟨a1, a2, a3⟩ := calm_send_silent cmd s i pe [] script h hfit (by decide) (by decide)
  obtain ⟨s1, b1, b2, _, b4, b5⟩ := calm_timeout fuel t (send_command cmd s) i pe script a1 hi
    (by omega) hfuel
  exact ⟨s1, b1, b2, by omega, by omega⟩

/-- The six checked steps of the configuration sequence against a modem that answers
each with `OK`, the SIM query after a data line. -/
theorem config_steps_scripted (fuel : Nat) (a : SIM800_Control) (i pe : Nat)
    (ccid : List Nat) (script : List (List Nat))
    (h : Calm a i pe (OK_REPLY :: OK_REPLY :: ([13, 10] ++ ccid ++ [13, 10] ++ OK_REPLY) ::
      OK_REPLY :: OK_REPLY :: OK_REPLY :: script))
    (hccid : is_line ccid) (hfuel : 0 < fuel) :
    ∃ s6, config_steps_ok fuel a s6 ∧ Calm s6 i pe script ∧ a.clock ≤ s6.clock ∧
      s6.clock ≤ a.clock + 416 * i + 2200 := by
  have h0 := calm_idle_wait 100 a i pe _ h
  have hc0 : (idle_wait 100 a).clock = a.clock + 100 * (i + 10) := by
    rw [idle_wait_clock, h.idle_ms]
  obtain ⟨s1, e1, k1, l1, u1⟩ := step_ok_scripted fuel (lit "AT&F") 2 _ i pe _ h0
    (by decide) hfuel
  obtain ⟨s2, e2, k2, l2, u2⟩ := step_ok_scripted fuel (lit "ATE 0") 2 s1 i pe _ k1
    (by decide) hfuel
  obtain ⟨c, s3, e3, e4, k3, l3, u3⟩ := ccid_scripted fuel s2 i pe ccid _ k2 hccid hfuel
  obtain ⟨r, w3, hr⟩ := data_ignored_some none fuel 2 _ c some (e3 some)
  obtain ⟨rv, c2⟩ := r
  simp only [Option.some.injEq] at hr
  subst hr
  obtain ⟨s4, e5, k4, l4, u4⟩ := step_ok_scripted fuel (lit "AT+CMGF=1") 2 s3 i pe _ k3
    (by decide) hfuel
  obtain ⟨s5, e6, k5, l5, u5⟩ := step_ok_scripted fuel (lit "AT+CLIP=1") 15 s4 i pe _ k4
    (by decide) hfuel
  obtain ⟨s6, e7, k6, l6, u6⟩ := step_ok_scripted fuel (lit "AT+CUSD=1") 2 s5 i pe _ k5
    (by decide) hfuel
  exact ⟨s6, ⟨s1, s2, rv, c2, s3, s4, s5, e1, e2, w3, e4, e5, e6, e7⟩, k6, by omega, by omega⟩

/-- With the six checked steps answered, what is left of the configuration sequence
is the function-mode cycle. -/
theorem initialise_config_of_steps (fuel : Nat) (a s6 : SIM800_Control)
    (h : config_steps_ok fuel a s6) :
    initialise_config fuel a
      = wait_ignored fuel 5 s6 (fun s => cfun_cycle fuel s
          (fun s => some { s with initialised := true })) := by
  obtain ⟨s1, s2, r, c, s3, s4, s5, w1, w2, w3, w4, w5, w6, w7⟩ := h
  simp only [initialise_config]
  rw [command_ok_of_ok _ _ _ _ _ _ _ w1, command_ok_of_ok _ _ _ _ _ _ _ w2,
    data_ignored_of _ _ _ _ _ _ w3]
  simp only [w4]
  rw [if_neg (by decide), command_ok_of_ok _ _ _ _ _ _ _ w5,
    command_ok_of_ok _ _ _ _ _ _ _ w6, command_ok_of_ok _ _ _ _ _ _ _ w7]

/-- Once the configuration sequence is reached, `initialise` is that sequence. -/
theorem initialise_of_reached (fuel : Nat) (fw : Bool) (s a : SIM800_Control)
    (h : config_reached fuel fw s a) : initialise fuel fw s = initialise_config fuel a := by
  obtain ⟨p, rv, hp, hd, hno⟩ := h
  have hinit : initialise fuel fw s
      = match probe_loop fuel (millis (bringup_start fw s)) fuel BS_UNKNOWN
          (bringup_start fw s) with
        | none => none
        | some (return_val, s) =>
          if return_val ≠ BS_OK then some s
          else
            match wait_for_data (some (lit "SMS Ready")) fuel 30 s with
            | none => none
            | some (return_val, s) =>
              if return_val ≠ BS_DATA ∧ fw = true then initialise_sim_check fuel s
              else initialise_config fuel s := rfl
  rw [hinit]
  simp only [hp]
  rw [if_neg (by decide)]
  simp only [hd]
  rw [if_neg hno]

/-- The start of the scripted bring-up: two `AT` probes without reply, the third
answered `OK`, then the banner `SMS Ready`. -/
theorem config_reached_scripted (fuel : Nat) (s : SIM800_Control) (i : Nat)
    (script : List (List Nat)) (hfresh : Fresh s) (hrx : s.serial_rx = [])
    (hscript : s.modem_script = [] :: [] :: [] :: (OK_REPLY ++ SMS_READY_BANNER) :: script)
    (hidle : s.idle_ms = i) (hi : 0 < i) (hi2 : i ≤ 100) (hwrap : s.clock + 200000 < ULONG)
    (hfuel : 2000 + i + 1 ≤ fuel) :
    ∃ a, config_reached fuel false s a ∧ Calm a i s.protocol_error_count script ∧
      s.clock ≤ a.clock ∧ a.clock ≤ s.clock + 30000 := by
  have hcalm : Calm { s with initialised := false } i s.protocol_error_count
      ([] :: [] :: [] :: (OK_REPLY ++ SMS_READY_BANNER) :: script) :=
    ⟨⟨hfresh, by rw [show ({ s with initialised := false } : SIM800_Control).serial_rx
          = s.serial_rx from rfl, hrx]; decide⟩,
      by rw [show ({ s with initialised := false } : SIM800_Control).serial_rx
          = s.serial_rx from rfl, hrx]; simp,
      hidle, rfl, hscript⟩
  have e0 : initialise_reset false s = idle_wait 100 { s with initialised := false } := rfl
  have h0 := calm_idle_wait 100 _ i _ _ hcalm
  have hc0 : (idle_wait 100 { s with initialised := false }).clock
      = s.clock + 100 * (i + 10) := by
    rw [idle_wait_clock]
    show s.clock + 100 * (s.idle_ms + 10) = _
    rw [hidle]
  obtain ⟨h1, l1, u1⟩ := calm_send_silent [13, 10] _ i _ [] _ h0 (by decide) (by decide)
    (by decide)
  obtain ⟨h2, _, l2, u2⟩ := calm_settle _ i _ _ h1
  obtain ⟨s3, e3, a1, a2, a3, a4, a5, l3, u3⟩ := probe_loop_scripted fuel fuel _ i _
    SMS_READY_BANNER _ h2 hi hi2 (by simp only [ULONG] at *; omega) (by omega) (by omega)
  obtain ⟨rv, s4, e4, _, b2, b3, b4, _, b6⟩ := wait_for_data_line_decides
    (some (lit "SMS Ready")) fuel 30 s3 [10, 13, 10] (lit "SMS Ready") [10] (Or.inl a1)
    (by rw [a2]; rfl) (by decide) (by decide) (Or.inr ⟨_, rfl, by decide⟩) (by omega)
  rw [a3] at b4
  have hlen : (lit "SMS Ready").length = 9 := by decide
  rw [hlen] at b4
  simp only [List.length_cons, List.length_nil] at b4
  have h4 : Calm s4 i s.protocol_error_count script :=
    ⟨⟨Or.inl b3, by rw [b2]; exact is_junk_lf⟩, by rw [b2]; simp,
      (b6 (fun s => s.idle_ms) (fun _ _ _ _ _ _ _ => rfl)).trans a3,
      (b6 (fun s => s.protocol_error_count) (fun _ _ _ _ _ _ _ => rfl)).trans a4,
      (b6 (fun s => s.modem_script) (fun _ _ _ _ _ _ _ => rfl)).trans a5⟩
  have hb : bringup_start false s
      = let_terminal_settle (send_command [13, 10]
          (idle_wait 100 { s with initialised := false })) := by
    rw [bringup_start, e0]
  refine ⟨s4, ⟨s3, rv, ?_, e4, fun hh => absurd hh.2 (by decide)⟩, h4, by omega, by omega⟩
  rw [hb]
  exact e3

/-- A bring-up in which the modem answers every checked step and is silent for both
commands of the function-mode cycle. -/
theorem bringup_cfun_silent (fuel : Nat) (s : SIM800_Control) (ccid : List Nat)
    (rest : List (List Nat)) (hfresh : Fresh s) (hrx : s.serial_rx = [])
    (hscript : s.modem_script = cfun_silent_script ccid ++ rest) (hccid : is_line ccid)
    (hi : 0 < s.idle_ms) (hi2 : s.idle_ms ≤ 100) (hwrap : s.clock + 200000 < ULONG)
    (hfuel : 15200 ≤ fuel) :
    ∃ a s6 s10, config_reached fuel false s a ∧ config_steps_ok fuel a s6 ∧
      cfun_unanswered fuel s6 s10 ∧
      initialise fuel false s = some { s10 with initialised := true } := by
  generalize hiv : s.idle_ms = i at hi hi2
  obtain ⟨a, ra, ka, la, ua⟩ := config_reached_scripted fuel s i _ hfresh hrx hscript hiv hi hi2
    hwrap (by omega)
  obtain ⟨s6, r6, k6, l6, u6⟩ := config_steps_scripted fuel a i _ ccid _ ka hccid (by omega)
  obtain ⟨s7, e7, k7, _, l7, u7⟩ := calm_timeout fuel 5 s6 i _ _ k6 hi
    (by simp only [ULONG] at *; omega) (by omega)
  obtain ⟨s8, e8, k8, l8, u8⟩ := step_silent_scripted fuel (lit "AT+CFUN=4") 15 s7 i _ _ k7
    (by decide) hi (by simp only [ULONG] at *; omega) (by omega)
  obtain ⟨s9, e9, k9, _, l9, u9⟩ := calm_timeout fuel 5 s8 i _ _ k8 hi
    (by simp only [ULONG] at *; omega) (by omega)
  obtain ⟨s10, e10, k10, l10, u10⟩ := step_silent_scripted fuel (lit "AT+CFUN=1") 15 s9 i _ _ k9
    (by decide) hi (by simp only [ULONG] at *; omega) (by omega)
  refine ⟨a, s6, s10, ra, r6, ⟨s7, s8, s9, e7, e8, e9, e10⟩, ?_⟩
  rw [initialise_of_reached fuel false s a ra, initialise_config_of_steps fuel a s6 r6]
  simp only [wait_ignored, cfun_cycle, e7, e8, e9, e10]

/-- C11 as stated fails: with the scripted modem that answers the probe and the six
checked configuration commands but stays silent for `AT+CFUN=4` and for `AT+CFUN=1`,
both status waits of the function-mode cycle end in `BS_TIMEOUT`, and `initialise`
still returns with `initialised` true. -/
theorem bringup_cfun_unchecked_counterexample :
    ∃ a s6 s10 s1,
      config_reached 16000 false (constructed 10 (cfun_silent_script SAMPLE_CCID ++ [])) a ∧
      config_steps_ok 16000 a s6 ∧ cfun_unanswered 16000 s6 s10 ∧
      initialise 16000 false (constructed 10 (cfun_silent_script SAMPLE_CCID ++ [])) = some s1 ∧
      s1.initialised = true := by
  obtain ⟨a, s6, s10, h1, h2, h3, h4⟩ := bringup_cfun_silent 16000
    (constructed 10 (cfun_silent_script SAMPLE_CCID ++ [])) SAMPLE_CCID []
    (Or.inr (Or.inr ⟨rfl, List.length_replicate _ _⟩)) rfl rfl (by decide) (by decide)
    (by decide) (by decide) (by decide)
  exact ⟨a, s6, s10, _, h1, h2, h3, h4, rfl⟩


/-! ## The protocol-error counter across the public operations -/

theorem within_start (i : Nat) (s : SIM800_Control) (hs : s.idle_ms = i) : Within i 0 s s :=
  ⟨hs, le_refl _, le_refl _⟩

theorem within_mono {i c d : Nat} {s p : SIM800_Control} (w : Within i c s p) (h : c ≤ d) :
    Within i d s p :=
  ⟨w.idle_ms, w.clock, by have := w.horizon; omega⟩

theorem within_spent {i c l h : Nat} {s a b : SIM800_Control} (w : Within i c s a)
    (x : Spent a b l h) : Within i (c + h) s b :=
  ⟨x.idle_ms.trans w.idle_ms, by have := w.clock; have := x.clock; omega,
    by have := w.horizon; have := x.horizon; omega⟩

theorem within_send {i c : Nat} {s a : SIM800_Control} (w : Within i c s a) (cmd : List Nat) :
    Within i (c + (15 * i + 200)) s (send_command cmd a) :=
  within_mono (within_spent w (spent_send_command_at cmd i a w.idle_ms)) (by omega)

theorem within_settle {i c : Nat} {s a : SIM800_Control} (w : Within i c s a) :
    Within i (c + (15 * i + 150)) s (let_terminal_settle a) :=
  within_mono (within_spent w (spent_let_terminal_settle_at i a w.idle_ms)) (by omega)

theorem within_idle_wait {i c : Nat} {s a : SIM800_Control} (w : Within i c s a) (n : Nat) :
    Within i (c + n * (i + 10)) s (idle_wait n a) :=
  within_spent w (spent_idle_wait_at n i a w.idle_ms)

/-- A step that leaves the clock, the line, the script and the idle hook alone. -/
theorem within_same {i c : Nat} {s a b : SIM800_Control} (w : Within i c s a)
    (h1 : b.idle_ms = a.idle_ms) (h2 : b.clock = a.clock) (h3 : b.serial_rx = a.serial_rx)
    (h4 : b.modem_script = a.modem_script) : Within i c s b := by
  refine ⟨h1.trans w.idle_ms, by rw [h2]; exact w.clock, ?_⟩
  have e : horizon b = horizon a := by simp only [horizon, pending, h1, h2, h3, h4]
  rw [e]
  exact w.horizon

theorem within_wait_status {i c : Nat} {s a : SIM800_Control} (w : Within i c s a)
    (fuel t T : Nat) (hT : t % 256 * 1000 = T) (hi : 0 < i)
    (hw : horizon s + (c + T + i) < ULONG) (hf : T < fuel) :
    ∃ rv p, wait_for_status fuel t a = some (rv, p) ∧ Within i (c + T + i) s p := by
  subst hT
  obtain ⟨rv, p, e, sp, _⟩ := wait_for_status_returns_at fuel t i a w.idle_ms hi
    (by have := w.horizon; omega) hf
  exact ⟨rv, p, e, within_mono (within_spent w sp) (by omega)⟩

theorem within_wait_data {i c : Nat} {s a : SIM800_Control} (w : Within i c s a)
    (pattern : Option (List Nat)) (fuel t T : Nat) (hT : t % 256 * 1000 = T) (hi : 0 < i)
    (hw : horizon s + (c + T + i) < ULONG) (hf : T < fuel) :
    ∃ rv p, wait_for_data pattern fuel t a = some (rv, p) ∧ Within i (c + T + i) s p := by
  subst hT
  obtain ⟨rv, p, e, sp, _⟩ := wait_for_data_returns_at pattern fuel t i a w.idle_ms hi
    (by have := w.horizon; omega) hf
  exact ⟨rv, p, e, within_mono (within_spent w sp) (by omega)⟩

theorem within_if {i c : Nat} {s x y : SIM800_Control} (p : Prop) [Decidable p]
    (wx : Within i c s x) (wy : Within i c s y) : Within i c s (if p then x else y) := by
  split_ifs
  · exact wx
  · exact wy

theorem wait_ignored_returns (fuel t T i c d : Nat) (s a : SIM800_Control)
    (next : SIM800_Control → Option SIM800_Control) (w : Within i c s a)
    (hT : t % 256 * 1000 = T) (hi : 0 < i) (hf : T < fuel)
    (hw : horizon s + (c + T + i) < ULONG)
    (hn : ∀ p, Within i (c + T + i) s p → ∃ r, next p = some r ∧ Within i d s r) :
    ∃ r, wait_ignored fuel t a next = some r ∧ Within i d s r := by
  obtain ⟨rv, p, e, wp⟩ := within_wait_status w fuel t T hT hi hw hf
  simp only [wait_ignored, e]
  exact hn p wp

theorem data_ignored_returns (pattern : Option (List Nat)) (fuel t T i c d : Nat)
    (s a : SIM800_Control) (next : SIM800_Control → Option SIM800_Control)
    (w : Within i c s a) (hT : t % 256 * 1000 = T) (hi : 0 < i) (hf : T < fuel)
    (hw : horizon s + (c + T + i) < ULONG)
    (hn : ∀ p, Within i (c + T + i) s p → ∃ r, next p = some r ∧ Within i d s r) :
    ∃ r, data_ignored pattern fuel t a next = some r ∧ Within i d s r := by
  obtain ⟨rv, p, e, wp⟩ := within_wait_data w pattern fuel t T hT hi hw hf
  simp only [data_ignored, e]
  exact hn p wp

/-- The function-mode cycle returns within 35.4 s and 33 calls of the idle hook. -/
theorem cfun_cycle_returns (fuel i c d : Nat) (s a : SIM800_Control)
    (next : SIM800_Control → Option SIM800_Control) (w : Within i c s a) (hi : 0 < i)
    (hf : 15000 < fuel) (hw : horizon s + (c + (33 * i + 35400)) < ULONG)
    (hn : ∀ p, Within i (c + (33 * i + 35400)) s p → ∃ r, next p = some r ∧ Within i d s r) :
    ∃ r, cfun_cycle fuel a next = some r ∧ Within i d s r := by
  simp only [cfun_cycle]
  refine wait_ignored_returns fuel 15 15000 i _ d s _ _ (within_send w (lit "AT+CFUN=4")) rfl hi
    hf (by omega) (fun p wp => ?_)
  refine wait_ignored_returns fuel 5 5000 i _ d s _ _ wp rfl hi (by omega) (by omega)
    (fun p2 wp2 => ?_)
  refine wait_ignored_returns fuel 15 15000 i _ d s _ _ (within_send wp2 (lit "AT+CFUN=1")) rfl
    hi hf (by omega) (fun p3 wp3 => ?_)
  exact hn p3 (within_mono wp3 (by omega))

theorem command_ok_returns (fuel : Nat) (cmd : List Nat) (t T : Nat) (count : Bool)
    (i c d : Nat) (s a : SIM800_Control) (next : SIM800_Control → Option SIM800_Control)
    (w : Within i c s a) (hT : t % 256 * 1000 = T) (hi : 0 < i) (hf : T < fuel)
    (hw : horizon s + (c + (16 * i + 200 + T)) < ULONG) (hd : c + (16 * i + 200 + T) ≤ d)
    (hn : ∀ p, Within i (c + (16 * i + 200 + T)) s p → ∃ r, next p = some r ∧ Within i d s r) :
    ∃ r, command_ok fuel cmd t count a next = some r ∧ Within i d s r := by
  obtain ⟨rv, p, e, wp⟩ := within_wait_status (within_send w cmd) fuel t T hT hi (by omega) hf
  simp only [command_ok, e]
  by_cases hrv : rv ≠ BS_OK
  · rw [if_pos hrv]
    exact ⟨_, rfl, within_mono
      (within_if (count = true) (within_same wp (b := count_protocol_error p) rfl rfl rfl rfl) wp)
      (by omega)⟩
  · rw [if_neg hrv]
    exact hn p (within_mono wp (by omega))

/-- The probe loop of `initialise` returns: a probe takes at least 200 ms, so after
150 probes the 30 s are over. -/
theorem probe_loop_returns (fuel i start H0 : Nat) (hi : 0 < i) (hf : 2000 < fuel)
    (hw : H0 + 332200 + 16 * i < ULONG) :
    ∀ (f : Nat) (rv : Sim800_Buffer_State) (s : SIM800_Control), s.idle_ms = i →
      start ≤ s.clock → horizon s + 11 * start ≤ H0 + 11 * s.clock →
      horizon s ≤ H0 + 332200 + 16 * i → start + 30000 ≤ s.clock + f * 200 →
      ∃ r s1, probe_loop fuel start (f + 1) rv s = some (r, s1) ∧ s1.idle_ms = i ∧
        s.clock ≤ s1.clock ∧ horizon s1 ≤ H0 + 332200 + 16 * i := by
  intro f
  induction f with
  | zero =>
    intro rv s hs hst hj hh hfuel
    have hclk : s.clock ≤ horizon s := by simp only [horizon]; omega
    have hm : millis s = s.clock := Nat.mod_eq_of_lt (by omega)
    have hu : usub (millis s) start = s.clock - start := by
      rw [hm]; exact usub_elapsed _ _ hst (by omega)
    rw [probe_loop, if_neg (by rw [hu]; omega)]
    exact ⟨rv, s, rfl, hs, le_refl _, hh⟩
  | succ f ih =>
    intro rv s hs hst hj hh hfuel
    have hclk : s.clock ≤ horizon s := by simp only [horizon]; omega
    have hm : millis s = s.clock := Nat.mod_eq_of_lt (by omega)
    have hu : usub (millis s) start = s.clock - start := by
      rw [hm]; exact usub_elapsed _ _ hst (by omega)
    rw [probe_loop]
    by_cases hgo : usub (millis s) start < 30000 ∧ rv ≠ BS_OK
    · rw [if_pos hgo]
      rw [hu] at hgo
      have a1 := spent_send_command_at (lit "AT") i s hs
      have h1 := a1.clock
      have h2 := a1.horizon
      obtain ⟨rv1, p, hr, sp, hp⟩ := wait_for_status_returns_at fuel 2 i
        (send_command (lit "AT") s) (a1.idle_ms.trans hs) hi (by omega) (by omega)
      have h3 := sp.clock
      have h4 := sp.horizon
      simp only [hr]
      obtain ⟨r, s1, e, e1, e2, e3⟩ := ih rv1 p hp (by omega) (by omega) (by omega) (by omega)
      exact ⟨r, s1, e, e1, by omega, e3⟩
    · rw [if_neg hgo]
      exact ⟨rv, s, rfl, hs, le_refl _, hh⟩

theorem within_pin_mode {i c : Nat} {s a : SIM800_Control} (w : Within i c s a) (b : Bool) :
    Within i c s (pin_mode b a) :=
  within_same w rfl rfl rfl rfl

theorem within_uninitialised {i c : Nat} {s a : SIM800_Control} (w : Within i c s a) :
    Within i c s { a with initialised := false } :=
  within_same w rfl rfl rfl rfl

theorem initialise_reset_within (fw : Bool) (i c : Nat) (s a : SIM800_Control)
    (w : Within i c s a) : Within i (c + (200 * i + 2000)) s (initialise_reset fw a) := by
  have w1 := within_idle_wait (within_uninitialised w) 100
  cases fw with
  | false =>
    have e0 : initialise_reset false a = idle_wait 100 { a with initialised := false } := rfl
    rw [e0]
    exact within_mono w1 (by omega)
  | true =>
    have e0 : initialise_reset true a
        = idle_wait 50 (pin_mode false (idle_wait 50 (pin_mode true
            (idle_wait 100 { a with initialised := false })))) := rfl
    rw [e0]
    exact within_mono
      (within_idle_wait (within_pin_mode (within_idle_wait (within_pin_mode w1 true) 50) false)
        50) (by omega)

theorem initialise_sim_check_returns (fuel i c : Nat) (s a : SIM800_Control)
    (w : Within i c s a) (hi : 0 < i) (hf : 2000 < fuel)
    (hw : horizon s + (c + (17 * i + 4200)) < ULONG) :
    ∃ r, initialise_sim_check fuel a = some r ∧ Within i (c + (17 * i + 4200)) s r := by
  simp only [initialise_sim_check]
  refine data_ignored_returns none fuel 2 2000 i _ _ s _ _ (within_send w (lit "AT+CCID")) rfl
    hi hf (by omega) (fun p wp => ?_)
  obtain ⟨rv, p2, e, wp2⟩ := within_wait_status wp fuel 2 2000 rfl hi (by omega) hf
  simp only [e]
  split_ifs
  · exact ⟨_, rfl, within_mono (within_same wp2 rfl rfl rfl rfl) (by omega)⟩
  · exact ⟨_, rfl, within_mono wp2 (by omega)⟩

theorem initialise_config_returns (fuel i c : Nat) (s a : SIM800_Control)
    (w : Within i c s a) (hi : 0 < i) (hf : 15000 < fuel)
    (hw : horizon s + (c + (231 * i + 69600)) < ULONG) :
    ∃ r, initialise_config fuel a = some r ∧ Within i (c + (231 * i + 69600)) s r := by
  simp only [initialise_config]
  refine command_ok_returns fuel _ 2 2000 true i _ _ s _ _ (within_idle_wait w 100) rfl hi
    (by omega) (by omega) (by omega) (fun p1 w1 => ?_)
  refine command_ok_returns fuel _ 2 2000 true i _ _ s _ _ w1 rfl hi
    (by omega) (by omega) (by omega) (fun p2 w2 => ?_)
  refine data_ignored_returns none fuel 2 2000 i _ _ s _ _ (within_send w2 (lit "AT+CCID")) rfl
    hi (by omega) (by omega) (fun p3 w3 => ?_)
  obtain ⟨rv, p4, e, w4⟩ := within_wait_status w3 fuel 2 2000 rfl hi (by omega) (by omega)
  simp only [e]
  split_ifs
  · exact ⟨_, rfl, within_mono w4 (by omega)⟩
  · refine command_ok_returns fuel _ 2 2000 false i _ _ s _ _ w4 rfl hi
      (by omega) (by omega) (by omega) (fun p5 w5 => ?_)
    refine command_ok_returns fuel _ 15 15000 true i _ _ s _ _ w5 rfl hi
      hf (by omega) (by omega) (fun p6 w6 => ?_)
    refine command_ok_returns fuel _ 2 2000 true i _ _ s _ _ w6 rfl hi
      (by omega) (by omega) (by omega) (fun p7 w7 => ?_)
    refine wait_ignored_returns fuel 5 5000 i _ _ s _ _ w7 rfl hi (by omega) (by omega)
      (fun p8 w8 => ?_)
    refine cfun_cycle_returns fuel i _ _ s _ _ w8 hi hf (by omega) (fun p9 w9 => ?_)
    exact ⟨_, rfl, within_mono (within_same w9 rfl rfl rfl rfl) (by omega)⟩

/-- With an idle hook that takes time, a clock away from its wrap and fuel for the
longest wait, `initialise` returns. -/
theorem initialise_returns (fuel i c : Nat) (fw : Bool) (s a : SIM800_Control)
    (w : Within i c s a) (hi : 0 < i) (hf : 30000 < fuel)
    (hw : horizon s + (c + (478 * i + 434150)) < ULONG) :
    ∃ r, initialise fuel fw a = some r ∧ Within i (c + (478 * i + 434150)) s r := by
  have wb : Within i (c + (200 * i + 2000) + (15 * i + 200) + (15 * i + 150)) s
      (bringup_start fw a) :=
    within_settle (within_send (initialise_reset_within fw i c s a w) [13, 10])
  have hinit : initialise fuel fw a
      = match probe_loop fuel (millis (bringup_start fw a)) fuel BS_UNKNOWN
          (bringup_start fw a) with
        | none => none
        | some (return_val, s) =>
          if return_val ≠ BS_OK then some s
          else
            match wait_for_data (some (lit "SMS Ready")) fuel 30 s with
            | none => none
            | some (return_val, s) =>
              if return_val ≠ BS_DATA ∧ fw = true then initialise_sim_check fuel s
              else initialise_config fuel s := rfl
  rw [hinit]
  generalize bringup_start fw a = b at wb
  have hwb := wb.horizon
  have hclk : b.clock ≤ horizon b := by simp only [horizon]; omega
  have hm : millis b = b.clock := Nat.mod_eq_of_lt (by omega)
  obtain ⟨f, hfe⟩ : ∃ f, fuel = f + 1 := ⟨fuel - 1, by omega⟩
  obtain ⟨rv, p, hp, hpi, hpc, hph⟩ := probe_loop_returns fuel i (millis b) (horizon b) hi
    (by omega) (by omega) f BS_UNKNOWN b wb.idle_ms (by omega) (by omega) (by omega) (by omega)
  rw [← hfe] at hp
  simp only [hp]
  have wp : Within i (c + (200 * i + 2000) + (15 * i + 200) + (15 * i + 150)
      + (332200 + 16 * i)) s p :=
    ⟨hpi, by have := wb.clock; omega, by omega⟩
  split_ifs
  · exact ⟨_, rfl, within_mono wp (by omega)⟩
  · obtain ⟨rv2, p2, e2, w2⟩ := within_wait_data wp (some (lit "SMS Ready")) fuel 30 30000 rfl
      hi (by omega) hf
    simp only [e2]
    split_ifs
    · obtain ⟨r, hr, wr⟩ := initialise_sim_check_returns fuel i _ s p2 w2 hi (by omega)
        (by omega)
      exact ⟨r, hr, within_mono wr (by omega)⟩
    · obtain ⟨r, hr, wr⟩ := initialise_config_returns fuel i _ s p2 w2 hi (by omega) (by omega)
      exact ⟨r, hr, within_mono wr (by omega)⟩

/-- C11 amended (bring-up aborts on any failed checked step): when `initialise`
returns, `initialised` is true exactly when the `AT` probe was answered, the
configuration sequence was reached, and each of its six checked steps (factory reset,
echo off, SIM query, SMS text mode, caller-id enable, USSD enable) received `BS_OK`
within its timeout; if one of them did not, `initialised` is false.  The answers to
`AT+CFUN=4` and `AT+CFUN=1` do not enter: the code does not look at them.  And
`initialise` does return, when the idle hook takes time, the clock is away from its
wrap and the fuel covers the longest wait of the bring-up (30 s). -/
theorem bringup_checked_steps (fuel : Nat) (fw : Bool) (s : SIM800_Control) :
    (∀ s1, initialise fuel fw s = some s1 →
      (s1.initialised = true ↔
        ∃ a s6, config_reached fuel fw s a ∧ config_steps_ok fuel a s6)) ∧
      (0 < s.idle_ms → horizon s + (478 * s.idle_ms + 434150) < ULONG → 30000 < fuel →
        ∃ s1, initialise fuel fw s = some s1) := by
  refine ⟨fun s1 h => initialise_initialised_iff fuel fw s s1 h, fun hi hw hf => ?_⟩
  obtain ⟨r, hr, _⟩ := initialise_returns fuel s.idle_ms 0 fw s s (within_start _ s rfl) hi hf
    (by omega)
  exact ⟨r, hr⟩

/-- C11 witness: the constructed driver with an idle hook of 20 ms, against the modem
that is silent for the function-mode cycle and has a spare `OK` left over. -/
theorem bringup_checked_steps_witness :
    ∃ s1, initialise 30001 false
        (constructed 20 (cfun_silent_script SAMPLE_CCID ++ [OK_REPLY])) = some s1 ∧
      (s1.initialised = true ↔
        ∃ a s6, config_reached 30001 false
            (constructed 20 (cfun_silent_script SAMPLE_CCID ++ [OK_REPLY])) a ∧
          config_steps_ok 30001 a s6) :=
  have h := bringup_checked_steps 30001 false
    (constructed 20 (cfun_silent_script SAMPLE_CCID ++ [OK_REPLY]))
  (h.2 (by decide) (by decide) (by decide)).elim fun s1 e => ⟨s1, e, h.1 s1 e⟩

/-! ## check_for_response: the index of every store -/

/-- A byte read with the cursor at `RX_BUFFER_SIZE` or beyond is stored past the
array, and no other store is. -/
theorem rx_byte_overrun (c : Nat) (s : SIM800_Control) :
    (rx_byte c s).rx_overrun = (s.rx_overrun || decide (RX_BUFFER_SIZE ≤ s.rx_buff_pos)) := by
  simp only [rx_byte]
  split_ifs
  all_goals simp [rx_store, rx_clear]

/-- The cursor after a byte: LF and CR leave it, any other byte moves it on by one
while it is below `RX_BUFFER_SIZE` and puts it back to 0 otherwise. -/
theorem rx_byte_pos (c : Nat) (s : SIM800_Control) :
    (rx_byte c s).rx_buff_pos
      = if c = 10 ∨ c = 13 then s.rx_buff_pos
        else if s.rx_buff_pos < RX_BUFFER_SIZE then s.rx_buff_pos + 1 else 0 := by
  simp only [rx_byte]
  by_cases h10 : c = 10
  · simp [h10, rx_store]
  · by_cases h13 : c = 13
    · by_cases hp : 0 < s.rx_buff_pos
      · simp [h13, hp, rx_store]
      · simp [h13, hp, rx_store]
    · simp only [h10, h13, if_false, or_self]
      by_cases hlt : s.rx_buff_pos < RX_BUFFER_SIZE
      · simp [hlt, rx_store]
      · simp [hlt, rx_store, rx_clear]

theorem rx_prepare_overrun (s : SIM800_Control) : (rx_prepare s).rx_overrun = s.rx_overrun := by
  simp only [rx_prepare]; split_ifs <;> rfl

theorem rx_prepare_state (s : SIM800_Control) : (rx_prepare s).rx_buff_state = BS_WAITING := by
  simp only [rx_prepare]

theorem rx_prepare_pos (s : SIM800_Control) :
    (rx_prepare s).rx_buff_pos
      = if s.rx_buff_state = BS_UNKNOWN ∨ s.rx_buff_state = BS_DATA then 0
        else s.rx_buff_pos := by
  simp only [rx_prepare]; split_ifs <;> rfl

theorem rx_loop_overrun_mono (bytes : List Nat) : ∀ (s : SIM800_Control),
    s.rx_overrun = true → (rx_loop bytes s).rx_overrun = true := by
  induction bytes with
  | nil => intro s h; rw [rx_loop]; exact h
  | cons c rest ih =>
    intro s h
    rw [rx_loop]
    split_ifs
    · apply ih
      rw [rx_byte_overrun]
      show (s.rx_overrun || _) = true
      rw [h]; rfl
    · exact h

theorem check_for_response_overrun_mono (s : SIM800_Control) (h : s.rx_overrun = true) :
    (check_for_response s).rx_overrun = true := by
  simp only [check_for_response]
  exact rx_loop_overrun_mono _ _ (by rw [rx_prepare_overrun]; exact h)

theorem poll_all_overrun_mono : ∀ (fuel : Nat) (s : SIM800_Control),
    s.rx_overrun = true → (poll_all fuel s).rx_overrun = true := by
  intro fuel
  induction fuel with
  | zero => intro s h; exact h
  | succ n ih =>
    intro s h
    rw [poll_all]
    split_ifs
    · exact h
    · exact ih _ (check_for_response_overrun_mono s h)

/-- The cursor never passes `RX_BUFFER_SIZE`. -/
theorem rx_loop_pos_le (bytes : List Nat) : ∀ (s : SIM800_Control),
    s.rx_buff_pos ≤ RX_BUFFER_SIZE → (rx_loop bytes s).rx_buff_pos ≤ RX_BUFFER_SIZE := by
  induction bytes with
  | nil => intro s h; rw [rx_loop]; exact h
  | cons c rest ih =>
    intro s h
    rw [rx_loop]
    split_ifs
    · apply ih
      rw [rx_byte_pos]
      have e : (idle (serial_pop rest s)).rx_buff_pos = s.rx_buff_pos := rfl
      rw [e]
      split_ifs <;> omega
    · exact h

theorem check_for_response_pos_le (s : SIM800_Control) (h : s.rx_buff_pos ≤ RX_BUFFER_SIZE) :
    (check_for_response s).rx_buff_pos ≤ RX_BUFFER_SIZE := by
  simp only [check_for_response]
  apply rx_loop_pos_le
  rw [rx_prepare_pos]
  split_ifs
  · exact Nat.zero_le _
  · exact h

theorem poll_all_pos_le : ∀ (fuel : Nat) (s : SIM800_Control),
    s.rx_buff_pos ≤ RX_BUFFER_SIZE → (poll_all fuel s).rx_buff_pos ≤ RX_BUFFER_SIZE := by
  intro fuel
  induction fuel with
  | zero => intro s h; exact h
  | succ n ih =>
    intro s h
    rw [poll_all]
    split_ifs
    · exact h
    · exact ih _ (check_for_response_pos_le s h)

theorem poll_all_empty (fuel : Nat) (s : SIM800_Control) (h : s.serial_rx = []) :
    poll_all fuel s = s := by
  cases fuel with
  | zero => rfl
  | succ n => rw [poll_all, if_pos h]

/-- With every stretch between two CRs shorter than the buffer, the receive loop and
the polls after it store nothing past the array. -/
theorem poll_all_in_bounds (bytes : List Nat) :
    ∀ (acc : List Nat) (s : SIM800_Control) (fuel : Nat),
      s.rx_buff_state = BS_WAITING → s.serial_rx = bytes →
      s.rx_buff_pos ≤ (strip_lf acc).length →
      (∀ seg ∈ cr_segments_from acc (bytes ++ [13]), (strip_lf seg).length < RX_BUFFER_SIZE) →
      bytes.length ≤ fuel →
      (poll_all fuel (rx_loop bytes s)).rx_overrun = s.rx_overrun := by
  induction bytes with
  | nil =>
    intro acc s fuel _ hq _ _ _
    rw [rx_loop, poll_all_empty fuel s hq]
  | cons c rest ih =>
    intro acc s fuel hw hq hpos hseg hfuel
    obtain ⟨seg, tl, hsegs⟩ := cr_segments_from_head acc ((c :: rest) ++ [13]) (by simp)
    have hbound : s.rx_buff_pos < RX_BUFFER_SIZE := by
      have := hseg (acc ++ seg) (by rw [hsegs]; simp)
      rw [strip_lf_append, List.length_append] at this
      omega
    have hpos0 : (idle (serial_pop rest s)).rx_buff_pos = s.rx_buff_pos := rfl
    have hov0 : (idle (serial_pop rest s)).rx_overrun = s.rx_overrun := rfl
    have hst0 : (idle (serial_pop rest s)).rx_buff_state = s.rx_buff_state := rfl
    have hov1 : (rx_byte c (idle (serial_pop rest s))).rx_overrun = s.rx_overrun := by
      rw [rx_byte_overrun, hov0, hpos0]
      have : decide (RX_BUFFER_SIZE ≤ s.rx_buff_pos) = false := by
        simp only [decide_eq_false_iff_not]; omega
      rw [this, Bool.or_false]
    have hq1 : (rx_byte c (idle (serial_pop rest s))).serial_rx = rest := by
      rw [rx_byte_serial_rx]; rfl
    have hp1 := rx_byte_pos c (idle (serial_pop rest s))
    have hs1 := rx_byte_state c (idle (serial_pop rest s))
    rw [hpos0] at hp1 hs1
    rw [hst0] at hs1
    rw [rx_loop, if_pos hw]
    by_cases h13 : c = 13
    · subst h13
      have hseg1 : ∀ sg ∈ cr_segments_from [] (rest ++ [13]),
          (strip_lf sg).length < RX_BUFFER_SIZE :=
        fun sg hsg => hseg sg (by simp [cr_segments_from, hsg])
      rw [if_pos (Or.inr rfl)] at hp1
      by_cases hp : 0 < s.rx_buff_pos
      · rw [if_pos ⟨rfl, hp⟩] at hs1
        rw [rx_loop_not_waiting _ _ (by rw [hs1]; decide)]
        by_cases hr : rest = []
        · rw [poll_all_empty _ _ (by rw [hq1, hr]), hov1]
        · cases fuel with
          | zero => simp at hfuel
          | succ f =>
            rw [poll_all, if_neg (by rw [hq1]; exact hr)]
            simp only [check_for_response, rx_prepare_serial_rx, hq1]
            rw [ih [] _ f (rx_prepare_state _) (by rw [rx_prepare_serial_rx, hq1])
              (by rw [rx_prepare_pos, if_pos (Or.inr hs1)]; exact Nat.zero_le _) hseg1
              (by simp at hfuel; omega), rx_prepare_overrun, hov1]
      · rw [if_neg (by simp [hp])] at hs1
        rw [ih [] _ fuel (hs1.trans hw) hq1 (by rw [hp1]; omega) hseg1
          (by simp at hfuel; omega), hov1]
    · have hs2 : (rx_byte c (idle (serial_pop rest s))).rx_buff_state = BS_WAITING := by
        rw [hs1, if_neg (by simp [h13])]; exact hw
      by_cases h10 : c = 10
      · subst h10
        rw [if_pos (Or.inl rfl)] at hp1
        rw [ih (acc ++ [10]) _ fuel hs2 hq1
          (by rw [hp1, strip_lf_append]; simp only [List.length_append]; omega)
          (fun sg hsg => hseg sg (by simpa [cr_segments_from] using hsg))
          (by simp at hfuel; omega), hov1]
      · rw [if_neg (by simp [h10, h13]), if_pos hbound] at hp1
        have hsl : strip_lf (acc ++ [c]) = strip_lf acc ++ [c] := by
          rw [strip_lf_append]
          simp [strip_lf, h10]
        rw [ih (acc ++ [c]) _ fuel hs2 hq1
          (by rw [hp1, hsl]; simp only [List.length_append, List.length_singleton]; omega)
          (fun sg hsg => hseg sg (by simpa [cr_segments_from, h13] using hsg))
          (by simp at hfuel; omega), hov1]

/-- The receive loop over a run without CR or LF that fits: the cursor moves on by the
length of the run, and every store is inside the array. -/
theorem rx_loop_run (run more : List Nat) : ∀ (s : SIM800_Control),
    s.rx_buff_state = BS_WAITING → s.serial_rx = run ++ more →
    (∀ b ∈ run, b ≠ 10 ∧ b ≠ 13) → s.rx_buff_pos + run.length ≤ RX_BUFFER_SIZE →
    ∃ s1, rx_loop (run ++ more) s = rx_loop more s1 ∧ s1.rx_buff_state = BS_WAITING ∧
      s1.rx_buff_pos = s.rx_buff_pos + run.length ∧ s1.serial_rx = more ∧
      s1.rx_overrun = s.rx_overrun := by
  induction run with
  | nil => intro s hw hq _ _; exact ⟨s, rfl, hw, rfl, hq, rfl⟩
  | cons c rest ih =>
    intro s hw hq hrun hlen
    simp only [List.length_cons] at hlen
    have hc := hrun c (List.mem_cons_self _ _)
    have hpos0 : (idle (serial_pop (rest ++ more) s)).rx_buff_pos = s.rx_buff_pos := rfl
    have hov0 : (idle (serial_pop (rest ++ more) s)).rx_overrun = s.rx_overrun := rfl
    have hst0 : (idle (serial_pop (rest ++ more) s)).rx_buff_state = s.rx_buff_state := rfl
    have hp1 := rx_byte_pos c (idle (serial_pop (rest ++ more) s))
    rw [hpos0, if_neg (by simp [hc.1, hc.2]), if_pos (by omega)] at hp1
    have hs1 := rx_byte_state c (idle (serial_pop (rest ++ more) s))
    rw [hst0, if_neg (by simp [hc.2])] at hs1
    have hov1 := rx_byte_overrun c (idle (serial_pop (rest ++ more) s))
    have hd : decide (RX_BUFFER_SIZE ≤ s.rx_buff_pos) = false := by
      simp only [decide_eq_false_iff_not]; omega
    rw [hov0, hpos0, hd, Bool.or_false] at hov1
    obtain ⟨s1, e1, w1, p1, q1, o1⟩ := ih (rx_byte c (idle (serial_pop (rest ++ more) s)))
      (hs1.trans hw) (by rw [rx_byte_serial_rx]; rfl)
      (fun b hb => hrun b (List.mem_cons_of_mem _ hb)) (by rw [hp1]; omega)
    refine ⟨s1, ?_, w1, by rw [p1, hp1, List.length_cons]; omega, q1, o1.trans hov1⟩
    rw [List.cons_append, rx_loop, if_pos hw]
    exact e1

/-- A run of `RX_BUFFER_SIZE` bytes without CR or LF and one more byte, whatever it
is: that byte is stored at index `RX_BUFFER_SIZE`, one past the array. -/
theorem check_for_response_past_end (s : SIM800_Control) (run rest : List Nat) (c : Nat)
    (hp : s.rx_buff_pos = 0) (hq : s.serial_rx = run ++ c :: rest)
    (hrun : ∀ b ∈ run, b ≠ 10 ∧ b ≠ 13) (hlen : run.length = RX_BUFFER_SIZE) :
    (check_for_response s).rx_overrun = true := by
  have hp0 : (rx_prepare s).rx_buff_pos = 0 := by
    rw [rx_prepare_pos]; split_ifs
    · rfl
    · exact hp
  obtain ⟨s1, e1, w1, p1, q1, _⟩ := rx_loop_run run (c :: rest) (rx_prepare s)
    (rx_prepare_state s) (by rw [rx_prepare_serial_rx, hq]) hrun (by rw [hp0, hlen]; omega)
  simp only [check_for_response]
  rw [rx_prepare_serial_rx, hq, e1, rx_loop, if_pos w1]
  apply rx_loop_overrun_mono
  rw [rx_byte_overrun]
  have e : (idle (serial_pop rest s1)).rx_buff_pos = s1.rx_buff_pos := rfl
  rw [e, p1, hp0, hlen]
  simp

/-- C22 (receive-buffer indexing), as the code has it: the driver polled on the bytes
`bytes` from a state with the cursor at 0 and no store past the array so far, as the
constructor leaves it.  The cursor never passes `RX_BUFFER_SIZE`, so no store is
further than one past the array.  When every stretch between two CRs (and after the
last) holds fewer than `RX_BUFFER_SIZE` bytes other than LF, every store is inside the
array.  But when the bytes start with `RX_BUFFER_SIZE` bytes that are neither CR nor
LF, followed by one more byte, the first call of `check_for_response` stores that
byte at index `RX_BUFFER_SIZE`: the guard `rx_buff_pos < RX_BUFFER_SIZE` lets the
cursor reach `RX_BUFFER_SIZE`. -/
theorem rx_store_index (s : SIM800_Control) (bytes : List Nat) (fuel : Nat)
    (hp : s.rx_buff_pos = 0) (hov : s.rx_overrun = false) (hq : s.serial_rx = bytes)
    (hfuel : bytes.length < fuel) :
    (poll_all fuel s).rx_buff_pos ≤ RX_BUFFER_SIZE ∧
      ((∀ seg ∈ cr_segments (bytes ++ [13]), (strip_lf seg).length < RX_BUFFER_SIZE) →
        (poll_all fuel s).rx_overrun = false) ∧
      (∀ run c rest, bytes = run ++ c :: rest → (∀ b ∈ run, b ≠ 10 ∧ b ≠ 13) →
        run.length = RX_BUFFER_SIZE →
        (check_for_response s).rx_overrun = true ∧ (poll_all fuel s).rx_overrun = true) := by
  refine ⟨poll_all_pos_le fuel s (by rw [hp]; exact Nat.zero_le _), fun hseg => ?_,
    fun run c rest hb hrun hlen => ?_⟩
  · by_cases hb : bytes = []
    · rw [poll_all_empty fuel s (by rw [hq, hb])]; exact hov
    · obtain ⟨f, rfl⟩ : ∃ f, fuel = f + 1 := ⟨fuel - 1, by omega⟩
      rw [poll_all, if_neg (by rw [hq]; exact hb)]
      simp only [check_for_response, rx_prepare_serial_rx, hq]
      rw [poll_all_in_bounds bytes [] (rx_prepare s) f (rx_prepare_state s)
        (by rw [rx_prepare_serial_rx, hq])
        (by rw [rx_prepare_pos]; split_ifs <;> simp [hp]) hseg (by omega),
        rx_prepare_overrun]
      exact hov
  · have h1 := check_for_response_past_end s run rest c hp (by rw [hq, hb]) hrun hlen
    refine ⟨h1, ?_⟩
    obtain ⟨f, rfl⟩ : ∃ f, fuel = f + 1 := ⟨fuel - 1, by omega⟩
    rw [poll_all, if_neg (by rw [hq, hb]; simp)]
    exact poll_all_overrun_mono f _ h1

/-- C22 witness: 162 letters `A` and a CR, fed to the constructed driver: the CR is
stored at index 162. -/
theorem rx_store_index_witness :
    (poll_all 164 (with_input (List.replicate 162 65 ++ [13]))).rx_buff_pos ≤ RX_BUFFER_SIZE ∧
      ((∀ seg ∈ cr_segments ((List.replicate 162 65 ++ [13]) ++ [13]),
          (strip_lf seg).length < RX_BUFFER_SIZE) →
        (poll_all 164 (with_input (List.replicate 162 65 ++ [13]))).rx_overrun = false) ∧
      (∀ run c rest, List.replicate 162 65 ++ [13] = run ++ c :: rest →
        (∀ b ∈ run, b ≠ 10 ∧ b ≠ 13) → run.length = RX_BUFFER_SIZE →
        (check_for_response (with_input (List.replicate 162 65 ++ [13]))).rx_overrun = true ∧
          (poll_all 164 (with_input (List.replicate 162 65 ++ [13]))).rx_overrun = true) :=
  rx_store_index (with_input (List.replicate 162 65 ++ [13])) (List.replicate 162 65 ++ [13])
    164 rfl rfl rfl (by simp)

set_option maxRecDepth 1000000 in
/-- The failing input of C22, run: 162 letters `A` and a CR from the constructed
driver, and the CR is stored at index 162; with 161 letters every store is inside the
array. -/
theorem rx_store_index_sample :
    (check_for_response (with_input (List.replicate 162 65 ++ [13]))).rx_overrun = true ∧
      (check_for_response (with_input (List.replicate 161 65 ++ [13]))).rx_overrun = false := by
  decide

/-! ## The caller id: what the two copies write -/

/-- The array after `strcpy`: as long as it was, or as long as the string and its NUL
when that is more: the copy then ran past the array. -/
theorem strcpy_length (dst src : List Nat) :
    (strcpy dst src).length = max dst.length (strlen src + 1) := by
  simp only [strcpy, strlen, List.length_append, List.length_drop, List.length_singleton]
  omega

theorem strncpy_length (dst src : List Nat) (n : Nat) (h : n ≤ dst.length) :
    (strncpy dst src n).length = dst.length := by
  simp only [strncpy, List.length_append, List.length_drop, List.length_take,
    List.length_replicate]
  omega

/-- The copy `strncpy (dst, src, n)` of a string shorter than `n`: the string, with its
NUL. -/
theorem cstr_strncpy_short (dst src : List Nat) (n : Nat) (h : strlen src < n) :
    cstr (strncpy dst src n) = cstr src := by
  have hl : (cstr src).length < n := h
  obtain ⟨k, hk⟩ : ∃ k, n = (cstr src).length + (k + 1) := ⟨n - (cstr src).length - 1, by omega⟩
  have e : (cstr src ++ List.replicate n 0).take n
      = cstr src ++ 0 :: List.replicate k 0 := by
    rw [List.take_append_eq_append_take, List.take_of_length_le (by omega)]
    congr 1
    rw [List.take_replicate]
    have : min (n - (cstr src).length) n = k + 1 := by omega
    rw [this]
    rfl
  simp only [strncpy]
  rw [e, List.append_assoc, List.cons_append, cstr_append_nul, cstr_idem]

/-- The copy `strncpy (dst, src, n)` of a string of `n` characters or more into an
array of `n` bytes: its first `n` characters, and no NUL. -/
theorem cstr_strncpy_long (dst src : List Nat) (n : Nat) (h : n ≤ strlen src)
    (hd : dst.length = n) :
    strncpy dst src n = (cstr src).take n ∧ cstr (strncpy dst src n) = (cstr src).take n ∧
      strlen (strncpy dst src n) = n := by
  have hl : n ≤ (cstr src).length := h
  have e : strncpy dst src n = (cstr src).take n := by
    simp only [strncpy]
    rw [List.take_append_of_le_length hl, List.drop_of_length_le (by omega), List.append_nil]
  have hfree : ∀ c ∈ (cstr src).take n, c ≠ 0 :=
    fun c hc => cstr_nul_free src c (List.mem_of_mem_take hc)
  have e2 : cstr ((cstr src).take n) = (cstr src).take n := cstr_of_nul_free _ hfree
  refine ⟨e, by rw [e, e2], ?_⟩
  rw [strlen, e, e2, List.length_take]
  omega

/-- The header step inside `get_pending_sms`: once the line `+CMGL:` has come, the
function goes on from `cmgl_store`. -/
theorem get_pending_sms_header (fuel : Nat) (s p : SIM800_Control)
    (hini : s.initialised = true)
    (hd : wait_for_data (some (lit "+CMGL:")) fuel 20
      (send_command AT_CMGL_ALL (let_terminal_settle (send_command [13, 10] s)))
        = some (BS_DATA, p)) :
    get_pending_sms fuel s
      = match wait_for_data (some []) fuel 20 (cmgl_store p) with
        | none => none
        | some (return_val, q) =>
          match wait_for_status fuel 20
            (ucs2_fixup (if return_val = BS_DATA
              then { q with sms_buffer := strncpy q.sms_buffer q.rx_buffer TX_BUFFER_SIZE }
              else q)) with
          | none => none
          | some (return_val, q) =>
            some (char_at (cmgl_header_loop p.rx_buffer.length 7 0 0 (List.replicate 4 0)
                p.rx_buffer).2.1 0 != 0,
              (cmgl_header_loop p.rx_buffer.length 7 0 0 (List.replicate 4 0) p.rx_buffer).2.1,
              if return_val ≠ BS_OK then count_protocol_error q else q) := by
  simp only [get_pending_sms, hini, hd, cmgl_store]
  rfl

/-- C21 (stored caller id), as the code has it.  The caller-id field is an array of
`MAX_CALLER_ID_SIZE` bytes.  For a `+CLIP: ` line at a first ring, `process_urc`
copies the field of the line with `strcpy`: a field shorter than
`MAX_CALLER_ID_SIZE` fits with its NUL, a field of `MAX_CALLER_ID_SIZE` characters or
more is copied whole, and the copy ends one byte past the field length, outside the
array.  For a `+CMGL:` header, `get_pending_sms` copies with `strncpy` and the size of
the array: the array keeps its size, a field shorter than `MAX_CALLER_ID_SIZE` is
stored with its NUL, and of a longer one the first `MAX_CALLER_ID_SIZE` characters
are stored without any NUL. -/
theorem caller_id_bound (s : SIM800_Control)
    (hlen : s.stored_caller_id.length = MAX_CALLER_ID_SIZE) :
    (starts_with (lit "+CLIP: ") (cstr s.rx_buffer) = true → s.incoming_call_ring_time = 0 →
        ((clip_field s.rx_buffer).length < MAX_CALLER_ID_SIZE →
          (process_urc s).stored_caller_id.length = MAX_CALLER_ID_SIZE ∧
            strlen (process_urc s).stored_caller_id < MAX_CALLER_ID_SIZE) ∧
        (MAX_CALLER_ID_SIZE ≤ (clip_field s.rx_buffer).length →
          strlen (process_urc s).stored_caller_id = (clip_field s.rx_buffer).length ∧
            (process_urc s).stored_caller_id.length = (clip_field s.rx_buffer).length + 1)) ∧
      ((cmgl_store s).stored_caller_id.length = MAX_CALLER_ID_SIZE ∧
        ((cmgl_caller_field s.rx_buffer).length < MAX_CALLER_ID_SIZE →
          cstr (cmgl_store s).stored_caller_id = cmgl_caller_field s.rx_buffer) ∧
        (MAX_CALLER_ID_SIZE ≤ (cmgl_caller_field s.rx_buffer).length →
          cstr (cmgl_store s).stored_caller_id
              = (cmgl_caller_field s.rx_buffer).take MAX_CALLER_ID_SIZE ∧
            strlen (cmgl_store s).stored_caller_id = MAX_CALLER_ID_SIZE)) := by
  constructor
  · intro hline h0
    obtain ⟨hstr, hcopy⟩ := clip_copy_field s.rx_buffer hline
    have hsl : strlen ((nul_commas s.rx_buffer.length 7 s.rx_buffer).drop 7)
        = (clip_field s.rx_buffer).length := by rw [strlen, hcopy]
    have hl1 : strlen (strcpy s.stored_caller_id
        ((nul_commas s.rx_buffer.length 7 s.rx_buffer).drop 7))
        = (clip_field s.rx_buffer).length := by
      rw [strlen, cstr_strcpy, hcopy]
    have hlen1 : (strcpy s.stored_caller_id
        ((nul_commas s.rx_buffer.length 7 s.rx_buffer).drop 7)).length
        = max MAX_CALLER_ID_SIZE ((clip_field s.rx_buffer).length + 1) := by
      rw [strcpy_length, hlen, hsl]
    have hu : strlen UNKNOWN_ID = 9 := by decide
    simp only [process_urc, hstr, h0, if_true, hl1]
    constructor
    · intro hshort
      split_ifs with h2
      · constructor
        · show (strcpy _ UNKNOWN_ID).length = MAX_CALLER_ID_SIZE
          rw [strcpy_length, hlen1, hu]
          simp only [MAX_CALLER_ID_SIZE] at *
          omega
        · show strlen (strcpy _ UNKNOWN_ID) < MAX_CALLER_ID_SIZE
          rw [strlen, cstr_strcpy]
          decide
      · constructor
        · show (strcpy _ _).length = MAX_CALLER_ID_SIZE
          rw [hlen1]
          omega
        · show strlen (strcpy _ _) < MAX_CALLER_ID_SIZE
          rw [hl1]
          exact hshort
    · intro hlong
      have h2 : ¬ (clip_field s.rx_buffer).length = 2 := by
        simp only [MAX_CALLER_ID_SIZE] at hlong
        omega
      rw [if_neg h2]
      constructor
      · show strlen (strcpy _ _) = _
        exact hl1
      · show (strcpy _ _).length = _
        rw [hlen1]
        omega
  · have e : (cmgl_store s).stored_caller_id
        = strncpy s.stored_caller_id
            ((cmgl_header_loop s.rx_buffer.length 7 0 0 (List.replicate 4 0) s.rx_buffer).2.2.drop
              (cmgl_header_loop s.rx_buffer.length 7 0 0 (List.replicate 4 0) s.rx_buffer).1)
            MAX_CALLER_ID_SIZE := rfl
    have ef : cmgl_caller_field s.rx_buffer
        = cstr ((cmgl_header_loop s.rx_buffer.length 7 0 0 (List.replicate 4 0)
            s.rx_buffer).2.2.drop
          (cmgl_header_loop s.rx_buffer.length 7 0 0 (List.replicate 4 0) s.rx_buffer).1) := rfl
    rw [e, ef]
    refine ⟨?_, fun hshort => ?_, fun hlong => ?_⟩
    · rw [strncpy_length _ _ _ (by rw [hlen]), hlen]
    · exact cstr_strncpy_short _ _ _ hshort
    · obtain ⟨_, h2, h3⟩ := cstr_strncpy_long s.stored_caller_id _ MAX_CALLER_ID_SIZE hlong hlen
      exact ⟨h2, h3⟩

set_option maxRecDepth 100000 in
/-- C21 witness: a `+CLIP: ` line and a `+CMGL:` header whose number has 18 characters,
20 with its quotes.  `process_urc` stores 20 characters and a NUL, 21 bytes;
`get_pending_sms` stores 20 characters and no NUL. -/
theorem caller_id_bound_witness :
    (strlen (process_urc (with_line (CLIP_LINE LONG_SENDER))).stored_caller_id
          = (clip_field (with_line (CLIP_LINE LONG_SENDER)).rx_buffer).length ∧
        (process_urc (with_line (CLIP_LINE LONG_SENDER))).stored_caller_id.length
          = (clip_field (with_line (CLIP_LINE LONG_SENDER)).rx_buffer).length + 1) ∧
      (cstr (cmgl_store (with_line (CMGL_HEADER LONG_SENDER))).stored_caller_id
          = (cmgl_caller_field (with_line (CMGL_HEADER LONG_SENDER)).rx_buffer).take
              MAX_CALLER_ID_SIZE ∧
        strlen (cmgl_store (with_line (CMGL_HEADER LONG_SENDER))).stored_caller_id
          = MAX_CALLER_ID_SIZE) :=
  ⟨((caller_id_bound (with_line (CLIP_LINE LONG_SENDER)) (List.length_replicate _ _)).1
      (by decide) rfl).2 (by decide),
    (caller_id_bound (with_line (CMGL_HEADER LONG_SENDER)) (List.length_replicate _ _)).2.2.2
      (by decide)⟩

set_option maxRecDepth 100000 in
/-- The failing inputs of C21, run.  On the `+CLIP: ` line with an 18-character number
`process_urc` leaves 21 bytes in the 20-byte field; on the listing from an 18-character
sender `get_pending_sms` leaves the field full, 20 characters and no NUL.  A number of
17 characters fits in both. -/
theorem caller_id_bound_samples :
    (process_urc (with_line (CLIP_LINE LONG_SENDER))).stored_caller_id
        = [34] ++ LONG_SENDER ++ [34, 0] ∧
      (process_urc (with_line (CLIP_LINE LONG_SENDER))).stored_caller_id.length = 21 ∧
      (get_pending_sms 100 sms_driver_long).map
          (fun r => (r.2.2.stored_caller_id, strlen r.2.2.stored_caller_id))
        = some ([34] ++ LONG_SENDER ++ [34], 20) ∧
      (process_urc (with_line (CLIP_LINE (LONG_SENDER.take 17)))).stored_caller_id.length
        = 20 := by
  decide

/-! ## check_for_response: a run that fills the buffer -/

/-- A byte that is neither CR nor LF, read with the cursor inside the array: it is
stored where the cursor stands and the cursor moves on; nothing is discarded.  Read
with the cursor at `RX_BUFFER_SIZE` or beyond, it is stored outside the array. -/
theorem rx_byte_text (c : Nat) (p : SIM800_Control) (h10 : c ≠ 10) (h13 : c ≠ 13) :
    (p.rx_buff_pos < RX_BUFFER_SIZE →
        (rx_byte c p).rx_buffer = p.rx_buffer.set p.rx_buff_pos c ∧
        (rx_byte c p).rx_buff_pos = p.rx_buff_pos + 1 ∧
        (rx_byte c p).rx_overrun = p.rx_overrun) ∧
      (RX_BUFFER_SIZE ≤ p.rx_buff_pos → (rx_byte c p).rx_overrun = true) := by
  constructor
  · intro hlt
    have hd : decide (RX_BUFFER_SIZE ≤ p.rx_buff_pos) = false := by
      simp only [decide_eq_false_iff_not]; omega
    refine ⟨?_, ?_, ?_⟩
    · simp [rx_byte, h10, h13, rx_store, hlt]
    · rw [rx_byte_pos, if_neg (by simp [h10, h13]), if_pos hlt]
    · rw [rx_byte_overrun, hd, Bool.or_false]
  · intro hge
    rw [rx_byte_overrun]
    simp [hge]

/-- The line reader on a run without CR or LF that fits the array, from an empty
buffer: no line is reported, the buffer holds the run, and every store was inside. -/
theorem check_for_response_run (s : SIM800_Control) (run : List Nat)
    (hfresh : Fresh s) (hq : s.serial_rx = run)
    (hrun : ∀ b ∈ run, b ≠ 10 ∧ b ≠ 13) (hlen : run.length ≤ RX_BUFFER_SIZE) :
    (check_for_response s).rx_buff_state = BS_WAITING ∧
      (check_for_response s).rx_buffer.take run.length = run ∧
      (check_for_response s).rx_buff_pos = run.length ∧
      (check_for_response s).serial_rx = [] ∧
      (check_for_response s).rx_overrun = s.rx_overrun ∧
      (check_for_response s).rx_buffer.length = RX_BUFFER_SIZE := by
  have hprep := fresh_prepare s hfresh
  have hsl : strip_lf run = run := strip_lf_of_line run hrun
  obtain ⟨s1, e1, hf1, hq1, -, -⟩ := rx_loop_text run [] (rx_prepare s) [] hprep hrun
    (by simpa [strip_lf] using hlen) (by rw [rx_prepare_serial_rx, hq, List.append_nil])
  obtain ⟨s2, e2, -, -, -, o2⟩ := rx_loop_run run [] (rx_prepare s) hprep.waiting
    (by rw [rx_prepare_serial_rx, hq, List.append_nil]) hrun
    (by rw [hprep.pos]; simpa [strip_lf] using hlen)
  rw [rx_loop] at e1 e2
  have e12 : s2 = s1 := e2.symm.trans e1
  subst e12
  have hE : check_for_response s = s2 := by
    simp only [check_for_response]
    rw [rx_prepare_serial_rx, hq]
    rw [List.append_nil] at e1
    exact e1
  simp only [List.nil_append] at hf1
  have hpos : s2.rx_buff_pos = run.length := by rw [hf1.pos, hsl]
  rw [hE]
  refine ⟨hf1.waiting, ?_, hpos, hq1, o2.trans (rx_prepare_overrun s), hf1.size⟩
  have := hf1.held
  rw [hpos, hsl] at this
  exact this

/-- C20 (overflow recovery), as the code has it: the line reader on a run of bytes
without CR or LF, starting from an empty receive buffer with no store outside the
array so far.  While the run is at most `RX_BUFFER_SIZE` bytes long no line is reported,
the buffer holds the run, the cursor stands behind it and every store was inside the
array: with `RX_BUFFER_SIZE` bytes the buffer is full and nothing has been discarded.
The byte that comes next is stored at index `RX_BUFFER_SIZE`, outside the array, before
anything is discarded.  In general a byte other than CR and LF read with the cursor
inside the array is stored and kept, the cursor moving on; the discard is reached only
with the cursor at `RX_BUFFER_SIZE`, behind such a store. -/
theorem overflow_recovery (s : SIM800_Control) (hfresh : Fresh s)
    (hov : s.rx_overrun = false) :
    (∀ run, (∀ b ∈ run, b ≠ 10 ∧ b ≠ 13) → run.length ≤ RX_BUFFER_SIZE →
        (check_for_response { s with serial_rx := run }).rx_buff_state = BS_WAITING ∧
        (check_for_response { s with serial_rx := run }).rx_buffer.take run.length = run ∧
        (check_for_response { s with serial_rx := run }).rx_buff_pos = run.length ∧
        (check_for_response { s with serial_rx := run }).serial_rx = [] ∧
        (check_for_response { s with serial_rx := run }).rx_overrun = false) ∧
      (∀ full c rest, (∀ b ∈ full, b ≠ 10 ∧ b ≠ 13) → full.length = RX_BUFFER_SIZE →
        (check_for_response { s with serial_rx := full }).rx_buffer = full ∧
        (check_for_response { s with serial_rx := full }).rx_buff_pos = RX_BUFFER_SIZE ∧
        (check_for_response { s with serial_rx := full ++ c :: rest }).rx_overrun = true) ∧
      (∀ (p : SIM800_Control) (c : Nat), c ≠ 10 → c ≠ 13 →
        (p.rx_buff_pos < RX_BUFFER_SIZE →
          (rx_byte c p).rx_buffer = p.rx_buffer.set p.rx_buff_pos c ∧
          (rx_byte c p).rx_buff_pos = p.rx_buff_pos + 1 ∧
          (rx_byte c p).rx_overrun = p.rx_overrun) ∧
        (RX_BUFFER_SIZE ≤ p.rx_buff_pos → (rx_byte c p).rx_overrun = true)) := by
  refine ⟨fun run hrun hlen => ?_, fun full c rest hfull hlen => ?_,
    fun p c h10 h13 => rx_byte_text c p h10 h13⟩
  · obtain ⟨a1, a2, a3, a4, a5, -⟩ := check_for_response_run { s with serial_rx := run } run
      hfresh rfl hrun hlen
    exact ⟨a1, a2, a3, a4, a5.trans hov⟩
  · obtain ⟨-, a2, a3, -, -, a6⟩ := check_for_response_run { s with serial_rx := full } full
      hfresh rfl hfull (le_of_eq hlen)
    refine ⟨?_, a3.trans hlen, ?_⟩
    · rw [hlen, ← a6, List.take_length] at a2
      exact a2
    · have hp0 : (rx_prepare { s with serial_rx := full ++ c :: rest }).rx_buff_pos = 0 :=
        (fresh_prepare { s with serial_rx := full ++ c :: rest } hfresh).pos
      obtain ⟨s1, e1, w1, p1, q1, _⟩ := rx_loop_run full (c :: rest)
        (rx_prepare { s with serial_rx := full ++ c :: rest })
        (rx_prepare_state _) (by rw [rx_prepare_serial_rx]) hfull (by rw [hp0, hlen]; omega)
      simp only [check_for_response]
      rw [rx_prepare_serial_rx]
      show (rx_loop (full ++ c :: rest) _).rx_overrun = true
      rw [e1, rx_loop, if_pos w1]
      apply rx_loop_overrun_mono
      rw [rx_byte_overrun]
      have e : (idle (serial_pop rest s1)).rx_buff_pos = s1.rx_buff_pos := rfl
      rw [e, p1, hp0, hlen]
      simp

theorem overflow_recovery_witness :
    Fresh (constructed 1 []) ∧ (constructed 1 []).rx_overrun = false ∧
      (check_for_response { constructed 1 [] with
          serial_rx := List.replicate 162 65 }).rx_buffer = List.replicate 162 65 ∧
      (check_for_response { constructed 1 [] with
          serial_rx := List.replicate 162 65 }).rx_buff_pos = RX_BUFFER_SIZE ∧
      (check_for_response { constructed 1 [] with
          serial_rx := List.replicate 162 65 ++ 66 :: [67, 68] }).rx_overrun = true :=
  have hf : Fresh (constructed 1 []) := Or.inr (Or.inr ⟨rfl, List.length_replicate _ _⟩)
  ⟨hf, rfl,
    (overflow_recovery (constructed 1 []) hf rfl).2.1 (List.replicate 162 65) 66 [67, 68]
      (fun b hb => by rw [(List.mem_replicate.1 hb).2]; decide) (List.length_replicate _ _)⟩

/-! ## send_sms_from_buffer: the claim -/

/-- A copy of at most `MAX_CALLER_ID_SIZE` bytes, the NUL included, stays inside
`stored_caller_id`: the two members behind the array keep their values. -/
theorem strcpy_past_none (src sms : List Nat) (flag : Bool)
    (h : strlen src + 1 ≤ MAX_CALLER_ID_SIZE) :
    strcpy_past_flag src flag = flag ∧ strcpy_past_bytes src sms = sms := by
  have hl : (cstr src ++ [0]).length ≤ MAX_CALLER_ID_SIZE := by
    simp only [List.length_append, List.length_singleton]; exact h
  constructor
  · simp only [strcpy_past_flag]
    rw [List.getElem?_eq_none hl]
  · have e0 : (cstr src ++ [0]).length - (MAX_CALLER_ID_SIZE + 1) = 0 := by omega
    simp only [strcpy_past_bytes]
    rw [List.drop_of_length_le (by omega), List.nil_append, e0, List.drop_zero]

/-- A copy of more than `MAX_CALLER_ID_SIZE + 1` bytes writes the start of `sms_buffer`:
the bytes of the copy from index `MAX_CALLER_ID_SIZE + 1` on stand there afterwards. -/
theorem strcpy_past_some (src sms : List Nat) :
    (strcpy_past_bytes src sms).take (strlen src + 1 - (MAX_CALLER_ID_SIZE + 1))
      = (cstr src ++ [0]).drop (MAX_CALLER_ID_SIZE + 1) := by
  simp only [strcpy_past_bytes]
  rw [List.take_left']
  simp only [List.length_drop, List.length_append, List.length_singleton, strlen]

theorem strcpy_grows (dst src : List Nat) :
    dst.length ≤ (strcpy dst src).length ∧ strlen src + 1 ≤ (strcpy dst src).length := by
  rw [strcpy_length]
  exact ⟨le_max_left _ _, le_max_right _ _⟩

/-- No primitive step of the driver shortens what was written from `&stored_caller_id[0]`:
once a copy has run past the 20 bytes of the array, the list stays longer than the
array. -/
theorem caller_id_grows :
    Stable (fun s s1 => s.stored_caller_id.length ≤ s1.stored_caller_id.length) where
  refl := fun _ => le_refl _
  trans := fun _ _ _ h1 h2 => le_trans h1 h2
  rx := fun s => le_of_eq (check_for_response_blind (fun s => s.stored_caller_id.length)
    (fun _ _ _ _ _ _ _ => rfl) s).symm
  urc := fun s => by
    simp only [process_urc]
    split_ifs
    all_goals first
      | exact le_refl _
      | (show _ ≤ (strcpy _ _).length
         exact (strcpy_grows _ _).1)
      | (show _ ≤ (strcpy (strcpy _ _) _).length
         exact le_trans (strcpy_grows _ _).1 (strcpy_grows _ _).1)
  idle := fun _ => le_refl _
  delay := fun _ _ => le_refl _
  tx := fun cmd s => le_of_eq (transmit_blind (fun s => s.stored_caller_id.length)
    (fun _ _ _ _ _ _ _ => rfl) (fun _ _ _ _ => rfl) cmd s).symm

/-- As long as the list `stored_caller_id` has at most the `MAX_CALLER_ID_SIZE` bytes
of the array, no copy of a caller id has run past the array, and the primitive steps of
the driver have left `sms_buffer` and `incoming_call_received` as they were. -/
theorem caller_id_inside :
    Stable (fun s s1 => s.stored_caller_id.length ≤ s1.stored_caller_id.length ∧
      (s1.stored_caller_id.length ≤ MAX_CALLER_ID_SIZE →
        s1.sms_buffer = s.sms_buffer ∧
        s1.incoming_call_received = s.incoming_call_received)) where
  refl := fun _ => ⟨le_refl _, fun _ => ⟨rfl, rfl⟩⟩
  trans := fun a b c h1 h2 => ⟨le_trans h1.1 h2.1, fun hc =>
    ⟨((h2.2 hc).1).trans (h1.2 (le_trans h2.1 hc)).1,
      ((h2.2 hc).2).trans (h1.2 (le_trans h2.1 hc)).2⟩⟩
  rx := fun s => by
    have e := check_for_response_blind
      (fun s => (s.stored_caller_id, s.sms_buffer, s.incoming_call_received))
      (fun _ _ _ _ _ _ _ => rfl) s
    simp only [Prod.mk.injEq] at e
    obtain ⟨e1, e2, e3⟩ := e
    exact ⟨le_of_eq (by rw [e1]), fun _ => ⟨e2, e3⟩⟩
  urc := fun s => by
    simp only [process_urc]
    split_ifs
    · refine ⟨?_, fun hle => ?_⟩
      · show _ ≤ (strcpy (strcpy _ _) _).length
        exact le_trans (strcpy_grows _ _).1 (strcpy_grows _ _).1
      · have h1 : (strcpy (strcpy s.stored_caller_id
            ((nul_commas s.rx_buffer.length 7 s.rx_buffer).drop 7)) UNKNOWN_ID).length
            ≤ MAX_CALLER_ID_SIZE := hle
        have h2 := le_trans (strcpy_grows (strcpy s.stored_caller_id
            ((nul_commas s.rx_buffer.length 7 s.rx_buffer).drop 7)) UNKNOWN_ID).1 h1
        have h3 := le_trans (strcpy_grows s.stored_caller_id
            ((nul_commas s.rx_buffer.length 7 s.rx_buffer).drop 7)).2 h2
        obtain ⟨k1, k2⟩ := strcpy_past_none ((nul_commas s.rx_buffer.length 7 s.rx_buffer).drop 7)
          s.sms_buffer s.incoming_call_received h3
        exact ⟨k2, k1⟩
    · refine ⟨?_, fun hle => ?_⟩
      · show _ ≤ (strcpy _ _).length
        exact (strcpy_grows _ _).1
      · have h1 : (strcpy s.stored_caller_id
            ((nul_commas s.rx_buffer.length 7 s.rx_buffer).drop 7)).length
            ≤ MAX_CALLER_ID_SIZE := hle
        have h3 := le_trans (strcpy_grows s.stored_caller_id
            ((nul_commas s.rx_buffer.length 7 s.rx_buffer).drop 7)).2 h1
        obtain ⟨k1, k2⟩ := strcpy_past_none ((nul_commas s.rx_buffer.length 7 s.rx_buffer).drop 7)
          s.sms_buffer s.incoming_call_received h3
        exact ⟨k2, k1⟩
    all_goals exact ⟨le_refl _, fun _ => ⟨rfl, rfl⟩⟩
  idle := fun _ => ⟨le_refl _, fun _ => ⟨rfl, rfl⟩⟩
  delay := fun _ _ => ⟨le_refl _, fun _ => ⟨rfl, rfl⟩⟩
  tx := fun cmd s => by
    have e := transmit_blind
      (fun s => (s.stored_caller_id, s.sms_buffer, s.incoming_call_received))
      (fun _ _ _ _ _ _ _ => rfl) (fun _ _ _ _ => rfl) cmd s
    simp only [Prod.mk.injEq] at e
    obtain ⟨e1, e2, e3⟩ := e
    exact ⟨le_of_eq (by rw [e1]), fun _ => ⟨e2, e3⟩⟩

theorem stable_sms_attempt {R : SIM800_Control → SIM800_Control → Prop} (hR : Stable R)
    (fuel : Nat) (num : List Nat) (s : SIM800_Control)
    (r : Sim800_Buffer_State × SIM800_Control) (h : sms_attempt fuel num s = some r) :
    R s r.2 := by
  simp only [sms_attempt] at h
  exact hR.trans _ _ _ (hR.idle s)
    (hR.trans _ _ _ (stable_send_command hR _ _)
      (hR.trans _ _ _ (stable_let_terminal_settle hR _)
        (hR.trans _ _ _ (stable_send_command hR _ _)
          (hR.trans _ _ _ (stable_send_command hR _ _)
            (hR.trans _ _ _ (stable_send_command hR _ _)
              (stable_wait_for_status hR _ _ _ _ _ h))))))

theorem stable_failed_attempts {R : SIM800_Control → SIM800_Control → Prop} (hR : Stable R)
    (fuel : Nat) (num : List Nat) : ∀ (n : Nat) (s s1 : SIM800_Control),
    failed_attempts fuel num n s s1 → R s s1 := by
  intro n
  induction n with
  | zero =>
    intro s s1 h
    rw [show s1 = s from h]
    exact hR.refl s
  | succ n ih =>
    intro s s1 h
    obtain ⟨r, p, hr, -, hrest⟩ := h
    exact hR.trans _ _ _ (stable_sms_attempt hR fuel num s _ hr) (ih p s1 hrest)

/-- Across the retry loop the bytes written from `&stored_caller_id[0]` do not get
fewer. -/
theorem sms_send_loop_caller_id (fuel : Nat) (num : List Nat) :
    ∀ (left : Nat) (sent : Bool) (s : SIM800_Control) (r : Bool × SIM800_Control),
    sms_send_loop fuel num left sent s = some r →
    s.stored_caller_id.length ≤ r.2.stored_caller_id.length := by
  intro left
  induction left with
  | zero =>
    intro sent s r h
    simp only [sms_send_loop, Option.some.injEq] at h
    rw [← h]
  | succ left ih =>
    intro sent s r h
    rw [sms_send_loop] at h
    by_cases hs : sent = false
    · rw [if_pos hs] at h
      cases ha : sms_attempt fuel num s with
      | none => rw [ha] at h; simp at h
      | some a =>
        obtain ⟨rv, p⟩ := a
        rw [ha] at h
        have hp := stable_sms_attempt caller_id_grows fuel num s _ ha
        simp only at h hp
        split_ifs at h
        · have hq : (clear_sms_buffer p).stored_caller_id.length ≤ r.2.stored_caller_id.length :=
            ih _ _ _ h
          exact le_trans hp hq
        · exact le_trans hp (ih _ _ _ h)
    · rw [if_neg hs] at h
      simp only [Option.some.injEq] at h
      rw [← h]

/-- C16 (SMS send retry and buffer lifecycle), as the code has it: on an initialised
driver whose SMS buffer holds a text that fits `tx_buffer` with its NUL, for a
destination number of at most 19 characters, `send_sms_from_buffer` returns, and the
command built in `temp_cmd` fits its 30 bytes.  Either it returns true: then fewer than
3 attempts failed, the next one received `BS_OK` from `wait_for_status (60)`, and the
SMS buffer is all zero.  Or it returns false: then exactly 3 attempts were made and
none received `BS_OK`, and the SMS buffer is what it was before the call, unless the
copy of a caller id ran past the array `stored_caller_id` during the call.  The
attempts wait for the modem through `wait_for_status`, which hands a `+CLIP: ` line to
`process_urc`, and the `strcpy` there writes a caller id of more than
`MAX_CALLER_ID_SIZE` bytes on into `incoming_call_received` and `sms_buffer`.  The list
`stored_caller_id` never gets shorter during the call, so a list of at most
`MAX_CALLER_ID_SIZE` bytes at the end tells that no copy ran past the array.  The
answers are those the line reader gives as long as every store was inside `rx_buffer`:
the results are stated for a call that ends with `rx_overrun` false, and the flag is
never cleared once set (`rx_overrun_stays`). -/
theorem sms_send_retry (fuel : Nat) (num : List Nat) (s : SIM800_Control)
    (hini : s.initialised = true) (hnum : strlen num ≤ 19)
    (hsms : strlen s.sms_buffer < TX_BUFFER_SIZE) (hi : 0 < s.idle_ms)
    (hw : horizon s + 3 * (77 * s.idle_ms + 60950) < ULONG) (hf : 60000 < fuel) :
    (cmgs_command num).length = 30 ∧
    (strcpy (List.replicate TX_BUFFER_SIZE 0) s.sms_buffer).length = TX_BUFFER_SIZE ∧
    ∃ b s1, send_sms_from_buffer fuel num s = some (b, s1) ∧
      s.stored_caller_id.length ≤ s1.stored_caller_id.length ∧
      (s1.rx_overrun = false →
        ((b = true ∧ s1.sms_buffer = List.replicate TX_BUFFER_SIZE 0 ∧
            ∃ n p q, n < 3 ∧ failed_attempts fuel num n s p ∧
              sms_attempt fuel num p = some (BS_OK, q) ∧ s1 = clear_sms_buffer q) ∨
          (b = false ∧ failed_attempts fuel num 3 s s1 ∧
            (s1.stored_caller_id.length ≤ MAX_CALLER_ID_SIZE →
              s1.sms_buffer = s.sms_buffer)))) := by
  refine ⟨(cmgs_command_fits num hnum).1, ?_, ?_⟩
  · rw [strcpy_length, List.length_replicate]
    exact max_eq_left hsms
  have e : send_sms_from_buffer fuel num s = sms_send_loop fuel num 3 false s := by
    simp only [send_sms_from_buffer, hini, Bool.true_eq_false, if_false]
  rw [e]
  obtain ⟨b, s1, h1, h2⟩ := sms_send_loop_spec fuel num s.idle_ms hi hf 3 s rfl hw
  refine ⟨b, s1, h1, sms_send_loop_caller_id fuel num 3 false s _ h1, fun _ => ?_⟩
  rcases h2 with ⟨hb, hz, hex⟩ | ⟨hb, hfa⟩
  · exact Or.inl ⟨hb, hz, hex⟩
  · obtain ⟨-, k2⟩ := stable_failed_attempts caller_id_inside fuel num 3 s s1 hfa
    exact Or.inr ⟨hb, hfa, fun hle => (k2 hle).1⟩

/-- C16 witness: the text `Hello` and a modem that does not answer. -/
theorem sms_send_retry_witness :
    sms_sender.initialised = true ∧ strlen (lit "07700900123") ≤ 19 ∧
      strlen sms_sender.sms_buffer < TX_BUFFER_SIZE ∧
      (cmgs_command (lit "07700900123")).length = 30 ∧
      (strcpy (List.replicate TX_BUFFER_SIZE 0) sms_sender.sms_buffer).length
        = TX_BUFFER_SIZE ∧
      ∃ b s1, send_sms_from_buffer 60001 (lit "07700900123") sms_sender = some (b, s1) ∧
        sms_sender.stored_caller_id.length ≤ s1.stored_caller_id.length ∧
        (s1.rx_overrun = false →
          ((b = true ∧ s1.sms_buffer = List.replicate TX_BUFFER_SIZE 0 ∧
              ∃ n p q, n < 3 ∧ failed_attempts 60001 (lit "07700900123") n sms_sender p ∧
                sms_attempt 60001 (lit "07700900123") p = some (BS_OK, q) ∧
                s1 = clear_sms_buffer q) ∨
            (b = false ∧ failed_attempts 60001 (lit "07700900123") 3 sms_sender s1 ∧
              (s1.stored_caller_id.length ≤ MAX_CALLER_ID_SIZE →
                s1.sms_buffer = sms_sender.sms_buffer)))) :=
  ⟨rfl, by decide, by decide,
    sms_send_retry 60001 (lit "07700900123") sms_sender rfl (by decide) (by decide)
      (by decide) (by decide) (by decide)⟩

set_option maxRecDepth 1000000 in
/-- The failing input of C16, run: the text `Hello`, a number of 11 digits, and a ring
whose caller id has 32 characters coming in while the first attempt waits for `OK`.
The call returns false after three attempts.  The copy of the caller id wrote 33 bytes
from `&stored_caller_id[0]`: byte 20 on `incoming_call_received` and bytes 21 to 32 on
the start of `sms_buffer`, which holds the end of the caller id afterwards and not the
text any more. -/
theorem sms_send_overrun_sample :
    cstr sms_sender_ringing.sms_buffer = lit "Hello" ∧
      (send_sms_from_buffer 5 (lit "07700900123") sms_sender_ringing).map
          (fun r => (r.1, r.2.stored_caller_id.length, cstr r.2.sms_buffer))
        = some (false, 33, lit "0123456789" ++ [34]) := by
  decide

end SIM800
